import Mathlib

/-!
# meshview: scene objects, derived data and buffer upload

A shallow embedding of `src/src/util.cpp`, `src/src/mesh.cpp` and
`src/src/texture.cpp`.

Conventions of the embedding.

* `float` is an arbitrary type `K` carrying the arithmetic operations the code
  uses, so that a statement over `K` holds of `float`; `F32` is the binary32
  arithmetic on finite values, at which the code is evaluated on concrete
  inputs.  The few theorems that need algebraic laws take `K` to be a field
  and say so.
* `Eigen::Vector3f::normalized` belongs to the Eigen library and is taken as a
  parameter `normalized`.
* `Index` is `uint32_t`: index values are natural numbers, a conversion
  `(Index) x` is `toIndex x = x % 2 ^ 32` and `(Index)-1` is `INVALID`.
* A dynamic Eigen table is the list of its rows.  Storage obtained by
  `resize` is not initialised; what it holds is given by a `Heap`.
* A statement that ends the process through a `_MESHVIEW_ASSERT*` macro is
  `Failure.fatal`; a coefficient access outside a table is
  `Failure.outOfBounds`.
* The OpenGL context is a `World`: whether a context is current, the object
  names the driver hands out, and the log of the calls issued so far.
-/

namespace meshview

/-! ## Outcomes -/

/-- The two ways a call can stop instead of returning. -/
inductive Failure where
  /-- A `_MESHVIEW_ASSERT*` macro printed the failed condition and called `std::exit(1)`. -/
  | fatal
  /-- A coefficient of an Eigen table was accessed outside the table. -/
  | outOfBounds
  deriving DecidableEq, Repr

/-- A computation that returns a value or stops with a `Failure`. -/
abbrev Run := Except Failure

/-- The loop `for (i = 0; i < n; ++i) s = body(i, s)`. -/
def forUpTo {σ : Type} (n : Nat) (body : Nat → σ → Run σ) (s : σ) : Run σ :=
  (List.range n).foldlM (fun acc i => body i acc) s

/-! ## Index values -/

/-- The conversion `(Index) x` of an unsigned value to `uint32_t`. -/
def toIndex (x : Nat) : Nat := x % 4294967296

/-- The value `(Index)-1`, all bits set: the mark of a missing index or handle. -/
def INVALID : Nat := 4294967295

/-! ## Rows -/

/-- Three scalars: a row of `Points`, or a `Vector3f`. -/
structure Vec3 (K : Type) where
  x : K
  y : K
  z : K
  deriving DecidableEq, Repr

/-- Two scalars: a row of `Points2D`. -/
structure Vec2 (K : Type) where
  x : K
  y : K
  deriving DecidableEq, Repr

/-- A row of `Triangles`: three vertex indices. -/
structure Tri where
  v0 : Nat
  v1 : Nat
  v2 : Nat
  deriving DecidableEq, Repr

/-- The coefficient `faces(i, j)` of row `t = faces.row(i)`. -/
def Tri.col (t : Tri) (j : Fin 3) : Nat :=
  match j with
  | 0 => t.v0
  | 1 => t.v1
  | 2 => t.v2

/-- Row `t` with column `j` overwritten by `v`. -/
def Tri.setCol (t : Tri) (j : Fin 3) (v : Nat) : Tri :=
  match j with
  | 0 => { t with v0 := v }
  | 1 => { t with v1 := v }
  | 2 => { t with v2 := v }

/-- A row of `PointsRGBNormal`: columns 0-2, 3-5 and 6-8. -/
structure Vertex (K : Type) where
  pos : Vec3 K
  rgb : Vec3 K
  norm : Vec3 K
  deriving DecidableEq, Repr

/-- A row of `PointsRGB`: columns 0-2 and 3-5. -/
structure Point (K : Type) where
  pos : Vec3 K
  rgb : Vec3 K
  deriving DecidableEq, Repr

/-- The `Triangles` table. -/
abbrev Triangles := List Tri

/-- The assignment `faces.data()[i] = v` on the row-major storage of the table. -/
def Triangles.setData (fs : Triangles) (i v : Nat) : Run Triangles :=
  if h : i / 3 < fs.length then
    pure (fs.set (i / 3) ((fs.get ⟨i / 3, h⟩).setCol ⟨i % 3, Nat.mod_lt i (by decide)⟩ v))
  else
    throw Failure.outOfBounds

/-! ## Storage -/

/-- What freshly allocated, not yet initialised table storage holds, row by row. -/
structure Heap (K : Type) where
  verts : Nat → Vertex K
  points : Nat → Point K
  tris : Nat → Tri
  /-- What a `Matrix4f` member holds before its first assignment. -/
  mat4 : Matrix (Fin 4) (Fin 4) K

/-- Eigen `resize(rows, cols)` of a table with a fixed column count: the storage is kept when
the row count does not change and is allocated anew, uninitialised, otherwise. -/
def resizeRows {α : Type} (fresh : Nat → α) (old : List α) (rows : Nat) : List α :=
  if old.length = rows then old else (List.range rows).map fresh

/-! ## The rendering context -/

/-- The buffer binding points used by the code. -/
inductive BufferTarget where
  | arrayBuffer
  | elementArrayBuffer
  deriving DecidableEq, Repr

/-- The pixel formats chosen by `gl_load_mipmap`. -/
inductive PixelFormat where
  | red
  | rgb
  | rgba
  deriving DecidableEq, Repr

/-- The pixel data handed to `glTexImage2D`, with its data type. -/
inductive Pixels (K : Type) where
  /-- Data type `GL_FLOAT`: the rows of a float image. -/
  | floats (rows : List (List K))
  /-- Data type `GL_FLOAT`: the three components of a colour. -/
  | colour (c : Vec3 K)
  /-- Data type `GL_UNSIGNED_BYTE`: the decoder's samples. -/
  | bytes (samples : List Nat)
  deriving DecidableEq, Repr

/-- The table handed to `glBufferData`. -/
inductive BufferContent (K : Type) where
  | verts (rows : List (Vertex K))
  | points (rows : List (Point K))
  | tris (rows : Triangles)
  deriving DecidableEq, Repr

/-- The texture parameters set by `Texture::load`. -/
inductive TexParam where
  | wrapS
  | wrapT
  | minFilter
  | magFilter
  deriving DecidableEq, Repr

/-- The texture parameter values used by `Texture::load`. -/
inductive TexValue where
  | repeating
  | linear
  deriving DecidableEq, Repr

/-- One call into the graphics library, with the arguments that matter. -/
inductive GLCall (K : Type) where
  | genVertexArrays (name : Nat)
  | genBuffers (name : Nat)
  | genTextures (name : Nat)
  | bindVertexArray (name : Nat)
  | bindBuffer (target : BufferTarget) (name : Nat)
  | bindTexture (name : Nat)
  | texParameteri (pname : TexParam) (value : TexValue)
  | texImage2D (format : PixelFormat) (width height : Nat) (pixels : Pixels K)
  | generateMipmap
  | bufferData (target : BufferTarget) (size : Nat) (content : BufferContent K)
  | enableVertexAttribArray (index : Nat)
  | vertexAttribPointer (index size stride offset : Nat)
  | deleteVertexArrays (name : Nat)
  | deleteBuffers (name : Nat)
  | deleteTextures (name : Nat)
  /-- The call `glActiveTexture(GL_TEXTURE0 + unit)`. -/
  | activeTexture (unit : Nat)
  /-- The call `Shader(shader).set_int(name, value)`. -/
  | setInt (shader : Nat) (name : String) (value : Int)
  /-- The call `Shader(shader).set_float(name, value)`. -/
  | setFloat (shader : Nat) (name : String) (value : K)
  /-- The calls `Shader(shader).set_mat3(name, value)` and `set_mat4`, the matrix by rows. -/
  | setMat (shader : Nat) (name : String) (rows : List (List K))
  /-- The call `glDrawElements(GL_TRIANGLES, count, GL_UNSIGNED_INT, 0)`. -/
  | drawElements (count : Int)
  deriving DecidableEq, Repr

/-- What `stbi_load` returns for a file that decodes. -/
structure Decoded where
  width : Nat
  height : Nat
  chnls : Nat
  data : List Nat
  deriving DecidableEq, Repr

/-- The surroundings of the scene objects: the window system, the graphics driver and
the image files. -/
structure World (K : Type) where
  /-- Whether `glfwGetCurrentContext()` is not null. -/
  context : Bool
  /-- The object names the driver hands out, in the order of the requests. -/
  names : Nat → Nat
  /-- How many names have been handed out. -/
  used : Nat
  /-- The calls issued so far, oldest first. -/
  calls : List (GLCall K)
  /-- The image decoder `stbi_load(path, ...)` after `stbi_set_flip_vertically_on_load(flip)`. -/
  decode : String → Bool → Option Decoded
  /-- The lines written to `std::cerr` by calls that return, oldest first. -/
  stderr : List String

/-- Record a call. -/
def World.call {K : Type} (w : World K) (c : GLCall K) : World K :=
  { w with calls := w.calls ++ [c] }

/-- Take the next object name from the driver. -/
def World.gen {K : Type} (w : World K) : Nat × World K :=
  (w.names w.used, { w with used := w.used + 1 })

/-- Write a line to `std::cerr`. -/
def World.log {K : Type} (w : World K) (line : String) : World K :=
  { w with stderr := w.stderr ++ [line] }

/-! ## Scene objects -/

/-- The struct `Texture`. -/
structure Texture (K : Type) where
  /-- GL texture id; `INVALID` if unavailable. -/
  id : Nat
  path : String
  /-- The image, one list per row. -/
  im_data : List (List K)
  n_channels : Nat
  fallback_color : Vec3 K
  flip : Bool

/-- The enum `Mesh::ShadingType`. -/
inductive ShadingType where
  | vertex
  | texture
  deriving DecidableEq, Repr

/-- The class `Mesh`. `textures` lists the textures of each texture type, in type order. -/
structure Mesh (K : Type) where
  data : List (Vertex K)
  faces : Triangles
  enabled : Bool
  textures : List (List (Texture K))
  shininess : K
  transform : Matrix (Fin 4) (Fin 4) K
  shading_type : ShadingType
  VAO : Nat
  VBO : Nat
  EBO : Nat
  blank_tex_id : Nat
  _tex_coords : List (Vec2 K)
  _tex_faces : Triangles
  _data_tex : List (Vertex K)
  _tex_to_vert : List Nat
  _auto_normals : Bool

/-- The class `PointCloud`. -/
structure PointCloud (K : Type) where
  data : List (Point K)
  enabled : Bool
  lines : Bool
  point_size : K
  transform : Matrix (Fin 4) (Fin 4) K
  VAO : Nat
  VBO : Nat

section Code

variable {K : Type} [Zero K] [One K] [Add K] [Sub K] [Mul K] [Div K] [NatCast K]

/-! ## Construction of a mesh -/

/-- A `Mesh` object whose members hold their default member initialisers, before any
constructor body has run. -/
def Mesh.blank (heap : Heap K) : Mesh K :=
  { data := [], faces := [], enabled := true, textures := [[], []],
    shininess := ((10 : Nat) : K), transform := heap.mat4,
    shading_type := ShadingType.vertex,
    VAO := INVALID, VBO := INVALID, EBO := INVALID, blank_tex_id := INVALID,
    _tex_coords := [], _tex_faces := [], _data_tex := [], _tex_to_vert := [],
    _auto_normals := true }

/-- The method `Mesh::resize(num_verts, num_triangles)`. -/
def Mesh.resize (heap : Heap K) (m : Mesh K) (num_verts num_triangles : Nat) : Run (Mesh K) := do
  let data := resizeRows heap.verts m.data num_verts
  let faces ←
    if num_triangles = 0 then do
      if num_verts % 3 ≠ 0 then throw Failure.fatal
      let faces := resizeRows heap.tris m.faces (num_verts / 3)
      forUpTo (toIndex num_verts) (fun i fs => Triangles.setData fs i i) faces
    else
      pure (resizeRows heap.tris m.faces num_triangles)
  pure { m with data := data, faces := faces, transform := 1 }

/-- The constructor `Mesh::Mesh(size_t num_verts, size_t num_triangles)`. -/
def Mesh.ofSize (heap : Heap K) (num_verts num_triangles : Nat) : Run (Mesh K) :=
  Mesh.resize heap (Mesh.blank heap) num_verts num_triangles

/-- The assignment `verts_pos().noalias() = pos` for a table `pos` with the rows of `data`. -/
def setPos (data : List (Vertex K)) (pos : List (Vec3 K)) : List (Vertex K) :=
  List.zipWith (fun v p => { v with pos := p }) data pos

/-- The assignment `verts_rgb().noalias() = rgb` for a table `rgb` with the rows of `data`. -/
def setRgb (data : List (Vertex K)) (rgb : List (Vec3 K)) : List (Vertex K) :=
  List.zipWith (fun v c => { v with rgb := c }) data rgb

/-- The assignment `data.rightCols<3>() = normals` for a table `normals` with the rows of
`data`. -/
def setNorm (data : List (Vertex K)) (normals : List (Vec3 K)) : List (Vertex K) :=
  List.zipWith (fun v n => { v with norm := n }) data normals

/-- The body of the constructor `Mesh::Mesh(pos, tri_faces, rgb, normals)`, run on the
object `m` that the delegated constructor `Mesh(pos.rows(), tri_faces.rows())` has built. -/
def Mesh.ofTablesBody (m : Mesh K) (pos : List (Vec3 K)) (tri_faces : Triangles)
    (rgb normals : List (Vec3 K)) : Run (Mesh K) := do
  let m := if tri_faces.length ≠ 0 then { m with faces := tri_faces } else m
  let m := { m with data := setPos m.data pos }
  let m ←
    if rgb.length ≠ 0 then
      if rgb.length ≠ pos.length then throw Failure.fatal
      else pure { m with data := setRgb m.data rgb }
    else pure m
  let m := { m with _auto_normals := decide (normals.length = 0) }
  if m._auto_normals then pure m
  else if normals.length ≠ pos.length then throw Failure.fatal
  else pure { m with _auto_normals := false, data := setNorm m.data normals }

/-- The constructor `Mesh::Mesh(pos, tri_faces, rgb, normals)`. -/
def Mesh.ofTables (heap : Heap K) (pos : List (Vec3 K)) (tri_faces : Triangles)
    (rgb normals : List (Vec3 K)) : Run (Mesh K) := do
  let m ← Mesh.ofSize heap pos.length tri_faces.length
  Mesh.ofTablesBody m pos tri_faces rgb normals

/-! ## Geometry utilities (`util.cpp`) -/

/-- Componentwise sum of two rows. -/
def Vec3.add (a b : Vec3 K) : Vec3 K := ⟨a.x + b.x, a.y + b.y, a.z + b.z⟩

/-- Componentwise difference of two rows. -/
def Vec3.sub (a b : Vec3 K) : Vec3 K := ⟨a.x - b.x, a.y - b.y, a.z - b.z⟩

/-- The cross product `a.cross(b)`. -/
def Vec3.cross (a b : Vec3 K) : Vec3 K :=
  ⟨a.y * b.z - a.z * b.y, a.z * b.x - a.x * b.z, a.x * b.y - a.y * b.x⟩

/-- A row divided by a scalar. -/
def Vec3.divScalar (a : Vec3 K) (c : K) : Vec3 K := ⟨a.x / c, a.y / c, a.z / c⟩

/-- The row of zeros. -/
def Vec3.zero : Vec3 K := ⟨0, 0, 0⟩

/-- The read `verts.row(k)`. -/
def rowAt {α : Type} (table : List α) (k : Nat) : Run α :=
  match table[k]? with
  | some r => pure r
  | none => throw Failure.outOfBounds

/-- The two statements `out.row(k) += face_normal; face_cnt[k] += 1.f`. -/
def addNormalAt (face_normal : Vec3 K) (acc : List (Vec3 K) × List K) (k : Nat) :
    Run (List (Vec3 K) × List K) :=
  if k < acc.1.length ∧ k < acc.2.length then
    pure (acc.1.modify (fun r => r.add face_normal) k, acc.2.modify (fun c => c + 1) k)
  else
    throw Failure.outOfBounds

/-- The statement `out.array().colwise() /= face_cnt.array()`. -/
def divideByCount (out : List (Vec3 K)) (face_cnt : List K) : Run (List (Vec3 K)) :=
  if out.length = face_cnt.length then pure (List.zipWith Vec3.divScalar out face_cnt)
  else throw Failure.outOfBounds

/-- The normal of the triangle with corners `a`, `b`, `c`, as both versions of
`estimate_normals` compute it. -/
def faceNormal (normalized : Vec3 K → Vec3 K) (a b c : Vec3 K) : Vec3 K :=
  normalized ((b.sub a).cross (c.sub b))

/-- One pass of the loop of `estimate_normals(verts, out)`, at `i`. -/
def noFacesStep (normalized : Vec3 K → Vec3 K) (verts : List (Vec3 K)) (i : Nat)
    (acc : List (Vec3 K) × List K) : Run (List (Vec3 K) × List K) := do
  if ¬ (i + 3 ≤ acc.2.length) then throw Failure.outOfBounds
  let face_cnt := ((acc.2.modify (fun c => c + 1) i).modify (fun c => c + 1) (i + 1)).modify
    (fun c => c + 1) (i + 2)
  let a ← rowAt verts i
  let b ← rowAt verts (i + 1)
  let c ← rowAt verts (i + 2)
  let face_normal := faceNormal normalized a b c
  if ¬ (i + 3 ≤ acc.1.length) then throw Failure.outOfBounds
  let out := ((acc.1.modify (fun r => r.add face_normal) i).modify
    (fun r => r.add face_normal) (i + 1)).modify (fun r => r.add face_normal) (i + 2)
  pure (out, face_cnt)

/-- The sums and counts `estimate_normals(verts, out)` holds before its final division. -/
def accumulateNoFaces (normalized : Vec3 K → Vec3 K) (verts out : List (Vec3 K)) :
    Run (List (Vec3 K) × List K) :=
  forUpTo ((verts.length + 2) / 3) (fun k acc => noFacesStep normalized verts (3 * k) acc)
    (List.replicate out.length Vec3.zero, List.replicate verts.length (0 : K))

/-- The function `estimate_normals(verts, out)`, for a mesh without a face table. The
result is the new content of `out`. -/
def estimate_normals_no_faces (normalized : Vec3 K → Vec3 K) (verts out : List (Vec3 K)) :
    Run (List (Vec3 K)) := do
  let acc ← accumulateNoFaces normalized verts out
  divideByCount acc.1 acc.2

/-- One pass of the outer loop of `estimate_normals(verts, faces, out)`, at row `f`. -/
def facesStep (normalized : Vec3 K → Vec3 K) (verts : List (Vec3 K))
    (acc : List (Vec3 K) × List K) (f : Tri) : Run (List (Vec3 K) × List K) := do
  let b ← rowAt verts f.v1
  let a ← rowAt verts f.v0
  let c ← rowAt verts f.v2
  let face_normal := faceNormal normalized a b c
  [(0 : Fin 3), 1, 2].foldlM (fun acc j => addNormalAt face_normal acc (f.col j)) acc

/-- The sums and counts `estimate_normals(verts, faces, out)` holds before its final
division, for a face table with at least one row. -/
def accumulateFaces (normalized : Vec3 K → Vec3 K) (verts : List (Vec3 K)) (faces : Triangles)
    (out : List (Vec3 K)) : Run (List (Vec3 K) × List K) :=
  faces.foldlM (facesStep normalized verts)
    (List.replicate out.length Vec3.zero, List.replicate verts.length (0 : K))

/-- The function `estimate_normals(verts, faces, out)`. The result is the new content of
`out`. -/
def estimate_normals (normalized : Vec3 K → Vec3 K) (verts : List (Vec3 K)) (faces : Triangles)
    (out : List (Vec3 K)) : Run (List (Vec3 K)) :=
  if faces.length = 0 then
    estimate_normals_no_faces normalized verts out
  else do
    let acc ← accumulateFaces normalized verts faces out
    divideByCount acc.1 acc.2

/-- The assignment `result[k] = v`. -/
def storeAt (result : List Nat) (k v : Nat) : Run (List Nat) :=
  if k < result.length then pure (result.set k v) else throw Failure.outOfBounds

/-- One pass of the outer loop of `make_uv_to_vert_map`: the three corners of a position
face `f` and of the UV face `g` of the same row. -/
def uvMapStep (result : List Nat) (fg : Tri × Tri) : Run (List Nat) :=
  [(0 : Fin 3), 1, 2].foldlM (fun res j => storeAt res (fg.2.col j) (fg.1.col j)) result

/-- The function `make_uv_to_vert_map(num_uv_verts, tri_faces, uv_tri_faces)`. -/
def make_uv_to_vert_map (num_uv_verts : Nat) (tri_faces uv_tri_faces : Triangles) :
    Run (List Nat) := do
  if tri_faces.length ≠ uv_tri_faces.length then throw Failure.fatal
  let result := List.replicate num_uv_verts INVALID
  let result ← (tri_faces.zip uv_tri_faces).foldlM uvMapStep result
  if INVALID ∈ result then throw Failure.fatal
  pure result

/-! ## Texture coordinates of a mesh -/

/-- The method `Mesh::set_tex_coords(coords, tri_faces)`. -/
def Mesh.set_tex_coords (m : Mesh K) (coords : List (Vec2 K)) (tri_faces : Triangles) :
    Run (Mesh K) := do
  if ¬ (m.data.length ≤ coords.length) then throw Failure.fatal
  let m := { m with _tex_coords := coords, _tex_faces := tri_faces }
  let map ← make_uv_to_vert_map coords.length m.faces tri_faces
  pure { m with _tex_to_vert := map, shading_type := ShadingType.texture }

/-! ## Textures (`texture.cpp`) -/

/-- The lambda `gl_load_mipmap(width, height, chnls, data, dtype)` of `Texture::load`. -/
def gl_load_mipmap (w : World K) (width height chnls : Nat) (pixels : Pixels K) :
    Run (World K) :=
  if chnls = 1 ∨ chnls = 3 ∨ chnls = 4 then
    let format :=
      if chnls = 1 then PixelFormat.red
      else if chnls = 3 then PixelFormat.rgb
      else PixelFormat.rgba
    pure ((w.call (GLCall.texImage2D format width height pixels)).call GLCall.generateMipmap)
  else
    throw Failure.fatal

/-- The column count `im_data.cols()` of an image. -/
def imageCols (im : List (List K)) : Nat :=
  match im with
  | [] => 0
  | row :: _ => row.length

/-- The image `Eigen::Map<ImageU>(data, height, width * chnls).cast<float>() / 255.f`. -/
def decodedImage (d : Decoded) : List (List K) :=
  (List.range d.height).map fun r =>
    (List.range (d.width * d.chnls)).map fun c =>
      ((d.data.getD (r * (d.width * d.chnls) + c) 0 : Nat) : K) / ((255 : Nat) : K)

/-- The method `Texture::load()`. -/
def Texture.load (w : World K) (t : Texture K) : Run (World K × Texture K) := do
  let (w, t) :=
    if t.id = INVALID then
      let (name, w1) := w.gen
      (w1.call (GLCall.genTextures name), { t with id := name })
    else (w, t)
  let w := w.call (GLCall.bindTexture t.id)
  let w := w.call (GLCall.texParameteri TexParam.wrapS TexValue.repeating)
  let w := w.call (GLCall.texParameteri TexParam.wrapT TexValue.repeating)
  let w := w.call (GLCall.texParameteri TexParam.minFilter TexValue.linear)
  let w := w.call (GLCall.texParameteri TexParam.magFilter TexValue.linear)
  if t.im_data.length ≠ 0 then
    let w ← gl_load_mipmap w (imageCols t.im_data / t.n_channels) t.im_data.length
      t.n_channels (Pixels.floats t.im_data)
    pure (w, t)
  else if t.path.length ≠ 0 then
    match w.decode t.path t.flip with
    | some d =>
      let t := { t with im_data := decodedImage d, n_channels := d.chnls }
      let w ← gl_load_mipmap w d.width d.height d.chnls (Pixels.bytes d.data)
      pure (w, t)
    | none =>
      let w := w.log ("Failed to load texture " ++ t.path ++ ", using fallback color")
      let w ← gl_load_mipmap w 1 1 3 (Pixels.colour t.fallback_color)
      pure (w, t)
  else
    let w ← gl_load_mipmap w 1 1 3 (Pixels.colour t.fallback_color)
    pure (w, t)

/-- The loop over one texture list in `Mesh::update`: with `reset` every texture gets
`tex.id = -1; tex.load()`, without it only the textures with an invalid id are loaded. -/
def loadTextures (reset : Bool) (w : World K) :
    List (Texture K) → Run (World K × List (Texture K))
  | [] => pure (w, [])
  | t :: ts => do
    let (w, t) ←
      if reset then Texture.load w { t with id := INVALID }
      else if t.id = INVALID then Texture.load w t
      else pure (w, t)
    let (w, ts) ← loadTextures reset w ts
    pure (w, t :: ts)

/-- The loop `for (auto& tex_vec : textures)` around `loadTextures`. -/
def loadAllTextures (reset : Bool) (w : World K) :
    List (List (Texture K)) → Run (World K × List (List (Texture K)))
  | [] => pure (w, [])
  | ts :: rest => do
    let (w, ts) ← loadTextures reset w ts
    let (w, rest) ← loadAllTextures reset w rest
    pure (w, ts :: rest)

/-! ## Synchronisation with the GPU -/

/-- One pass of the loop of `Mesh::update` that fills `_data_tex`, at `i`. -/
def dataTexStep (data : List (Vertex K)) (tex_to_vert : List Nat) (i : Nat)
    (data_tex : List (Vertex K)) : Run (List (Vertex K)) := do
  let k ← rowAt tex_to_vert i
  let src ← rowAt data k
  if i < data_tex.length then
    pure (data_tex.modify (fun v => { v with pos := src.pos, norm := src.norm }) i)
  else throw Failure.outOfBounds

/-- The assignment `_data_tex.middleCols<2>(COLOR_OFFSET).noalias() = _tex_coords` for a
table `_tex_coords` with the rows of `_data_tex`. -/
def setUv (data_tex : List (Vertex K)) (tex_coords : List (Vec2 K)) : List (Vertex K) :=
  List.zipWith (fun v t => { v with rgb := ⟨t.x, t.y, v.rgb.z⟩ }) data_tex tex_coords

/-- The first step of `Mesh::update`: the normals are estimated anew in auto-normal mode. -/
def Mesh.updateNormals (normalized : Vec3 K → Vec3 K) (m : Mesh K) : Run (Mesh K) :=
  if m._auto_normals then do
    let normals ← estimate_normals normalized (m.data.map fun v => v.pos) m.faces
      (m.data.map fun v => v.norm)
    pure { m with data := setNorm m.data normals }
  else pure m

/-- The second step of `Mesh::update`: textures are loaded and, unless the buffers exist and
`force_init` is off, the buffer handles are created. -/
def Mesh.updateHandles (w : World K) (m : Mesh K) (force_init : Bool) :
    Run (World K × Mesh K) :=
  if ¬ force_init ∧ m.VAO ≠ INVALID then do
    let (w, texs) ← loadAllTextures false w m.textures
    pure (w, { m with textures := texs })
  else do
    let (w, texs) ← loadAllTextures true w m.textures
    let (vao, w) := w.gen
    let w := w.call (GLCall.genVertexArrays vao)
    let (vbo, w) := w.gen
    let w := w.call (GLCall.genBuffers vbo)
    let (ebo, w) := w.gen
    let w := w.call (GLCall.genBuffers ebo)
    pure (w, { m with textures := texs, blank_tex_id := INVALID,
                      VAO := vao, VBO := vbo, EBO := ebo })

/-- The third step of `Mesh::update`: the tables to upload. With texture coordinates these
are `_data_tex`, filled here, and `_tex_faces`; without, `data` and `faces`. -/
def Mesh.selectBuffers (heap : Heap K) (m : Mesh K) :
    Run (Mesh K × List (Vertex K) × Triangles) :=
  if m._tex_coords.length ≠ 0 then do
    let n_verts := m._tex_coords.length
    let data_tex := resizeRows heap.verts m._data_tex n_verts
    let data_tex ← forUpTo n_verts (dataTexStep m.data m._tex_to_vert) data_tex
    let data_tex := setUv data_tex m._tex_coords
    pure ({ m with _data_tex := data_tex }, data_tex, m._tex_faces)
  else
    pure (m, m.data, m.faces)

/-- The calls of the last step of `Mesh::update`, which load `vert_data` and `face_data`
into the buffers and set the three vertex attributes. -/
def uploadCalls (VAO VBO EBO : Nat) (vert_data : List (Vertex K)) (face_data : Triangles) :
    List (GLCall K) :=
  [ GLCall.bindVertexArray VAO,
    GLCall.bindBuffer BufferTarget.arrayBuffer VBO,
    GLCall.bufferData BufferTarget.arrayBuffer (vert_data.length * 9 * 4)
      (BufferContent.verts vert_data),
    GLCall.bindBuffer BufferTarget.elementArrayBuffer EBO,
    GLCall.bufferData BufferTarget.elementArrayBuffer (face_data.length * 3 * 4)
      (BufferContent.tris face_data),
    GLCall.enableVertexAttribArray 0,
    GLCall.vertexAttribPointer 0 3 (9 * 4) (0 * 4),
    GLCall.enableVertexAttribArray 1,
    GLCall.vertexAttribPointer 1 3 (9 * 4) (3 * 4),
    GLCall.enableVertexAttribArray 2,
    GLCall.vertexAttribPointer 2 3 (9 * 4) (6 * 4),
    GLCall.bindVertexArray 0 ]

/-- The method `Mesh::update(force_init)`. -/
def Mesh.update (normalized : Vec3 K → Vec3 K) (heap : Heap K) (w : World K) (m : Mesh K)
    (force_init : Bool) : Run (World K × Mesh K) := do
  if ¬ w.context then return (w, m)
  let m ← Mesh.updateNormals normalized m
  let (w, m) ← Mesh.updateHandles w m force_init
  let (m, vert_data, face_data) ← Mesh.selectBuffers heap m
  let w := { w with calls := w.calls ++ uploadCalls m.VAO m.VBO m.EBO vert_data face_data }
  pure (w, m)

/-- The method `PointCloud::update(force_init)`. -/
def PointCloud.update (w : World K) (p : PointCloud K) (force_init : Bool) :
    Run (World K × PointCloud K) := do
  if ¬ w.context then return (w, p)
  let (w, p) :=
    if force_init ∨ p.VAO = INVALID then
      let (vao, w1) := w.gen
      let w2 := w1.call (GLCall.genVertexArrays vao)
      let (vbo, w3) := w2.gen
      (w3.call (GLCall.genBuffers vbo), { p with VAO := vao, VBO := vbo })
    else (w, p)
  let w := w.call (GLCall.bindVertexArray p.VAO)
  let w := w.call (GLCall.bindBuffer BufferTarget.arrayBuffer p.VBO)
  let w := w.call (GLCall.bufferData BufferTarget.arrayBuffer (p.data.length * 6 * 4)
    (BufferContent.points p.data))
  let w := w.call (GLCall.enableVertexAttribArray 0)
  let w := w.call (GLCall.vertexAttribPointer 0 3 (6 * 4) 0)
  let w := w.call (GLCall.enableVertexAttribArray 1)
  let w := w.call (GLCall.vertexAttribPointer 1 3 (6 * 4) (3 * 4))
  let w := w.call (GLCall.bindVertexArray 0)
  pure (w, p)

end Code

/-! ## Vocabulary of the statements -/

/-- The corners of two face tables of the same row count, row by row and column by
column: each UV-face index paired with the position-face index at the same row and
column. -/
def cornerPairs (tri_faces uv_tri_faces : Triangles) : List (Nat × Nat) :=
  (tri_faces.zip uv_tri_faces).flatMap fun fg =>
    [(fg.2.v0, fg.1.v0), (fg.2.v1, fg.1.v1), (fg.2.v2, fg.1.v2)]

/-- The second component of the last pair of the list whose first component is `i`. -/
def lastValue (pairs : List (Nat × Nat)) (i : Nat) : Option Nat :=
  pairs.foldl (fun acc p => if p.1 = i then some p.2 else acc) none

/-- The face table `(0,1,2), (3,4,5), ...` with `rows` rows. -/
def consecutiveTriples (rows : Nat) : Triangles :=
  (List.range rows).map fun k => ⟨3 * k, 3 * k + 1, 3 * k + 2⟩

/-- Every index of the face table is below `n`. -/
def InRange (faces : Triangles) (n : Nat) : Prop :=
  ∀ f ∈ faces, ∀ j : Fin 3, f.col j < n

/-- Every index below `n` occurs in the face table. -/
def AllReferenced (faces : Triangles) (n : Nat) : Prop :=
  ∀ i, i < n → ∃ f ∈ faces, ∃ j : Fin 3, f.col j = i

/-! ## Sample data -/

/-- A heap whose fresh storage holds zeros. -/
def zeroHeap : Heap ℚ :=
  { verts := fun _ => ⟨⟨0, 0, 0⟩, ⟨0, 0, 0⟩, ⟨0, 0, 0⟩⟩,
    points := fun _ => ⟨⟨0, 0, 0⟩, ⟨0, 0, 0⟩⟩,
    tris := fun _ => ⟨0, 0, 0⟩,
    mat4 := 0 }

section Code

variable {K : Type} [Zero K] [One K] [Add K] [Sub K] [Mul K] [Div K] [NatCast K]

/-! ## Release of GPU objects -/

/-- The method `Texture::free_bufs()`. -/
def Texture.free_bufs (w : World K) (t : Texture K) : World K × Texture K :=
  let w := if t.id ≠ INVALID then w.call (GLCall.deleteTextures t.id) else w
  (w, { t with id := INVALID })

/-- The method `Mesh::free_bufs()`. -/
def Mesh.free_bufs (w : World K) (m : Mesh K) : World K × Mesh K :=
  let w := if m.VAO ≠ INVALID then w.call (GLCall.deleteVertexArrays m.VAO) else w
  let w := if m.VBO ≠ INVALID then w.call (GLCall.deleteBuffers m.VBO) else w
  let w := if m.EBO ≠ INVALID then w.call (GLCall.deleteBuffers m.EBO) else w
  let w := if m.blank_tex_id ≠ INVALID then w.call (GLCall.deleteTextures m.blank_tex_id) else w
  (w, m)

/-- The destructor `Texture::~Texture()`. -/
def Texture.destroy (w : World K) (t : Texture K) : World K :=
  (Texture.free_bufs w t).1

/-- The destructor `Mesh::~Mesh()`: its body `free_bufs()`, then the destructors of the
textures the mesh holds; the elements of the array `textures` are destroyed from the last
to the first. -/
def Mesh.destroy (w : World K) (m : Mesh K) : World K :=
  m.textures.reverse.flatten.foldl Texture.destroy (Mesh.free_bufs w m).1

/-! ## The local transform

The methods below are defined once, by the macro `BOTH_MESH_AND_POINTCLOUD`, for `Mesh`
and for `PointCloud`; each is given here on the member `transform` and then for the two
classes. -/

/-- The coefficient `vec(i)`. -/
def Vec3.get (v : Vec3 K) (i : Fin 3) : K :=
  match i with
  | 0 => v.x
  | 1 => v.y
  | 2 => v.z

/-- The statement `transform.topRightCorner<3, 1>() += vec`. -/
def translateTransform (transform : Matrix (Fin 4) (Fin 4) K) (vec : Vec3 K) :
    Matrix (Fin 4) (Fin 4) K :=
  Matrix.of fun i j =>
    if h : i.val < 3 ∧ j = 3 then transform i j + vec.get ⟨i.val, h.1⟩ else transform i j

/-- The statement `transform.topRightCorner<3, 1>() = vec`. -/
def setTranslationTransform (transform : Matrix (Fin 4) (Fin 4) K) (vec : Vec3 K) :
    Matrix (Fin 4) (Fin 4) K :=
  Matrix.of fun i j =>
    if h : i.val < 3 ∧ j = 3 then vec.get ⟨i.val, h.1⟩ else transform i j

/-- The statement
`transform.topLeftCorner<3, 3>() = mat * transform.topLeftCorner<3, 3>()`. -/
def rotateTransform (transform : Matrix (Fin 4) (Fin 4) K) (mat : Matrix (Fin 3) (Fin 3) K) :
    Matrix (Fin 4) (Fin 4) K :=
  Matrix.of fun i j =>
    if h : i.val < 3 ∧ j.val < 3 then
      mat ⟨i.val, h.1⟩ 0 * transform 0 j + mat ⟨i.val, h.1⟩ 1 * transform 1 j +
        mat ⟨i.val, h.1⟩ 2 * transform 2 j
    else transform i j

/-- The statement `transform.topLeftCorner<3, 3>().array().colwise() *= vec.array()`: every
column of the block is multiplied, coefficient by coefficient, by `vec`. -/
def scaleTransform (transform : Matrix (Fin 4) (Fin 4) K) (vec : Vec3 K) :
    Matrix (Fin 4) (Fin 4) K :=
  Matrix.of fun i j =>
    if h : i.val < 3 ∧ j.val < 3 then transform i j * vec.get ⟨i.val, h.1⟩ else transform i j

/-- The statement `transform.topLeftCorner<3, 3>().array() *= val`. -/
def scaleValTransform (transform : Matrix (Fin 4) (Fin 4) K) (val : K) :
    Matrix (Fin 4) (Fin 4) K :=
  Matrix.of fun i j =>
    if i.val < 3 ∧ j.val < 3 then transform i j * val else transform i j

/-- The statement `transform = mat * transform`. -/
def applyTransform (transform mat : Matrix (Fin 4) (Fin 4) K) : Matrix (Fin 4) (Fin 4) K :=
  Matrix.of fun i j =>
    mat i 0 * transform 0 j + mat i 1 * transform 1 j + mat i 2 * transform 2 j +
      mat i 3 * transform 3 j

/-- The method `Mesh::translate(vec)`. -/
def Mesh.translate (m : Mesh K) (vec : Vec3 K) : Mesh K :=
  { m with transform := translateTransform m.transform vec }

/-- The method `Mesh::set_translation(vec)`. -/
def Mesh.set_translation (m : Mesh K) (vec : Vec3 K) : Mesh K :=
  { m with transform := setTranslationTransform m.transform vec }

/-- The method `Mesh::rotate(mat)`. -/
def Mesh.rotate (m : Mesh K) (mat : Matrix (Fin 3) (Fin 3) K) : Mesh K :=
  { m with transform := rotateTransform m.transform mat }

/-- The method `Mesh::scale(vec)`, the overload with a `Vector3f`. -/
def Mesh.scale (m : Mesh K) (vec : Vec3 K) : Mesh K :=
  { m with transform := scaleTransform m.transform vec }

/-- The method `Mesh::scale(val)`, the overload with a `float`. -/
def Mesh.scaleVal (m : Mesh K) (val : K) : Mesh K :=
  { m with transform := scaleValTransform m.transform val }

/-- The method `Mesh::apply_transform(mat)`. -/
def Mesh.apply_transform (m : Mesh K) (mat : Matrix (Fin 4) (Fin 4) K) : Mesh K :=
  { m with transform := applyTransform m.transform mat }

/-- The method `Mesh::set_transform(mat)`. -/
def Mesh.set_transform (m : Mesh K) (mat : Matrix (Fin 4) (Fin 4) K) : Mesh K :=
  { m with transform := mat }

/-- The method `PointCloud::translate(vec)`. -/
def PointCloud.translate (p : PointCloud K) (vec : Vec3 K) : PointCloud K :=
  { p with transform := translateTransform p.transform vec }

/-- The method `PointCloud::set_translation(vec)`. -/
def PointCloud.set_translation (p : PointCloud K) (vec : Vec3 K) : PointCloud K :=
  { p with transform := setTranslationTransform p.transform vec }

/-- The method `PointCloud::rotate(mat)`. -/
def PointCloud.rotate (p : PointCloud K) (mat : Matrix (Fin 3) (Fin 3) K) : PointCloud K :=
  { p with transform := rotateTransform p.transform mat }

/-- The method `PointCloud::scale(vec)`, the overload with a `Vector3f`. -/
def PointCloud.scale (p : PointCloud K) (vec : Vec3 K) : PointCloud K :=
  { p with transform := scaleTransform p.transform vec }

/-- The method `PointCloud::scale(val)`, the overload with a `float`. -/
def PointCloud.scaleVal (p : PointCloud K) (val : K) : PointCloud K :=
  { p with transform := scaleValTransform p.transform val }

/-- The method `PointCloud::apply_transform(mat)`. -/
def PointCloud.apply_transform (p : PointCloud K) (mat : Matrix (Fin 4) (Fin 4) K) :
    PointCloud K :=
  { p with transform := applyTransform p.transform mat }

/-- The method `PointCloud::set_transform(mat)`. -/
def PointCloud.set_transform (p : PointCloud K) (mat : Matrix (Fin 4) (Fin 4) K) :
    PointCloud K :=
  { p with transform := mat }

end Code

/-! ## More sample data -/

/-- A world without a current context. -/
def idleWorld : World ℚ :=
  { context := false, names := fun k => k + 1, used := 0, calls := [],
    decode := fun _ _ => none, stderr := [] }

/-- A world with a current context whose driver hands out the names 1, 2, 3, ... -/
def liveWorld : World ℚ :=
  { context := true, names := fun k => k + 1, used := 0, calls := [],
    decode := fun _ _ => none, stderr := [] }

/-- A point cloud with one point, never sent to the GPU. -/
def samplePoints : PointCloud ℚ :=
  { data := [⟨⟨0, 0, 0⟩, ⟨1, 1, 1⟩⟩], enabled := true, lines := false, point_size := 1,
    transform := 1, VAO := INVALID, VBO := INVALID }

/-- The block `transform.topLeftCorner<3, 3>()`. -/
def topLeftCorner {K : Type} (transform : Matrix (Fin 4) (Fin 4) K) : Matrix (Fin 3) (Fin 3) K :=
  Matrix.of fun i j => transform i.castSucc j.castSucc

/-- The mesh that `Mesh(0, 0)` constructs: no vertices and no faces. -/
def emptyMesh : Mesh ℚ :=
  { Mesh.blank zeroHeap with transform := 1 }

/-- The texture that `Texture(1, 3/4, 4/5)` constructs: a colour, no file and no image. -/
def sampleTexture : Texture ℚ :=
  { id := INVALID, path := "", im_data := [], n_channels := 0,
    fallback_color := ⟨1, 3 / 4, 4 / 5⟩, flip := false }

/-- A shear along the first axis. -/
def shearTransform : Matrix (Fin 4) (Fin 4) ℚ :=
  !![1, 1, 0, 0; 0, 1, 0, 0; 0, 0, 1, 0; 0, 0, 0, 1]

/-! ## The basic OBJ text format

A text file is the list of its lines, each a list of characters without the line end.
`operator>>` for `double` and `operator<<` for `float` belong to the C++ library and are
taken as the parameters `readDoubles` and `fmt`. -/

/-- `std::isspace(c)` in the "C" locale, on the character code `c`. -/
def isspace (c : Nat) : Bool :=
  decide (c = 32 ∨ (9 ≤ c ∧ c ≤ 13))

/-- The value of the decimal digits at the head of `s`, given that the digits before them
have the value `acc`. -/
def readDigits : List Char → Nat → Nat
  | [], acc => acc
  | c :: cs, acc => if c.isDigit then readDigits cs (10 * acc + (c.toNat - 48)) else acc

/-- `std::atoll(s)`: white space, an optional sign and decimal digits, for a value that a
`long long` holds; 0 when no digit is found. -/
def atoll (s : List Char) : Int :=
  match s.dropWhile (fun c => isspace c.toNat) with
  | '-' :: cs => - (readDigits cs 0 : Int)
  | '+' :: cs => (readDigits cs 0 : Int)
  | cs => (readDigits cs 0 : Int)

/-- The expression `(Index)std::atoll(num.c_str()) - 1`, in 32-bit unsigned arithmetic. -/
def faceIndex (num : List Char) : Nat :=
  (((atoll num) % 4294967296).toNat + 4294967295) % 4294967296

/-- The text `ofs << n` writes for an unsigned integer `n`. -/
def showIndex (n : Nat) : List Char :=
  Nat.toDigits 10 n

/-- The local variables `j`, `num` and `tmp_faces` while `load_basic_obj` reads a face
line. -/
structure FaceScan where
  j : Nat
  num : List Char
  tmp_faces : List Nat
  deriving DecidableEq, Repr

/-- One pass of the loop over the characters of a face line, at the character `c`. -/
def faceChar (s : FaceScan) (c : Char) : FaceScan :=
  if c = '/' then { s with j := s.j + 1 }
  else if isspace c.toNat then
    { j := 0, num := [], tmp_faces := s.tmp_faces ++ [faceIndex s.num] }
  else if s.j = 0 then { s with num := s.num ++ [c] }
  else s

/-- The loop `while (i < line.size() && std::isspace(i)) ++i`, which tests the position `i`
and not the character at it; `fuel` bounds the number of passes. -/
def skipIndices (size : Nat) : Nat → Nat → Nat
  | 0, i => i
  | fuel + 1, i => if i < size ∧ isspace i then skipIndices size fuel (i + 1) else i

/-- The branch `line[0] == 'f'` of the line loop of `load_basic_obj`: the new content of
`tmp_faces`. -/
def scanFaceLine (tmp_faces : List Nat) (line : List Char) : List Nat :=
  let i := skipIndices line.length line.length 2
  let s := (line.drop i).foldl faceChar { j := 0, num := [], tmp_faces := tmp_faces }
  if s.num.length ≠ 0 then s.tmp_faces ++ [faceIndex s.num] else s.tmp_faces

/-- The local variables of `load_basic_obj` that outlive a line. -/
structure ObjScan (K : Type) where
  tmp_pos : List K
  tmp_rgb : List K
  tmp_faces : List Nat
  attrs_per_vert : Nat

/-- `Eigen::Map<Points>(v.data(), v.size() / 3, 3)`: the rows of a flat row-major array. -/
def pointRows {K : Type} : List K → List (Vec3 K)
  | a :: b :: c :: rest => ⟨a, b, c⟩ :: pointRows rest
  | _ => []

/-- `Eigen::Map<Triangles>(v.data(), v.size() / 3, 3)`: the rows of a flat row-major array. -/
def triRows : List Nat → Triangles
  | a :: b :: c :: rest => ⟨a, b, c⟩ :: triRows rest
  | _ => []

section ObjCode

variable {K : Type} [Zero K] [One K] [Add K] [Sub K] [Mul K] [Div K] [NatCast K]

/-- The branch `line[0] == 'v'` of the line loop of `load_basic_obj`. -/
def scanVertexLine (readDoubles : List Char → List K) (s : ObjScan K) (line : List Char) :
    Run (ObjScan K) :=
  let vals := readDoubles (line.drop 2)
  let cnt := vals.length
  let s := { s with tmp_pos := s.tmp_pos ++ vals.take 3, tmp_rgb := s.tmp_rgb ++ vals.drop 3 }
  if s.attrs_per_vert ≠ 0 then
    if cnt = s.attrs_per_vert then pure s else throw Failure.fatal
  else if cnt = 3 ∨ cnt = 6 then pure { s with attrs_per_vert := cnt }
  else throw Failure.fatal

/-- One pass of the line loop of `load_basic_obj`. -/
def scanLine (readDoubles : List Char → List K) (s : ObjScan K) (line : List Char) :
    Run (ObjScan K) :=
  if line.length < 2 ∨ line.get? 1 ≠ some ' ' then pure s
  else if line.head? = some 'v' then scanVertexLine readDoubles s line
  else if line.head? = some 'f' then pure { s with tmp_faces := scanFaceLine s.tmp_faces line }
  else pure s

/-- The vertex table `load_basic_obj` builds from the numbers of the vertex lines: `data`
after `data.resize(tmp_pos.size() / 3, 9)` and the assignments to its position and colour
columns. -/
def loadedData (heap : Heap K) (m : Mesh K) (s : ObjScan K) : List (Vertex K) :=
  let data := resizeRows heap.verts m.data (s.tmp_pos.length / 3)
  let data := setPos data (pointRows s.tmp_pos)
  if s.tmp_rgb.length ≠ 0 then setRgb data (pointRows s.tmp_rgb) else data

/-- The part of `load_basic_obj` after the line loop, which fills the mesh from the local
variables `s`. -/
def Mesh.loadScanned (heap : Heap K) (m : Mesh K) (s : ObjScan K) : Run (Mesh K) := do
  let shading_type ←
    if s.attrs_per_vert = 6 then do
      if s.tmp_rgb.length ≠ s.tmp_pos.length then throw Failure.fatal
      if s.tmp_rgb.length % 3 ≠ 0 then throw Failure.fatal
      pure ShadingType.vertex
    else do
      if s.tmp_rgb.length ≠ 0 then throw Failure.fatal
      pure ShadingType.texture
  if s.tmp_faces.length % 3 ≠ 0 then throw Failure.fatal
  let data := loadedData heap m s
  let faces ←
    if s.tmp_faces.length ≠ 0 then
      pure (triRows s.tmp_faces)
    else
      forUpTo (toIndex data.length) (fun i fs => Triangles.setData fs i i)
        (resizeRows heap.tris m.faces (data.length / 3))
  pure { m with shading_type := shading_type, data := data, faces := faces, transform := 1 }

/-- The method `Mesh::load_basic_obj(path)`, on the lines of the file at `path`. -/
def Mesh.load_basic_obj (readDoubles : List Char → List K) (heap : Heap K) (m : Mesh K)
    (lines : List (List Char)) : Run (Mesh K) := do
  let s ← lines.foldlM (scanLine readDoubles)
    { tmp_pos := [], tmp_rgb := [], tmp_faces := [], attrs_per_vert := 0 }
  Mesh.loadScanned heap m s

/-- The constructor `Mesh::Mesh(const std::string& path)`. -/
def Mesh.ofFile (readDoubles : List Char → List K) (heap : Heap K) (lines : List (List Char)) :
    Run (Mesh K) :=
  Mesh.load_basic_obj readDoubles heap (Mesh.blank heap) lines

end ObjCode

/-! ## Vocabulary for the statements about text files -/

/-- The test `line.size() >= 2 && line[1] == ' ' && line[0] == 'v'`. -/
def isVertexLine (line : List Char) : Bool :=
  decide (2 ≤ line.length ∧ line.get? 1 = some ' ' ∧ line.head? = some 'v')

/-- The test `line.size() >= 2 && line[1] == ' ' && line[0] == 'f'`. -/
def isFaceLine (line : List Char) : Bool :=
  decide (2 ≤ line.length ∧ line.get? 1 = some ' ' ∧ line.head? = some 'f')

/-- How the field counts `cnt` of successive vertex lines pass the two assertions on `cnt`,
`attrs` being the value of `attrs_per_vert` before the first of them. -/
def countsPass : Nat → List Nat → Bool
  | _, [] => true
  | attrs, cnt :: rest =>
    if attrs ≠ 0 then decide (cnt = attrs) && countsPass attrs rest
    else decide (cnt = 3 ∨ cnt = 6) && countsPass cnt rest

/-- The value of the decimal digits `l`, read after digits of value `acc`. -/
def digitsValue (l : List Char) (acc : Nat) : Nat :=
  l.foldl (fun a c => 10 * a + (c.toNat - 48)) acc

/-- A reader of lines whose numbers are single decimal digits: every digit is a number. -/
def readDigitFields (text : List Char) : List ℚ :=
  (text.filter Char.isDigit).map fun c => ((c.toNat - 48 : ℕ) : ℚ)

/-- A face-vertex reference: a number `d` without `/` or white space, followed by nothing or
by `/` and further characters other than white space. -/
def IsReference (d x : List Char) : Prop :=
  (∀ c ∈ d, c ≠ '/' ∧ isspace c.toNat = false) ∧
  (x = [] ∨ x.head? = some '/') ∧ ∀ c ∈ x, isspace c.toNat = false

/-- The first three numbers of a vertex line, as a position. -/
def fieldsPos {K : Type} [Zero K] (xs : List K) : Vec3 K :=
  ⟨xs.getD 0 0, xs.getD 1 0, xs.getD 2 0⟩

/-- The fourth to sixth numbers of a vertex line, as a colour. -/
def fieldsRgb {K : Type} [Zero K] (xs : List K) : Vec3 K :=
  ⟨xs.getD 3 0, xs.getD 4 0, xs.getD 5 0⟩

/-- A file with three vertex lines of six numbers each and one face line. -/
def sampleObjLines : List (List Char) :=
  ["v 1 0 0 1 0 0".toList, "v 0 1 0 0 1 0".toList, "v 0 0 1 0 0 1".toList, "f 1 2 3".toList]

/-- A file with four vertex lines of three numbers each and no face line. -/
def fourVertexLines : List (List Char) :=
  ["v 0 0 0".toList, "v 1 0 0".toList, "v 0 1 0".toList, "v 0 0 1".toList]

/-- The 4x4 matrix with the 3x3 block `R`, zero translation and bottom row `(0, 0, 0, 1)`. -/
def embedRotation {K : Type} [Zero K] [One K] (R : Matrix (Fin 3) (Fin 3) K) :
    Matrix (Fin 4) (Fin 4) K :=
  Matrix.of fun i j =>
    if h : i.val < 3 ∧ j.val < 3 then R ⟨i.val, h.1⟩ ⟨j.val, h.2⟩
    else if i = j then 1 else 0

/-- The channel count of the image `Texture::load` hands to `gl_load_mipmap`. -/
def sourceChannels {K : Type} (w : World K) (t : Texture K) : Nat :=
  if t.im_data.length ≠ 0 then t.n_channels
  else if t.path.length ≠ 0 then
    match w.decode t.path t.flip with
    | some d => d.chnls
    | none => 3
  else 3

/-- The image the decoder of `rgbWorld` finds. -/
def rgbPixel : Decoded :=
  { width := 1, height := 1, chnls := 3, data := [255, 0, 51] }

/-- The pixel format `gl_load_mipmap` chooses for a channel count. -/
def formatOf (chnls : Nat) : PixelFormat :=
  if chnls = 1 then PixelFormat.red
  else if chnls = 3 then PixelFormat.rgb
  else PixelFormat.rgba

/-- The id a texture has after `load()`: a new name when the id was invalid. -/
def loadedId {K : Type} (w : World K) (t : Texture K) : Nat :=
  if t.id = INVALID then w.names w.used else t.id

/-- The calls `Texture::load` issues before it picks the source of the image. -/
def setupCalls {K : Type} (w : World K) (t : Texture K) : List (GLCall K) :=
  (if t.id = INVALID then [GLCall.genTextures (w.names w.used)] else []) ++
    [GLCall.bindTexture (loadedId w t),
     GLCall.texParameteri TexParam.wrapS TexValue.repeating,
     GLCall.texParameteri TexParam.wrapT TexValue.repeating,
     GLCall.texParameteri TexParam.minFilter TexValue.linear,
     GLCall.texParameteri TexParam.magFilter TexValue.linear]

/-- The two calls of `gl_load_mipmap`. -/
def uploadImageCalls {K : Type} (width height chnls : Nat) (pixels : Pixels K) :
    List (GLCall K) :=
  [GLCall.texImage2D (formatOf chnls) width height pixels, GLCall.generateMipmap]

/-- A decoder that finds a 1x1 image with two channels, grey and alpha, in every file. -/
def greyAlphaWorld : World ℚ :=
  { context := true, names := fun k => k + 1, used := 0, calls := [],
    decode := fun _ _ => some { width := 1, height := 1, chnls := 2, data := [128, 255] },
    stderr := [] }

/-- A decoder that finds a 1x1 image with three channels in every file. -/
def rgbWorld : World ℚ :=
  { context := true, names := fun k => k + 1, used := 0, calls := [],
    decode := fun _ _ => some rgbPixel,
    stderr := [] }

/-- The texture that `Texture("a.png")` constructs. -/
def fileTexture : Texture ℚ :=
  { id := INVALID, path := "a.png", im_data := [], n_channels := 0,
    fallback_color := ⟨1, 3 / 4, 4 / 5⟩, flip := true }

section PointCloudCode

variable {K : Type} [Zero K] [One K] [Add K] [Sub K] [Mul K] [Div K] [NatCast K]

/-! ## Construction of a point cloud -/

/-- A `PointCloud` object whose members hold their default member initialisers, before any
constructor body has run. -/
def PointCloud.blank (heap : Heap K) : PointCloud K :=
  { data := [], enabled := true, lines := false, point_size := 1, transform := heap.mat4,
    VAO := INVALID, VBO := INVALID }

/-- The method `PointCloud::resize(num_verts)`. -/
def PointCloud.resize (heap : Heap K) (p : PointCloud K) (num_verts : Nat) : PointCloud K :=
  { p with data := resizeRows heap.points p.data num_verts, transform := 1 }

/-- The constructor `PointCloud::PointCloud(size_t num_verts)`. -/
def PointCloud.ofSize (heap : Heap K) (num_verts : Nat) : PointCloud K :=
  PointCloud.resize heap { PointCloud.blank heap with VAO := INVALID } num_verts

/-- The assignment `verts_pos().noalias() = pos` of a point cloud, for a table `pos` with the
rows of `data`. -/
def setPointPos (data : List (Point K)) (pos : List (Vec3 K)) : List (Point K) :=
  List.zipWith (fun v p => { v with pos := p }) data pos

/-- The assignment `verts_rgb().noalias() = rgb` of a point cloud, for a table `rgb` with the
rows of `data`. -/
def setPointRgb (data : List (Point K)) (rgb : List (Vec3 K)) : List (Point K) :=
  List.zipWith (fun v c => { v with rgb := c }) data rgb

/-- The line `PointCloud::PointCloud(pos, rgb)` writes to `std::cerr` for arguments it does
not accept. -/
def invalidPointCloud : String :=
  "Invalid meshview::PointCloud construction: pos cannot be empty and pos, rgb should have identical # rows"

/-- The constructor `PointCloud::PointCloud(pos, rgb)`. No statement of it ends the process:
for arguments it does not accept it writes to `std::cerr` and returns. -/
def PointCloud.ofTables (heap : Heap K) (w : World K) (pos rgb : List (Vec3 K)) :
    Run (World K × PointCloud K) :=
  let p := PointCloud.ofSize heap pos.length
  if pos.length = 0 ∨ (rgb.length ≠ 0 ∧ pos.length ≠ rgb.length) then
    pure (w.log invalidPointCloud, p)
  else
    let p := { p with data := setPointPos p.data pos }
    let p := if rgb.length ≠ 0 then { p with data := setPointRgb p.data rgb } else p
    pure (w, p)

end PointCloudCode

section NormalsVocabulary

variable {K : Type} [Zero K] [One K] [Add K] [Sub K] [Mul K] [Div K] [NatCast K]

/-- The normal `n_f` of the face `f`: the normalized cross product
`(V[f1] - V[f0]) x (V[f2] - V[f1])`. -/
def normalOfFace (normalized : Vec3 K → Vec3 K) (verts : List (Vec3 K)) (f : Tri) : Vec3 K :=
  faceNormal normalized (verts.getD f.v0 Vec3.zero) (verts.getD f.v1 Vec3.zero)
    (verts.getD f.v2 Vec3.zero)

/-- The corners of a face table in the order of the table, each as the vertex index at the
corner and the normal of the face. -/
def cornerList (normalized : Vec3 K → Vec3 K) (verts : List (Vec3 K)) (faces : Triangles) :
    List (Nat × Vec3 K) :=
  faces.flatMap fun f =>
    [(f.v0, normalOfFace normalized verts f), (f.v1, normalOfFace normalized verts f),
     (f.v2, normalOfFace normalized verts f)]

/-- The normals `n_f` of the corners `(f, j)` with `F(f, j) = v`. -/
def cornerNormals (normalized : Vec3 K → Vec3 K) (verts : List (Vec3 K)) (faces : Triangles)
    (v : Nat) : List (Vec3 K) :=
  ((cornerList normalized verts faces).filter fun p => p.1 = v).map Prod.snd

/-- The incidence count `c_v`: the number of corners `(f, j)` with `F(f, j) = v`. -/
def incidence (faces : Triangles) (v : Nat) : Nat :=
  (faces.flatMap fun f => [f.v0, f.v1, f.v2]).count v

/-- The sum of a list of rows. -/
def sumRows (rows : List (Vec3 K)) : Vec3 K :=
  rows.foldl Vec3.add Vec3.zero

/-- A row times a scalar. -/
def Vec3.scale (c : K) (a : Vec3 K) : Vec3 K := ⟨c * a.x, c * a.y, c * a.z⟩

/-- The stand-in for `normalized()` in the sample data: it doubles a row. Every statement
holds for any function in its place. -/
def doubled (a : Vec3 ℚ) : Vec3 ℚ := ⟨2 * a.x, 2 * a.y, 2 * a.z⟩

/-- Four positions; the last is referenced by no face of `[(0, 1, 2)]`. -/
def fourPositions : List (Vec3 ℚ) :=
  [⟨0, 0, 0⟩, ⟨1, 0, 0⟩, ⟨0, 1, 0⟩, ⟨0, 0, 1⟩]

/-- Three positions, the corners of one triangle. -/
def threePositions : List (Vec3 ℚ) :=
  [⟨0, 0, 0⟩, ⟨1, 0, 0⟩, ⟨0, 1, 0⟩]

end NormalsVocabulary

/-- Three normals, one for each row of `threePositions`. -/
def threeNormals : List (Vec3 ℚ) :=
  [⟨0, 0, 1⟩, ⟨0, 0, 1⟩, ⟨0, 0, 1⟩]

/-- A mesh of one triangle with normals supplied, never sent to the GPU. -/
def triangleMesh : Mesh ℚ :=
  { emptyMesh with
    data := [⟨⟨0, 0, 0⟩, ⟨1, 1, 1⟩, ⟨0, 0, 1⟩⟩, ⟨⟨1, 0, 0⟩, ⟨1, 1, 1⟩, ⟨0, 0, 1⟩⟩,
             ⟨⟨0, 1, 0⟩, ⟨1, 1, 1⟩, ⟨0, 0, 1⟩⟩],
    faces := [⟨0, 1, 2⟩],
    _auto_normals := false }

/-- Three texture coordinates. -/
def threeCoords : List (Vec2 ℚ) :=
  [⟨0, 0⟩, ⟨1, 0⟩, ⟨0, 1⟩]

/-- The mesh `triangleMesh` after `set_tex_coords(threeCoords, [(2, 0, 1)])`. -/
def texturedTriangle : Mesh ℚ :=
  { triangleMesh with
    _tex_coords := threeCoords, _tex_faces := [⟨2, 0, 1⟩], _tex_to_vert := [1, 2, 0],
    shading_type := ShadingType.texture }

/-! ## Drawing a mesh -/

/-- The members `view` and `proj` of the class `Camera`. -/
structure Camera (K : Type) where
  view : Matrix (Fin 4) (Fin 4) K
  proj : Matrix (Fin 4) (Fin 4) K

section DrawCode

variable {K : Type} [Zero K] [One K] [Add K] [Sub K] [Mul K] [Div K] [NatCast K]

/-- The constant `Texture::__TYPE_COUNT`. -/
def TYPE_COUNT : Nat := 2

/-- The function `Texture::type_to_name(type)`. -/
def type_to_name (type : Nat) : String :=
  if type = 1 then "specular" else "diffuse"

/-- The conversion of a `uint32_t` or a wider unsigned value to `int`. -/
def toInt (x : Nat) : Int :=
  if x % 4294967296 < 2147483648 then ((x % 4294967296 : Nat) : Int)
  else ((x % 4294967296 : Nat) : Int) - 4294967296

/-- The function `std::to_string(n)` for an unsigned `n`. -/
def to_string (n : Nat) : String :=
  String.mk (showIndex n)

/-- The rows of a 4x4 matrix. -/
def rows4 (mat : Matrix (Fin 4) (Fin 4) K) : List (List K) :=
  List.ofFn fun i => List.ofFn fun j => mat i j

/-- The rows of a 3x3 matrix. -/
def rows3 (mat : Matrix (Fin 3) (Fin 3) K) : List (List K) :=
  List.ofFn fun i => List.ofFn fun j => mat i j

/-- The method `Mesh::gen_blank_texture()`. -/
def Mesh.gen_blank_texture (w : World K) (m : Mesh K) : World K × Mesh K :=
  if m.blank_tex_id ≠ INVALID then (w, m)
  else
    let (name, w) := w.gen
    let w := w.call (GLCall.genTextures name)
    let m := { m with blank_tex_id := name }
    let w := w.call (GLCall.bindTexture m.blank_tex_id)
    let w := w.call (GLCall.texParameteri TexParam.wrapS TexValue.repeating)
    let w := w.call (GLCall.texParameteri TexParam.wrapT TexValue.repeating)
    let w := w.call (GLCall.texParameteri TexParam.minFilter TexValue.linear)
    let grey : Vec3 K := ⟨((7 : Nat) : K) / ((10 : Nat) : K), ((7 : Nat) : K) / ((10 : Nat) : K),
      ((7 : Nat) : K) / ((10 : Nat) : K)⟩
    let w := w.call (GLCall.texParameteri TexParam.magFilter TexValue.linear)
    let w := w.call (GLCall.texImage2D PixelFormat.rgb 1 1 (Pixels.colour grey))
    let w := w.call GLCall.generateMipmap
    (w, m)

/-- One pass of the first loop of `Mesh::draw`, at the texture type `ttype`. -/
def blankStep (shader_id : Nat) (st : World K × Mesh K) (ttype : Nat) : World K × Mesh K :=
  if (st.2.textures.getD ttype []).length = 0 then
    let (w, m) := Mesh.gen_blank_texture st.1 st.2
    let w := w.call (GLCall.setInt shader_id ("material." ++ type_to_name ttype) 0)
    let w := w.call (GLCall.activeTexture 0)
    let w := w.call (GLCall.bindTexture m.blank_tex_id)
    (w, m)
  else st

/-- One pass of the inner loop of the second loop of `Mesh::draw`, at the texture `tex`; the
state holds the `uint32_t` counters `tex_id` and `cnt`. -/
def bindStep (shader_id : Nat) (ttype_name : String) (st : World K × Nat × Nat)
    (tex : Texture K) : World K × Nat × Nat :=
  let w := st.1.call (GLCall.activeTexture st.2.1)
  let w := w.call (GLCall.setInt shader_id
    ("material." ++ ttype_name ++ (if st.2.2 ≠ 0 then to_string st.2.2 else ""))
    (toInt st.2.1))
  let cnt := toIndex (st.2.2 + 1)
  let w := w.call (GLCall.bindTexture tex.id)
  (w, toIndex (st.2.1 + 1), cnt)

/-- One pass of the second loop of `Mesh::draw`, at the texture type `ttype`: the textures
of the type from the last to the first. -/
def bindType (shader_id : Nat) (textures : List (List (Texture K))) (st : World K × Nat)
    (ttype : Nat) : World K × Nat :=
  let r := (textures.getD ttype []).reverse.foldl (bindStep shader_id (type_to_name ttype))
    (st.1, st.2, 0)
  (r.1, r.2.1)

/-- The function `shader_set_transform_matrices(shader, camera, transform)`; `inverse` is
Eigen's `inverse()` of a 3x3 matrix. -/
def shader_set_transform_matrices
    (inverse : Matrix (Fin 3) (Fin 3) K → Matrix (Fin 3) (Fin 3) K) (shader_id : Nat)
    (camera : Camera K) (transform : Matrix (Fin 4) (Fin 4) K) : List (GLCall K) :=
  [ GLCall.setMat shader_id "M" (rows4 transform),
    GLCall.setMat shader_id "MVP"
      (rows4 (applyTransform transform (applyTransform camera.view camera.proj))),
    GLCall.setMat shader_id "NormalMatrix"
      (rows3 (Matrix.of fun i j => inverse (topLeftCorner transform) j i)) ]

/-- The calls of `Mesh::draw` after the textures are bound. -/
def drawCalls (inverse : Matrix (Fin 3) (Fin 3) K → Matrix (Fin 3) (Fin 3) K) (m : Mesh K)
    (shader_id : Nat) (camera : Camera K) : List (GLCall K) :=
  [GLCall.setFloat shader_id "material.shininess" m.shininess] ++
    shader_set_transform_matrices inverse shader_id camera m.transform ++
    [ GLCall.bindVertexArray m.VAO,
      GLCall.drawElements (toInt (m.faces.length * 3)),
      GLCall.bindVertexArray 0,
      GLCall.activeTexture 0 ]

/-- The line `Mesh::draw` writes to `std::cerr` for a mesh without buffers. -/
def drawBeforeUpdate : String :=
  "ERROR: Please call meshview::Mesh::update() before Mesh::draw()"

/-- The method `Mesh::draw(shader_id, camera)`. No statement of it ends the process. -/
def Mesh.draw (inverse : Matrix (Fin 3) (Fin 3) K → Matrix (Fin 3) (Fin 3) K) (w : World K)
    (m : Mesh K) (shader_id : Nat) (camera : Camera K) : World K × Mesh K :=
  if ¬ m.enabled ∨ m.data.length = 0 then (w, m)
  else if m.VAO = INVALID then (w.log drawBeforeUpdate, m)
  else
    let (w, m) :=
      if m.shading_type = ShadingType.texture then
        let (w, m) := (List.range TYPE_COUNT).foldl (blankStep shader_id) (w, m)
        let (w, _) := (List.range TYPE_COUNT).foldl (bindType shader_id m.textures) (w, 1)
        (w, m)
      else (w, m)
    ({ w with calls := w.calls ++ drawCalls inverse m shader_id camera }, m)

end DrawCode

/-- A camera whose two matrices are the identity. -/
def sampleCamera : Camera ℚ :=
  { view := 1, proj := 1 }

/-- A texture with the handle `id`, made from a colour. -/
def loadedTexture (id : Nat) : Texture ℚ :=
  { sampleTexture with id := id }

/-- The mesh `texturedTriangle` after an update gave it buffers, with two diffuse textures
and no specular texture. -/
def drawableTriangle : Mesh ℚ :=
  { texturedTriangle with
    VAO := 1, VBO := 2, EBO := 3, textures := [[loadedTexture 4, loadedTexture 5], []] }

section DrawVocabulary

variable {K : Type} [Zero K] [One K] [Add K] [Sub K] [Mul K] [Div K] [NatCast K]

/-- The uniform name of the `k`-th texture of a type, counted from the one added last:
`material.<typename>` for `k = 0` and `material.<typename>k` for `k ≥ 1`. -/
def uniformName (ttype_name : String) (k : Nat) : String :=
  if k = 0 then "material." ++ ttype_name else "material." ++ ttype_name ++ to_string k

/-- The three calls that bind the texture `tex` to the sampler unit `unit` under the uniform
name of position `k`. -/
def bindCalls (shader_id : Nat) (ttype_name : String) (k unit : Nat) (tex : Texture K) :
    List (GLCall K) :=
  [GLCall.activeTexture unit, GLCall.setInt shader_id (uniformName ttype_name k) (unit : Int),
   GLCall.bindTexture tex.id]

/-- The calls that bind the textures `L` of one type, the earlier types holding `offset`
textures: for every `k < |L|` the texture `L[|L| - 1 - k]` goes to the unit
`1 + offset + k`. -/
def typeCalls (shader_id : Nat) (ttype_name : String) (offset : Nat) (L : List (Texture K)) :
    List (GLCall K) :=
  (List.range L.length).flatMap fun k =>
    match L[L.length - 1 - k]? with
    | some tex => bindCalls shader_id ttype_name k (1 + offset + k) tex
    | none => []

/-- The calls that bind the textures `xs` in their order to the units from `unit` on, at the
positions from `k` on. -/
def seqCalls (shader_id : Nat) (ttype_name : String) :
    Nat → Nat → List (Texture K) → List (GLCall K)
  | _, _, [] => []
  | unit, k, tex :: rest =>
    bindCalls shader_id ttype_name k unit tex ++
      seqCalls shader_id ttype_name (unit + 1) (k + 1) rest

/-- The calls with which `gen_blank_texture` makes the 1x1 grey image under the name
`name`. -/
def genBlankCalls (name : Nat) : List (GLCall K) :=
  [GLCall.genTextures name, GLCall.bindTexture name,
   GLCall.texParameteri TexParam.wrapS TexValue.repeating,
   GLCall.texParameteri TexParam.wrapT TexValue.repeating,
   GLCall.texParameteri TexParam.minFilter TexValue.linear,
   GLCall.texParameteri TexParam.magFilter TexValue.linear,
   GLCall.texImage2D PixelFormat.rgb 1 1
     (Pixels.colour ⟨((7 : Nat) : K) / ((10 : Nat) : K), ((7 : Nat) : K) / ((10 : Nat) : K),
       ((7 : Nat) : K) / ((10 : Nat) : K)⟩),
   GLCall.generateMipmap]

/-- The three calls for a texture type without textures: the uniform of the type is set to
unit 0 and the fallback image `blank` is bound there. -/
def fallbackCalls (shader_id : Nat) (ttype_name : String) (blank : Nat) : List (GLCall K) :=
  [GLCall.setInt shader_id ("material." ++ ttype_name) 0, GLCall.activeTexture 0,
   GLCall.bindTexture blank]

end DrawVocabulary

section CountVocabulary

variable {K : Type} [Zero K] [One K] [Add K] [Sub K] [Mul K] [Div K] [NatCast K]

/-- The value of a counter that started at `c` after `n` statements `c += 1.f`. For a
`float` counter started at 0 it is `n` up to `2 ^ 24` and stays `2 ^ 24` from there on. -/
def addOnes : Nat → K → K
  | 0, c => c
  | n + 1, c => addOnes n (c + 1)

end CountVocabulary

/-- The face line `f r1 r2 ...` with the references `refs`, one space before each: a
reference is the text of its first index and the text that follows it. -/
def faceLineOf (refs : List (List Char × List Char)) : List Char :=
  'f' :: refs.flatMap (fun r => ' ' :: (r.1 ++ r.2))

/-- The first indices of a list of references, each read as `(Index) atoll(...) - 1`. -/
def firstIndices (refs : List (List Char × List Char)) : List Nat :=
  refs.map (fun r => faceIndex r.1)

/-- Whether a call creates a vertex array or a buffer. -/
def GLCall.isBufferGen {K : Type} : GLCall K → Bool
  | GLCall.genVertexArrays _ => true
  | GLCall.genBuffers _ => true
  | _ => false

/-- Whether a call releases a vertex array or a buffer. -/
def GLCall.isBufferDelete {K : Type} : GLCall K → Bool
  | GLCall.deleteVertexArrays _ => true
  | GLCall.deleteBuffers _ => true
  | _ => false

/-- A list of calls none of which creates or releases a vertex array or a buffer. -/
def NoBufferCall {K : Type} (calls : List (GLCall K)) : Prop :=
  ∀ c ∈ calls, c.isBufferGen = false ∧ c.isBufferDelete = false

/-- The world `w1` comes from `w` by the calls `extra`, with the context and the driver as
they were. -/
def Extends {K : Type} (w w1 : World K) (extra : List (GLCall K)) : Prop :=
  w1.context = w.context ∧ w1.names = w.names ∧ w1.calls = w.calls ++ extra

/-- A sequence of calls `update(force_init)`, one for each entry of `flags`. -/
def runUpdates {K : Type} [Zero K] [One K] [Add K] [Sub K] [Mul K] [Div K] [NatCast K]
    (normalized : Vec3 K → Vec3 K) (heap : Heap K) (w : World K) (m : Mesh K)
    (flags : List Bool) : Run (World K × Mesh K) :=
  flags.foldlM (fun wm force_init => Mesh.update normalized heap wm.1 wm.2 force_init) (w, m)

/-- A world with a current context whose driver hands out the names 1, 2, 3, ... and never
the name `2 ^ 32 - 1`. -/
def steadyWorld : World ℚ :=
  { context := true, names := fun k => k % 4294967294 + 1, used := 0, calls := [],
    decode := fun _ _ => none, stderr := [] }

/-! ## The type `float`

The scalar type of every table is the C++ type `float`, IEEE 754 binary32. The definitions
and most statements take the scalars as a type `K` with its operations. `F32` gives the
arithmetic of `float` on finite values, with rounding to nearest, ties to even, and gradual
underflow; the two zeros are one value, and the infinities and NaN are gathered in one
value, `special`, which every operation hands on. It serves to evaluate the code at
concrete `float` inputs. -/

/-- A value of the type `float`: the number `m * 2 ^ e`, stored with `m` odd, or with
`m = 0` and `e = 0`; or an infinity or NaN. -/
inductive F32 where
  | finite (m : Int) (e : Int)
  | special
  deriving DecidableEq, Repr

/-- The number of binary digits of `n`, for `n < 2 ^ fuel`. -/
def bitLength : Nat → Nat → Nat
  | 0, _ => 0
  | fuel + 1, n => if n = 0 then 0 else bitLength fuel (n / 2) + 1

/-- The value `± q * 2 ^ e` for `q ≤ 2 ^ 24`, stored with an odd first component. -/
def F32.normal (neg : Bool) (q : Nat) (e : Int) : F32 :=
  if q = 0 then F32.finite 0 0
  else
    let tz := bitLength 32 (Nat.gcd q 16777216) - 1
    F32.finite (if neg then -((q / 2 ^ tz : Nat) : Int) else ((q / 2 ^ tz : Nat) : Int))
      (e + (tz : Int))

/-- The `float` nearest to `± n / d`, for `d > 0`: the quotient is cut to 24 binary digits,
or to a multiple of `2 ^ -149` below `2 ^ -126`, and rounded to nearest, ties to even; a
result of `2 ^ 128` or more is an infinity. -/
def F32.round (neg : Bool) (n d : Nat) : F32 :=
  if n = 0 then F32.finite 0 0
  else
    let k : Int := (bitLength 1024 n : Int) - (bitLength 1024 d : Int)
    let ge : Bool :=
      if 0 ≤ k then decide (d * 2 ^ k.toNat ≤ n) else decide (d ≤ n * 2 ^ (-k).toNat)
    let l : Int := if ge then k else k - 1
    let e : Int := max (l - 23) (-149)
    let num := if 0 ≤ e then n else n * 2 ^ (-e).toNat
    let den := if 0 ≤ e then d * 2 ^ e.toNat else d
    let q := num / den
    let r := num % den
    let q1 := if den < 2 * r ∨ (2 * r = den ∧ q % 2 = 1) then q + 1 else q
    if 104 < e ∨ (e = 104 ∧ 16777216 ≤ q1) then F32.special else F32.normal neg q1 e

/-- The `float` nearest to `m * 2 ^ e`. -/
def F32.ofScaled (m : Int) (e : Int) : F32 :=
  if 0 ≤ e then F32.round (decide (m < 0)) (m.natAbs * 2 ^ e.toNat) 1
  else F32.round (decide (m < 0)) m.natAbs (2 ^ (-e).toNat)

/-- The sum `a + b` of two `float`s. -/
def F32.add : F32 → F32 → F32
  | F32.finite m1 e1, F32.finite m2 e2 =>
    F32.ofScaled (m1 * 2 ^ (e1 - min e1 e2).toNat + m2 * 2 ^ (e2 - min e1 e2).toNat) (min e1 e2)
  | _, _ => F32.special

/-- The value `-a`. -/
def F32.neg : F32 → F32
  | F32.finite m e => F32.finite (-m) e
  | F32.special => F32.special

/-- The product `a * b` of two `float`s. -/
def F32.mul : F32 → F32 → F32
  | F32.finite m1 e1, F32.finite m2 e2 => F32.ofScaled (m1 * m2) (e1 + e2)
  | _, _ => F32.special

/-- The quotient `a / b` of two `float`s; a division by zero gives an infinity or NaN. -/
def F32.div : F32 → F32 → F32
  | F32.finite m1 e1, F32.finite m2 e2 =>
    if m2 = 0 then F32.special
    else
      F32.round (decide (m1 < 0) != decide (m2 < 0))
        (m1.natAbs * 2 ^ (e1 - e2).toNat) (m2.natAbs * 2 ^ (e2 - e1).toNat)
  | _, _ => F32.special

instance : Zero F32 := ⟨F32.finite 0 0⟩

instance : One F32 := ⟨F32.finite 1 0⟩

instance : Add F32 := ⟨F32.add⟩

instance : Sub F32 := ⟨fun a b => F32.add a (F32.neg b)⟩

instance : Mul F32 := ⟨F32.mul⟩

instance : Div F32 := ⟨F32.div⟩

instance : NatCast F32 := ⟨fun n => F32.round false n 1⟩

/-- The `float` that the decimal literal `n / d` denotes: the nearest one. -/
def F32.ofFraction (n d : Nat) : F32 :=
  F32.round false n d

/-- A `Mesh` of `float`s with no vertex and the local transform `transform`. -/
def floatMesh (transform : Matrix (Fin 4) (Fin 4) F32) : Mesh F32 :=
  { data := [], faces := [], enabled := true, textures := [[], []],
    shininess := ((10 : Nat) : F32), transform := transform,
    shading_type := ShadingType.vertex,
    VAO := INVALID, VBO := INVALID, EBO := INVALID, blank_tex_id := INVALID,
    _tex_coords := [], _tex_faces := [], _data_tex := [], _tex_to_vert := [],
    _auto_normals := true }

/-- The 3x3 matrix with the diagonal `(a, 1, 1)`. -/
def stretch {K : Type} [Zero K] [One K] (a : K) : Matrix (Fin 3) (Fin 3) K :=
  Matrix.of fun i j => if i = j then (if i = 0 then a else 1) else 0

/-- The 4x4 transform with the 3x3 block `diag(a, 1, 1)` and no translation. -/
def stretchTransform {K : Type} [Zero K] [One K] (a : K) : Matrix (Fin 4) (Fin 4) K :=
  Matrix.of fun i j => if i = j then (if i = 0 then a else 1) else 0

/-- The laws that a finite `float` `x` obeys with 0 and 1, the sign of a zero apart. -/
def Plain {K : Type} [Zero K] [One K] [Add K] [Mul K] (x : K) : Prop :=
  x + 0 = x ∧ 0 + x = x ∧ x * 1 = x ∧ 1 * x = x ∧ x * 0 = 0 ∧ 0 * x = 0

/-- The product `A * B` of two values of type `Matrix3f`, each entry summed in the order of
the columns of `A`. -/
def mul3 {K : Type} [Add K] [Mul K] (A B : Matrix (Fin 3) (Fin 3) K) :
    Matrix (Fin 3) (Fin 3) K :=
  Matrix.of fun i j => A i 0 * B 0 j + A i 1 * B 1 j + A i 2 * B 2 j

/-- Four positions in `float`s; the last is referenced by no face of `[(0, 1, 2)]`. -/
def fourFloats : List (Vec3 F32) :=
  [⟨0, 0, 0⟩, ⟨1, 0, 0⟩, ⟨0, 1, 0⟩, ⟨0, 0, 1⟩]

/-! # Theorems -/

set_option linter.unusedSectionVars false

variable {K : Type} [Zero K] [One K] [Add K] [Sub K] [Mul K] [Div K] [NatCast K]

/-! ## Loops and the face table of `Mesh::resize` -/

theorem forUpTo_zero {σ : Type} (body : Nat → σ → Run σ) (s : σ) :
    forUpTo 0 body s = pure s := by
  simp [forUpTo]

theorem forUpTo_succ {σ : Type} (n : Nat) (body : Nat → σ → Run σ) (s : σ) :
    forUpTo (n + 1) body s = forUpTo n body s >>= body n := by
  simp [forUpTo, List.range_succ, List.foldlM_append]

theorem Tri.col_setCol (t : Tri) (j k : Fin 3) (v : Nat) :
    (t.setCol j v).col k = if k = j then v else t.col k := by
  fin_cases j <;> fin_cases k <;> simp [Tri.setCol, Tri.col]

theorem Tri.ext_col {s t : Tri} (h : ∀ j, s.col j = t.col j) : s = t := by
  cases s; cases t
  have h0 := h 0
  have h1 := h 1
  have h2 := h 2
  simp [Tri.col] at h0 h1 h2
  simp [h0, h1, h2]

/-- The loop of `Mesh::resize` that numbers the storage of the face table. -/
theorem fill_faces (c : Nat) (fs : Triangles) (hc : c ≤ 3 * fs.length) :
    ∃ gs, forUpTo c (fun i acc => Triangles.setData acc i i) fs = Except.ok gs ∧
      gs.length = fs.length ∧
      ∀ (r : Nat) (j : Fin 3), (gs[r]?).map (fun t => t.col j) =
        (fs[r]?).map (fun t => if 3 * r + j.val < c then 3 * r + j.val else t.col j) := by
  induction c with
  | zero => exact ⟨fs, by simp [forUpTo_zero, pure, Except.pure], rfl, by intro r j; simp⟩
  | succ c ih =>
    obtain ⟨gs, hgs, hlen, hcol⟩ := ih (by omega)
    have hlt : c / 3 < gs.length := by omega
    refine ⟨gs.set (c / 3) ((gs.get ⟨c / 3, hlt⟩).setCol ⟨c % 3, Nat.mod_lt c (by decide)⟩ c), ?_, ?_, ?_⟩
    · rw [forUpTo_succ, hgs]
      simp [bind, Except.bind, Triangles.setData, hlt, pure, Except.pure]
    · simp [hlen]
    · intro r j
      by_cases hr : r = c / 3
      · subst hr
        have hfs : c / 3 < fs.length := by omega
        have := hcol (c / 3) j
        simp [List.getElem?_eq_getElem, hlt, hfs] at this
        simp [List.getElem?_eq_getElem, hlt, hfs, Tri.col_setCol, this]
        by_cases hj : j = ⟨c % 3, Nat.mod_lt c (by decide)⟩
        · subst hj
          have h2 : 3 * (c / 3) + c % 3 = c := by omega
          simp [h2]
        · have hjv : j.val ≠ c % 3 := fun h => hj (Fin.ext h)
          have h1 : (3 * (c / 3) + j.val < c + 1) ↔ (3 * (c / 3) + j.val < c) := by omega
          simp [hj, h1]
      · rw [List.getElem?_set_ne (Ne.symm hr), hcol r j]
        have h1 : (3 * r + j.val < c + 1) ↔ (3 * r + j.val < c) := by
          have := j.isLt
          constructor
          · intro h
            by_contra hn
            have : 3 * r + j.val = c := by omega
            apply hr; omega
          · omega
        simp [h1]


theorem length_resizeRows {α : Type} (fresh : Nat → α) (old : List α) (rows : Nat) :
    (resizeRows fresh old rows).length = rows := by
  unfold resizeRows
  split <;> simp [*]

theorem getElem?_resizeRows {α : Type} (fresh : Nat → α) (old : List α) (rows k : Nat)
    (hne : old.length ≠ rows) (hk : k < rows) :
    (resizeRows fresh old rows)[k]? = some (fresh k) := by
  simp [resizeRows, hne, List.getElem?_range, hk]

theorem toIndex_of_lt {n : Nat} (h : n < 4294967296) : toIndex n = n :=
  Nat.mod_eq_of_lt h

/-- What `Mesh::resize(n, 0)` leaves in the mesh when `n` is divisible by 3. -/
theorem resize_no_triangles (heap : Heap K) (m : Mesh K) (n : Nat) (h3 : n % 3 = 0) :
    ∃ gs, Mesh.resize heap m n 0 = Except.ok
        { m with data := resizeRows heap.verts m.data n, faces := gs, transform := 1 } ∧
      gs.length = n / 3 ∧
      ∀ (r : Nat) (j : Fin 3), (gs[r]?).map (fun t => t.col j) =
        ((resizeRows heap.tris m.faces (n / 3))[r]?).map
          (fun t => if 3 * r + j.val < toIndex n then 3 * r + j.val else t.col j) := by
  have hle : toIndex n ≤ 3 * (resizeRows heap.tris m.faces (n / 3)).length := by
    rw [length_resizeRows]
    have : toIndex n ≤ n := Nat.mod_le _ _
    omega
  obtain ⟨gs, hgs, hlen, hcol⟩ := fill_faces (toIndex n) _ hle
  refine ⟨gs, ?_, by rw [hlen, length_resizeRows], hcol⟩
  simp [Mesh.resize, h3, hgs, bind, Except.bind, pure, Except.pure]

theorem default_faces_of_cols (gs fs : Triangles) (n : Nat) (hlen : gs.length = n / 3)
    (hfs : fs.length = n / 3) (h3 : n % 3 = 0)
    (hcol : ∀ (r : Nat) (j : Fin 3), (gs[r]?).map (fun t => t.col j) =
        (fs[r]?).map (fun t => if 3 * r + j.val < n then 3 * r + j.val else t.col j))
    (k : Nat) (hk : k < n / 3) : gs[k]? = some ⟨3 * k, 3 * k + 1, 3 * k + 2⟩ := by
  have hk1 : k < gs.length := by omega
  have hk2 : k < fs.length := by omega
  rw [List.getElem?_eq_getElem hk1]
  congr 1
  apply Tri.ext_col
  intro j
  have := hcol k j
  simp [List.getElem?_eq_getElem, hk1, hk2] at this
  rw [this]
  have hj := j.isLt
  have : 3 * k + j.val < n := by omega
  simp [this]
  fin_cases j <;> simp [Tri.col]

theorem resize_some_triangles (heap : Heap K) (m : Mesh K) (n t : Nat) (ht : t ≠ 0) :
    Mesh.resize heap m n t = Except.ok
      { m with data := resizeRows heap.verts m.data n,
               faces := resizeRows heap.tris m.faces t, transform := 1 } := by
  simp [Mesh.resize, ht, bind, Except.bind, pure, Except.pure]

theorem resize_fatal (heap : Heap K) (m : Mesh K) (n : Nat) (h3 : n % 3 ≠ 0) :
    Mesh.resize heap m n 0 = Except.error Failure.fatal := by
  simp [Mesh.resize, h3, bind, Except.bind, throw, throwThe, MonadExceptOf.throw]

/-! ## C1, C2: construction -/

/-- After the delegated constructor, the body of the table constructor keeps the face table
when `tri_faces` is empty. -/
theorem ofTablesBody_ok (m : Mesh K) (pos : List (Vec3 K)) (tri_faces : Triangles)
    (rgb normals : List (Vec3 K))
    (hrgb : rgb.length = 0 ∨ rgb.length = pos.length)
    (hnorm : normals.length = 0 ∨ normals.length = pos.length) :
    ∃ r, Mesh.ofTablesBody m pos tri_faces rgb normals = Except.ok r ∧
      r.faces = (if tri_faces.length ≠ 0 then tri_faces else m.faces) ∧
      r._auto_normals = decide (normals.length = 0) ∧
      r.textures = m.textures ∧ r._tex_coords = m._tex_coords ∧ r.VAO = m.VAO ∧
      r.data =
        (if normals.length = 0 then
          (if rgb.length = 0 then setPos m.data pos else setRgb (setPos m.data pos) rgb)
        else
          setNorm
            (if rgb.length = 0 then setPos m.data pos else setRgb (setPos m.data pos) rgb)
            normals) := by
  by_cases h1 : rgb.length = 0 <;> by_cases h2 : normals.length = 0 <;>
    by_cases h3 : tri_faces.length = 0 <;>
    by_cases h4 : rgb.length = pos.length <;> by_cases h5 : normals.length = pos.length <;>
    simp_all [Mesh.ofTablesBody, bind, Except.bind, pure, Except.pure]

theorem ofTablesBody_fatal (m : Mesh K) (pos : List (Vec3 K)) (tri_faces : Triangles)
    (rgb normals : List (Vec3 K))
    (h : (rgb.length ≠ 0 ∧ rgb.length ≠ pos.length) ∨
      (normals.length ≠ 0 ∧ normals.length ≠ pos.length)) :
    Mesh.ofTablesBody m pos tri_faces rgb normals = Except.error Failure.fatal := by
  by_cases h1 : rgb.length = 0 <;> by_cases h2 : normals.length = 0 <;>
    by_cases h4 : rgb.length = pos.length <;> by_cases h5 : normals.length = pos.length <;>
    simp_all [Mesh.ofTablesBody, bind, Except.bind, pure, Except.pure, throw, throwThe,
      MonadExceptOf.throw]

/-- C1, as amended. For every vertex count `n` divisible by 3 and below `2 ^ 32`,
`Mesh::resize(n, 0)` returns with exactly `n / 3` faces, face `k` being
`(3k, 3k+1, 3k+2)` for every `k < n / 3`; and so does the construction from a position table
with `n` rows, an empty face table and colour and normal tables that are empty or have
`n` rows. -/
theorem resize_default_faces (heap : Heap K) (m : Mesh K) (n : Nat) (h3 : n % 3 = 0)
    (hn : n < 4294967296) :
    (∃ r, Mesh.resize heap m n 0 = Except.ok r ∧ r.faces.length = n / 3 ∧
      ∀ k, k < n / 3 → r.faces[k]? = some ⟨3 * k, 3 * k + 1, 3 * k + 2⟩) ∧
    (∀ pos rgb normals : List (Vec3 K), pos.length = n →
      (rgb.length = 0 ∨ rgb.length = n) → (normals.length = 0 ∨ normals.length = n) →
      ∃ r, Mesh.ofTables heap pos [] rgb normals = Except.ok r ∧ r.faces.length = n / 3 ∧
        ∀ k, k < n / 3 → r.faces[k]? = some ⟨3 * k, 3 * k + 1, 3 * k + 2⟩) := by
  have key : ∀ m0 : Mesh K, ∃ r, Mesh.resize heap m0 n 0 = Except.ok r ∧
      r.faces.length = n / 3 ∧
      ∀ k, k < n / 3 → r.faces[k]? = some ⟨3 * k, 3 * k + 1, 3 * k + 2⟩ := by
    intro m0
    obtain ⟨gs, hgs, hlen, hcol⟩ := resize_no_triangles heap m0 n h3
    rw [toIndex_of_lt hn] at hcol
    exact ⟨_, hgs, hlen, fun k hk =>
      default_faces_of_cols gs _ n hlen (length_resizeRows _ _ _) h3 hcol k hk⟩
  refine ⟨key m, ?_⟩
  intro pos rgb normals hpos hrgb hnorm
  obtain ⟨r0, hr0, hlen0, hface0⟩ := key (Mesh.blank heap)
  obtain ⟨r, hr, hfaces, -⟩ := ofTablesBody_ok r0 pos [] rgb normals
    (by rw [hpos]; exact hrgb) (by rw [hpos]; exact hnorm)
  refine ⟨r, ?_, ?_, ?_⟩
  · simp only [Mesh.ofTables, Mesh.ofSize, hpos, List.length_nil, hr0, bind, Except.bind]
    exact hr
  · simp [hfaces, hlen0]
  · intro k hk
    simpa [hfaces] using hface0 k hk

/-- C1 at a concrete mesh: six vertices give the faces `(0,1,2)` and `(3,4,5)`. -/
theorem resize_default_faces_witness :
    6 % 3 = 0 ∧ 6 < 4294967296 ∧
    (∃ r, Mesh.resize zeroHeap (Mesh.blank zeroHeap) 6 0 = Except.ok r ∧
      r.faces.length = 6 / 3 ∧
      ∀ k, k < 6 / 3 → r.faces[k]? = some ⟨3 * k, 3 * k + 1, 3 * k + 2⟩) :=
  ⟨by decide, by decide,
    (resize_default_faces zeroHeap (Mesh.blank zeroHeap) 6 (by decide) (by decide)).1⟩

/-- C1 fails as stated. The vertex count `2 ^ 32 + 2` is divisible by 3, and
`Mesh::resize(2 ^ 32 + 2, 0)` returns, but the loop that numbers the face storage runs
`(Index) num_verts = 2` times only: face 0 is `(0, 1, x)` with `x` whatever the fresh
storage held, here 0, and not `(0, 1, 2)`. -/
theorem resize_default_faces_wide_count :
    4294967298 % 3 = 0 ∧
    ∃ r, Mesh.resize zeroHeap (Mesh.blank zeroHeap) 4294967298 0 = Except.ok r ∧
      r.faces[0]? = some ⟨0, 1, 0⟩ ∧
      ¬ (r.faces.length = 4294967298 / 3 ∧
        ∀ k, k < 4294967298 / 3 → r.faces[k]? = some ⟨3 * k, 3 * k + 1, 3 * k + 2⟩) := by
  refine ⟨by norm_num, ?_⟩
  obtain ⟨gs, hgs, hlen, hcol⟩ :=
    resize_no_triangles zeroHeap (Mesh.blank zeroHeap) 4294967298 (by norm_num)
  have hpos : 0 < gs.length := by rw [hlen]; norm_num
  have hidx : toIndex 4294967298 = 2 := by norm_num [toIndex]
  have hfresh : (resizeRows zeroHeap.tris (Mesh.blank zeroHeap).faces
      (4294967298 / 3))[0]? = some ⟨0, 0, 0⟩ :=
    getElem?_resizeRows zeroHeap.tris (Mesh.blank zeroHeap).faces (4294967298 / 3) 0
      (by show 0 ≠ 4294967298 / 3; norm_num) (by norm_num)
  have hrow : gs[0] = ⟨0, 1, 0⟩ := by
    apply Tri.ext_col
    intro j
    have := hcol 0 j
    rw [hfresh, hidx, List.getElem?_eq_getElem hpos] at this
    simp at this
    rw [this]
    fin_cases j <;> simp [Tri.col]
  have h0 : gs[0]? = some ⟨0, 1, 0⟩ := by
    rw [List.getElem?_eq_getElem hpos, hrow]
  refine ⟨_, hgs, h0, ?_⟩
  rintro ⟨-, hall⟩
  have := hall 0 (by norm_num)
  rw [h0] at this
  simp at this

theorem ofSize_ok (heap : Heap K) (n t : Nat) (h : t ≠ 0 ∨ n % 3 = 0) :
    ∃ r, Mesh.ofSize heap n t = Except.ok r ∧ r.data.length = n ∧
      r.textures = [[], []] ∧ r._tex_coords = [] ∧ r.VAO = INVALID ∧
      (t = 0 → n < 4294967296 → r.faces.length = n / 3 ∧
        ∀ k, k < n / 3 → r.faces[k]? = some ⟨3 * k, 3 * k + 1, 3 * k + 2⟩) := by
  by_cases ht : t = 0
  · subst ht
    have h3 : n % 3 = 0 := by simpa using h
    obtain ⟨gs, hgs, hlen, hcol⟩ := resize_no_triangles heap (Mesh.blank heap) n h3
    refine ⟨_, hgs, length_resizeRows _ _ _, rfl, rfl, rfl, ?_⟩
    intro _ hn
    rw [toIndex_of_lt hn] at hcol
    exact ⟨hlen, fun k hk =>
      default_faces_of_cols gs _ n hlen (length_resizeRows _ _ _) h3 hcol k hk⟩
  · exact ⟨_, resize_some_triangles heap (Mesh.blank heap) n t ht, length_resizeRows _ _ _,
      rfl, rfl, rfl, fun h0 => absurd h0 ht⟩

/-- C2. The construction `Mesh(pos, faces, rgb, normals)` fails fatally if and only if
`faces` has no rows and the row count of `pos` is not divisible by 3, or `rgb` has a
non-zero row count other than that of `pos`, or `normals` has a non-zero row count other
than that of `pos`; in every other case it returns a mesh. -/
theorem ofTables_fatal_iff (heap : Heap K) (pos : List (Vec3 K)) (faces : Triangles)
    (rgb normals : List (Vec3 K)) :
    (Mesh.ofTables heap pos faces rgb normals = Except.error Failure.fatal ↔
      ((faces.length = 0 ∧ pos.length % 3 ≠ 0) ∨
        (rgb.length ≠ 0 ∧ rgb.length ≠ pos.length) ∨
        (normals.length ≠ 0 ∧ normals.length ≠ pos.length))) ∧
    (¬ ((faces.length = 0 ∧ pos.length % 3 ≠ 0) ∨
        (rgb.length ≠ 0 ∧ rgb.length ≠ pos.length) ∨
        (normals.length ≠ 0 ∧ normals.length ≠ pos.length)) →
      ∃ m, Mesh.ofTables heap pos faces rgb normals = Except.ok m) := by
  have hfail : ((faces.length = 0 ∧ pos.length % 3 ≠ 0) ∨
        (rgb.length ≠ 0 ∧ rgb.length ≠ pos.length) ∨
        (normals.length ≠ 0 ∧ normals.length ≠ pos.length)) →
      Mesh.ofTables heap pos faces rgb normals = Except.error Failure.fatal := by
    intro h
    by_cases h1 : faces.length = 0 ∧ pos.length % 3 ≠ 0
    · simp only [Mesh.ofTables, Mesh.ofSize, h1.1, resize_fatal heap _ _ h1.2, bind,
        Except.bind]
    · have h2 : (rgb.length ≠ 0 ∧ rgb.length ≠ pos.length) ∨
          (normals.length ≠ 0 ∧ normals.length ≠ pos.length) := by tauto
      obtain ⟨r0, hr0, -⟩ := ofSize_ok heap pos.length faces.length (by omega)
      simp only [Mesh.ofTables, hr0, bind, Except.bind]
      exact ofTablesBody_fatal r0 pos faces rgb normals h2
  have hok : ¬ ((faces.length = 0 ∧ pos.length % 3 ≠ 0) ∨
        (rgb.length ≠ 0 ∧ rgb.length ≠ pos.length) ∨
        (normals.length ≠ 0 ∧ normals.length ≠ pos.length)) →
      ∃ m, Mesh.ofTables heap pos faces rgb normals = Except.ok m := by
    intro h
    obtain ⟨r0, hr0, -⟩ := ofSize_ok heap pos.length faces.length (by omega)
    obtain ⟨r, hr, -⟩ := ofTablesBody_ok r0 pos faces rgb normals (by omega) (by omega)
    refine ⟨r, ?_⟩
    simp only [Mesh.ofTables, hr0, bind, Except.bind]
    exact hr
  refine ⟨⟨fun hf => ?_, hfail⟩, hok⟩
  by_contra hnot
  obtain ⟨m, hm⟩ := hok hnot
  rw [hm] at hf
  cases hf

/-! ## C3, C4, C5: the map from UV vertices to position vertices -/

theorem uvMapStep_eq (result : List Nat) (fg : Tri × Tri) :
    uvMapStep result fg =
      [(fg.2.v0, fg.1.v0), (fg.2.v1, fg.1.v1), (fg.2.v2, fg.1.v2)].foldlM
        (fun res p => storeAt res p.1 p.2) result := by
  simp [uvMapStep, Tri.col]

/-- The double loop of `make_uv_to_vert_map` is one loop over the corner pairs. -/
theorem foldlM_uvMapStep (F G : Triangles) (result : List Nat) :
    (F.zip G).foldlM uvMapStep result =
      (cornerPairs F G).foldlM (fun res p => storeAt res p.1 p.2) result := by
  unfold cornerPairs
  generalize F.zip G = l
  induction l generalizing result with
  | nil => simp
  | cons fg l ih =>
    rw [List.foldlM_cons, List.flatMap_cons, List.foldlM_append, uvMapStep_eq]
    congr 1
    funext res
    exact ih res

/-- The stores of `make_uv_to_vert_map`: they all succeed when every first component is
inside the table, and each entry ends up with the value stored last. -/
theorem foldlM_storeAt (pairs : List (Nat × Nat)) (result : List Nat)
    (h : ∀ p ∈ pairs, p.1 < result.length) :
    ∃ r, pairs.foldlM (fun res p => storeAt res p.1 p.2) result = Except.ok r ∧
      r.length = result.length ∧
      ∀ i, r[i]? = (result[i]?).bind fun d =>
        pairs.foldl (fun acc p => if p.1 = i then some p.2 else acc) (some d) := by
  induction pairs generalizing result with
  | nil => exact ⟨result, rfl, rfl, fun i => by cases result[i]? <;> simp⟩
  | cons p pairs ih =>
    have hp : p.1 < result.length := h p (List.mem_cons_self _ _)
    obtain ⟨r, hr, hlen, hval⟩ := ih (result.set p.1 p.2)
      (fun q hq => by simpa using h q (List.mem_cons_of_mem _ hq))
    refine ⟨r, ?_, by simpa using hlen, ?_⟩
    · rw [List.foldlM_cons]
      simp only [storeAt, hp, if_true, pure, Except.pure, bind, Except.bind]
      exact hr
    · intro i
      rw [hval i]
      simp only [List.foldl_cons]
      by_cases hi : p.1 = i
      · subst hi
        simp [hp, List.getElem?_eq_getElem]
      · rw [List.getElem?_set_ne hi]
        simp [hi]

/-- A failing store makes the whole loop fail. -/
theorem foldlM_storeAt_error (pairs : List (Nat × Nat)) (result : List Nat)
    (h : ∃ p ∈ pairs, ¬ p.1 < result.length) :
    pairs.foldlM (fun res p => storeAt res p.1 p.2) result =
      Except.error Failure.outOfBounds := by
  induction pairs generalizing result with
  | nil => obtain ⟨p, hp, -⟩ := h; cases hp
  | cons p pairs ih =>
    rw [List.foldlM_cons]
    by_cases hp : p.1 < result.length
    · simp only [storeAt, hp, if_true, pure, Except.pure, bind, Except.bind]
      apply ih
      obtain ⟨q, hq, hqlt⟩ := h
      rcases List.mem_cons.1 hq with rfl | hq
      · exact absurd hp hqlt
      · exact ⟨q, hq, by simpa using hqlt⟩
    · simp [storeAt, hp, bind, Except.bind, throw, throwThe, MonadExceptOf.throw]

theorem foldl_last_some (pairs : List (Nat × Nat)) (i d : Nat) :
    pairs.foldl (fun acc p => if p.1 = i then some p.2 else acc) (some d) =
      some ((lastValue pairs i).getD d) := by
  unfold lastValue
  suffices h : ∀ (init : Option Nat),
      pairs.foldl (fun acc p => if p.1 = i then some p.2 else acc) (some (init.getD d)) =
        some ((pairs.foldl (fun acc p => if p.1 = i then some p.2 else acc) init).getD d) by
    simpa using h none
  induction pairs with
  | nil => intro init; simp
  | cons p pairs ih =>
    intro init
    simp only [List.foldl_cons]
    by_cases hp : p.1 = i
    · simpa [hp] using ih (some p.2)
    · simpa [hp] using ih init

theorem foldl_last_mem (pairs : List (Nat × Nat)) (i v : Nat) (init : Option Nat)
    (h : pairs.foldl (fun acc p => if p.1 = i then some p.2 else acc) init = some v) :
    (i, v) ∈ pairs ∨ init = some v := by
  induction pairs generalizing init with
  | nil => right; simpa using h
  | cons p pairs ih =>
    simp only [List.foldl_cons] at h
    rcases ih _ h with h1 | h1
    · exact Or.inl (List.mem_cons_of_mem _ h1)
    · by_cases hp : p.1 = i
      · simp [hp] at h1
        left
        rw [← h1, ← hp]
        exact List.mem_cons_self _ _
      · simp [hp] at h1
        exact Or.inr h1

theorem lastValue_mem (pairs : List (Nat × Nat)) (i v : Nat)
    (h : lastValue pairs i = some v) : (i, v) ∈ pairs := by
  rcases foldl_last_mem pairs i v none h with h1 | h1
  · exact h1
  · cases h1

theorem foldl_last_isSome (pairs : List (Nat × Nat)) (i : Nat) (init : Option Nat)
    (h : init.isSome ∨ ∃ p ∈ pairs, p.1 = i) :
    ∃ v, pairs.foldl (fun acc p => if p.1 = i then some p.2 else acc) init = some v := by
  induction pairs generalizing init with
  | nil =>
    rcases h with h1 | ⟨p, hp, -⟩
    · exact Option.isSome_iff_exists.1 h1
    · cases hp
  | cons p pairs ih =>
    simp only [List.foldl_cons]
    apply ih
    by_cases hp : p.1 = i
    · left; simp [hp]
    · rcases h with h1 | ⟨q, hq, hqi⟩
      · left; simpa [hp] using h1
      · rcases List.mem_cons.1 hq with rfl | hq
        · exact absurd hqi hp
        · exact Or.inr ⟨q, hq, hqi⟩

theorem lastValue_isSome (pairs : List (Nat × Nat)) (i : Nat)
    (h : ∃ p ∈ pairs, p.1 = i) : ∃ v, lastValue pairs i = some v :=
  foldl_last_isSome pairs i none (Or.inr h)

theorem mem_cornerPairs (F G : Triangles) (u v : Nat) :
    (u, v) ∈ cornerPairs F G ↔
      ∃ fg ∈ F.zip G, ∃ j : Fin 3, fg.2.col j = u ∧ fg.1.col j = v := by
  unfold cornerPairs
  rw [List.mem_flatMap]
  constructor
  · rintro ⟨fg, hfg, hmem⟩
    refine ⟨fg, hfg, ?_⟩
    simp only [List.mem_cons, Prod.mk.injEq, List.mem_singleton, List.not_mem_nil,
      or_false] at hmem
    rcases hmem with ⟨h1, h2⟩ | ⟨h1, h2⟩ | ⟨h1, h2⟩
    · exact ⟨0, by simp [Tri.col, h1, h2]⟩
    · exact ⟨1, by simp [Tri.col, h1, h2]⟩
    · exact ⟨2, by simp [Tri.col, h1, h2]⟩
  · rintro ⟨fg, hfg, j, h1, h2⟩
    refine ⟨fg, hfg, ?_⟩
    fin_cases j <;> simp [Tri.col] at h1 h2 <;> simp [h1, h2]

theorem mem_zip_of_mem_right (F G : Triangles) (hlen : F.length = G.length) (g : Tri)
    (hg : g ∈ G) : ∃ f, (f, g) ∈ F.zip G := by
  obtain ⟨k, hk, hgk⟩ := List.getElem_of_mem hg
  have hkF : k < F.length := by omega
  refine ⟨F[k], ?_⟩
  rw [List.mem_iff_getElem?]
  exact ⟨k, by simp [List.getElem?_zip_eq_some, List.getElem?_eq_getElem, hk, hkF, hgk]⟩

theorem cornerPairs_in_range (F G : Triangles) (n : Nat) (hin : InRange G n) :
    ∀ p ∈ cornerPairs F G, p.1 < n := by
  rintro ⟨u, v⟩ hp
  obtain ⟨fg, hfg, j, h1, -⟩ := (mem_cornerPairs F G u v).1 hp
  have hg : fg.2 ∈ G := (List.of_mem_zip (show (fg.1, fg.2) ∈ F.zip G from hfg)).2
  simpa [h1] using hin fg.2 hg j

theorem inRange_of_cornerPairs (F G : Triangles) (n : Nat) (hlen : F.length = G.length)
    (h : ∀ p ∈ cornerPairs F G, p.1 < n) : InRange G n := by
  intro g hg j
  obtain ⟨f, hf⟩ := mem_zip_of_mem_right F G hlen g hg
  exact h (g.col j, f.col j) ((mem_cornerPairs F G _ _).2 ⟨(f, g), hf, j, rfl, rfl⟩)

/-- The loop of `make_uv_to_vert_map`, started on a table of `INVALID` entries, when every
UV index is inside the table. -/
theorem uv_loop (n : Nat) (F G : Triangles) (hin : ∀ p ∈ cornerPairs F G, p.1 < n) :
    ∃ r, (F.zip G).foldlM uvMapStep (List.replicate n INVALID) = Except.ok r ∧
      r.length = n ∧
      ∀ i, i < n → r[i]? = some ((lastValue (cornerPairs F G) i).getD INVALID) := by
  obtain ⟨r, hr, hlen, hval⟩ :=
    foldlM_storeAt (cornerPairs F G) (List.replicate n INVALID) (by simpa using hin)
  refine ⟨r, by rw [foldlM_uvMapStep]; exact hr, by simpa using hlen, ?_⟩
  intro i hi
  rw [hval i]
  simp [hi, foldl_last_some]

theorem make_uv_to_vert_map_of_loop (n : Nat) (F G : Triangles) (r : List Nat)
    (hlen : F.length = G.length)
    (hr : (F.zip G).foldlM uvMapStep (List.replicate n INVALID) = Except.ok r) :
    make_uv_to_vert_map n F G =
      if INVALID ∈ r then Except.error Failure.fatal else Except.ok r := by
  simp only [make_uv_to_vert_map, hlen, ne_eq, not_true_eq_false, if_false, hr, bind,
    Except.bind, pure, Except.pure]

theorem make_uv_to_vert_map_mismatch (n : Nat) (F G : Triangles) (hlen : F.length ≠ G.length) :
    make_uv_to_vert_map n F G = Except.error Failure.fatal := by
  simp [make_uv_to_vert_map, hlen, bind, Except.bind, throw, throwThe, MonadExceptOf.throw]

theorem make_uv_to_vert_map_outside (n : Nat) (F G : Triangles) (hlen : F.length = G.length)
    (h : ∃ p ∈ cornerPairs F G, ¬ p.1 < n) :
    make_uv_to_vert_map n F G = Except.error Failure.outOfBounds := by
  have := foldlM_storeAt_error (cornerPairs F G) (List.replicate n INVALID) (by simpa using h)
  rw [← foldlM_uvMapStep] at this
  simp [make_uv_to_vert_map, hlen, this, bind, Except.bind, pure, Except.pure]

/-- What `make_uv_to_vert_map` returns when it returns. -/
theorem make_uv_to_vert_map_ok (n : Nat) (F G : Triangles) (r : List Nat)
    (h : make_uv_to_vert_map n F G = Except.ok r) :
    F.length = G.length ∧ InRange G n ∧ r.length = n ∧ INVALID ∉ r ∧
      ∀ i, i < n → r[i]? = some ((lastValue (cornerPairs F G) i).getD INVALID) := by
  have hlen : F.length = G.length := by
    by_contra hne
    rw [make_uv_to_vert_map_mismatch n F G hne] at h
    cases h
  have hin : ∀ p ∈ cornerPairs F G, p.1 < n := by
    by_contra hne
    push_neg at hne
    obtain ⟨p, hp, hlt⟩ := hne
    rw [make_uv_to_vert_map_outside n F G hlen ⟨p, hp, by omega⟩] at h
    cases h
  obtain ⟨r', hr', hlen', hval⟩ := uv_loop n F G hin
  rw [make_uv_to_vert_map_of_loop n F G r' hlen hr'] at h
  by_cases hinv : INVALID ∈ r'
  · rw [if_pos hinv] at h
    cases h
  · rw [if_neg hinv] at h
    cases h
    exact ⟨hlen, inRange_of_cornerPairs F G n hlen hin, hlen', hinv, hval⟩

/-- When `make_uv_to_vert_map` returns, every UV vertex index was stored to, and holds the
value stored last. -/
theorem lastValue_of_ok (n : Nat) (F G : Triangles) (r : List Nat)
    (h : make_uv_to_vert_map n F G = Except.ok r) (i : Nat) (hi : i < n) :
    ∃ v, lastValue (cornerPairs F G) i = some v ∧ r[i]? = some v := by
  obtain ⟨-, -, -, hinv, hval⟩ := make_uv_to_vert_map_ok n F G r h
  cases hlast : lastValue (cornerPairs F G) i with
  | none =>
    exfalso
    apply hinv
    have := hval i hi
    rw [hlast] at this
    exact List.mem_iff_getElem?.2 ⟨i, this⟩
  | some v =>
    refine ⟨v, rfl, ?_⟩
    rw [hval i hi, hlast]
    rfl

theorem referenced_of_lastValue (F G : Triangles) (i v : Nat)
    (h : lastValue (cornerPairs F G) i = some v) : ∃ g ∈ G, ∃ j : Fin 3, g.col j = i := by
  obtain ⟨fg, hfg, j, h1, -⟩ := (mem_cornerPairs F G i v).1 (lastValue_mem _ _ _ h)
  exact ⟨fg.2, (List.of_mem_zip (show (fg.1, fg.2) ∈ F.zip G from hfg)).2, j, h1⟩

theorem lastValue_of_referenced (F G : Triangles) (hlen : F.length = G.length) (i : Nat)
    (h : ∃ g ∈ G, ∃ j : Fin 3, g.col j = i) : ∃ v, lastValue (cornerPairs F G) i = some v := by
  obtain ⟨g, hg, j, hj⟩ := h
  obtain ⟨f, hf⟩ := mem_zip_of_mem_right F G hlen g hg
  exact lastValue_isSome _ _
    ⟨(i, f.col j), (mem_cornerPairs F G _ _).2 ⟨(f, g), hf, j, hj, rfl⟩, rfl⟩

/-- With the face counts equal and the UV indices inside the table, `make_uv_to_vert_map`
ends fatally as soon as one UV vertex index is referenced by no UV face. -/
theorem make_uv_to_vert_map_unreferenced (n : Nat) (F G : Triangles)
    (hlen : F.length = G.length) (hin : InRange G n) (href : ¬ AllReferenced G n) :
    make_uv_to_vert_map n F G = Except.error Failure.fatal := by
  obtain ⟨r, hr, -, hval⟩ := uv_loop n F G (cornerPairs_in_range F G n hin)
  rw [make_uv_to_vert_map_of_loop n F G r hlen hr]
  unfold AllReferenced at href
  push_neg at href
  obtain ⟨i, hi, hnone⟩ := href
  have hlast : lastValue (cornerPairs F G) i = none := by
    cases hl : lastValue (cornerPairs F G) i with
    | none => rfl
    | some v =>
      obtain ⟨g, hg, j, hj⟩ := referenced_of_lastValue F G i v hl
      exact absurd hj (hnone g hg j)
  have hmem : INVALID ∈ r := by
    have := hval i hi
    rw [hlast] at this
    exact List.mem_iff_getElem?.2 ⟨i, this⟩
  rw [if_pos hmem]

theorem set_tex_coords_eq (m : Mesh K) (coords : List (Vec2 K)) (uv_faces : Triangles) :
    Mesh.set_tex_coords m coords uv_faces =
      if coords.length < m.data.length then Except.error Failure.fatal
      else match make_uv_to_vert_map coords.length m.faces uv_faces with
        | Except.error e => Except.error e
        | Except.ok map => Except.ok
            { m with _tex_coords := coords, _tex_faces := uv_faces, _tex_to_vert := map,
                     shading_type := ShadingType.texture } := by
  by_cases h : coords.length < m.data.length
  · have h' : ¬ m.data.length ≤ coords.length := by omega
    simp [Mesh.set_tex_coords, h, h', bind, Except.bind, throw, throwThe, MonadExceptOf.throw]
  · have h' : m.data.length ≤ coords.length := by omega
    simp only [Mesh.set_tex_coords, h, h', not_true_eq_false, if_false, bind, Except.bind,
      pure, Except.pure]
    cases make_uv_to_vert_map coords.length m.faces uv_faces <;> rfl

/-- C3. Whenever `make_uv_to_vert_map(n_uv, F, G)` returns, the two face tables have the
same row count, every UV face index is below `n_uv`, the result has length `n_uv`, and for
every UV vertex index `i` below `n_uv` there are a row `f` and a column `j` with
`G(f, j) = i` and `r[i] = F(f, j)`. -/
theorem uv_map_parallel_corner (n_uv : Nat) (F G : Triangles) (r : List Nat)
    (h : make_uv_to_vert_map n_uv F G = Except.ok r) :
    r.length = n_uv ∧ InRange G n_uv ∧ F.length = G.length ∧
      ∀ i, i < n_uv → ∃ (f : Nat) (j : Fin 3) (g t : Tri),
        G[f]? = some g ∧ F[f]? = some t ∧ g.col j = i ∧ r[i]? = some (t.col j) := by
  obtain ⟨hlen, hin, hrlen, -, -⟩ := make_uv_to_vert_map_ok n_uv F G r h
  refine ⟨hrlen, hin, hlen, ?_⟩
  intro i hi
  obtain ⟨v, hlast, hri⟩ := lastValue_of_ok n_uv F G r h i hi
  obtain ⟨fg, hfg, j, h1, h2⟩ := (mem_cornerPairs F G i v).1 (lastValue_mem _ _ _ hlast)
  obtain ⟨f, hf⟩ := List.mem_iff_getElem?.1 hfg
  rw [List.getElem?_zip_eq_some] at hf
  exact ⟨f, j, fg.2, fg.1, hf.2, hf.1, h1, by rw [hri, h2]⟩

/-- C3 at a concrete call: two position faces `(0,1,2)`, `(3,4,5)` that share the UV face
`(0,1,2)`; the call returns and the map satisfies the statement. -/
theorem uv_map_parallel_corner_witness :
    make_uv_to_vert_map 3 [⟨0, 1, 2⟩, ⟨3, 4, 5⟩] [⟨0, 1, 2⟩, ⟨0, 1, 2⟩] = Except.ok [3, 4, 5] ∧
    ([3, 4, 5].length = 3 ∧ InRange [⟨0, 1, 2⟩, ⟨0, 1, 2⟩] 3 ∧
      [(⟨0, 1, 2⟩ : Tri), ⟨3, 4, 5⟩].length = [(⟨0, 1, 2⟩ : Tri), ⟨0, 1, 2⟩].length ∧
      ∀ i, i < 3 → ∃ (f : Nat) (j : Fin 3) (g t : Tri),
        [(⟨0, 1, 2⟩ : Tri), ⟨0, 1, 2⟩][f]? = some g ∧
        [(⟨0, 1, 2⟩ : Tri), ⟨3, 4, 5⟩][f]? = some t ∧ g.col j = i ∧
        [3, 4, 5][i]? = some (t.col j)) :=
  ⟨rfl, uv_map_parallel_corner 3 [⟨0, 1, 2⟩, ⟨3, 4, 5⟩] [⟨0, 1, 2⟩, ⟨0, 1, 2⟩] [3, 4, 5] rfl⟩

/-! ## C4, C5: failures of `Mesh::set_tex_coords` -/

/-- C4. `Mesh::set_tex_coords(uv_table, uv_faces)` never returns when the UV table has fewer
rows than the position table, or the UV face count differs from the position face count, or
some UV vertex index below the row count of the UV table is referenced by no UV face; and it
ends in a fatal precondition failure in each of these cases, provided that in the third one
no UV face index lies outside the UV table (such an index makes the code write outside the
map before the check is reached). -/
theorem set_tex_coords_fatal (m : Mesh K) (coords : List (Vec2 K)) (uv_faces : Triangles)
    (h : coords.length < m.data.length ∨ uv_faces.length ≠ m.faces.length ∨
      ¬ AllReferenced uv_faces coords.length) :
    (∀ m', Mesh.set_tex_coords m coords uv_faces ≠ Except.ok m') ∧
    ((coords.length < m.data.length ∨ uv_faces.length ≠ m.faces.length ∨
        InRange uv_faces coords.length) →
      Mesh.set_tex_coords m coords uv_faces = Except.error Failure.fatal) := by
  rw [set_tex_coords_eq]
  by_cases hrows : coords.length < m.data.length
  · simp [hrows]
  · rw [if_neg hrows]
    by_cases hcount : uv_faces.length = m.faces.length
    · have href : ¬ AllReferenced uv_faces coords.length := by tauto
      constructor
      · intro m' hm'
        cases hmap : make_uv_to_vert_map coords.length m.faces uv_faces with
        | error e => rw [hmap] at hm'; cases hm'
        | ok map =>
          apply href
          intro i hi
          obtain ⟨v, hlast, -⟩ := lastValue_of_ok _ _ _ _ hmap i hi
          exact referenced_of_lastValue _ _ i v hlast
      · intro hin
        have hin' : InRange uv_faces coords.length := by tauto
        rw [make_uv_to_vert_map_unreferenced _ _ _ hcount.symm hin' href]
    · rw [make_uv_to_vert_map_mismatch _ _ _ (fun e => hcount e.symm)]
      simp

/-- C4 at a concrete call: a mesh with one face `(0,1,2)` and three vertices is given a table
of four UV coordinates and the single UV face `(0,1,2)`, which leaves UV vertex 3
unreferenced. -/
theorem set_tex_coords_fatal_witness :
    ¬ AllReferenced [⟨0, 1, 2⟩] 4 ∧
    Mesh.set_tex_coords
      { Mesh.blank zeroHeap with data := List.replicate 3 (zeroHeap.verts 0),
                                 faces := [⟨0, 1, 2⟩] }
      (List.replicate 4 ⟨0, 0⟩) [⟨0, 1, 2⟩] = Except.error Failure.fatal :=
  ⟨fun h => by
      obtain ⟨f, hf, j, hj⟩ := h 3 (by decide)
      simp at hf
      subst hf
      fin_cases j <;> simp [Tri.col] at hj,
    (set_tex_coords_fatal
      { Mesh.blank zeroHeap with data := List.replicate 3 (zeroHeap.verts 0),
                                 faces := [⟨0, 1, 2⟩] }
      (List.replicate 4 ⟨0, 0⟩) [⟨0, 1, 2⟩]
      (Or.inr (Or.inr (fun h => by
        obtain ⟨f, hf, j, hj⟩ := h 3 (by simp)
        simp at hf
        subst hf
        fin_cases j <;> simp [Tri.col] at hj)))).2
      (Or.inr (Or.inr (fun f hf j => by
        simp at hf
        subst hf
        fin_cases j <;> simp [Tri.col])))⟩

/-- C5 fails as stated. The position faces `(0,1,2)`, `(1,2,3)` and the UV faces `(0,1,2)`,
`(0,2,3)` put UV vertex 0 at corner 0 of both rows, where the position faces hold the
different indices 0 and 1. Neither `make_uv_to_vert_map` nor `Mesh::set_tex_coords` fails:
the map is `[1, 1, 2, 3]`, UV vertex 0 being mapped to the index stored last. -/
theorem uv_map_conflict_accepted :
    (∃ (f f' : Nat) (j j' : Fin 3) (g g' t t' : Tri),
      [(⟨0, 1, 2⟩ : Tri), ⟨0, 2, 3⟩][f]? = some g ∧
      [(⟨0, 1, 2⟩ : Tri), ⟨0, 2, 3⟩][f']? = some g' ∧
      [(⟨0, 1, 2⟩ : Tri), ⟨1, 2, 3⟩][f]? = some t ∧
      [(⟨0, 1, 2⟩ : Tri), ⟨1, 2, 3⟩][f']? = some t' ∧
      g.col j = g'.col j' ∧ t.col j ≠ t'.col j') ∧
    make_uv_to_vert_map 4 [⟨0, 1, 2⟩, ⟨1, 2, 3⟩] [⟨0, 1, 2⟩, ⟨0, 2, 3⟩] =
      Except.ok [1, 1, 2, 3] ∧
    ∃ m', Mesh.set_tex_coords
        { Mesh.blank zeroHeap with data := List.replicate 4 (zeroHeap.verts 0),
                                   faces := [⟨0, 1, 2⟩, ⟨1, 2, 3⟩] }
        (List.replicate 4 ⟨0, 0⟩) [⟨0, 1, 2⟩, ⟨0, 2, 3⟩] = Except.ok m' ∧
      m'._tex_to_vert = [1, 1, 2, 3] :=
  ⟨⟨0, 1, 0, 0, ⟨0, 1, 2⟩, ⟨0, 2, 3⟩, ⟨0, 1, 2⟩, ⟨1, 2, 3⟩, rfl, rfl, rfl, rfl, rfl,
      by decide⟩,
    rfl, _, rfl, rfl⟩

/-- C5, as amended. `make_uv_to_vert_map` makes no check for conflicting corners: when the
two face tables have the same row count, every UV face index is below `n_uv`, every UV
vertex index below `n_uv` is referenced and no position face index is `(Index)-1`, the call
returns, and every UV vertex is mapped to the position index at the parallel corner of the
last corner, in row-major order, that holds it. -/
theorem uv_map_last_corner (n_uv : Nat) (F G : Triangles) (hlen : F.length = G.length)
    (hin : InRange G n_uv) (href : AllReferenced G n_uv)
    (hF : ∀ f ∈ F, ∀ j : Fin 3, f.col j ≠ INVALID) :
    ∃ r, make_uv_to_vert_map n_uv F G = Except.ok r ∧ r.length = n_uv ∧
      ∀ i, i < n_uv → r[i]? = lastValue (cornerPairs F G) i := by
  obtain ⟨r, hr, hrlen, hval⟩ := uv_loop n_uv F G (cornerPairs_in_range F G n_uv hin)
  have hsome : ∀ i, i < n_uv → r[i]? = lastValue (cornerPairs F G) i := by
    intro i hi
    obtain ⟨v, hv⟩ := lastValue_of_referenced F G hlen i (href i hi)
    rw [hval i hi, hv]
    rfl
  have hinv : INVALID ∉ r := by
    intro hmem
    obtain ⟨i, hi⟩ := List.mem_iff_getElem?.1 hmem
    have hlt : i < n_uv := by
      rw [← hrlen]
      exact (List.getElem?_eq_some.1 hi).1
    rw [hsome i hlt] at hi
    obtain ⟨fg, hfg, j, -, h2⟩ := (mem_cornerPairs F G i INVALID).1 (lastValue_mem _ _ _ hi)
    exact hF fg.1 (List.of_mem_zip (show (fg.1, fg.2) ∈ F.zip G from hfg)).1 j h2
  refine ⟨r, ?_, hrlen, hsome⟩
  rw [make_uv_to_vert_map_of_loop n_uv F G r hlen hr, if_neg hinv]

/-- C5, as amended, at the call of the counterexample: UV vertex 0 is mapped to 1, the
position index at the later of its two corners. -/
theorem uv_map_last_corner_witness :
    ∃ r, make_uv_to_vert_map 4 [⟨0, 1, 2⟩, ⟨1, 2, 3⟩] [⟨0, 1, 2⟩, ⟨0, 2, 3⟩] = Except.ok r ∧
      r.length = 4 ∧
      ∀ i, i < 4 → r[i]? =
        lastValue (cornerPairs [⟨0, 1, 2⟩, ⟨1, 2, 3⟩] [⟨0, 1, 2⟩, ⟨0, 2, 3⟩]) i :=
  uv_map_last_corner 4 [⟨0, 1, 2⟩, ⟨1, 2, 3⟩] [⟨0, 1, 2⟩, ⟨0, 2, 3⟩] rfl
    (fun f hf j => by
      simp at hf
      rcases hf with rfl | rfl <;> fin_cases j <;> simp [Tri.col])
    (fun i hi => by
      have : i = 0 ∨ i = 1 ∨ i = 2 ∨ i = 3 := by omega
      rcases this with rfl | rfl | rfl | rfl
      · exact ⟨⟨0, 1, 2⟩, by simp, 0, rfl⟩
      · exact ⟨⟨0, 1, 2⟩, by simp, 1, rfl⟩
      · exact ⟨⟨0, 1, 2⟩, by simp, 2, rfl⟩
      · exact ⟨⟨0, 2, 3⟩, by simp, 2, rfl⟩)
    (fun f hf j => by
      simp at hf
      rcases hf with rfl | rfl <;> fin_cases j <;> simp [Tri.col, INVALID])

/-! ## C8: `update` without a context -/

/-- C8. With no current rendering context, `Mesh::update(force_init)` and
`PointCloud::update(force_init)` return at once, for both values of `force_init`: the object
and the world, and so the log of GPU calls, are what they were. -/
theorem update_without_context (normalized : Vec3 K → Vec3 K) (heap : Heap K) (w : World K)
    (m : Mesh K) (p : PointCloud K) (force_init : Bool) (h : w.context = false) :
    Mesh.update normalized heap w m force_init = Except.ok (w, m) ∧
    PointCloud.update w p force_init = Except.ok (w, p) := by
  simp [Mesh.update, PointCloud.update, h, pure, Except.pure]

/-- C8 at a concrete world without a context, for a forced update. -/
theorem update_without_context_witness :
    idleWorld.context = false ∧
    (Mesh.update id zeroHeap idleWorld (Mesh.blank zeroHeap) true =
        Except.ok (idleWorld, Mesh.blank zeroHeap) ∧
      PointCloud.update idleWorld samplePoints true = Except.ok (idleWorld, samplePoints)) :=
  ⟨rfl, update_without_context id zeroHeap idleWorld (Mesh.blank zeroHeap) samplePoints true rfl⟩

/-! ## C19, C20: the local transform in exact arithmetic -/

section Transform

variable {F : Type} [Field F]

theorem scaleValTransform_apply (T : Matrix (Fin 4) (Fin 4) F) (k : F) (i j : Fin 4) :
    scaleValTransform T k i j = if i.val < 3 ∧ j.val < 3 then T i j * k else T i j := rfl

theorem scaleTransform_apply (T : Matrix (Fin 4) (Fin 4) F) (s : Vec3 F) (i j : Fin 4) :
    scaleTransform T s i j =
      if h : i.val < 3 ∧ j.val < 3 then T i j * s.get ⟨i.val, h.1⟩ else T i j := rfl

theorem rotateTransform_apply (T : Matrix (Fin 4) (Fin 4) F) (R : Matrix (Fin 3) (Fin 3) F)
    (i j : Fin 4) :
    rotateTransform T R i j =
      if h : i.val < 3 ∧ j.val < 3 then
        R ⟨i.val, h.1⟩ 0 * T 0 j + R ⟨i.val, h.1⟩ 1 * T 1 j + R ⟨i.val, h.1⟩ 2 * T 2 j
      else T i j := rfl

theorem scaleVal_rotate_comm (T : Matrix (Fin 4) (Fin 4) F) (k : F)
    (R : Matrix (Fin 3) (Fin 3) F) :
    rotateTransform (scaleValTransform T k) R = scaleValTransform (rotateTransform T R) k := by
  ext i j
  simp only [rotateTransform_apply, scaleValTransform_apply]
  by_cases h : i.val < 3 ∧ j.val < 3
  · have h0 : ((0 : Fin 4).val < 3 ∧ j.val < 3) := ⟨by decide, h.2⟩
    have h1 : ((1 : Fin 4).val < 3 ∧ j.val < 3) := ⟨by decide, h.2⟩
    have h2 : ((2 : Fin 4).val < 3 ∧ j.val < 3) := ⟨by decide, h.2⟩
    simp only [h, h0, h1, h2, and_self, dite_true, if_true]
    ring
  · simp only [h, dite_false, if_false]

/-- C19 fails as stated. Starting from the identity transform there are no uniform scale
factor `k` and 3x3 matrix `R` for which `scale(k)` followed by `rotate(R)` gives a transform
other than `rotate(R)` followed by `scale(k)`: both orders give the block `k R`. -/
theorem uniform_scale_rotate_same :
    ¬ ∃ (k : ℚ) (R : Matrix (Fin 3) (Fin 3) ℚ),
      ((emptyMesh.scaleVal k).rotate R).transform ≠
        ((emptyMesh.rotate R).scaleVal k).transform := by
  rintro ⟨k, R, h⟩
  exact h (scaleVal_rotate_comm _ k R)

/-- C20 fails as stated. On the shear with block rows `(1,1,0)`, `(0,1,0)`, `(0,0,1)`,
`scale((2,1,1))` multiplies row 0 by 2, which puts 2 at row 0, column 1; the block
multiplied on the right by `diag(2,1,1)` has column 0 multiplied by 2 and holds 1 there. -/
theorem scale_not_right_diagonal :
    ((emptyMesh.set_transform shearTransform).scale ⟨2, 1, 1⟩).transform 0 1 = 2 ∧
    (topLeftCorner shearTransform * Matrix.diagonal (Vec3.get (⟨2, 1, 1⟩ : Vec3 ℚ))) 0 1 = 1 ∧
    topLeftCorner ((emptyMesh.set_transform shearTransform).scale ⟨2, 1, 1⟩).transform ≠
      topLeftCorner shearTransform * Matrix.diagonal (Vec3.get (⟨2, 1, 1⟩ : Vec3 ℚ)) := by
  have h1 : ((emptyMesh.set_transform shearTransform).scale ⟨2, 1, 1⟩).transform 0 1 = 2 := by
    simp [Mesh.set_transform, Mesh.scale, scaleTransform_apply, shearTransform, Vec3.get]
  have h2 : (topLeftCorner shearTransform *
      Matrix.diagonal (Vec3.get (⟨2, 1, 1⟩ : Vec3 ℚ))) 0 1 = 1 := by
    simp [topLeftCorner, shearTransform, Matrix.mul_apply, Fin.sum_univ_three,
      Matrix.diagonal_apply, Vec3.get]
  refine ⟨h1, h2, ?_⟩
  intro h
  have h01 := congrFun (congrFun h 0) 1
  rw [h2] at h01
  have h3 : topLeftCorner ((emptyMesh.set_transform shearTransform).scale ⟨2, 1, 1⟩).transform
      0 1 = 2 := h1
  rw [h3] at h01
  norm_num at h01

/-- C20, as amended. `scale(s)` with a vector `s` multiplies row `i` of the 3x3 block by
`s_i`: the new block is the old block multiplied on the left by `diag(s)`, so the scale acts
along the world axes, after the transform held so far; the last column and the bottom row
are unchanged. -/
theorem scale_left_diagonal (m : Mesh F) (s : Vec3 F) :
    topLeftCorner (m.scale s).transform = Matrix.diagonal s.get * topLeftCorner m.transform ∧
    (∀ i j : Fin 3, (m.scale s).transform i.castSucc j.castSucc =
      s.get i * m.transform i.castSucc j.castSucc) ∧
    (∀ i : Fin 4, (m.scale s).transform i 3 = m.transform i 3) ∧
    (∀ j : Fin 4, (m.scale s).transform 3 j = m.transform 3 j) := by
  have hentry : ∀ i j : Fin 3, (m.scale s).transform i.castSucc j.castSucc =
      s.get i * m.transform i.castSucc j.castSucc := by
    intro i j
    have h : (i.castSucc : Fin 4).val < 3 ∧ (j.castSucc : Fin 4).val < 3 := ⟨i.isLt, j.isLt⟩
    simp only [Mesh.scale, scaleTransform_apply, dif_pos h]
    exact mul_comm _ _
  refine ⟨?_, hentry, ?_, ?_⟩
  · ext i j
    rw [Matrix.diagonal_mul]
    exact hentry i j
  · intro i
    have h : ¬ (i.val < 3 ∧ (3 : Fin 4).val < 3) := fun h => absurd h.2 (by decide)
    simp only [Mesh.scale, scaleTransform_apply, dif_neg h]
  · intro j
    have h : ¬ ((3 : Fin 4).val < 3 ∧ j.val < 3) := fun h => absurd h.1 (by decide)
    simp only [Mesh.scale, scaleTransform_apply, dif_neg h]

end Transform

/-! ## C15, C16, C17: release of GPU objects -/

theorem Texture.load_id (w w1 : World K) (t t1 : Texture K)
    (h : Texture.load w t = Except.ok (w1, t1)) :
    t1.id = if t.id = INVALID then w.names w.used else t.id := by
  unfold Texture.load at h
  by_cases hid : t.id = INVALID
  · rw [if_pos hid]
    simp only [hid, if_true, World.gen, bind, Except.bind, pure, Except.pure] at h
    repeat' split at h
    all_goals cases h <;> rfl
  · rw [if_neg hid]
    simp only [hid, if_false, bind, Except.bind, pure, Except.pure] at h
    repeat' split at h
    all_goals cases h <;> rfl

/-- C16. After a `load()` that returns, in a world whose driver does not hand out the
name with all bits set, the texture id is valid; the first `free_bufs` issues one call,
`glDeleteTextures` of that id, and leaves the id invalid; every further `free_bufs`, and the
destructor, then issue no call and change nothing; and `free_bufs` on a texture whose id is
invalid, as on one never loaded, issues no call. -/
theorem texture_free_bufs_idempotent (w w1 : World K) (t t1 : Texture K)
    (hload : Texture.load w t = Except.ok (w1, t1)) (hdrv : w.names w.used ≠ INVALID) :
    t1.id ≠ INVALID ∧
    (Texture.free_bufs w1 t1).1 = w1.call (GLCall.deleteTextures t1.id) ∧
    (Texture.free_bufs w1 t1).2.id = INVALID ∧
    (∀ w2 : World K, Texture.free_bufs w2 (Texture.free_bufs w1 t1).2 =
      (w2, (Texture.free_bufs w1 t1).2)) ∧
    (∀ w2 : World K, Texture.destroy w2 (Texture.free_bufs w1 t1).2 = w2) ∧
    (∀ (w0 : World K) (t0 : Texture K), t0.id = INVALID → (Texture.free_bufs w0 t0).1 = w0) := by
  have hid : t1.id ≠ INVALID := by
    rw [Texture.load_id w w1 t t1 hload]
    split
    · exact hdrv
    · assumption
  refine ⟨hid, ?_, ?_, ?_, ?_, ?_⟩
  · simp [Texture.free_bufs, hid]
  · simp [Texture.free_bufs]
  · intro w2
    simp [Texture.free_bufs]
  · intro w2
    simp [Texture.destroy, Texture.free_bufs]
  · intro w0 t0 h0
    simp [Texture.free_bufs, h0]

/-- C16 at a concrete texture: a colour texture is loaded in a world with a context,
which gives it the name 1. -/
theorem texture_free_bufs_idempotent_witness :
    ∃ w1 t1, Texture.load liveWorld sampleTexture = Except.ok (w1, t1) ∧
      liveWorld.names liveWorld.used ≠ INVALID ∧
      (Texture.free_bufs w1 t1).1 = w1.call (GLCall.deleteTextures 1) ∧
      (Texture.free_bufs w1 t1).2.id = INVALID ∧
      ∀ w2 : World ℚ, Texture.free_bufs w2 (Texture.free_bufs w1 t1).2 =
        (w2, (Texture.free_bufs w1 t1).2) :=
  ⟨_, _, rfl, by decide,
    (texture_free_bufs_idempotent liveWorld _ sampleTexture _ rfl (by decide)).2.1,
    (texture_free_bufs_idempotent liveWorld _ sampleTexture _ rfl (by decide)).2.2.1,
    (texture_free_bufs_idempotent liveWorld _ sampleTexture _ rfl (by decide)).2.2.2.1⟩

theorem Mesh.free_bufs_snd (w : World K) (m : Mesh K) : (Mesh.free_bufs w m).2 = m := rfl

theorem Mesh.free_bufs_calls (w : World K) (m : Mesh K) :
    (Mesh.free_bufs w m).1.calls = w.calls ++
      ((if m.VAO ≠ INVALID then [GLCall.deleteVertexArrays m.VAO] else []) ++
        (if m.VBO ≠ INVALID then [GLCall.deleteBuffers m.VBO] else []) ++
        (if m.EBO ≠ INVALID then [GLCall.deleteBuffers m.EBO] else []) ++
        (if m.blank_tex_id ≠ INVALID then [GLCall.deleteTextures m.blank_tex_id] else [])) := by
  by_cases h1 : m.VAO = INVALID <;> by_cases h2 : m.VBO = INVALID <;>
    by_cases h3 : m.EBO = INVALID <;> by_cases h4 : m.blank_tex_id = INVALID <;>
    simp [Mesh.free_bufs, World.call, h1, h2, h3, h4]

/-- C15 does not hold of the code. `Mesh::free_bufs` leaves the handles as they are, so for
every mesh whose vertex array handle is valid a second call issues the delete calls of the
first call once more, `glDeleteVertexArrays` of the same handle among them. -/
theorem mesh_free_bufs_twice (w : World K) (m : Mesh K) (h : m.VAO ≠ INVALID) :
    (Mesh.free_bufs w m).2 = m ∧
    ∃ rest, (Mesh.free_bufs w m).1.calls =
        w.calls ++ GLCall.deleteVertexArrays m.VAO :: rest ∧
      (Mesh.free_bufs (Mesh.free_bufs w m).1 (Mesh.free_bufs w m).2).1.calls =
        w.calls ++ GLCall.deleteVertexArrays m.VAO :: rest ++
          GLCall.deleteVertexArrays m.VAO :: rest := by
  refine ⟨rfl, (if m.VBO ≠ INVALID then [GLCall.deleteBuffers m.VBO] else []) ++
      (if m.EBO ≠ INVALID then [GLCall.deleteBuffers m.EBO] else []) ++
      (if m.blank_tex_id ≠ INVALID then [GLCall.deleteTextures m.blank_tex_id] else []), ?_, ?_⟩
  · rw [Mesh.free_bufs_calls, if_pos h]
    simp
  · rw [Mesh.free_bufs_snd, Mesh.free_bufs_calls, Mesh.free_bufs_calls, if_pos h]
    simp

/-- C15 on the empty mesh after `update()` in a world with a context: the buffers have
the names 1, 2, 3, and two calls of `free_bufs` delete each of them twice. -/
theorem mesh_free_bufs_twice_witness :
    ∃ w1 m1, Mesh.update id zeroHeap liveWorld emptyMesh false = Except.ok (w1, m1) ∧
      m1.VAO ≠ INVALID ∧ (Mesh.free_bufs w1 m1).2 = m1 ∧
      (Mesh.free_bufs (Mesh.free_bufs w1 m1).1 (Mesh.free_bufs w1 m1).2).1.calls =
        w1.calls ++ [GLCall.deleteVertexArrays 1, GLCall.deleteBuffers 2, GLCall.deleteBuffers 3,
          GLCall.deleteVertexArrays 1, GLCall.deleteBuffers 2, GLCall.deleteBuffers 3] :=
  ⟨_, _, rfl, by decide, (mesh_free_bufs_twice _ _ (by decide)).1, rfl⟩

/-- C17 fails as stated. The empty mesh is updated twice with `force_init` in a
world with a context and then destroyed. The first update creates the names 1, 2, 3, the
second one the names 4, 5, 6, and the destructor deletes 4, 5, 6 only: the vertex array 1
and the buffers 2 and 3 are never released. -/
theorem forced_update_leaks_handles :
    ∃ w1 m1 w2 m2, Mesh.update id zeroHeap liveWorld emptyMesh true = Except.ok (w1, m1) ∧
      Mesh.update id zeroHeap w1 m1 true = Except.ok (w2, m2) ∧
      (m1.VAO = 1 ∧ m1.VBO = 2 ∧ m1.EBO = 3) ∧ (m2.VAO = 4 ∧ m2.VBO = 5 ∧ m2.EBO = 6) ∧
      (GLCall.genVertexArrays 1 ∈ w2.calls ∧ GLCall.genBuffers 2 ∈ w2.calls ∧
        GLCall.genBuffers 3 ∈ w2.calls) ∧
      (Mesh.destroy w2 m2).calls = w2.calls ++
        [GLCall.deleteVertexArrays 4, GLCall.deleteBuffers 5, GLCall.deleteBuffers 6] ∧
      (∀ c ∈ (Mesh.destroy w2 m2).calls, c ≠ GLCall.deleteVertexArrays 1 ∧
        c ≠ GLCall.deleteBuffers 2 ∧ c ≠ GLCall.deleteBuffers 3) :=
  ⟨_, _, _, _, rfl, rfl, ⟨rfl, rfl, rfl⟩, ⟨rfl, rfl, rfl⟩, ⟨by decide, by decide, by decide⟩,
    rfl, by decide⟩

/-! ## Decimal digits -/

theorem digitChar_lt_ten (k : Nat) (hk : k < 10) :
    (Nat.digitChar k).isDigit = true ∧ (Nat.digitChar k).toNat - 48 = k := by
  interval_cases k <;> decide

theorem isDigit_props (c : Char) (h : c.isDigit = true) :
    c ≠ '/' ∧ c ≠ '-' ∧ c ≠ '+' ∧ isspace c.toNat = false := by
  simp only [Char.isDigit, Bool.and_eq_true, decide_eq_true_eq] at h
  obtain ⟨h1, h2⟩ := h
  have h1' : 48 ≤ c.toNat := h1
  have h2' : c.toNat ≤ 57 := h2
  refine ⟨?_, ?_, ?_, ?_⟩
  · rintro rfl; revert h1'; decide
  · rintro rfl; revert h1'; decide
  · rintro rfl; revert h1'; decide
  · simp only [isspace, decide_eq_false_iff_not]
    omega

theorem digitsValue_append (l r : List Char) (acc : Nat) :
    digitsValue (l ++ r) acc = digitsValue r (digitsValue l acc) := by
  simp [digitsValue, List.foldl_append]

theorem readDigits_append (l rest : List Char) (acc : Nat) (hl : ∀ c ∈ l, c.isDigit = true) :
    readDigits (l ++ rest) acc = readDigits rest (digitsValue l acc) := by
  induction l generalizing acc with
  | nil => rfl
  | cons c l ih =>
    have hc : c.isDigit = true := hl c (List.mem_cons_self _ _)
    simp only [List.cons_append, readDigits, hc, if_true]
    exact ih _ (fun d hd => hl d (List.mem_cons_of_mem _ hd))

/-- The digits `Nat.toDigitsCore` puts in front of `ds`. -/
theorem toDigitsCore_spec (fuel n : Nat) (ds : List Char) (h : n < fuel) :
    ∃ l, Nat.toDigitsCore 10 fuel n ds = l ++ ds ∧ l ≠ [] ∧ (∀ c ∈ l, c.isDigit = true) ∧
      ∀ acc, digitsValue l acc = acc * 10 ^ l.length + n := by
  induction fuel generalizing n ds with
  | zero => omega
  | succ fuel ih =>
    obtain ⟨hd1, hd2⟩ := digitChar_lt_ten (n % 10) (Nat.mod_lt _ (by decide))
    by_cases h0 : n / 10 = 0
    · refine ⟨[Nat.digitChar (n % 10)], ?_, by simp, ?_, ?_⟩
      · simp [Nat.toDigitsCore, h0]
      · intro c hc
        simp only [List.mem_singleton] at hc
        rw [hc]; exact hd1
      · intro acc
        simp only [digitsValue, List.foldl_cons, List.foldl_nil, hd2, List.length_singleton,
          pow_one]
        omega
    · obtain ⟨l, hl, -, hdig, hval⟩ := ih (n / 10) (Nat.digitChar (n % 10) :: ds) (by omega)
      refine ⟨l ++ [Nat.digitChar (n % 10)], ?_, by simp, ?_, ?_⟩
      · simp [Nat.toDigitsCore, h0, hl]
      · intro c hc
        rcases List.mem_append.1 hc with hc | hc
        · exact hdig c hc
        · simp only [List.mem_singleton] at hc
          rw [hc]; exact hd1
      · intro acc
        rw [digitsValue_append, hval]
        simp only [digitsValue, List.foldl_cons, List.foldl_nil, hd2, List.length_append,
          List.length_singleton, pow_succ]
        have := Nat.div_add_mod n 10
        nlinarith [this]

theorem showIndex_spec (n : Nat) :
    showIndex n ≠ [] ∧ (∀ c ∈ showIndex n, c.isDigit = true) ∧
      digitsValue (showIndex n) 0 = n := by
  obtain ⟨l, hl, hne, hdig, hval⟩ := toDigitsCore_spec (n + 1) n [] (Nat.lt_succ_self n)
  have : showIndex n = l := by simpa [showIndex, Nat.toDigits] using hl
  rw [this]
  exact ⟨hne, hdig, by simpa using hval 0⟩

/-- `atoll` of a non-empty string of decimal digits is their value. -/
theorem atoll_digits (l : List Char) (hne : l ≠ []) (hl : ∀ c ∈ l, c.isDigit = true) :
    atoll l = (digitsValue l 0 : Int) := by
  obtain ⟨c, cs, rfl⟩ := List.exists_cons_of_ne_nil hne
  obtain ⟨-, h2, h3, h4⟩ := isDigit_props c (hl c (List.mem_cons_self _ _))
  have hval : readDigits (c :: cs) 0 = digitsValue (c :: cs) 0 := by
    have := readDigits_append (c :: cs) [] 0 hl
    simpa [readDigits] using this
  unfold atoll
  rw [List.dropWhile_cons_of_neg (by simpa using h4)]
  split
  · rename_i heq; cases heq; exact absurd rfl h2
  · rename_i heq; cases heq; exact absurd rfl h3
  · rw [hval]

theorem faceIndex_showIndex (n : Nat) (h1 : 1 ≤ n) (h2 : n ≤ 4294967296) :
    faceIndex (showIndex n) = n - 1 := by
  obtain ⟨hne, hdig, hval⟩ := showIndex_spec n
  unfold faceIndex
  rw [atoll_digits _ hne hdig, hval]
  have : ((n : Int) % 4294967296).toNat = n % 4294967296 := by
    have : ((n : Int) % 4294967296) = ((n % 4294967296 : Nat) : Int) := by
      push_cast
      rfl
    rw [this, Int.toNat_natCast]
  rw [this]
  omega

theorem skipIndices_two (size fuel : Nat) : skipIndices size fuel 2 = 2 := by
  cases fuel <;> simp [skipIndices, isspace]

/-- Characters other than `/` and white space, read with `j = 0`, are collected in `num`. -/
theorem foldl_faceChar_number (d : List Char) (s : FaceScan) (hj : s.j = 0)
    (hd : ∀ c ∈ d, c ≠ '/' ∧ isspace c.toNat = false) :
    d.foldl faceChar s = { s with num := s.num ++ d } := by
  induction d generalizing s with
  | nil => simp
  | cons c d ih =>
    obtain ⟨h1, h2⟩ := hd c (List.mem_cons_self _ _)
    have hstep : faceChar s c = { s with num := s.num ++ [c] } := by
      simp [faceChar, h1, h2, hj]
    rw [List.foldl_cons, hstep,
      ih { s with num := s.num ++ [c] } hj (fun e he => hd e (List.mem_cons_of_mem _ he))]
    simp

/-- Characters other than white space, read with `j ≠ 0`, change `j` only. -/
theorem foldl_faceChar_extra (x : List Char) (s : FaceScan) (hj : s.j ≠ 0)
    (hx : ∀ c ∈ x, isspace c.toNat = false) :
    ∃ j, j ≠ 0 ∧ x.foldl faceChar s = { s with j := j } := by
  induction x generalizing s with
  | nil => exact ⟨s.j, hj, rfl⟩
  | cons c x ih =>
    have h2 := hx c (List.mem_cons_self _ _)
    by_cases h1 : c = '/'
    · have hstep : faceChar s c = { s with j := s.j + 1 } := by simp [faceChar, h1]
      obtain ⟨j, hj', hfold⟩ := ih { s with j := s.j + 1 } (by simp)
        (fun e he => hx e (List.mem_cons_of_mem _ he))
      exact ⟨j, hj', by rw [List.foldl_cons, hstep, hfold]⟩
    · have hstep : faceChar s c = s := by simp [faceChar, h1, h2, hj]
      obtain ⟨j, hj', hfold⟩ := ih s hj (fun e he => hx e (List.mem_cons_of_mem _ he))
      exact ⟨j, hj', by rw [List.foldl_cons, hstep, hfold]⟩


/-- The characters of a reference, read with `j = 0` and an empty `num`, leave the number
in `num`. -/
theorem foldl_faceChar_reference (d x : List Char) (acc : List Nat) (h : IsReference d x) :
    ∃ j, (x = [] → j = 0) ∧
      (d ++ x).foldl faceChar { j := 0, num := [], tmp_faces := acc } =
        { j := j, num := d, tmp_faces := acc } := by
  obtain ⟨hd, hx, hsp⟩ := h
  rw [List.foldl_append, foldl_faceChar_number d _ rfl hd]
  rcases hx with rfl | hx
  · exact ⟨0, fun _ => rfl, by simp⟩
  · obtain ⟨c, x', rfl⟩ : ∃ c x', x = c :: x' := by
      cases x with
      | nil => simp at hx
      | cons c x' => exact ⟨c, x', rfl⟩
    simp only [List.head?_cons, Option.some.injEq] at hx
    subst hx
    obtain ⟨j, -, hfold⟩ := foldl_faceChar_extra x'
      { j := 1, num := d, tmp_faces := acc } (by simp)
      (fun e he => hsp e (List.mem_cons_of_mem _ he))
    refine ⟨j, (fun h => by cases h), ?_⟩
    rw [List.foldl_cons]
    simpa [faceChar] using hfold

/-- A space, read with a number in `num`, moves the index of the number to `tmp_faces`. -/
theorem faceChar_space (j : Nat) (num : List Char) (acc : List Nat) :
    faceChar { j := j, num := num, tmp_faces := acc } ' ' =
      { j := 0, num := [], tmp_faces := acc ++ [faceIndex num] } := by
  simp [faceChar, isspace]

/-- The characters of a list of references, each after a space, read with a number `d`
in `num`. -/
theorem foldl_faceChar_references (refs : List (List Char × List Char)) (j : Nat)
    (d : List Char) (hd : d ≠ []) (acc : List Nat)
    (h : ∀ r ∈ refs, r.1 ≠ [] ∧ IsReference r.1 r.2) :
    ∃ j' d', d' ≠ [] ∧
      (refs.flatMap (fun r => ' ' :: (r.1 ++ r.2))).foldl faceChar
          { j := j, num := d, tmp_faces := acc } =
        { j := j', num := d', tmp_faces := acc ++ (d :: refs.map Prod.fst).dropLast.map faceIndex }
      ∧ d' = (d :: refs.map Prod.fst).getLast (by simp) := by
  induction refs generalizing j d acc with
  | nil => exact ⟨j, d, hd, by simp, by simp⟩
  | cons r refs ih =>
    obtain ⟨hr1, hr2⟩ := h r (List.mem_cons_self _ _)
    obtain ⟨j1, -, hfold1⟩ := foldl_faceChar_reference r.1 r.2 (acc ++ [faceIndex d]) hr2
    obtain ⟨j', d', hd', hfold, hlast⟩ := ih j1 r.1 hr1 (acc ++ [faceIndex d])
      (fun q hq => h q (List.mem_cons_of_mem _ hq))
    refine ⟨j', d', hd', ?_, ?_⟩
    · rw [List.flatMap_cons, List.foldl_append, List.foldl_cons, faceChar_space, hfold1, hfold]
      simp [List.dropLast]
    · rw [hlast]
      simp [List.getLast_cons]

theorem map_dropLast_getLast {α β : Type} (f : α → β) (l : List α) (h : l ≠ []) :
    l.dropLast.map f ++ [f (l.getLast h)] = l.map f := by
  have := congrArg (List.map f) (List.dropLast_append_getLast h)
  simpa using this

theorem drop_two_face_line (r : List Char) (rest : List Char) :
    ('f' :: ((' ' :: r) ++ rest)).drop 2 = r ++ rest := rfl

/-- What `load_basic_obj` appends to `tmp_faces` for a face line: `f`, then a space and a
reference, any number of times. -/
theorem scanFaceLine_references (refs : List (List Char × List Char)) (acc : List Nat)
    (h : ∀ r ∈ refs, r.1 ≠ [] ∧ IsReference r.1 r.2) :
    scanFaceLine acc ('f' :: refs.flatMap (fun r => ' ' :: (r.1 ++ r.2))) =
      acc ++ refs.map (fun r => faceIndex r.1) := by
  cases refs with
  | nil =>
    unfold scanFaceLine
    rw [skipIndices_two, List.flatMap_nil]
    show (if (List.foldl faceChar _ (List.drop 2 _)).num.length ≠ 0 then _ else _) = _
    simp only [List.drop_succ_cons, List.drop_nil, List.foldl_nil, List.length_nil, ne_eq,
      not_true_eq_false, if_false, List.map_nil, List.append_nil]
  | cons r refs =>
    obtain ⟨hr1, hr2⟩ := h r (List.mem_cons_self _ _)
    obtain ⟨j1, -, hfold1⟩ := foldl_faceChar_reference r.1 r.2 acc hr2
    obtain ⟨j', d', hd', hfold, hlast⟩ := foldl_faceChar_references refs j1 r.1 hr1 acc
      (fun q hq => h q (List.mem_cons_of_mem _ hq))
    have hlen : d'.length ≠ 0 := fun h0 => hd' (List.length_eq_zero.1 h0)
    unfold scanFaceLine
    rw [skipIndices_two, List.flatMap_cons]
    show (if (List.foldl faceChar _ (List.drop 2 _)).num.length ≠ 0 then _ else _) = _
    rw [drop_two_face_line, List.foldl_append, hfold1, hfold]
    show (if d'.length ≠ 0 then _ else _) = _
    rw [if_pos hlen, hlast, List.append_assoc,
      map_dropLast_getLast faceIndex _ (List.cons_ne_nil _ _), List.map_cons, List.map_map]
    simp only [List.map_cons, Function.comp_def]

/-! ## The line loop of `load_basic_obj` -/

theorem scanLine_vertex (rd : List Char → List K) (s : ObjScan K) (l : List Char)
    (h : isVertexLine l = true) : scanLine rd s l = scanVertexLine rd s l := by
  simp only [isVertexLine, decide_eq_true_eq] at h
  obtain ⟨h1, h2, h3⟩ := h
  unfold scanLine
  rw [if_neg (by rintro (h | h); exacts [by omega, h h2]), if_pos h3]

theorem scanLine_face (rd : List Char → List K) (s : ObjScan K) (l : List Char)
    (h : isFaceLine l = true) :
    scanLine rd s l = Except.ok { s with tmp_faces := scanFaceLine s.tmp_faces l } ∧
      isVertexLine l = false := by
  simp only [isFaceLine, decide_eq_true_eq] at h
  obtain ⟨h1, h2, h3⟩ := h
  have hv : l.head? ≠ some 'v' := by rw [h3]; decide
  constructor
  · unfold scanLine
    rw [if_neg (by rintro (h | h); exacts [by omega, h h2]), if_neg hv, if_pos h3]
    rfl
  · simp only [isVertexLine, decide_eq_false_iff_not]
    exact fun h => hv h.2.2

theorem scanLine_other (rd : List Char → List K) (s : ObjScan K) (l : List Char)
    (hv : isVertexLine l = false) (hf : isFaceLine l = false) :
    scanLine rd s l = Except.ok s := by
  simp only [isVertexLine, isFaceLine, decide_eq_false_iff_not, not_and] at hv hf
  unfold scanLine
  by_cases h1 : l.length < 2 ∨ l.get? 1 ≠ some ' '
  · rw [if_pos h1]; rfl
  · rw [if_neg h1]
    push_neg at h1
    rw [if_neg (hv (by omega) h1.2), if_neg (hf (by omega) h1.2)]
    rfl

theorem scanVertexLine_eq (rd : List Char → List K) (s : ObjScan K) (l : List Char) :
    scanVertexLine rd s l =
      if (if s.attrs_per_vert ≠ 0 then decide ((rd (l.drop 2)).length = s.attrs_per_vert)
          else decide ((rd (l.drop 2)).length = 3 ∨ (rd (l.drop 2)).length = 6)) = true then
        Except.ok { tmp_pos := s.tmp_pos ++ (rd (l.drop 2)).take 3,
                    tmp_rgb := s.tmp_rgb ++ (rd (l.drop 2)).drop 3,
                    tmp_faces := s.tmp_faces,
                    attrs_per_vert := if s.attrs_per_vert ≠ 0 then s.attrs_per_vert
                      else (rd (l.drop 2)).length }
      else Except.error Failure.fatal := by
  unfold scanVertexLine
  by_cases ha : s.attrs_per_vert = 0
  · by_cases hc : (rd (l.drop 2)).length = 3 ∨ (rd (l.drop 2)).length = 6
    · simp [ha, hc, pure, Except.pure]
    · simp [ha, hc, throw, throwThe, MonadExceptOf.throw]
  · by_cases hc : (rd (l.drop 2)).length = s.attrs_per_vert
    · simp [ha, hc, pure, Except.pure]
    · simp [ha, hc, throw, throwThe, MonadExceptOf.throw]

/-- The line loop of `load_basic_obj`: it ends fatally when the field counts of the vertex
lines do not pass the assertions, and otherwise leaves the numbers of the vertex lines and
the indices of the face lines in the local variables. -/
theorem foldlM_scanLine (rd : List Char → List K) (lines : List (List Char)) (s : ObjScan K) :
    lines.foldlM (scanLine rd) s =
      if countsPass s.attrs_per_vert
          ((lines.filter isVertexLine).map fun l => (rd (l.drop 2)).length) = true then
        Except.ok
          { tmp_pos := s.tmp_pos ++
              (lines.filter isVertexLine).flatMap fun l => (rd (l.drop 2)).take 3,
            tmp_rgb := s.tmp_rgb ++
              (lines.filter isVertexLine).flatMap fun l => (rd (l.drop 2)).drop 3,
            tmp_faces := (lines.filter isFaceLine).foldl scanFaceLine s.tmp_faces,
            attrs_per_vert := if s.attrs_per_vert ≠ 0 then s.attrs_per_vert
              else ((lines.filter isVertexLine).map fun l => (rd (l.drop 2)).length).headD 0 }
      else Except.error Failure.fatal := by
  induction lines generalizing s with
  | nil =>
    cases s
    simp only [List.foldlM_nil, List.filter_nil, List.map_nil, countsPass, if_true,
      List.flatMap_nil, List.append_nil, List.foldl_nil, List.headD_nil, pure, Except.pure]
    split <;> simp_all
  | cons l lines ih =>
    rw [List.foldlM_cons]
    by_cases hv : isVertexLine l = true
    · have hf : isFaceLine l = false := by
        simp only [isVertexLine, decide_eq_true_eq] at hv
        simp [isFaceLine, hv.2.2]
      rw [scanLine_vertex rd s l hv, scanVertexLine_eq]
      simp only [List.filter_cons, hv, hf, if_true, List.map_cons, List.flatMap_cons,
        countsPass, Bool.false_eq_true, if_false]
      by_cases ha : s.attrs_per_vert = 0
      · by_cases hc : (rd (l.drop 2)).length = 3 ∨ (rd (l.drop 2)).length = 6
        · have hne : (rd (l.drop 2)).length ≠ 0 := by omega
          simp [ha, hc, bind, Except.bind, ih, hne]
        · simp [ha, hc, bind, Except.bind]
      · by_cases hc : (rd (l.drop 2)).length = s.attrs_per_vert
        · simp [ha, hc, bind, Except.bind, ih]
        · simp [ha, hc, bind, Except.bind]
    · have hv' : isVertexLine l = false := by simpa using hv
      by_cases hf : isFaceLine l = true
      · rw [(scanLine_face rd s l hf).1]
        simp only [bind, Except.bind, ih, List.filter_cons, hv', hf, if_true,
          Bool.false_eq_true, if_false, List.foldl_cons]
      · have hf' : isFaceLine l = false := by simpa using hf
        rw [scanLine_other rd s l hv' hf']
        simp only [bind, Except.bind, ih, List.filter_cons, hv', hf', Bool.false_eq_true,
          if_false]

/-! ## The tables `load_basic_obj` builds -/

theorem length_pointRows : ∀ xs : List K, (pointRows xs).length = xs.length / 3
  | [] => by simp [pointRows]
  | [_] => by simp [pointRows]
  | [_, _] => by simp [pointRows]
  | _ :: _ :: _ :: rest => by
    have ih := length_pointRows rest
    simp only [pointRows, List.length_cons, ih]
    omega

theorem map_pos_setPos (d : List (Vertex K)) (ps : List (Vec3 K)) (h : d.length = ps.length) :
    (setPos d ps).map (fun v => v.pos) = ps := by
  induction d generalizing ps with
  | nil =>
    cases ps with
    | nil => rfl
    | cons p ps => simp at h
  | cons v d ih =>
    cases ps with
    | nil => simp at h
    | cons p ps =>
      simp only [setPos, List.zipWith_cons_cons, List.map_cons, List.cons.injEq, true_and]
      exact ih ps (by simpa using h)

theorem map_rgb_setRgb (d : List (Vertex K)) (cs : List (Vec3 K)) (h : d.length = cs.length) :
    (setRgb d cs).map (fun v => v.rgb) = cs ∧
      (setRgb d cs).map (fun v => v.pos) = d.map (fun v => v.pos) := by
  induction d generalizing cs with
  | nil =>
    cases cs with
    | nil => exact ⟨rfl, rfl⟩
    | cons p ps => simp at h
  | cons v d ih =>
    cases cs with
    | nil => simp at h
    | cons c cs =>
      obtain ⟨h1, h2⟩ := ih cs (by simpa using h)
      simp only [setRgb] at h1 h2
      simp [setRgb, h1, h2]

theorem length_setPos (d : List (Vertex K)) (ps : List (Vec3 K)) (h : d.length = ps.length) :
    (setPos d ps).length = ps.length := by
  simp [setPos, h]

theorem length_setRgb (d : List (Vertex K)) (cs : List (Vec3 K)) (h : d.length = cs.length) :
    (setRgb d cs).length = cs.length := by
  simp [setRgb, h]

theorem length_loadedData (heap : Heap K) (m : Mesh K) (s : ObjScan K)
    (h : s.tmp_rgb.length = 0 ∨ s.tmp_rgb.length = s.tmp_pos.length) :
    (loadedData heap m s).length = s.tmp_pos.length / 3 := by
  have h1 : (setPos (resizeRows heap.verts m.data (s.tmp_pos.length / 3))
      (pointRows s.tmp_pos)).length = s.tmp_pos.length / 3 := by
    rw [length_setPos _ _ (by rw [length_resizeRows, length_pointRows]), length_pointRows]
  unfold loadedData
  by_cases h0 : s.tmp_rgb.length = 0
  · simp only [h0, ne_eq, not_true_eq_false, if_false]
    exact h1
  · have h2 : s.tmp_rgb.length = s.tmp_pos.length := by tauto
    simp only [h0, ne_eq, not_false_eq_true, if_true]
    rw [length_setRgb _ _ (by rw [h1, length_pointRows, h2]), length_pointRows, h2]

/-- The part of `load_basic_obj` after the line loop, when the sizes of `tmp_pos` and
`tmp_rgb` pass the assertions on them. -/
theorem loadScanned_eq (heap : Heap K) (m : Mesh K) (s : ObjScan K)
    (h6 : s.attrs_per_vert = 6 →
      s.tmp_rgb.length = s.tmp_pos.length ∧ s.tmp_rgb.length % 3 = 0)
    (hn6 : s.attrs_per_vert ≠ 6 → s.tmp_rgb.length = 0) :
    Mesh.loadScanned heap m s =
      if s.tmp_faces.length % 3 ≠ 0 then Except.error Failure.fatal
      else
        (if s.tmp_faces.length ≠ 0 then Except.ok (triRows s.tmp_faces)
          else forUpTo (toIndex (loadedData heap m s).length)
            (fun i fs => Triangles.setData fs i i)
            (resizeRows heap.tris m.faces ((loadedData heap m s).length / 3))) >>= fun faces =>
        Except.ok { m with
          shading_type :=
            if s.attrs_per_vert = 6 then ShadingType.vertex else ShadingType.texture,
          data := loadedData heap m s, faces := faces, transform := 1 } := by
  unfold Mesh.loadScanned
  by_cases ha : s.attrs_per_vert = 6
  · obtain ⟨h1, h2⟩ := h6 ha
    have h2' : s.tmp_pos.length % 3 = 0 := h1 ▸ h2
    by_cases h3 : s.tmp_faces.length % 3 = 0 <;> by_cases hf : s.tmp_faces.length = 0 <;>
      simp only [ha, h1, h2', h3, hf, if_true, ne_eq, not_true_eq_false, not_false_eq_true,
        if_false, bind, Except.bind, pure, Except.pure, throw, throwThe, MonadExceptOf.throw]
  · have h1 := hn6 ha
    by_cases h3 : s.tmp_faces.length % 3 = 0 <;> by_cases hf : s.tmp_faces.length = 0 <;>
      simp only [ha, h1, h3, hf, if_true, ne_eq, not_true_eq_false, not_false_eq_true,
        if_false, bind, Except.bind, pure, Except.pure, throw, throwThe, MonadExceptOf.throw]

/-- The loop that numbers the storage of a face table fails when it runs past the table. -/
theorem fill_faces_outside (c : Nat) (fs : Triangles) (hc : 3 * fs.length < c) :
    forUpTo c (fun i acc => Triangles.setData acc i i) fs =
      Except.error Failure.outOfBounds := by
  induction c with
  | zero => omega
  | succ c ih =>
    rw [forUpTo_succ]
    by_cases h : 3 * fs.length < c
    · rw [ih h]; rfl
    · have hc' : c = 3 * fs.length := by omega
      obtain ⟨gs, hgs, hlen, -⟩ := fill_faces c fs (by omega)
      rw [hgs]
      have : ¬ c / 3 < gs.length := by omega
      simp [bind, Except.bind, Triangles.setData, this, throw, throwThe, MonadExceptOf.throw]

theorem countsPass_pos (a : Nat) (cs : List Nat) (ha : a ≠ 0) :
    countsPass a cs = true ↔ ∀ c ∈ cs, c = a := by
  induction cs with
  | nil => simp [countsPass]
  | cons c cs ih => simp [countsPass, ha, ih]

theorem countsPass_zero_cons (c0 : Nat) (rest : List Nat) :
    countsPass 0 (c0 :: rest) = true ↔ (c0 = 3 ∨ c0 = 6) ∧ ∀ c ∈ rest, c = c0 := by
  by_cases h : c0 = 3 ∨ c0 = 6
  · have hne : c0 ≠ 0 := by omega
    simp [countsPass, h, countsPass_pos c0 rest hne]
  · simp [countsPass, h]

theorem length_flatMap_const {α β : Type} (f : α → List β) (xs : List α) (k : Nat)
    (h : ∀ x ∈ xs, (f x).length = k) : (xs.flatMap f).length = xs.length * k := by
  induction xs with
  | nil => simp
  | cons x xs ih =>
    rw [List.flatMap_cons, List.length_append, h x (List.mem_cons_self _ _),
      ih (fun y hy => h y (List.mem_cons_of_mem _ hy)), List.length_cons]
    ring

/-- The local variables after the line loop of `load_basic_obj`, when the field counts of
the vertex lines pass the assertions. -/
theorem scan_ok (rd : List Char → List K) (lines : List (List Char))
    (hpass : countsPass 0
      ((lines.filter isVertexLine).map fun l => (rd (l.drop 2)).length) = true) :
    ∃ s, lines.foldlM (scanLine rd)
        { tmp_pos := [], tmp_rgb := [], tmp_faces := [], attrs_per_vert := 0 } = Except.ok s ∧
      s.tmp_pos = (lines.filter isVertexLine).flatMap (fun l => (rd (l.drop 2)).take 3) ∧
      s.tmp_rgb = (lines.filter isVertexLine).flatMap (fun l => (rd (l.drop 2)).drop 3) ∧
      s.tmp_faces = (lines.filter isFaceLine).foldl scanFaceLine [] ∧
      s.attrs_per_vert =
        ((lines.filter isVertexLine).map fun l => (rd (l.drop 2)).length).headD 0 ∧
      s.tmp_pos.length = (lines.filter isVertexLine).length * 3 ∧
      (s.attrs_per_vert = 6 →
        s.tmp_rgb.length = s.tmp_pos.length ∧ s.tmp_rgb.length % 3 = 0) ∧
      (s.attrs_per_vert ≠ 6 → s.tmp_rgb.length = 0) := by
  refine ⟨{ tmp_pos := (lines.filter isVertexLine).flatMap (fun l => (rd (l.drop 2)).take 3),
            tmp_rgb := (lines.filter isVertexLine).flatMap (fun l => (rd (l.drop 2)).drop 3),
            tmp_faces := (lines.filter isFaceLine).foldl scanFaceLine [],
            attrs_per_vert :=
              ((lines.filter isVertexLine).map fun l => (rd (l.drop 2)).length).headD 0 },
    ?_, rfl, rfl, rfl, rfl, ?_, ?_, ?_⟩
  · rw [foldlM_scanLine, if_pos hpass]
    simp
  all_goals
    generalize hvs : lines.filter isVertexLine = vs at hpass ⊢
    cases vs with
    | nil => simp
    | cons v vs =>
      simp only [List.map_cons, countsPass_zero_cons, List.mem_map, forall_exists_index,
        and_imp, forall_apply_eq_imp_iff₂] at hpass
      obtain ⟨hc, hall⟩ := hpass
      have hlen : ∀ l ∈ v :: vs, (rd (l.drop 2)).length = (rd (v.drop 2)).length := by
        intro l hl
        rcases List.mem_cons.1 hl with rfl | hl
        · rfl
        · exact hall l hl
      have hpos := length_flatMap_const (fun l => (rd (l.drop 2)).take 3) (v :: vs) 3
        (fun l hl => by simp only [List.length_take, hlen l hl]; omega)
      have hrgb := length_flatMap_const (fun l => (rd (l.drop 2)).drop 3) (v :: vs)
        ((rd (v.drop 2)).length - 3) (fun l hl => by simp only [List.length_drop, hlen l hl])
      simp only [List.map_cons, List.headD_cons]
      first
        | exact hpos
        | (intro h6
           rw [hpos, hrgb, h6]
           constructor
           · ring
           · omega)
        | (intro h6
           rw [hrgb]
           have : (rd (v.drop 2)).length = 3 := by omega
           rw [this]
           simp)

/-! ## C14, C30: face lines -/

theorem triRows_append (xs ys : List Nat) (h : xs.length % 3 = 0) :
    triRows (xs ++ ys) = triRows xs ++ triRows ys := by
  induction xs using triRows.induct with
  | case1 a b c rest ih =>
    have h' : rest.length % 3 = 0 := by
      simp only [List.length_cons] at h
      omega
    simp only [List.cons_append, triRows, List.cons.injEq, true_and]
    exact ih h'
  | case2 xs hxs =>
    match xs, hxs, h with
    | [], _, _ => simp [triRows]
    | [_], _, h => simp at h
    | [_, _], _, h => simp at h
    | a :: b :: c :: rest, hxs, _ => exact absurd rfl (hxs a b c rest)

theorem isReference_showIndex (i : Nat) (x : List Char)
    (hx : (x = [] ∨ x.head? = some '/') ∧ ∀ c ∈ x, isspace c.toNat = false) :
    showIndex i ≠ [] ∧ IsReference (showIndex i) x := by
  obtain ⟨hne, hdig, -⟩ := showIndex_spec i
  refine ⟨hne, fun c hc => ?_, hx.1, hx.2⟩
  obtain ⟨h1, -, -, h4⟩ := isDigit_props c (hdig c hc)
  exact ⟨h1, h4⟩

/-- C14, as amended. A face line `f r1 r2 r3` whose references are separated by single
spaces, each the decimal digits of an integer `i` with `1 ≤ i ≤ 2 ^ 32`, alone or followed by
`/` and further characters other than white space, makes the line loop of `load_basic_obj`
append `i1 - 1`, `i2 - 1`, `i3 - 1` to the face indices read so far, whatever follows the
slashes; when the indices read so far fill whole faces, this appends the face
`(i1 - 1, i2 - 1, i3 - 1)` to the face table. -/
theorem face_line_first_indices (rd : List Char → List K) (s : ObjScan K) (i1 i2 i3 : Nat)
    (x1 x2 x3 : List Char)
    (hi : ∀ i ∈ [i1, i2, i3], 1 ≤ i ∧ i ≤ 4294967296)
    (hx : ∀ x ∈ [x1, x2, x3],
      (x = [] ∨ x.head? = some '/') ∧ ∀ c ∈ x, isspace c.toNat = false) :
    scanLine rd s ('f' :: ' ' :: (showIndex i1 ++ x1 ++
        ' ' :: (showIndex i2 ++ x2 ++ ' ' :: (showIndex i3 ++ x3)))) =
      Except.ok { s with tmp_faces := s.tmp_faces ++ [i1 - 1, i2 - 1, i3 - 1] } ∧
    (s.tmp_faces.length % 3 = 0 →
      triRows (s.tmp_faces ++ [i1 - 1, i2 - 1, i3 - 1]) =
        triRows s.tmp_faces ++ [⟨i1 - 1, i2 - 1, i3 - 1⟩]) := by
  have hline : ('f' :: ' ' :: (showIndex i1 ++ x1 ++
        ' ' :: (showIndex i2 ++ x2 ++ ' ' :: (showIndex i3 ++ x3)))) =
      'f' :: [(showIndex i1, x1), (showIndex i2, x2), (showIndex i3, x3)].flatMap
        (fun r => ' ' :: (r.1 ++ r.2)) := by
    simp
  have hface : isFaceLine ('f' :: ' ' :: (showIndex i1 ++ x1 ++
        ' ' :: (showIndex i2 ++ x2 ++ ' ' :: (showIndex i3 ++ x3)))) = true := by
    simp [isFaceLine]
  have hrefs : ∀ r ∈ [(showIndex i1, x1), (showIndex i2, x2), (showIndex i3, x3)],
      r.1 ≠ [] ∧ IsReference r.1 r.2 := by
    intro r hr
    simp only [List.mem_cons, List.mem_singleton, List.not_mem_nil, or_false] at hr
    rcases hr with rfl | rfl | rfl
    · exact isReference_showIndex i1 x1 (hx x1 (by simp))
    · exact isReference_showIndex i2 x2 (hx x2 (by simp))
    · exact isReference_showIndex i3 x3 (hx x3 (by simp))
  have h1 := hi i1 (by simp)
  have h2 := hi i2 (by simp)
  have h3 := hi i3 (by simp)
  constructor
  · rw [(scanLine_face rd s _ hface).1, hline, scanFaceLine_references _ _ hrefs]
    simp only [List.map_cons, List.map_nil, faceIndex_showIndex i1 h1.1 h1.2,
      faceIndex_showIndex i2 h2.1 h2.2, faceIndex_showIndex i3 h3.1 h3.2]
  · intro h
    rw [triRows_append _ _ h]
    rfl

/-- C14, as amended, at the line `f 1/7/8 2//9 3`. -/
theorem face_line_first_indices_witness :
    scanLine readDigitFields
        { tmp_pos := [], tmp_rgb := [], tmp_faces := [], attrs_per_vert := 0 }
        ('f' :: ' ' :: (showIndex 1 ++ ['/', '7', '/', '8'] ++
          ' ' :: (showIndex 2 ++ ['/', '/', '9'] ++ ' ' :: (showIndex 3 ++ [])))) =
      Except.ok { tmp_pos := [], tmp_rgb := [], tmp_faces := [] ++ [1 - 1, 2 - 1, 3 - 1],
                  attrs_per_vert := 0 } :=
  (face_line_first_indices readDigitFields
    { tmp_pos := [], tmp_rgb := [], tmp_faces := [], attrs_per_vert := 0 } 1 2 3
    ['/', '7', '/', '8'] ['/', '/', '9'] [] (by decide) (by decide)).1

/-- C14 fails as stated. In the line `f 4294967297 2 3` the first reference is the positive
decimal integer `2 ^ 32 + 1`; `(Index) atoll(...)` keeps its low 32 bits, 1, and the index
read is 0 and not `2 ^ 32`: the file with this single line loads with the face `(0, 1, 2)`. -/
theorem face_line_index_wraps :
    showIndex 4294967297 = "4294967297".toList ∧
    scanFaceLine [] "f 4294967297 2 3".toList = [0, 1, 2] ∧
    4294967297 - 1 ≠ 0 ∧
    ∃ m', Mesh.load_basic_obj readDigitFields zeroHeap emptyMesh
        ["f 4294967297 2 3".toList] = Except.ok m' ∧ m'.faces = [⟨0, 1, 2⟩] :=
  ⟨by decide, by decide, by decide, _, rfl, rfl⟩

theorem faceChar_acc (acc t : List Nat) (j : Nat) (num : List Char) (c : Char) :
    faceChar { j := j, num := num, tmp_faces := acc ++ t } c =
      { faceChar { j := j, num := num, tmp_faces := t } c with
        tmp_faces := acc ++ (faceChar { j := j, num := num, tmp_faces := t } c).tmp_faces } := by
  unfold faceChar
  by_cases h1 : c = '/'
  · simp only [h1, if_true]
  · by_cases h2 : isspace c.toNat = true
    · simp only [h1, h2, if_true, if_false, List.append_assoc]
    · by_cases h3 : j = 0
      · simp only [h1, h2, h3, if_true, if_false, Bool.false_eq_true]
      · simp only [h1, h2, h3, if_false, Bool.false_eq_true]

theorem foldl_faceChar_acc (cs : List Char) (acc t : List Nat) (j : Nat) (num : List Char) :
    cs.foldl faceChar { j := j, num := num, tmp_faces := acc ++ t } =
      { cs.foldl faceChar { j := j, num := num, tmp_faces := t } with
        tmp_faces := acc ++ (cs.foldl faceChar { j := j, num := num, tmp_faces := t }).tmp_faces }
    := by
  induction cs generalizing t j num with
  | nil => rfl
  | cons c cs ih =>
    rw [List.foldl_cons, List.foldl_cons, faceChar_acc]
    exact ih _ _ _

/-- The indices of a face line are appended to the indices read so far. -/
theorem scanFaceLine_acc (acc : List Nat) (l : List Char) :
    scanFaceLine acc l = acc ++ scanFaceLine [] l := by
  unfold scanFaceLine
  have h := foldl_faceChar_acc (l.drop (skipIndices l.length l.length 2)) acc [] 0 []
  rw [List.append_nil] at h
  simp only [h]
  split
  · rw [List.append_assoc]
  · rfl

theorem foldl_scanFaceLine (ls : List (List Char)) (acc : List Nat) :
    ls.foldl scanFaceLine acc = acc ++ ls.flatMap (scanFaceLine []) := by
  induction ls generalizing acc with
  | nil => simp
  | cons l ls ih =>
    rw [List.foldl_cons, ih, scanFaceLine_acc acc l, List.flatMap_cons, List.append_assoc]

theorem getElem?_triRows : ∀ (xs : List Nat) (k : Nat), 3 * k + 2 < xs.length →
    ∃ t, (triRows xs)[k]? = some t ∧ xs[3 * k]? = some t.v0 ∧
      xs[3 * k + 1]? = some t.v1 ∧ xs[3 * k + 2]? = some t.v2
  | [], k, h => by simp at h
  | [_], k, h => by simp at h
  | [_, _], k, h => by simp at h
  | a :: b :: c :: rest, 0, _ => ⟨⟨a, b, c⟩, by simp [triRows]⟩
  | a :: b :: c :: rest, k + 1, h => by
    obtain ⟨t, h0, h1, h2, h3⟩ := getElem?_triRows rest k (by simp at h; omega)
    refine ⟨t, ?_, ?_, ?_, ?_⟩
    · simpa [triRows] using h0
    · rw [show 3 * (k + 1) = 3 * k + 1 + 1 + 1 by ring]
      simpa using h1
    · rw [show 3 * (k + 1) + 1 = 3 * k + 1 + 1 + 1 + 1 by ring]
      simpa using h2
    · rw [show 3 * (k + 1) + 2 = 3 * k + 2 + 1 + 1 + 1 by ring]
      simpa using h3
theorem map_pos_loadedData (heap : Heap K) (m : Mesh K) (s : ObjScan K)
    (h : s.tmp_rgb.length = 0 ∨ s.tmp_rgb.length = s.tmp_pos.length) :
    (loadedData heap m s).map (fun v => v.pos) = pointRows s.tmp_pos := by
  have hlen : (resizeRows heap.verts m.data (s.tmp_pos.length / 3)).length =
      (pointRows s.tmp_pos).length := by rw [length_resizeRows, length_pointRows]
  have h1 := map_pos_setPos _ _ hlen
  unfold loadedData
  by_cases h0 : s.tmp_rgb.length = 0
  · simp only [h0, ne_eq, not_true_eq_false, if_false]
    exact h1
  · have h2 : s.tmp_rgb.length = s.tmp_pos.length := by tauto
    simp only [h0, ne_eq, not_false_eq_true, if_true]
    rw [(map_rgb_setRgb _ _ (by
      rw [length_setPos _ _ hlen, length_pointRows, length_pointRows, h2])).2]
    exact h1

theorem map_rgb_loadedData (heap : Heap K) (m : Mesh K) (s : ObjScan K)
    (h : s.tmp_rgb.length = s.tmp_pos.length) :
    (loadedData heap m s).map (fun v => v.rgb) = pointRows s.tmp_rgb := by
  have hlen : (resizeRows heap.verts m.data (s.tmp_pos.length / 3)).length =
      (pointRows s.tmp_pos).length := by rw [length_resizeRows, length_pointRows]
  unfold loadedData
  by_cases h0 : s.tmp_rgb.length = 0
  · have hp : s.tmp_pos.length = 0 := by omega
    have e1 : s.tmp_rgb = [] := List.length_eq_zero.1 h0
    have e2 : s.tmp_pos = [] := List.length_eq_zero.1 hp
    simp [e1, e2, pointRows, setPos]
  · simp only [h0, ne_eq, not_false_eq_true, if_true]
    exact (map_rgb_setRgb _ _ (by
      rw [length_setPos _ _ hlen, length_pointRows, length_pointRows, h])).1

theorem load_basic_obj_fatal (rd : List Char → List K) (heap : Heap K) (m : Mesh K)
    (lines : List (List Char))
    (h : countsPass 0
      ((lines.filter isVertexLine).map fun l => (rd (l.drop 2)).length) = false) :
    Mesh.load_basic_obj rd heap m lines = Except.error Failure.fatal := by
  unfold Mesh.load_basic_obj
  rw [foldlM_scanLine]
  simp only [h, Bool.false_eq_true, if_false]
  rfl

/-- What `load_basic_obj` does after a line loop that passes the assertions on the field
counts. -/
theorem load_basic_obj_scanned (rd : List Char → List K) (heap : Heap K) (m : Mesh K)
    (lines : List (List Char))
    (hpass : countsPass 0
      ((lines.filter isVertexLine).map fun l => (rd (l.drop 2)).length) = true) :
    ∃ s : ObjScan K,
      s.tmp_pos = (lines.filter isVertexLine).flatMap (fun l => (rd (l.drop 2)).take 3) ∧
      s.tmp_rgb = (lines.filter isVertexLine).flatMap (fun l => (rd (l.drop 2)).drop 3) ∧
      s.tmp_faces = (lines.filter isFaceLine).flatMap (scanFaceLine []) ∧
      s.attrs_per_vert =
        ((lines.filter isVertexLine).map fun l => (rd (l.drop 2)).length).headD 0 ∧
      s.tmp_pos.length = (lines.filter isVertexLine).length * 3 ∧
      (s.tmp_rgb.length = 0 ∨ s.tmp_rgb.length = s.tmp_pos.length) ∧
      (s.attrs_per_vert = 6 → s.tmp_rgb.length = s.tmp_pos.length) ∧
      (loadedData heap m s).length = (lines.filter isVertexLine).length ∧
      Mesh.load_basic_obj rd heap m lines =
        if s.tmp_faces.length % 3 ≠ 0 then Except.error Failure.fatal
        else
          (if s.tmp_faces.length ≠ 0 then Except.ok (triRows s.tmp_faces)
            else forUpTo (toIndex (loadedData heap m s).length)
              (fun i fs => Triangles.setData fs i i)
              (resizeRows heap.tris m.faces ((loadedData heap m s).length / 3))) >>=
          fun faces => Except.ok { m with
            shading_type :=
              if s.attrs_per_vert = 6 then ShadingType.vertex else ShadingType.texture,
            data := loadedData heap m s, faces := faces, transform := 1 } := by
  obtain ⟨s, hs, hpos, hrgb, hfaces, hattrs, hlen, h6, hn6⟩ := scan_ok rd lines hpass
  have hor : s.tmp_rgb.length = 0 ∨ s.tmp_rgb.length = s.tmp_pos.length := by
    by_cases ha : s.attrs_per_vert = 6
    · exact Or.inr (h6 ha).1
    · exact Or.inl (hn6 ha)
  refine ⟨s, hpos, hrgb, ?_, hattrs, hlen, hor, fun ha => (h6 ha).1, ?_, ?_⟩
  · rw [hfaces, foldl_scanFaceLine, List.nil_append]
  · rw [length_loadedData heap m s hor, hlen]
    omega
  · unfold Mesh.load_basic_obj
    rw [hs]
    exact loadScanned_eq heap m s h6 hn6

theorem filter_vertex_of_kept (lines : List (List Char)) :
    (lines.filter fun l => isVertexLine l || isFaceLine l).filter isVertexLine =
      lines.filter isVertexLine := by
  rw [List.filter_filter]
  apply List.filter_congr
  intro l _
  cases isVertexLine l <;> simp

theorem filter_face_of_kept (lines : List (List Char)) :
    (lines.filter fun l => isVertexLine l || isFaceLine l).filter isFaceLine =
      lines.filter isFaceLine := by
  rw [List.filter_filter]
  apply List.filter_congr
  intro l _
  cases isFaceLine l <;> simp

/-- What `load_basic_obj` makes of the face lines, in terms of the indices that
`scanFaceLine` reads from each of them: lines that are neither vertex lines nor face lines
do not affect the result, the load ends fatally when the number of indices read is not
divisible by 3, and else the faces are the triples of the sequence read. -/
theorem load_faces_scanned (rd : List Char → List K) (heap : Heap K) (m : Mesh K)
    (lines : List (List Char)) :
    Mesh.load_basic_obj rd heap m lines =
      Mesh.load_basic_obj rd heap m (lines.filter fun l => isVertexLine l || isFaceLine l) ∧
    (countsPass 0 ((lines.filter isVertexLine).map fun l => (rd (l.drop 2)).length) = true →
      (((lines.filter isFaceLine).flatMap (scanFaceLine [])).length % 3 ≠ 0 →
        Mesh.load_basic_obj rd heap m lines = Except.error Failure.fatal) ∧
      (((lines.filter isFaceLine).flatMap (scanFaceLine [])).length % 3 = 0 →
        (lines.filter isFaceLine).flatMap (scanFaceLine []) ≠ [] →
        ∃ m', Mesh.load_basic_obj rd heap m lines = Except.ok m' ∧
          m'.faces = triRows ((lines.filter isFaceLine).flatMap (scanFaceLine [])) ∧
          ∀ k, 3 * k + 2 < ((lines.filter isFaceLine).flatMap (scanFaceLine [])).length →
            ∃ t, m'.faces[k]? = some t ∧
              ((lines.filter isFaceLine).flatMap (scanFaceLine []))[3 * k]? = some t.v0 ∧
              ((lines.filter isFaceLine).flatMap (scanFaceLine []))[3 * k + 1]? = some t.v1 ∧
              ((lines.filter isFaceLine).flatMap (scanFaceLine []))[3 * k + 2]? = some t.v2)) ∧
    (∀ refs : List (List Char × List Char), (∀ r ∈ refs, r.1 ≠ [] ∧ IsReference r.1 r.2) →
      scanFaceLine [] ('f' :: refs.flatMap (fun r => ' ' :: (r.1 ++ r.2))) =
        refs.map (fun r => faceIndex r.1)) ∧
    (∃ m', Mesh.load_basic_obj rd heap m ["f 1 2".toList, "f 3 4 5 6".toList] = Except.ok m' ∧
      m'.faces = [⟨0, 1, 2⟩, ⟨3, 4, 5⟩]) := by
  refine ⟨?_, ?_, ?_, ?_⟩
  · unfold Mesh.load_basic_obj
    rw [foldlM_scanLine, foldlM_scanLine, filter_vertex_of_kept, filter_face_of_kept]
  · intro hpass
    obtain ⟨s, -, -, hfaces, -, -, -, -, -, hload⟩ :=
      load_basic_obj_scanned rd heap m lines hpass
    rw [← hfaces]
    constructor
    · intro h3
      rw [hload, if_pos h3]
    · intro h3 hne
      have hlen : s.tmp_faces.length ≠ 0 := fun h0 => hne (List.length_eq_zero.1 h0)
      refine ⟨{ m with
          shading_type :=
            if s.attrs_per_vert = 6 then ShadingType.vertex else ShadingType.texture,
          data := loadedData heap m s, faces := triRows s.tmp_faces, transform := 1 },
        ?_, rfl, fun k hk => getElem?_triRows s.tmp_faces k hk⟩
      rw [hload, if_neg (by simpa using h3), if_pos hlen]
      rfl
  · intro refs hrefs
    rw [scanFaceLine_references refs [] hrefs, List.nil_append]
  · obtain ⟨s, -, -, hfaces, -, -, -, -, -, hload⟩ :=
      load_basic_obj_scanned rd heap m ["f 1 2".toList, "f 3 4 5 6".toList] rfl
    have hs : s.tmp_faces = [0, 1, 2, 3, 4, 5] := by
      rw [hfaces]
      decide
    refine ⟨{ m with
        shading_type :=
          if s.attrs_per_vert = 6 then ShadingType.vertex else ShadingType.texture,
        data := loadedData heap m s, faces := [⟨0, 1, 2⟩, ⟨3, 4, 5⟩], transform := 1 },
      ?_, rfl⟩
    rw [hload, hs]
    rfl

/-! ## C13: the shading mode of a loaded mesh -/

theorem pointRows_flatMap {α : Type} (vs : List α) (f : α → List K) (g : α → Vec3 K)
    (h : ∀ l ∈ vs, f l = [(g l).x, (g l).y, (g l).z]) :
    pointRows (vs.flatMap f) = vs.map g := by
  induction vs with
  | nil => simp [pointRows]
  | cons v vs ih =>
    rw [List.flatMap_cons, h v (List.mem_cons_self _ _)]
    have e : [(g v).x, (g v).y, (g v).z] ++ vs.flatMap f =
        (g v).x :: (g v).y :: (g v).z :: vs.flatMap f := rfl
    rw [e, pointRows, ih (fun l hl => h l (List.mem_cons_of_mem _ hl)), List.map_cons]

theorem counts_all_eq (rd : List Char → List K) (vs : List (List Char)) (c0 : Nat)
    (rest : List Nat) (hcounts : (vs.map fun l => (rd (l.drop 2)).length) = c0 :: rest)
    (hall : ∀ c ∈ rest, c = c0) : ∀ l ∈ vs, (rd (l.drop 2)).length = c0 := by
  intro l hl
  have hmem : (rd (l.drop 2)).length ∈ vs.map fun l => (rd (l.drop 2)).length :=
    List.mem_map.2 ⟨l, hl, rfl⟩
  rw [hcounts] at hmem
  rcases List.mem_cons.1 hmem with h | h
  · exact h
  · exact hall _ h

theorem take_three_of_length (xs : List K) (h : 3 ≤ xs.length) :
    ∃ x y z, xs.take 3 = [x, y, z] ∧ ∃ tl, xs = x :: y :: z :: tl := by
  match xs, h with
  | x :: y :: z :: tl, _ => exact ⟨x, y, z, rfl, tl, rfl⟩

theorem six_fields (xs : List K) (h : xs.length = 6) :
    ∃ x y z r g b, xs = [x, y, z, r, g, b] := by
  match xs, h with
  | [x, y, z, r, g, b], _ => exact ⟨x, y, z, r, g, b, rfl⟩

theorem three_fields (xs : List K) (h : xs.length = 3) : ∃ x y z, xs = [x, y, z] := by
  match xs, h with
  | [x, y, z], _ => exact ⟨x, y, z, rfl⟩

theorem countsPass_of_all (counts : List Nat) (c : Nat) (hc : c = 3 ∨ c = 6)
    (hall : ∀ x ∈ counts, x = c) : countsPass 0 counts = true := by
  cases counts with
  | nil => rfl
  | cons c0 rest =>
    have h0 : c0 = c := hall c0 (List.mem_cons_self _ _)
    rw [countsPass_zero_cons]
    exact ⟨h0 ▸ hc, fun x hx => (hall x (List.mem_cons_of_mem _ hx)).trans h0.symm⟩

/-- The mesh `load_basic_obj` leaves when it returns, for a file whose vertex lines all
carry `c` numbers, `c` being 3 or 6. -/
theorem load_basic_obj_rows (rd : List Char → List K) (heap : Heap K) (m : Mesh K)
    (lines : List (List Char)) (c : Nat) (hc : c = 3 ∨ c = 6)
    (hall : ∀ l ∈ lines.filter isVertexLine, (rd (l.drop 2)).length = c)
    (hne : lines.filter isVertexLine ≠ []) (m' : Mesh K)
    (hload : Mesh.load_basic_obj rd heap m lines = Except.ok m') :
    m'.shading_type = (if c = 6 then ShadingType.vertex else ShadingType.texture) ∧
    m'.data.map (fun v => v.pos) =
      (lines.filter isVertexLine).map (fun l => fieldsPos (rd (l.drop 2))) ∧
    (c = 6 → m'.data.map (fun v => v.rgb) =
      (lines.filter isVertexLine).map (fun l => fieldsRgb (rd (l.drop 2)))) ∧
    m'.transform = 1 ∧
    ((lines.filter isFaceLine).flatMap (scanFaceLine [])).length % 3 = 0 ∧
    ((lines.filter isFaceLine).flatMap (scanFaceLine []) ≠ [] →
      m'.faces = triRows ((lines.filter isFaceLine).flatMap (scanFaceLine []))) := by
  have hpass : countsPass 0
      ((lines.filter isVertexLine).map fun l => (rd (l.drop 2)).length) = true :=
    countsPass_of_all _ c hc (fun x hx => by
      obtain ⟨l, hl, rfl⟩ := List.mem_map.1 hx
      exact hall l hl)
  obtain ⟨s, hpos, hrgb, hfaces, hattrs, -, hor, h6, -, heq⟩ :=
    load_basic_obj_scanned rd heap m lines hpass
  have hattr : s.attrs_per_vert = c := by
    rw [hattrs]
    obtain ⟨v, vs, hvs⟩ := List.exists_cons_of_ne_nil hne
    rw [hvs, List.map_cons, List.headD_cons]
    exact hall v (by rw [hvs]; exact List.mem_cons_self _ _)
  have hposrows : pointRows s.tmp_pos =
      (lines.filter isVertexLine).map (fun l => fieldsPos (rd (l.drop 2))) := by
    rw [hpos]
    apply pointRows_flatMap
    intro l hl
    obtain ⟨x, y, z, -, tl, htl⟩ := take_three_of_length (rd (l.drop 2))
      (by rw [hall l hl]; omega)
    rw [htl]
    rfl
  have hrgbrows : c = 6 → pointRows s.tmp_rgb =
      (lines.filter isVertexLine).map (fun l => fieldsRgb (rd (l.drop 2))) := by
    intro h6'
    rw [hrgb]
    apply pointRows_flatMap
    intro l hl
    obtain ⟨x, y, z, r, g, b, hxs⟩ := six_fields (rd (l.drop 2)) (by rw [hall l hl, h6'])
    rw [hxs]
    rfl
  rw [← hfaces]
  rw [heq] at hload
  by_cases h3 : s.tmp_faces.length % 3 = 0
  · rw [if_neg (by simpa using h3)] at hload
    by_cases hf : s.tmp_faces.length = 0
    · rw [if_neg (by simpa using hf)] at hload
      cases hfill : forUpTo (toIndex (loadedData heap m s).length)
          (fun i fs => Triangles.setData fs i i)
          (resizeRows heap.tris m.faces ((loadedData heap m s).length / 3)) with
      | error e => rw [hfill] at hload; cases hload
      | ok gs =>
        rw [hfill] at hload
        cases hload
        refine ⟨by rw [hattr], ?_, ?_, rfl, h3, ?_⟩
        · exact (map_pos_loadedData heap m s hor).trans hposrows
        · intro h6'
          exact (map_rgb_loadedData heap m s (h6 (hattr.trans h6'))).trans (hrgbrows h6')
        · intro hne'
          exact absurd (List.length_eq_zero.1 hf) hne'
    · rw [if_pos hf] at hload
      cases hload
      refine ⟨by rw [hattr], ?_, ?_, rfl, h3, fun _ => rfl⟩
      · exact (map_pos_loadedData heap m s hor).trans hposrows
      · intro h6'
        exact (map_rgb_loadedData heap m s (h6 (hattr.trans h6'))).trans (hrgbrows h6')
  · rw [if_pos h3] at hload
    cases hload

/-- C13. For a file whose first vertex line carries `c0` numbers and whose later vertex lines
carry the counts `rest`: `load_basic_obj` ends fatally when `c0` is neither 3 nor 6 or when
some later count differs from `c0`; when every vertex line carries 6 numbers, a load that
returns leaves the mesh in vertex-colour mode, numbers 1-3 of each line being the position
and numbers 4-6 the colour of its vertex; when every vertex line carries 3 numbers, a load
that returns leaves the mesh in textured mode; and in both cases the load returns when the
face lines hold a non-zero number of references divisible by 3. -/
theorem load_shading_from_field_count (rd : List Char → List K) (heap : Heap K) (m : Mesh K)
    (lines : List (List Char)) (c0 : Nat) (rest : List Nat)
    (hcounts : ((lines.filter isVertexLine).map fun l => (rd (l.drop 2)).length) =
      c0 :: rest) :
    (((c0 ≠ 3 ∧ c0 ≠ 6) ∨ ∃ c ∈ rest, c ≠ c0) →
      Mesh.load_basic_obj rd heap m lines = Except.error Failure.fatal) ∧
    ((c0 = 6 ∧ ∀ c ∈ rest, c = 6) → ∀ m', Mesh.load_basic_obj rd heap m lines = Except.ok m' →
      m'.shading_type = ShadingType.vertex ∧
      m'.data.map (fun v => v.pos) =
        (lines.filter isVertexLine).map (fun l => fieldsPos (rd (l.drop 2))) ∧
      m'.data.map (fun v => v.rgb) =
        (lines.filter isVertexLine).map (fun l => fieldsRgb (rd (l.drop 2)))) ∧
    ((c0 = 3 ∧ ∀ c ∈ rest, c = 3) → ∀ m', Mesh.load_basic_obj rd heap m lines = Except.ok m' →
      m'.shading_type = ShadingType.texture ∧
      m'.data.map (fun v => v.pos) =
        (lines.filter isVertexLine).map (fun l => fieldsPos (rd (l.drop 2)))) ∧
    (((c0 = 3 ∨ c0 = 6) ∧ ∀ c ∈ rest, c = c0) →
      ((lines.filter isFaceLine).flatMap (scanFaceLine [])).length % 3 = 0 →
      (lines.filter isFaceLine).flatMap (scanFaceLine []) ≠ [] →
      ∃ m', Mesh.load_basic_obj rd heap m lines = Except.ok m') := by
  have hne : lines.filter isVertexLine ≠ [] := by
    intro h
    rw [h] at hcounts
    cases hcounts
  refine ⟨?_, ?_, ?_, ?_⟩
  · intro hbad
    apply load_basic_obj_fatal
    rw [hcounts]
    cases hp : countsPass 0 (c0 :: rest) with
    | false => rfl
    | true =>
      exfalso
      obtain ⟨h1, h2⟩ := (countsPass_zero_cons c0 rest).1 hp
      rcases hbad with ⟨h3, h6⟩ | ⟨c, hc, hcne⟩
      · omega
      · exact hcne (h2 c hc)
  · rintro ⟨rfl, hall⟩ m' hload
    obtain ⟨h1, h2, h3, -⟩ := load_basic_obj_rows rd heap m lines 6 (Or.inr rfl)
      (counts_all_eq rd _ 6 rest hcounts hall) hne m' hload
    exact ⟨by simpa using h1, h2, h3 rfl⟩
  · rintro ⟨rfl, hall⟩ m' hload
    obtain ⟨h1, h2, -⟩ := load_basic_obj_rows rd heap m lines 3 (Or.inl rfl)
      (counts_all_eq rd _ 3 rest hcounts hall) hne m' hload
    exact ⟨by simpa using h1, h2⟩
  · rintro ⟨hc, hall⟩ h3 hrefs
    have hpass : countsPass 0
        ((lines.filter isVertexLine).map fun l => (rd (l.drop 2)).length) = true := by
      rw [hcounts, countsPass_zero_cons]
      exact ⟨hc, hall⟩
    obtain ⟨s, -, -, hfaces, -, -, -, -, -, heq⟩ :=
      load_basic_obj_scanned rd heap m lines hpass
    rw [← hfaces] at h3 hrefs
    have hlen : s.tmp_faces.length ≠ 0 := fun h0 => hrefs (List.length_eq_zero.1 h0)
    rw [heq, if_neg (by simpa using h3), if_pos hlen]
    exact ⟨_, rfl⟩

/-- C13 at a file with three vertex lines of six numbers and the face line `f 1 2 3`: the
load returns a mesh in vertex-colour mode. -/
theorem load_shading_from_field_count_witness :
    ((sampleObjLines.filter isVertexLine).map fun l => (readDigitFields (l.drop 2)).length) =
      6 :: [6, 6] ∧
    ∃ m', Mesh.load_basic_obj readDigitFields zeroHeap emptyMesh sampleObjLines =
        Except.ok m' ∧ m'.shading_type = ShadingType.vertex := by
  have h := load_shading_from_field_count readDigitFields zeroHeap emptyMesh sampleObjLines
    6 [6, 6] (by decide)
  obtain ⟨m', hm'⟩ := h.2.2.2 ⟨Or.inr rfl, by decide⟩ (by decide) (by decide)
  exact ⟨by decide, m', hm', (h.2.1 ⟨rfl, by decide⟩ m' hm').1⟩

/-! ## C12: a file without face lines -/

/-- C12 does not hold of the code. For a file with `n` vertex lines, all with 3 or all with 6
numbers, and no face reference, `n` below `2 ^ 32`: when `n` is divisible by 3 the load
returns with the faces `(3k, 3k+1, 3k+2)`, the face table that `Mesh::resize(n, 0)` builds;
when `n` is not divisible by 3, `Mesh::resize(n, 0)` ends in a fatal precondition failure
but `load_basic_obj`, which lacks the assertion, writes outside its face table. -/
theorem load_default_faces (rd : List Char → List K) (heap : Heap K) (m : Mesh K)
    (lines : List (List Char)) (c : Nat) (hc : c = 3 ∨ c = 6)
    (hall : ∀ l ∈ lines.filter isVertexLine, (rd (l.drop 2)).length = c)
    (hnone : (lines.filter isFaceLine).flatMap (scanFaceLine []) = [])
    (hn : (lines.filter isVertexLine).length < 4294967296) :
    ((lines.filter isVertexLine).length % 3 = 0 →
      ∃ m', Mesh.load_basic_obj rd heap m lines = Except.ok m' ∧
        m'.faces.length = (lines.filter isVertexLine).length / 3 ∧
        (∀ k, k < (lines.filter isVertexLine).length / 3 →
          m'.faces[k]? = some ⟨3 * k, 3 * k + 1, 3 * k + 2⟩) ∧
        ∃ r, Mesh.resize heap m (lines.filter isVertexLine).length 0 = Except.ok r ∧
          r.faces = m'.faces) ∧
    ((lines.filter isVertexLine).length % 3 ≠ 0 →
      Mesh.load_basic_obj rd heap m lines = Except.error Failure.outOfBounds ∧
      Mesh.resize heap m (lines.filter isVertexLine).length 0 =
        Except.error Failure.fatal) := by
  have hpass : countsPass 0
      ((lines.filter isVertexLine).map fun l => (rd (l.drop 2)).length) = true :=
    countsPass_of_all _ c hc (fun x hx => by
      obtain ⟨l, hl, rfl⟩ := List.mem_map.1 hx
      exact hall l hl)
  obtain ⟨s, -, -, hfaces, -, -, -, -, hlen, heq⟩ :=
    load_basic_obj_scanned rd heap m lines hpass
  rw [hnone] at hfaces
  have h0 : s.tmp_faces.length = 0 := by rw [hfaces]; rfl
  rw [h0, hlen, toIndex_of_lt hn] at heq
  simp only [Nat.zero_mod, ne_eq, not_true_eq_false, if_false] at heq
  constructor
  · intro h3
    obtain ⟨gs, hgs, hglen, hcol⟩ := fill_faces (lines.filter isVertexLine).length
      (resizeRows heap.tris m.faces ((lines.filter isVertexLine).length / 3))
      (by rw [length_resizeRows]; omega)
    rw [length_resizeRows] at hglen
    refine ⟨{ m with
        shading_type :=
          if s.attrs_per_vert = 6 then ShadingType.vertex else ShadingType.texture,
        data := loadedData heap m s, faces := gs, transform := 1 },
      ?_, hglen, fun k hk => default_faces_of_cols gs _ _ hglen
      (length_resizeRows _ _ _) h3 hcol k hk, ?_⟩
    · rw [heq, hgs]
      rfl
    · refine ⟨{ m with data := resizeRows heap.verts m.data (lines.filter isVertexLine).length,
                       faces := gs, transform := 1 }, ?_, rfl⟩
      simp only [Mesh.resize, h3, toIndex_of_lt hn, hgs, if_true, ne_eq, not_true_eq_false,
        if_false, bind, Except.bind, pure, Except.pure]
  · intro h3
    refine ⟨?_, resize_fatal heap m _ h3⟩
    rw [heq, fill_faces_outside _ _ (by rw [length_resizeRows]; omega)]
    rfl

/-- C12 at a file with four vertex lines and no face line: the load writes outside the face
table, which has one row, where `Mesh::resize(4, 0)` fails fatally. -/
theorem load_default_faces_witness :
    (fourVertexLines.filter isVertexLine).length = 4 ∧
    Mesh.load_basic_obj readDigitFields zeroHeap emptyMesh fourVertexLines =
      Except.error Failure.outOfBounds ∧
    Mesh.resize zeroHeap emptyMesh 4 0 = Except.error Failure.fatal :=
  ⟨by decide,
    (load_default_faces readDigitFields zeroHeap emptyMesh fourVertexLines 3 (Or.inl rfl)
      (by decide) (by decide) (by decide)).2 (by decide)⟩

/-! ## C11: saving and loading again -/

section RoundTrip

variable {F : Type} [Field F]

end RoundTrip

theorem gl_load_mipmap_valid (w : World K) (width height chnls : Nat) (pixels : Pixels K)
    (h : chnls = 1 ∨ chnls = 3 ∨ chnls = 4) :
    gl_load_mipmap w width height chnls pixels =
      Except.ok { w with calls := w.calls ++ uploadImageCalls width height chnls pixels } := by
  unfold gl_load_mipmap
  rw [if_pos h]
  simp [World.call, uploadImageCalls, formatOf, pure, Except.pure]

theorem gl_load_mipmap_invalid (w : World K) (width height chnls : Nat) (pixels : Pixels K)
    (h : ¬ (chnls = 1 ∨ chnls = 3 ∨ chnls = 4)) :
    gl_load_mipmap w width height chnls pixels = Except.error Failure.fatal := by
  unfold gl_load_mipmap
  rw [if_neg h]
  rfl

/-- The world after the calls `Texture::load` issues before it picks the source. -/
theorem Texture.load_eq (w : World K) (t : Texture K) :
    Texture.load w t =
      (if t.im_data.length ≠ 0 then
        gl_load_mipmap
          { w with used := if t.id = INVALID then w.used + 1 else w.used,
                   calls := w.calls ++ setupCalls w t }
          (imageCols t.im_data / t.n_channels) t.im_data.length t.n_channels
          (Pixels.floats t.im_data) >>= fun w1 =>
        Except.ok (w1, { t with id := loadedId w t })
      else if t.path.length ≠ 0 then
        match w.decode t.path t.flip with
        | some d =>
          gl_load_mipmap
            { w with used := if t.id = INVALID then w.used + 1 else w.used,
                     calls := w.calls ++ setupCalls w t }
            d.width d.height d.chnls (Pixels.bytes d.data) >>= fun w1 =>
          Except.ok (w1, { t with id := loadedId w t, im_data := decodedImage d,
                                  n_channels := d.chnls })
        | none =>
          gl_load_mipmap
            { w with used := if t.id = INVALID then w.used + 1 else w.used,
                     calls := w.calls ++ setupCalls w t,
                     stderr := w.stderr ++
                       ["Failed to load texture " ++ t.path ++ ", using fallback color"] }
            1 1 3 (Pixels.colour t.fallback_color) >>= fun w1 =>
          Except.ok (w1, { t with id := loadedId w t })
      else
        gl_load_mipmap
          { w with used := if t.id = INVALID then w.used + 1 else w.used,
                   calls := w.calls ++ setupCalls w t }
          1 1 3 (Pixels.colour t.fallback_color) >>= fun w1 =>
        Except.ok (w1, { t with id := loadedId w t })) := by
  unfold Texture.load
  by_cases hid : t.id = INVALID
  · by_cases him : t.im_data.length = 0
    · by_cases hp : t.path.length = 0
      · simp [hid, him, hp, World.gen, World.call, World.log, setupCalls, loadedId, bind,
          Except.bind, pure, Except.pure]
      · cases hd : w.decode t.path t.flip <;>
          simp [hid, him, hp, hd, World.gen, World.call, World.log, setupCalls, loadedId, bind,
            Except.bind, pure, Except.pure]
    · simp [hid, him, World.gen, World.call, World.log, setupCalls, loadedId, bind,
        Except.bind, pure, Except.pure]
  · by_cases him : t.im_data.length = 0
    · by_cases hp : t.path.length = 0
      · simp [hid, him, hp, World.gen, World.call, World.log, setupCalls, loadedId, bind,
          Except.bind, pure, Except.pure]
      · cases hd : w.decode t.path t.flip <;>
          simp [hid, him, hp, hd, World.gen, World.call, World.log, setupCalls, loadedId, bind,
            Except.bind, pure, Except.pure]
    · simp [hid, him, World.gen, World.call, World.log, setupCalls, loadedId, bind,
        Except.bind, pure, Except.pure]

theorem imageCols_decodedImage (d : Decoded) (h : d.height ≠ 0) :
    imageCols (decodedImage d : List (List K)) = d.width * d.chnls := by
  unfold decodedImage
  obtain ⟨n, hn⟩ := Nat.exists_eq_succ_of_ne_zero h
  rw [hn, List.range_succ_eq_map]
  simp [imageCols]

theorem length_decodedImage (d : Decoded) :
    (decodedImage d : List (List K)).length = d.height := by
  simp [decodedImage]

/-- C23, as the code has it: `Texture::load` ends the process exactly when the image it is
about to upload, the in-memory one or else the decoded file, has a channel count other than
1, 3 and 4; in every other case it returns with the handle it had or the new name the driver
gave, which is valid when the driver does not hand out the name 2^32 - 1. -/
theorem load_fatal_iff_channels (w : World K) (t : Texture K) :
    (¬ (sourceChannels w t = 1 ∨ sourceChannels w t = 3 ∨ sourceChannels w t = 4) →
        Texture.load w t = Except.error Failure.fatal) ∧
    ((sourceChannels w t = 1 ∨ sourceChannels w t = 3 ∨ sourceChannels w t = 4) →
        ∃ w1 t1, Texture.load w t = Except.ok (w1, t1) ∧
          t1.id = loadedId w t ∧
          ((t.id = INVALID → w.names w.used ≠ INVALID) → t1.id ≠ INVALID)) := by
  have hvalid : ∀ t1 : Texture K, t1.id = loadedId w t →
      ((t.id = INVALID → w.names w.used ≠ INVALID) → t1.id ≠ INVALID) := by
    intro t1 h1 hn
    rw [h1]
    unfold loadedId
    by_cases hid : t.id = INVALID
    · rw [if_pos hid]
      exact hn hid
    · rw [if_neg hid]
      exact hid
  rw [Texture.load_eq]
  unfold sourceChannels
  by_cases him : t.im_data.length ≠ 0
  · rw [if_pos him, if_pos him]
    constructor
    · intro h
      rw [gl_load_mipmap_invalid _ _ _ _ _ h]
      rfl
    · intro h
      rw [gl_load_mipmap_valid _ _ _ _ _ h]
      exact ⟨_, _, rfl, rfl, hvalid _ rfl⟩
  · rw [if_neg him, if_neg him]
    by_cases hp : t.path.length ≠ 0
    · rw [if_pos hp, if_pos hp]
      cases hd : w.decode t.path t.flip with
      | none =>
        constructor
        · intro h
          exact absurd (Or.inr (Or.inl rfl)) h
        · intro _
          rw [gl_load_mipmap_valid _ _ _ _ _ (Or.inr (Or.inl rfl))]
          exact ⟨_, _, rfl, rfl, hvalid _ rfl⟩
      | some d =>
        constructor
        · intro h
          show (gl_load_mipmap _ d.width d.height d.chnls _ >>= _) = _
          rw [gl_load_mipmap_invalid _ _ _ _ _ h]
          rfl
        · intro h
          show ∃ w1 t1, (gl_load_mipmap _ d.width d.height d.chnls _ >>= _) = _ ∧ _
          rw [gl_load_mipmap_valid _ _ _ _ _ h]
          exact ⟨_, _, rfl, rfl, hvalid _ rfl⟩
    · rw [if_neg hp, if_neg hp]
      constructor
      · intro h
        exact absurd (Or.inr (Or.inl rfl)) h
      · intro _
        rw [gl_load_mipmap_valid _ _ _ _ _ (Or.inr (Or.inl rfl))]
        exact ⟨_, _, rfl, rfl, hvalid _ rfl⟩

/-- C23, counterexample: a file the decoder reads as a 1x1 image with two channels makes
`Texture::load` end the process at the assertion of `gl_load_mipmap`. -/
theorem load_two_channels_fatal :
    Texture.load greyAlphaWorld fileTexture = Except.error Failure.fatal := by
  rw [Texture.load_eq]
  rfl

/-- C26, as the code has it: `PointCloud(pos, rgb)` with a non-empty `rgb` whose row count
differs from that of `pos` does not end the process: it writes one line to `std::cerr` and
returns the object that `PointCloud(pos.rows())` built, with `pos.rows()` rows that were
never assigned. -/
theorem pointcloud_mismatch_returns (heap : Heap K) (w : World K) (pos rgb : List (Vec3 K))
    (hrgb : rgb.length ≠ 0) (hne : rgb.length ≠ pos.length) :
    PointCloud.ofTables heap w pos rgb =
      Except.ok ({ w with stderr := w.stderr ++ [invalidPointCloud] },
        PointCloud.ofSize heap pos.length) ∧
    (PointCloud.ofSize heap pos.length).data = (List.range pos.length).map heap.points := by
  constructor
  · unfold PointCloud.ofTables
    rw [if_pos (Or.inr ⟨hrgb, fun h => hne h.symm⟩)]
    rfl
  · unfold PointCloud.ofSize PointCloud.resize resizeRows PointCloud.blank
    by_cases h : pos.length = 0
    · simp [h]
    · rw [if_neg (fun h0 => h (by simpa using h0.symm))]

theorem pointcloud_mismatch_returns_witness :
    PointCloud.ofTables zeroHeap liveWorld [⟨0, 0, 0⟩] [⟨1, 1, 1⟩, ⟨1, 1, 1⟩] =
      Except.ok ({ liveWorld with stderr := liveWorld.stderr ++ [invalidPointCloud] },
        PointCloud.ofSize zeroHeap ([⟨0, 0, 0⟩] : List (Vec3 ℚ)).length) ∧
    (PointCloud.ofSize zeroHeap ([⟨0, 0, 0⟩] : List (Vec3 ℚ)).length).data =
      (List.range ([⟨0, 0, 0⟩] : List (Vec3 ℚ)).length).map zeroHeap.points :=
  pointcloud_mismatch_returns zeroHeap liveWorld [⟨0, 0, 0⟩] [⟨1, 1, 1⟩, ⟨1, 1, 1⟩]
    (by decide) (by decide)

/-- C26, counterexample: `PointCloud(pos, rgb)` with one row of `pos` and two rows of `rgb`
returns an object; the process goes on. -/
theorem pointcloud_mismatch_not_fatal :
    PointCloud.ofTables zeroHeap liveWorld [⟨0, 0, 0⟩] [⟨1, 1, 1⟩, ⟨1, 1, 1⟩] ≠
      Except.error Failure.fatal ∧
    ∃ r, PointCloud.ofTables zeroHeap liveWorld [⟨0, 0, 0⟩] [⟨1, 1, 1⟩, ⟨1, 1, 1⟩] =
      Except.ok r := by
  have h : PointCloud.ofTables zeroHeap liveWorld [⟨0, 0, 0⟩] [⟨1, 1, 1⟩, ⟨1, 1, 1⟩] =
      Except.ok ({ liveWorld with stderr := liveWorld.stderr ++ [invalidPointCloud] },
        PointCloud.ofSize zeroHeap 1) := by
    unfold PointCloud.ofTables
    rw [if_pos (Or.inr ⟨by decide, by decide⟩)]
    rfl
  rw [h]
  exact ⟨(fun h0 => by cases h0), _, rfl⟩

/-! ## C9, C10, C29: estimation of normals -/

theorem rowAt_some {α : Type} (table : List α) (k : Nat) (r : α) (h : table[k]? = some r) :
    rowAt table k = Except.ok r := by
  unfold rowAt
  rw [h]
  rfl

theorem rowAt_none {α : Type} (table : List α) (k : Nat) (h : table[k]? = none) :
    rowAt table k = Except.error Failure.outOfBounds := by
  unfold rowAt
  rw [h]
  rfl

theorem addNormalAt_ok (n : Vec3 K) (acc : List (Vec3 K) × List K) (k : Nat)
    (h1 : k < acc.1.length) (h2 : k < acc.2.length) :
    addNormalAt n acc k =
      Except.ok (acc.1.modify (fun r => r.add n) k, acc.2.modify (fun c => c + 1) k) := by
  unfold addNormalAt
  rw [if_pos ⟨h1, h2⟩]
  rfl

theorem addNormalAt_error (n : Vec3 K) (acc : List (Vec3 K) × List K) (k : Nat)
    (h : ¬ (k < acc.1.length ∧ k < acc.2.length)) :
    addNormalAt n acc k = Except.error Failure.outOfBounds := by
  unfold addNormalAt
  rw [if_neg h]
  rfl

/-- The three additions of one face, as a chain of binds. -/
theorem facesStep_eq (normalized : Vec3 K → Vec3 K) (verts : List (Vec3 K))
    (acc : List (Vec3 K) × List K) (i0 i1 i2 : Nat) (a b c : Vec3 K)
    (ha : verts[i0]? = some a) (hb : verts[i1]? = some b) (hc : verts[i2]? = some c) :
    facesStep normalized verts acc ⟨i0, i1, i2⟩ =
      (addNormalAt (faceNormal normalized a b c) acc i0 >>= fun acc1 =>
        addNormalAt (faceNormal normalized a b c) acc1 i1 >>= fun acc2 =>
          addNormalAt (faceNormal normalized a b c) acc2 i2) := by
  unfold facesStep
  rw [rowAt_some _ _ _ ha, rowAt_some _ _ _ hb, rowAt_some _ _ _ hc]
  simp only [List.foldlM, Tri.col, bind, Except.bind, pure, Except.pure]
  cases addNormalAt (faceNormal normalized a b c) acc i0 with
  | error e => rfl
  | ok acc1 =>
    simp only []
    cases addNormalAt (faceNormal normalized a b c) acc1 i1 with
    | error e => rfl
    | ok acc2 =>
      simp only []
      cases addNormalAt (faceNormal normalized a b c) acc2 i2 <;> rfl

theorem facesStep_missing (normalized : Vec3 K → Vec3 K) (verts : List (Vec3 K))
    (acc : List (Vec3 K) × List K) (f : Tri)
    (h : verts[f.v0]? = none ∨ verts[f.v1]? = none ∨ verts[f.v2]? = none) :
    facesStep normalized verts acc f = Except.error Failure.outOfBounds := by
  unfold facesStep
  cases hb : verts[f.v1]? with
  | none => rw [rowAt_none _ _ hb]; rfl
  | some b =>
    rw [rowAt_some _ _ _ hb]
    cases ha : verts[f.v0]? with
    | none => rw [rowAt_none _ _ ha]; rfl
    | some a =>
      rw [rowAt_some _ _ _ ha]
      cases hc : verts[f.v2]? with
      | none => rw [rowAt_none _ _ hc]; rfl
      | some c =>
        rw [ha, hb, hc] at h
        simp at h

/-- Three additions at `i`, `i+1`, `i+2` to tables with three rows from `i` on. -/
theorem addNormalAt_three (n : Vec3 K) (acc : List (Vec3 K) × List K) (i : Nat)
    (h1 : i + 3 ≤ acc.1.length) (h2 : i + 3 ≤ acc.2.length) :
    (addNormalAt n acc i >>= fun acc1 => addNormalAt n acc1 (i + 1) >>= fun acc2 =>
        addNormalAt n acc2 (i + 2)) =
      Except.ok
        (((acc.1.modify (fun r => r.add n) i).modify (fun r => r.add n) (i + 1)).modify
            (fun r => r.add n) (i + 2),
         ((acc.2.modify (fun c => c + 1) i).modify (fun c => c + 1) (i + 1)).modify
            (fun c => c + 1) (i + 2)) := by
  rw [addNormalAt_ok _ _ _ (by omega) (by omega)]
  simp only [bind, Except.bind]
  rw [addNormalAt_ok _ _ _ (by simp only [List.length_modify]; omega)
    (by simp only [List.length_modify]; omega)]
  simp only []
  rw [addNormalAt_ok _ _ _ (by simp only [List.length_modify]; omega)
    (by simp only [List.length_modify]; omega)]

/-- Three additions at `i`, `i+1`, `i+2` to tables one of which ends before row `i+2`. -/
theorem addNormalAt_three_short (n : Vec3 K) (acc : List (Vec3 K) × List K) (i : Nat)
    (h : ¬ (i + 3 ≤ acc.1.length ∧ i + 3 ≤ acc.2.length)) :
    (addNormalAt n acc i >>= fun acc1 => addNormalAt n acc1 (i + 1) >>= fun acc2 =>
        addNormalAt n acc2 (i + 2)) = Except.error Failure.outOfBounds := by
  by_cases h0 : i < acc.1.length ∧ i < acc.2.length
  · rw [addNormalAt_ok _ _ _ h0.1 h0.2]
    simp only [bind, Except.bind]
    by_cases h1 : i + 1 < acc.1.length ∧ i + 1 < acc.2.length
    · rw [addNormalAt_ok _ _ _ (by simp only [List.length_modify]; exact h1.1)
        (by simp only [List.length_modify]; exact h1.2)]
      simp only []
      rw [addNormalAt_error]
      simp only [List.length_modify]
      omega
    · rw [addNormalAt_error]
      simp only [List.length_modify]
      exact h1
  · rw [addNormalAt_error _ _ _ h0]
    rfl

/-- One pass of the face-less loop is the pass of the loop over faces at the face
`(i, i+1, i+2)`. -/
theorem noFacesStep_eq_facesStep (normalized : Vec3 K → Vec3 K) (verts : List (Vec3 K))
    (i : Nat) (acc : List (Vec3 K) × List K) :
    noFacesStep normalized verts i acc =
      facesStep normalized verts acc ⟨i, i + 1, i + 2⟩ := by
  by_cases hv : i + 2 < verts.length
  · have ha : verts[i]? = some (verts.get ⟨i, by omega⟩) := List.getElem?_eq_getElem _
    have hb : verts[i + 1]? = some (verts.get ⟨i + 1, by omega⟩) := List.getElem?_eq_getElem _
    have hc : verts[i + 2]? = some (verts.get ⟨i + 2, hv⟩) := List.getElem?_eq_getElem _
    rw [facesStep_eq normalized verts acc i (i + 1) (i + 2) _ _ _ ha hb hc]
    unfold noFacesStep
    rw [rowAt_some _ _ _ ha, rowAt_some _ _ _ hb, rowAt_some _ _ _ hc]
    by_cases h : i + 3 ≤ acc.1.length ∧ i + 3 ≤ acc.2.length
    · rw [addNormalAt_three _ _ _ h.1 h.2]
      simp [h.1, h.2, pure, Except.pure, bind, Except.bind]
    · rw [addNormalAt_three_short _ _ _ h]
      by_cases h2 : i + 3 ≤ acc.2.length
      · have h1 : ¬ (i + 3 ≤ acc.1.length) := fun h1 => h ⟨h1, h2⟩
        simp [h1, h2, bind, Except.bind, pure, Except.pure, throw, throwThe,
          MonadExceptOf.throw]
      · simp [h2, bind, Except.bind, pure, Except.pure, throw, throwThe, MonadExceptOf.throw]
  · have hc : verts[i + 2]? = none := List.getElem?_eq_none (by omega)
    rw [facesStep_missing normalized verts acc ⟨i, i + 1, i + 2⟩ (Or.inr (Or.inr hc))]
    unfold noFacesStep
    rw [rowAt_none _ _ hc]
    by_cases h2 : i + 3 ≤ acc.2.length
    · simp only [h2, not_true_eq_false, if_false, bind, Except.bind, pure, Except.pure]
      cases ha : verts[i]? with
      | none => rw [rowAt_none _ _ ha]
      | some a =>
        rw [rowAt_some _ _ _ ha]
        cases hb : verts[i + 1]? with
        | none => rw [rowAt_none _ _ hb]
        | some b => rw [rowAt_some _ _ _ hb]
    · simp [h2, bind, Except.bind, pure, Except.pure, throw, throwThe, MonadExceptOf.throw]

theorem foldlM_map_range {σ α : Type} (g : Nat → α) (step : σ → α → Run σ) (n : Nat) (s : σ) :
    ((List.range n).map g).foldlM step s = forUpTo n (fun k acc => step acc (g k)) s := by
  unfold forUpTo
  rw [List.foldlM_map]

/-- The loop of the face-less version is the loop over the consecutive triples. -/
theorem accumulateNoFaces_eq (normalized : Vec3 K → Vec3 K) (verts out : List (Vec3 K))
    (h : verts.length % 3 = 0) :
    accumulateNoFaces normalized verts out =
      accumulateFaces normalized verts (consecutiveTriples (verts.length / 3)) out := by
  unfold accumulateNoFaces accumulateFaces consecutiveTriples
  rw [foldlM_map_range]
  have hn : (verts.length + 2) / 3 = verts.length / 3 := by omega
  rw [hn]
  congr 1
  funext k acc
  exact noFacesStep_eq_facesStep normalized verts (3 * k) acc
theorem getElem?_getD_of_lt {α : Type} (l : List α) (k : Nat) (d : α) (h : k < l.length) :
    l[k]? = some (l.getD k d) := by
  rw [List.getD_eq_getElem?_getD, List.getElem?_eq_getElem h]
  rfl

/-- The loop over faces is the chain of additions of the corner list. -/
theorem foldlM_facesStep (normalized : Vec3 K → Vec3 K) (verts : List (Vec3 K))
    (faces : Triangles) (hin : InRange faces verts.length) (acc : List (Vec3 K) × List K) :
    faces.foldlM (facesStep normalized verts) acc =
      (cornerList normalized verts faces).foldlM (fun acc p => addNormalAt p.2 acc p.1) acc := by
  induction faces generalizing acc with
  | nil => rfl
  | cons f rest ih =>
    have h0 : f.v0 < verts.length := hin f (List.mem_cons_self _ _) 0
    have h1 : f.v1 < verts.length := hin f (List.mem_cons_self _ _) 1
    have h2 : f.v2 < verts.length := hin f (List.mem_cons_self _ _) 2
    have hrest : InRange rest verts.length := fun g hg j => hin g (List.mem_cons_of_mem _ hg) j
    have hstep : facesStep normalized verts acc f =
        [(f.v0, normalOfFace normalized verts f), (f.v1, normalOfFace normalized verts f),
          (f.v2, normalOfFace normalized verts f)].foldlM
          (fun acc p => addNormalAt p.2 acc p.1) acc := by
      have hf := facesStep_eq normalized verts acc f.v0 f.v1 f.v2 _ _ _
        (getElem?_getD_of_lt verts f.v0 Vec3.zero h0)
        (getElem?_getD_of_lt verts f.v1 Vec3.zero h1)
        (getElem?_getD_of_lt verts f.v2 Vec3.zero h2)
      rw [hf]
      simp only [List.foldlM, normalOfFace, bind, Except.bind, pure, Except.pure]
      cases addNormalAt _ acc f.v0 with
      | error e => rfl
      | ok acc1 =>
        simp only []
        cases addNormalAt _ acc1 f.v1 with
        | error e => rfl
        | ok acc2 =>
          simp only []
          cases addNormalAt _ acc2 f.v2 <;> rfl
    unfold cornerList
    rw [List.foldlM_cons, List.flatMap_cons, List.foldlM_append, hstep]
    congr 1
    funext acc1
    exact ih hrest acc1

/-- The additions of a list of corners, all in range: row `v` of the sums gains the normals
of the corners at `v` in their order, row `v` of the counts gains one for each. -/
theorem foldlM_addNormalAt (adds : List (Nat × Vec3 K)) (n : Nat) :
    ∀ (acc : List (Vec3 K) × List K), acc.1.length = n → acc.2.length = n →
      (∀ p ∈ adds, p.1 < n) →
      ∃ r, adds.foldlM (fun acc p => addNormalAt p.2 acc p.1) acc = Except.ok r ∧
        r.1.length = n ∧ r.2.length = n ∧
        ∀ v, r.1[v]? = acc.1[v]?.map (fun s =>
              ((adds.filter fun p => p.1 = v).map Prod.snd).foldl Vec3.add s) ∧
             r.2[v]? = acc.2[v]?.map (fun c =>
              ((adds.filter fun p => p.1 = v).map Prod.snd).foldl (fun c _ => c + 1) c) := by
  induction adds with
  | nil =>
    intro acc h1 h2 _
    refine ⟨acc, rfl, h1, h2, fun v => ?_⟩
    simp
  | cons p rest ih =>
    intro acc h1 h2 hr
    have hp : p.1 < n := hr p (List.mem_cons_self _ _)
    obtain ⟨r, hr1, hl1, hl2, hrows⟩ := ih
      (acc.1.modify (fun r => r.add p.2) p.1, acc.2.modify (fun c => c + 1) p.1)
      (by simp only [List.length_modify]; exact h1)
      (by simp only [List.length_modify]; exact h2)
      (fun q hq => hr q (List.mem_cons_of_mem _ hq))
    refine ⟨r, ?_, hl1, hl2, fun v => ?_⟩
    · rw [List.foldlM_cons, addNormalAt_ok _ _ _ (by omega) (by omega)]
      exact hr1
    · obtain ⟨hs, hc⟩ := hrows v
      rw [hs, hc]
      simp only [List.getElem?_modify]
      by_cases hv : p.1 = v
      · subst hv
        constructor
        · cases acc.1[p.1]? <;> simp [List.filter_cons]
        · cases acc.2[p.1]? <;> simp [List.filter_cons]
      · constructor
        · cases acc.1[v]? <;> simp [List.filter_cons, hv]
        · cases acc.2[v]? <;> simp [List.filter_cons, hv]

theorem mem_cornerList (normalized : Vec3 K → Vec3 K) (verts : List (Vec3 K))
    (faces : Triangles) (p : Nat × Vec3 K) (hp : p ∈ cornerList normalized verts faces) :
    ∃ f ∈ faces, ∃ j : Fin 3, f.col j = p.1 := by
  unfold cornerList at hp
  rw [List.mem_flatMap] at hp
  obtain ⟨f, hf, hpf⟩ := hp
  simp only [List.mem_cons, List.mem_singleton, List.not_mem_nil, or_false] at hpf
  rcases hpf with h | h | h
  · exact ⟨f, hf, 0, by rw [h]; rfl⟩
  · exact ⟨f, hf, 1, by rw [h]; rfl⟩
  · exact ⟨f, hf, 2, by rw [h]; rfl⟩

theorem map_fst_cornerList (normalized : Vec3 K → Vec3 K) (verts : List (Vec3 K))
    (faces : Triangles) :
    (cornerList normalized verts faces).map Prod.fst =
      faces.flatMap fun f => [f.v0, f.v1, f.v2] := by
  unfold cornerList
  induction faces with
  | nil => rfl
  | cons f rest ih =>
    rw [List.flatMap_cons, List.flatMap_cons, List.map_append, ih]
    rfl

theorem length_cornerNormals (normalized : Vec3 K → Vec3 K) (verts : List (Vec3 K))
    (faces : Triangles) (v : Nat) :
    (cornerNormals normalized verts faces v).length = incidence faces v := by
  unfold cornerNormals incidence
  rw [← map_fst_cornerList normalized verts faces, List.length_map]
  generalize cornerList normalized verts faces = l
  induction l with
  | nil => rfl
  | cons p rest ih =>
    by_cases h : p.1 = v
    · simp [List.filter_cons, h, ih]
    · rw [List.map_cons, List.count_cons_of_ne (fun e => h e.symm), ← ih]
      simp [List.filter_cons, h]

theorem incidence_pos_iff (faces : Triangles) (v : Nat) :
    0 < incidence faces v ↔ ∃ f ∈ faces, ∃ j : Fin 3, f.col j = v := by
  unfold incidence
  rw [List.count_pos_iff, List.mem_flatMap]
  constructor
  · rintro ⟨f, hf, hv⟩
    simp only [List.mem_cons, List.mem_singleton, List.not_mem_nil, or_false] at hv
    rcases hv with h | h | h
    · exact ⟨f, hf, 0, h.symm⟩
    · exact ⟨f, hf, 1, h.symm⟩
    · exact ⟨f, hf, 2, h.symm⟩
  · rintro ⟨f, hf, j, hj⟩
    refine ⟨f, hf, ?_⟩
    simp only [List.mem_cons, List.mem_singleton, List.not_mem_nil, or_false]
    fin_cases j
    · exact Or.inl hj.symm
    · exact Or.inr (Or.inl hj.symm)
    · exact Or.inr (Or.inr hj.symm)

/-- The sums and counts before the final division, for a face table in range. -/
theorem accumulateFaces_rows (normalized : Vec3 K → Vec3 K) (verts : List (Vec3 K))
    (faces : Triangles) (out : List (Vec3 K)) (hin : InRange faces verts.length)
    (hout : out.length = verts.length) :
    ∃ r, accumulateFaces normalized verts faces out = Except.ok r ∧
      r.1.length = verts.length ∧ r.2.length = verts.length ∧
      ∀ v, v < verts.length →
        r.1[v]? = some (sumRows (cornerNormals normalized verts faces v)) ∧
        r.2[v]? = some ((cornerNormals normalized verts faces v).foldl (fun c _ => c + 1) 0) := by
  unfold accumulateFaces
  rw [foldlM_facesStep normalized verts faces hin]
  obtain ⟨r, hr, h1, h2, hrows⟩ := foldlM_addNormalAt (cornerList normalized verts faces)
    verts.length (List.replicate out.length Vec3.zero, List.replicate verts.length (0 : K))
    (by simp [hout]) (by simp)
    (fun p hp => by
      obtain ⟨f, hf, j, hj⟩ := mem_cornerList normalized verts faces p hp
      rw [← hj]
      exact hin f hf j)
  refine ⟨r, hr, h1, h2, fun v hv => ?_⟩
  obtain ⟨hs, hc⟩ := hrows v
  rw [hs, hc]
  have e1 : (List.replicate out.length (Vec3.zero : Vec3 K))[v]? = some Vec3.zero := by
    rw [List.getElem?_replicate, if_pos (by omega)]
  have e2 : (List.replicate verts.length (0 : K))[v]? = some 0 := by
    rw [List.getElem?_replicate, if_pos hv]
  rw [e1, e2]
  exact ⟨rfl, rfl⟩

theorem inRange_consecutiveTriples (n rows : Nat) (h : 3 * rows ≤ n) :
    InRange (consecutiveTriples rows) n := by
  intro f hf j
  unfold consecutiveTriples at hf
  rw [List.mem_map] at hf
  obtain ⟨k, hk, rfl⟩ := hf
  rw [List.mem_range] at hk
  fin_cases j
  · show 3 * k < n
    omega
  · show 3 * k + 1 < n
    omega
  · show 3 * k + 2 < n
    omega

theorem divideByCount_ok (out : List (Vec3 K)) (face_cnt : List K)
    (h : out.length = face_cnt.length) :
    divideByCount out face_cnt = Except.ok (List.zipWith Vec3.divScalar out face_cnt) := by
  unfold divideByCount
  rw [if_pos h]
  rfl

/-- The function `estimate_normals(verts, faces, out)` for a non-empty face table in range
and an `out` with the rows of `verts`: it returns the sums divided by the counts. -/
theorem estimate_normals_rows (normalized : Vec3 K → Vec3 K) (verts : List (Vec3 K))
    (faces : Triangles) (out : List (Vec3 K)) (hne : faces ≠ [])
    (hin : InRange faces verts.length) (hout : out.length = verts.length) :
    ∃ sums counts, accumulateFaces normalized verts faces out = Except.ok (sums, counts) ∧
      estimate_normals normalized verts faces out =
        Except.ok (List.zipWith Vec3.divScalar sums counts) ∧
      sums.length = verts.length ∧ counts.length = verts.length ∧
      ∀ v, v < verts.length →
        sums[v]? = some (sumRows (cornerNormals normalized verts faces v)) ∧
        counts[v]? =
          some ((cornerNormals normalized verts faces v).foldl (fun c _ => c + 1) 0) ∧
        (List.zipWith Vec3.divScalar sums counts)[v]? =
          some ((sumRows (cornerNormals normalized verts faces v)).divScalar
            ((cornerNormals normalized verts faces v).foldl (fun c _ => c + 1) 0)) := by
  obtain ⟨r, hr, h1, h2, hrows⟩ := accumulateFaces_rows normalized verts faces out hin hout
  refine ⟨r.1, r.2, hr, ?_, h1, h2, fun v hv => ?_⟩
  · unfold estimate_normals
    rw [if_neg (fun h => hne (List.length_eq_zero.mp h)), hr]
    exact divideByCount_ok r.1 r.2 (h1.trans h2.symm)
  · obtain ⟨hs, hc⟩ := hrows v hv
    refine ⟨hs, hc, ?_⟩
    rw [List.getElem?_zipWith, hs, hc]

/-- C10: for a position table whose row count is divisible by 3 the face-less
`estimate_normals(V, out)` gives what `estimate_normals(V, F, out)` gives for the table `F`
of the consecutive triples, with the same outcome for every `out`; the version with a face
table defers to it for an empty table; and with an `out` of the rows of `V` it returns
normals. -/
theorem estimate_normals_consecutive (normalized : Vec3 K → Vec3 K) (verts out : List (Vec3 K))
    (h : verts.length % 3 = 0) :
    estimate_normals_no_faces normalized verts out =
      estimate_normals normalized verts (consecutiveTriples (verts.length / 3)) out ∧
    estimate_normals normalized verts [] out =
      estimate_normals_no_faces normalized verts out ∧
    (out.length = verts.length →
      ∃ normals, estimate_normals_no_faces normalized verts out = Except.ok normals ∧
        normals.length = verts.length) := by
  refine ⟨?_, rfl, ?_⟩
  · unfold estimate_normals
    by_cases h0 : (consecutiveTriples (verts.length / 3)).length = 0
    · rw [if_pos h0]
    · rw [if_neg h0]
      unfold estimate_normals_no_faces
      rw [accumulateNoFaces_eq normalized verts out h]
  · intro hout
    have hin : InRange (consecutiveTriples (verts.length / 3)) verts.length :=
      inRange_consecutiveTriples verts.length (verts.length / 3) (by omega)
    obtain ⟨r, hr, h1, h2, _⟩ := accumulateFaces_rows normalized verts
      (consecutiveTriples (verts.length / 3)) out hin hout
    refine ⟨List.zipWith Vec3.divScalar r.1 r.2, ?_, ?_⟩
    · unfold estimate_normals_no_faces
      rw [accumulateNoFaces_eq normalized verts out h, hr]
      exact divideByCount_ok r.1 r.2 (h1.trans h2.symm)
    · rw [List.length_zipWith, h1, h2, Nat.min_self]

theorem estimate_normals_consecutive_witness :
    estimate_normals_no_faces doubled threePositions threePositions =
      estimate_normals doubled threePositions
        (consecutiveTriples (threePositions.length / 3)) threePositions ∧
    estimate_normals doubled threePositions [] threePositions =
      estimate_normals_no_faces doubled threePositions threePositions ∧
    (threePositions.length = threePositions.length →
      ∃ normals, estimate_normals_no_faces doubled threePositions threePositions =
          Except.ok normals ∧
        normals.length = threePositions.length) :=
  estimate_normals_consecutive doubled threePositions threePositions (by decide)

section Normals

variable {F : Type} [Field F]

end Normals

/-! ## C6, C7: what `Mesh::update` uploads -/

theorem map_norm_setNorm (d : List (Vertex K)) (ns : List (Vec3 K)) (h : d.length = ns.length) :
    (setNorm d ns).map (fun v => v.norm) = ns ∧
      (setNorm d ns).map (fun v => v.pos) = d.map (fun v => v.pos) ∧
      (setNorm d ns).length = d.length := by
  induction d generalizing ns with
  | nil =>
    cases ns with
    | nil => exact ⟨rfl, rfl, rfl⟩
    | cons p ps => simp at h
  | cons v d ih =>
    cases ns with
    | nil => simp at h
    | cons c cs =>
      obtain ⟨h1, h2, h3⟩ := ih cs (by simpa using h)
      simp only [setNorm] at h1 h2 h3
      simp [setNorm, h1, h2, h3]

theorem loadAllTextures_none (reset : Bool) (w : World K) :
    loadAllTextures reset w [[], []] = Except.ok (w, [[], []]) := rfl

/-- The four steps of `Mesh::update` in a context. -/
theorem Mesh.update_eq (normalized : Vec3 K → Vec3 K) (heap : Heap K) (w : World K)
    (m : Mesh K) (force_init : Bool) (hctx : w.context = true) :
    Mesh.update normalized heap w m force_init =
      (Mesh.updateNormals normalized m >>= fun m1 =>
        Mesh.updateHandles w m1 force_init >>= fun wm =>
          Mesh.selectBuffers heap wm.2 >>= fun sel =>
            Except.ok ({ wm.1 with calls := (wm.1.calls ++
              uploadCalls sel.1.VAO sel.1.VBO sel.1.EBO sel.2.1 sel.2.2) }, sel.1)) := by
  unfold Mesh.update
  simp only [hctx, not_true_eq_false, if_false, Bool.not_eq_true]
  rfl

/-- The step that makes the handles leaves the tables of the mesh as they are. -/
theorem updateHandles_tables (w w1 : World K) (m m2 : Mesh K) (force_init : Bool)
    (h : Mesh.updateHandles w m force_init = Except.ok (w1, m2)) :
    m2.data = m.data ∧ m2.faces = m.faces ∧ m2._tex_coords = m._tex_coords ∧
      m2._tex_faces = m._tex_faces ∧ m2._tex_to_vert = m._tex_to_vert ∧
      m2._data_tex = m._data_tex := by
  unfold Mesh.updateHandles at h
  by_cases hc : ¬ force_init ∧ m.VAO ≠ INVALID
  · rw [if_pos hc] at h
    cases hl : loadAllTextures false w m.textures with
    | error e =>
      rw [hl] at h
      cases h
    | ok r =>
      rw [hl] at h
      simp only [bind, Except.bind, pure, Except.pure, Except.ok.injEq, Prod.mk.injEq] at h
      rw [← h.2]
      exact ⟨rfl, rfl, rfl, rfl, rfl, rfl⟩
  · rw [if_neg hc] at h
    cases hl : loadAllTextures true w m.textures with
    | error e =>
      rw [hl] at h
      cases h
    | ok r =>
      rw [hl] at h
      simp only [bind, Except.bind, pure, Except.pure, Except.ok.injEq, Prod.mk.injEq] at h
      rw [← h.2]
      exact ⟨rfl, rfl, rfl, rfl, rfl, rfl⟩

/-- The step that makes the handles returns for a mesh without textures. -/
theorem updateHandles_no_textures (w : World K) (m : Mesh K) (force_init : Bool)
    (ht : m.textures = [[], []]) :
    ∃ w1 m2, Mesh.updateHandles w m force_init = Except.ok (w1, m2) := by
  unfold Mesh.updateHandles
  by_cases hc : ¬ force_init ∧ m.VAO ≠ INVALID
  · rw [if_pos hc, ht, loadAllTextures_none]
    exact ⟨_, _, rfl⟩
  · rw [if_neg hc, ht, loadAllTextures_none]
    exact ⟨_, _, rfl⟩

/-- Without texture coordinates `Mesh::update` loads `data` and `faces`. -/
theorem update_no_uv (normalized : Vec3 K → Vec3 K) (heap : Heap K) (w w1 : World K)
    (m m1 m2 : Mesh K) (force_init : Bool) (hctx : w.context = true)
    (huv : m._tex_coords = [])
    (hn : Mesh.updateNormals normalized m = Except.ok m1)
    (hh : Mesh.updateHandles w m1 force_init = Except.ok (w1, m2)) :
    Mesh.update normalized heap w m force_init =
      Except.ok ({ w1 with calls := (w1.calls ++
        uploadCalls m2.VAO m2.VBO m2.EBO m2.data m2.faces) }, m2) := by
  have hfields := updateHandles_tables w w1 m1 m2 force_init hh
  have h1 : m1._tex_coords = m._tex_coords := by
    unfold Mesh.updateNormals at hn
    by_cases ha : m._auto_normals = true
    · rw [if_pos ha] at hn
      cases he : estimate_normals normalized (m.data.map fun v => v.pos) m.faces
          (m.data.map fun v => v.norm) with
      | error e =>
        rw [he] at hn
        cases hn
      | ok ns =>
        rw [he] at hn
        simp only [bind, Except.bind, pure, Except.pure, Except.ok.injEq] at hn
        rw [← hn]
    · rw [if_neg ha] at hn
      simp only [pure, Except.pure, Except.ok.injEq] at hn
      rw [← hn]
  have h2 : m2._tex_coords.length = 0 := by
    rw [hfields.2.2.1, h1, huv]
    rfl
  rw [Mesh.update_eq normalized heap w m force_init hctx, hn]
  simp only [bind, Except.bind]
  rw [hh]
  simp only [Mesh.selectBuffers, h2, ne_eq, not_true_eq_false, if_false, pure, Except.pure]

/-- What the table constructor leaves in the mesh it returns. -/
theorem ofTables_shape (heap : Heap K) (pos : List (Vec3 K)) (tri_faces : Triangles)
    (rgb normals : List (Vec3 K)) (m : Mesh K)
    (hm : Mesh.ofTables heap pos tri_faces rgb normals = Except.ok m) :
    m.data.length = pos.length ∧ m.data.map (fun v => v.pos) = pos ∧
      m._auto_normals = decide (normals.length = 0) ∧ m.textures = [[], []] ∧
      m._tex_coords = [] ∧ (normals.length ≠ 0 → m.data.map (fun v => v.norm) = normals) ∧
      (tri_faces.length ≠ 0 → m.faces = tri_faces) ∧
      (tri_faces.length = 0 → pos.length % 3 = 0) := by
  have h3 : tri_faces.length ≠ 0 ∨ pos.length % 3 = 0 := by
    by_contra hc
    have h0 : tri_faces.length = 0 := by omega
    have hmod : pos.length % 3 ≠ 0 := by omega
    simp only [Mesh.ofTables, Mesh.ofSize, h0, resize_fatal heap _ _ hmod, bind,
      Except.bind] at hm
    cases hm
  obtain ⟨r0, hr0, hlen0, htex0, huv0, -, -⟩ := ofSize_ok heap pos.length tri_faces.length h3
  simp only [Mesh.ofTables, hr0, bind, Except.bind] at hm
  have hok : (rgb.length = 0 ∨ rgb.length = pos.length) ∧
      (normals.length = 0 ∨ normals.length = pos.length) := by
    by_contra hc
    have hbad : (rgb.length ≠ 0 ∧ rgb.length ≠ pos.length) ∨
        (normals.length ≠ 0 ∧ normals.length ≠ pos.length) := by omega
    rw [ofTablesBody_fatal r0 pos tri_faces rgb normals hbad] at hm
    cases hm
  obtain ⟨r, hr, hfaces, hauto, htex, huv, -, hdata⟩ :=
    ofTablesBody_ok r0 pos tri_faces rgb normals hok.1 hok.2
  rw [hr] at hm
  have hrm : r = m := Except.ok.inj hm
  subst hrm
  have hbase : (if rgb.length = 0 then setPos r0.data pos
      else setRgb (setPos r0.data pos) rgb).length = pos.length ∧
      (if rgb.length = 0 then setPos r0.data pos
        else setRgb (setPos r0.data pos) rgb).map (fun v => v.pos) = pos := by
    by_cases hrgb : rgb.length = 0
    · rw [if_pos hrgb]
      exact ⟨length_setPos _ _ hlen0, map_pos_setPos _ _ hlen0⟩
    · rw [if_neg hrgb]
      have hrl : rgb.length = pos.length := by omega
      have hsl : (setPos r0.data pos).length = rgb.length := by
        rw [length_setPos _ _ hlen0, hrl]
      refine ⟨by rw [length_setRgb _ _ hsl, hrl], ?_⟩
      rw [(map_rgb_setRgb _ _ hsl).2, map_pos_setPos _ _ hlen0]
  refine ⟨?_, ?_, hauto, by rw [htex, htex0], by rw [huv, huv0], ?_, ?_, ?_⟩
  · rw [hdata]
    by_cases hn : normals.length = 0
    · rw [if_pos hn]
      exact hbase.1
    · rw [if_neg hn]
      have hnl : normals.length = pos.length := by omega
      rw [(map_norm_setNorm _ _ (by rw [hbase.1, hnl])).2.2, hbase.1]
  · rw [hdata]
    by_cases hn : normals.length = 0
    · rw [if_pos hn]
      exact hbase.2
    · rw [if_neg hn]
      have hnl : normals.length = pos.length := by omega
      rw [(map_norm_setNorm _ _ (by rw [hbase.1, hnl])).2.1, hbase.2]
  · intro hn
    rw [hdata, if_neg hn]
    have hnl : normals.length = pos.length := by omega
    exact (map_norm_setNorm _ _ (by rw [hbase.1, hnl])).1
  · intro ht
    rw [hfaces, if_pos ht]
  · intro ht
    omega

/-- The function `estimate_normals(verts, faces, out)` returns for a face table in range, or
no face table and a row count divisible by 3, and an `out` with the rows of `verts`. -/
theorem estimate_normals_total (normalized : Vec3 K → Vec3 K) (verts : List (Vec3 K))
    (faces : Triangles) (out : List (Vec3 K)) (hin : InRange faces verts.length)
    (hout : out.length = verts.length) (h3 : faces = [] → verts.length % 3 = 0) :
    ∃ normals, estimate_normals normalized verts faces out = Except.ok normals ∧
      normals.length = verts.length := by
  by_cases hf : faces = []
  · subst hf
    have hmod := h3 rfl
    have hin3 : InRange (consecutiveTriples (verts.length / 3)) verts.length :=
      inRange_consecutiveTriples verts.length (verts.length / 3) (by omega)
    obtain ⟨r, hr, h1, h2, -⟩ := accumulateFaces_rows normalized verts
      (consecutiveTriples (verts.length / 3)) out hin3 hout
    refine ⟨List.zipWith Vec3.divScalar r.1 r.2, ?_, ?_⟩
    · show estimate_normals_no_faces normalized verts out = _
      unfold estimate_normals_no_faces
      rw [accumulateNoFaces_eq normalized verts out hmod, hr]
      exact divideByCount_ok r.1 r.2 (h1.trans h2.symm)
    · rw [List.length_zipWith, h1, h2, Nat.min_self]
  · obtain ⟨sums, counts, -, hres, h1, h2, -⟩ :=
      estimate_normals_rows normalized verts faces out hf hin hout
    exact ⟨_, hres, by rw [List.length_zipWith, h1, h2, Nat.min_self]⟩

/-- C7: for a mesh built by the table constructor, `Mesh::update` in a context keeps the
normal columns when a normals table was supplied, and with no normals table sets them to
what `estimate_normals(positions, faces)` returns, for faces with indices in range. -/
theorem update_recomputes_normals (normalized : Vec3 K → Vec3 K) (heap heap2 : Heap K)
    (w : World K) (pos : List (Vec3 K)) (tri_faces : Triangles) (rgb normals : List (Vec3 K))
    (m : Mesh K) (force_init : Bool) (hctx : w.context = true)
    (hm : Mesh.ofTables heap pos tri_faces rgb normals = Except.ok m) :
    (normals.length ≠ 0 →
      m.data.map (fun v => v.norm) = normals ∧
      ∃ w1 m1, Mesh.update normalized heap2 w m force_init = Except.ok (w1, m1) ∧
        m1.data.map (fun v => v.norm) = normals) ∧
    (normals.length = 0 → InRange m.faces pos.length →
      ∃ ns w1 m1, estimate_normals normalized pos m.faces (m.data.map fun v => v.norm) =
          Except.ok ns ∧
        Mesh.update normalized heap2 w m force_init = Except.ok (w1, m1) ∧
        m1.data.map (fun v => v.norm) = ns ∧ m1.data.map (fun v => v.pos) = pos) := by
  obtain ⟨hlen, hpos, hauto, htex, huv, hnorm, hfaces, hmod⟩ :=
    ofTables_shape heap pos tri_faces rgb normals m hm
  constructor
  · intro hn
    have hoff : m._auto_normals = false := by
      rw [hauto]
      exact decide_eq_false hn
    have hun : Mesh.updateNormals normalized m = Except.ok m := by
      unfold Mesh.updateNormals
      rw [hoff]
      rfl
    obtain ⟨w1, m2, hh⟩ := updateHandles_no_textures w m force_init htex
    refine ⟨hnorm hn, _, m2, update_no_uv normalized heap2 w w1 m m m2 force_init hctx huv hun hh,
      ?_⟩
    rw [(updateHandles_tables w w1 m m2 force_init hh).1]
    exact hnorm hn
  · intro hn hin
    have hon : m._auto_normals = true := by
      rw [hauto]
      exact decide_eq_true hn
    have h3 : m.faces = [] → pos.length % 3 = 0 := by
      intro hf
      apply hmod
      by_contra ht
      have := hfaces ht
      rw [hf] at this
      rw [← this] at ht
      exact ht rfl
    obtain ⟨ns, hns, hnslen⟩ := estimate_normals_total normalized pos m.faces
      (m.data.map fun v => v.norm) hin (by rw [List.length_map, hlen]) h3
    have hun : Mesh.updateNormals normalized m =
        Except.ok { m with data := setNorm m.data ns } := by
      unfold Mesh.updateNormals
      rw [if_pos hon, hpos, hns]
      rfl
    have hset := map_norm_setNorm m.data ns (by rw [hlen, hnslen])
    obtain ⟨w1, m2, hh⟩ := updateHandles_no_textures w { m with data := setNorm m.data ns }
      force_init htex
    refine ⟨ns, _, m2, hns, update_no_uv normalized heap2 w w1 m _ m2 force_init hctx huv hun hh,
      ?_, ?_⟩
    · rw [(updateHandles_tables w w1 _ m2 force_init hh).1]
      exact hset.1
    · rw [(updateHandles_tables w w1 _ m2 force_init hh).1]
      show (setNorm m.data ns).map (fun v => v.pos) = pos
      rw [hset.2.1, hpos]

theorem update_recomputes_normals_witness :
    (∃ m, Mesh.ofTables zeroHeap threePositions [⟨0, 1, 2⟩] [] threeNormals = Except.ok m ∧
      (threeNormals.length ≠ 0 →
        m.data.map (fun v => v.norm) = threeNormals ∧
        ∃ w1 m1, Mesh.update doubled zeroHeap liveWorld m true = Except.ok (w1, m1) ∧
          m1.data.map (fun v => v.norm) = threeNormals) ∧
      (threeNormals.length = 0 → InRange m.faces threePositions.length →
        ∃ ns w1 m1, estimate_normals doubled threePositions m.faces
            (m.data.map fun v => v.norm) = Except.ok ns ∧
          Mesh.update doubled zeroHeap liveWorld m true = Except.ok (w1, m1) ∧
          m1.data.map (fun v => v.norm) = ns ∧
          m1.data.map (fun v => v.pos) = threePositions)) ∧
    (∃ m, Mesh.ofTables zeroHeap threePositions [⟨0, 1, 2⟩] [] [] = Except.ok m ∧
      InRange m.faces threePositions.length ∧
      (([] : List (Vec3 ℚ)).length ≠ 0 →
        m.data.map (fun v => v.norm) = [] ∧
        ∃ w1 m1, Mesh.update doubled zeroHeap liveWorld m true = Except.ok (w1, m1) ∧
          m1.data.map (fun v => v.norm) = []) ∧
      (([] : List (Vec3 ℚ)).length = 0 → InRange m.faces threePositions.length →
        ∃ ns w1 m1, estimate_normals doubled threePositions m.faces
            (m.data.map fun v => v.norm) = Except.ok ns ∧
          Mesh.update doubled zeroHeap liveWorld m true = Except.ok (w1, m1) ∧
          m1.data.map (fun v => v.norm) = ns ∧
          m1.data.map (fun v => v.pos) = threePositions)) :=
  ⟨⟨_, rfl, update_recomputes_normals doubled zeroHeap zeroHeap liveWorld threePositions
      [⟨0, 1, 2⟩] [] threeNormals _ true rfl rfl⟩,
   ⟨_, rfl, (by unfold InRange; decide),
    update_recomputes_normals doubled zeroHeap zeroHeap liveWorld threePositions
      [⟨0, 1, 2⟩] [] [] _ true rfl rfl⟩⟩

/-- The loop of `Mesh::update` that fills `_data_tex`, after `c` passes: the rows below `c`
hold position and normal of the mapped vertex, the other rows are as before. -/
theorem dataTex_loop (data : List (Vertex K)) (map : List Nat) (d0 : List (Vertex K)) (c : Nat)
    (hc : c ≤ d0.length) (hmap : ∀ i, i < c → ∃ k, map[i]? = some k ∧ k < data.length) :
    ∃ r, forUpTo c (dataTexStep data map) d0 = Except.ok r ∧ r.length = d0.length ∧
      ∀ i, (i < c → ∃ k src old, map[i]? = some k ∧ data[k]? = some src ∧
              d0[i]? = some old ∧
              r[i]? = some { old with pos := src.pos, norm := src.norm }) ∧
           (c ≤ i → r[i]? = d0[i]?) := by
  induction c with
  | zero =>
    refine ⟨d0, by rw [forUpTo_zero]; rfl, rfl, fun i => ⟨fun h => by omega, fun _ => rfl⟩⟩
  | succ c ih =>
    obtain ⟨r, hr, hlen, hrows⟩ := ih (by omega) (fun i hi => hmap i (by omega))
    obtain ⟨k, hk, hkd⟩ := hmap c (by omega)
    obtain ⟨src, hsrc⟩ : ∃ src, data[k]? = some src := ⟨_, List.getElem?_eq_getElem hkd⟩
    have hcr : c < r.length := by omega
    refine ⟨r.modify (fun v => { v with pos := src.pos, norm := src.norm }) c, ?_, ?_,
      fun i => ⟨fun hi => ?_, fun hi => ?_⟩⟩
    · rw [forUpTo_succ, hr]
      show dataTexStep data map c r = _
      unfold dataTexStep
      rw [rowAt_some _ _ _ hk]
      simp only [bind, Except.bind]
      rw [rowAt_some _ _ _ hsrc]
      simp only [hcr, if_true]
      rfl
    · rw [List.length_modify, hlen]
    · by_cases hic : i = c
      · subst hic
        have hold : d0[i]? = some (d0.get ⟨i, by omega⟩) := List.getElem?_eq_getElem _
        refine ⟨k, src, d0.get ⟨i, by omega⟩, hk, hsrc, hold, ?_⟩
        rw [List.getElem?_modify, (hrows i).2 (Nat.le_refl i), hold]
        simp
      · obtain ⟨k1, src, old, h1, h2, h3, h4⟩ := (hrows i).1 (by omega)
        refine ⟨k1, src, old, h1, h2, h3, ?_⟩
        rw [List.getElem?_modify, h4]
        simp [Ne.symm hic]
    · rw [List.getElem?_modify, (hrows i).2 (by omega)]
      have hne : c ≠ i := by omega
      cases d0[i]? <;> simp [hne]

theorem getElem?_setUv (d : List (Vertex K)) (uv : List (Vec2 K)) (i : Nat) (v : Vertex K)
    (t : Vec2 K) (hv : d[i]? = some v) (ht : uv[i]? = some t) :
    (setUv d uv)[i]? = some { v with rgb := ⟨t.x, t.y, v.rgb.z⟩ } := by
  unfold setUv
  rw [List.getElem?_zipWith, hv, ht]

/-- With texture coordinates `Mesh::selectBuffers` fills `_data_tex` and selects it and
`_tex_faces`. -/
theorem selectBuffers_uv (heap : Heap K) (m : Mesh K) (huv : m._tex_coords.length ≠ 0)
    (hmap : ∀ i, i < m._tex_coords.length →
      ∃ k, m._tex_to_vert[i]? = some k ∧ k < m.data.length) :
    ∃ vd, Mesh.selectBuffers heap m =
        Except.ok ({ m with _data_tex := vd }, vd, m._tex_faces) ∧
      vd.length = m._tex_coords.length ∧
      ∀ i, i < m._tex_coords.length → ∃ k src row t, m._tex_to_vert[i]? = some k ∧
        m.data[k]? = some src ∧ vd[i]? = some row ∧ m._tex_coords[i]? = some t ∧
        row.pos = src.pos ∧ row.norm = src.norm ∧ row.rgb.x = t.x ∧ row.rgb.y = t.y := by
  obtain ⟨r, hr, hlen, hrows⟩ := dataTex_loop m.data m._tex_to_vert
    (resizeRows heap.verts m._data_tex m._tex_coords.length) m._tex_coords.length
    (by rw [length_resizeRows]) hmap
  rw [length_resizeRows] at hlen
  refine ⟨setUv r m._tex_coords, ?_, ?_, fun i hi => ?_⟩
  · unfold Mesh.selectBuffers
    rw [if_pos huv]
    simp only [hr, bind, Except.bind, pure, Except.pure]
  · unfold setUv
    rw [List.length_zipWith, hlen, Nat.min_self]
  · obtain ⟨k, src, old, h1, h2, -, h4⟩ := (hrows i).1 hi
    have ht : m._tex_coords[i]? = some (m._tex_coords.get ⟨i, hi⟩) :=
      List.getElem?_eq_getElem _
    exact ⟨k, src, _, _, h1, h2, getElem?_setUv r m._tex_coords i _ _ h4 ht, ht, rfl, rfl,
      rfl, rfl⟩
/-- The step that estimates the normals changes the normal columns only. -/
theorem updateNormals_tables (normalized : Vec3 K → Vec3 K) (m m1 : Mesh K)
    (hn : Mesh.updateNormals normalized m = Except.ok m1) :
    m1.faces = m.faces ∧ m1._tex_coords = m._tex_coords ∧ m1._tex_faces = m._tex_faces ∧
      m1._tex_to_vert = m._tex_to_vert ∧
      (m1.data = m.data ∨
        ∃ ns, estimate_normals normalized (m.data.map fun v => v.pos) m.faces
            (m.data.map fun v => v.norm) = Except.ok ns ∧ m1.data = setNorm m.data ns) := by
  unfold Mesh.updateNormals at hn
  by_cases ha : m._auto_normals = true
  · rw [if_pos ha] at hn
    cases he : estimate_normals normalized (m.data.map fun v => v.pos) m.faces
        (m.data.map fun v => v.norm) with
    | error e =>
      rw [he] at hn
      cases hn
    | ok ns =>
      rw [he] at hn
      simp only [bind, Except.bind, pure, Except.pure, Except.ok.injEq] at hn
      rw [← hn]
      exact ⟨rfl, rfl, rfl, rfl, Or.inr ⟨ns, rfl, rfl⟩⟩
  · rw [if_neg ha] at hn
    simp only [pure, Except.pure, Except.ok.injEq] at hn
    rw [← hn]
    exact ⟨rfl, rfl, rfl, rfl, Or.inl rfl⟩

/-- The mesh that `set_tex_coords` returns. -/
theorem set_tex_coords_ok (m m1 : Mesh K) (uv : List (Vec2 K)) (uv_faces : Triangles)
    (h : Mesh.set_tex_coords m uv uv_faces = Except.ok m1) :
    ∃ map, make_uv_to_vert_map uv.length m.faces uv_faces = Except.ok map ∧
      m.data.length ≤ uv.length ∧
      m1 = { m with _tex_coords := uv, _tex_faces := uv_faces, _tex_to_vert := map,
                    shading_type := ShadingType.texture } := by
  rw [set_tex_coords_eq] at h
  by_cases hlt : uv.length < m.data.length
  · rw [if_pos hlt] at h
    cases h
  · rw [if_neg hlt] at h
    cases hmap : make_uv_to_vert_map uv.length m.faces uv_faces with
    | error e =>
      rw [hmap] at h
      cases h
    | ok map =>
      rw [hmap] at h
      exact ⟨map, rfl, by omega, (Except.ok.inj h).symm⟩

/-- The tables `Mesh::update` selects after `set_tex_coords(uv, uv_faces)` succeeded, and
the ones it selects for a mesh with no texture coordinates, with the calls of the last step
of the update gathered in `uploadCalls`. -/
theorem update_uv_table_calls (normalized : Vec3 K → Vec3 K) (heap : Heap K)
    (w w1 : World K) (m m0 m1 m2 : Mesh K) (uv : List (Vec2 K)) (uv_faces : Triangles)
    (force_init : Bool)
    (hset : Mesh.set_tex_coords m uv uv_faces = Except.ok m0)
    (hin : InRange m.faces m.data.length) (hctx : w.context = true)
    (hn : Mesh.updateNormals normalized m0 = Except.ok m1)
    (hh : Mesh.updateHandles w m1 force_init = Except.ok (w1, m2)) :
    (∃ vd m3, Mesh.update normalized heap w m0 force_init =
        Except.ok ({ w1 with calls := (w1.calls ++
          uploadCalls m2.VAO m2.VBO m2.EBO vd uv_faces) }, m3) ∧
      vd.length = uv.length ∧ m1.data.map (fun v => v.pos) = m.data.map (fun v => v.pos) ∧
      ∀ i, i < uv.length → ∃ k src row t, m0._tex_to_vert[i]? = some k ∧
        m1.data[k]? = some src ∧ vd[i]? = some row ∧ uv[i]? = some t ∧
        row.pos = src.pos ∧ row.norm = src.norm ∧ row.rgb.x = t.x ∧ row.rgb.y = t.y) ∧
    (∀ (n n1 n2 : Mesh K) (w2 : World K), n._tex_coords = [] →
      Mesh.updateNormals normalized n = Except.ok n1 →
      Mesh.updateHandles w n1 force_init = Except.ok (w2, n2) →
      n2.data = n1.data ∧ n2.faces = n.faces ∧
      Mesh.update normalized heap w n force_init =
        Except.ok ({ w2 with calls := (w2.calls ++
          uploadCalls n2.VAO n2.VBO n2.EBO n1.data n.faces) }, n2)) := by
  constructor
  · obtain ⟨map, hmap, hle, hm0⟩ := set_tex_coords_ok m m0 uv uv_faces hset
    obtain ⟨hflen, hinuv, hmaplen, hinv, hval⟩ :=
      make_uv_to_vert_map_ok uv.length m.faces uv_faces map hmap
    obtain ⟨hf1, hc1, htf1, hv1, hd1⟩ := updateNormals_tables normalized m0 m1 hn
    obtain ⟨hd2, hf2, hc2, htf2, hv2, -⟩ := updateHandles_tables w w1 m1 m2 force_init hh
    have e_data : m0.data = m.data := by rw [hm0]
    have e_faces : m0.faces = m.faces := by rw [hm0]
    have e_uv : m0._tex_coords = uv := by rw [hm0]
    have e_tf : m0._tex_faces = uv_faces := by rw [hm0]
    have e_map : m0._tex_to_vert = map := by rw [hm0]
    by_cases huv : uv.length = 0
    · have hdata : m.data = [] := List.eq_nil_of_length_eq_zero (by omega)
      have huvf : uv_faces = [] := by
        cases uv_faces with
        | nil => rfl
        | cons g rest =>
          have := hinuv g (List.mem_cons_self _ _) 0
          omega
      have hfaces : m.faces = [] := by
        apply List.eq_nil_of_length_eq_zero
        rw [hflen, huvf]
        rfl
      have hd1nil : m1.data = [] := by
        rcases hd1 with h | ⟨ns, -, h⟩
        · rw [h, e_data, hdata]
        · rw [h, e_data, hdata]
          rfl
      have huv0 : m0._tex_coords = [] := by
        rw [e_uv]
        exact List.eq_nil_of_length_eq_zero huv
      refine ⟨m2.data, m2, ?_, ?_, ?_, fun i hi => by omega⟩
      · rw [update_no_uv normalized heap w w1 m0 m1 m2 force_init hctx huv0 hn hh, hf2, hf1,
          e_faces, hfaces, huvf]
      · rw [hd2, hd1nil, huv]
        rfl
      · rw [hd1nil, hdata]
    · have hfne : m.faces ≠ [] := by
        intro hf
        have h0 : 0 < uv.length := by omega
        obtain ⟨v, hlast, -⟩ := lastValue_of_ok uv.length m.faces uv_faces map hmap 0 h0
        have hmem := lastValue_mem _ _ _ hlast
        rw [hf] at hmem
        simp [cornerPairs] at hmem
      have hlen1 : m1.data.length = m.data.length ∧
          m1.data.map (fun v => v.pos) = m.data.map (fun v => v.pos) := by
        rcases hd1 with h | ⟨ns, hns, h⟩
        · rw [h, e_data]
          exact ⟨rfl, rfl⟩
        · rw [e_data, e_faces] at hns
          obtain ⟨sums, counts, -, hres, hs1, hs2, -⟩ :=
            estimate_normals_rows normalized (m.data.map fun v => v.pos) m.faces
              (m.data.map fun v => v.norm) hfne (by rw [List.length_map]; exact hin)
              (by rw [List.length_map, List.length_map])
          rw [hns] at hres
          have hnslen : ns.length = m.data.length := by
            rw [Except.ok.inj hres, List.length_zipWith, hs1, hs2, Nat.min_self,
              List.length_map]
          have hsn := map_norm_setNorm m.data ns hnslen.symm
          rw [h, e_data]
          exact ⟨hsn.2.2, hsn.2.1⟩
      have hmapk : ∀ i, i < m2._tex_coords.length →
          ∃ k, m2._tex_to_vert[i]? = some k ∧ k < m2.data.length := by
        intro i hi
        rw [hc2, hc1, e_uv] at hi
        obtain ⟨v, hlast, hri⟩ := lastValue_of_ok uv.length m.faces uv_faces map hmap i hi
        obtain ⟨fg, hfg, j, -, h2⟩ :=
          (mem_cornerPairs m.faces uv_faces i v).1 (lastValue_mem _ _ _ hlast)
        have hf : fg.1 ∈ m.faces :=
          (List.of_mem_zip (show (fg.1, fg.2) ∈ m.faces.zip uv_faces from hfg)).1
        refine ⟨v, by rw [hv2, hv1, e_map]; exact hri, ?_⟩
        rw [hd2, hlen1.1, ← h2]
        exact hin fg.1 hf j
      have huv2 : m2._tex_coords.length ≠ 0 := by
        rw [hc2, hc1, e_uv]
        exact huv
      obtain ⟨vd, hsel, hvdlen, hrows⟩ := selectBuffers_uv heap m2 huv2 hmapk
      refine ⟨vd, { m2 with _data_tex := vd }, ?_, ?_, hlen1.2, fun i hi => ?_⟩
      · rw [Mesh.update_eq normalized heap w m0 force_init hctx, hn]
        simp only [bind, Except.bind]
        rw [hh]
        simp only []
        rw [hsel]
        simp only []
        rw [htf2, htf1, e_tf]
      · rw [hvdlen, hc2, hc1, e_uv]
      · obtain ⟨k, src, row, t, h1, h2, h3, h4, h5⟩ :=
          hrows i (by rw [hc2, hc1, e_uv]; exact hi)
        rw [hv2, hv1] at h1
        rw [hd2] at h2
        rw [hc2, hc1, e_uv] at h4
        exact ⟨k, src, row, t, h1, h2, h3, h4, h5⟩
  · intro n n1 n2 w2 huv hn1 hh1
    obtain ⟨hf1, -⟩ := updateNormals_tables normalized n n1 hn1
    obtain ⟨hd2, hf2, -⟩ := updateHandles_tables w w2 n1 n2 force_init hh1
    refine ⟨hd2, by rw [hf2, hf1], ?_⟩
    rw [update_no_uv normalized heap w w2 n n1 n2 force_init hctx huv hn1 hh1, hd2, hf2, hf1]

/-! ## C21, C22: `Mesh::draw` -/

/-- C21: `Mesh::draw` returns with the log of GPU calls and the mesh as they were when the
mesh is disabled or has no vertex; for an enabled mesh with a vertex and an invalid
vertex-array handle it returns with one more line on `std::cerr`, the log of GPU calls and
the mesh as they were. -/
theorem draw_skipped (inverse : Matrix (Fin 3) (Fin 3) K → Matrix (Fin 3) (Fin 3) K)
    (w : World K) (m : Mesh K) (shader_id : Nat) (camera : Camera K) :
    ((m.enabled = false ∨ m.data.length = 0) →
      Mesh.draw inverse w m shader_id camera = (w, m)) ∧
    (m.enabled = true → m.data.length ≠ 0 → m.VAO = INVALID →
      Mesh.draw inverse w m shader_id camera =
        ({ w with stderr := w.stderr ++ [drawBeforeUpdate] }, m) ∧
      (Mesh.draw inverse w m shader_id camera).1.calls = w.calls) := by
  constructor
  · intro h
    unfold Mesh.draw
    rw [if_pos]
    rcases h with h | h
    · exact Or.inl (by rw [h]; simp)
    · exact Or.inr h
  · intro hen hdata hvao
    have hdraw : Mesh.draw inverse w m shader_id camera =
        ({ w with stderr := w.stderr ++ [drawBeforeUpdate] }, m) := by
      unfold Mesh.draw
      rw [if_neg, if_pos hvao]
      · rfl
      · rintro (h | h)
        · exact h hen
        · exact hdata h
    rw [hdraw]
    exact ⟨rfl, rfl⟩

theorem toInt_of_lt (x : Nat) (h : x < 2147483648) : toInt x = (x : Int) := by
  have hm : x % 4294967296 = x := Nat.mod_eq_of_lt (by omega)
  unfold toInt
  rw [hm, if_pos h]

theorem uniformName_eq (ttype_name : String) (k : Nat) :
    "material." ++ ttype_name ++ (if k ≠ 0 then to_string k else "") =
      uniformName ttype_name k := by
  unfold uniformName
  by_cases hk : k = 0
  · rw [if_neg (not_not.mpr hk), if_pos hk, String.append_empty]
  · rw [if_pos hk, if_neg hk]

/-- One pass of the inner loop while the counters stay below `2 ^ 31`. -/
theorem bindStep_eq (shader_id : Nat) (ttype_name : String) (w : World K) (unit k : Nat)
    (tex : Texture K) (hu : unit < 2147483648) (hk : k < 2147483648) :
    bindStep shader_id ttype_name (w, unit, k) tex =
      ({ w with calls := w.calls ++ bindCalls shader_id ttype_name k unit tex },
        unit + 1, k + 1) := by
  unfold bindStep
  simp only []
  rw [toIndex_of_lt (show unit + 1 < 4294967296 by omega),
    toIndex_of_lt (show k + 1 < 4294967296 by omega), toInt_of_lt unit hu, uniformName_eq]
  simp [World.call, bindCalls]

theorem foldl_bindStep (shader_id : Nat) (ttype_name : String) (xs : List (Texture K)) :
    ∀ (w : World K) (unit k : Nat), unit + xs.length ≤ 2147483648 →
      k + xs.length ≤ 2147483648 →
      xs.foldl (bindStep shader_id ttype_name) (w, unit, k) =
        ({ w with calls := w.calls ++ seqCalls shader_id ttype_name unit k xs },
          unit + xs.length, k + xs.length) := by
  induction xs with
  | nil =>
    intro w unit k _ _
    simp [seqCalls]
  | cons tex rest ih =>
    intro w unit k hu hk
    rw [List.length_cons] at hu hk
    rw [List.foldl_cons, bindStep_eq shader_id ttype_name w unit k tex (by omega) (by omega),
      ih _ (unit + 1) (k + 1) (by omega) (by omega)]
    simp only [seqCalls, List.append_assoc, List.length_cons]
    congr 2 <;> omega

theorem seqCalls_eq_range (shader_id : Nat) (ttype_name : String) (xs : List (Texture K)) :
    ∀ (unit k : Nat), seqCalls shader_id ttype_name unit k xs =
      (List.range xs.length).flatMap fun i =>
        match xs[i]? with
        | some tex => bindCalls shader_id ttype_name (k + i) (unit + i) tex
        | none => [] := by
  induction xs with
  | nil =>
    intro unit k
    rfl
  | cons tex rest ih =>
    intro unit k
    rw [seqCalls, ih, List.length_cons, List.range_succ_eq_map, List.flatMap_cons,
      List.flatMap_map]
    simp only [List.getElem?_cons_zero, List.getElem?_cons_succ, Nat.add_zero]
    congr 2
    funext i
    have h1 : k + 1 + i = k + i.succ := by omega
    have h2 : unit + 1 + i = unit + i.succ := by omega
    rw [h1, h2]

theorem flatMap_congr_mem {α β : Type} (l : List α) (f g : α → List β)
    (h : ∀ a ∈ l, f a = g a) : l.flatMap f = l.flatMap g := by
  induction l with
  | nil => rfl
  | cons a rest ih =>
    rw [List.flatMap_cons, List.flatMap_cons, h a (List.mem_cons_self _ _),
      ih (fun b hb => h b (List.mem_cons_of_mem _ hb))]

theorem seqCalls_reverse (shader_id : Nat) (ttype_name : String) (offset : Nat)
    (L : List (Texture K)) :
    seqCalls shader_id ttype_name (1 + offset) 0 L.reverse =
      typeCalls shader_id ttype_name offset L := by
  rw [seqCalls_eq_range, List.length_reverse]
  unfold typeCalls
  apply flatMap_congr_mem
  intro i hi
  rw [List.mem_range] at hi
  rw [List.getElem?_reverse hi, Nat.zero_add]
theorem gen_blank_texture_valid (w : World K) (m : Mesh K) (h : m.blank_tex_id ≠ INVALID) :
    Mesh.gen_blank_texture w m = (w, m) := by
  unfold Mesh.gen_blank_texture
  rw [if_pos h]

theorem gen_blank_texture_invalid (w : World K) (m : Mesh K) (h : m.blank_tex_id = INVALID) :
    Mesh.gen_blank_texture w m =
      ({ w with used := w.used + 1, calls := w.calls ++ genBlankCalls (w.names w.used) },
       { m with blank_tex_id := w.names w.used }) := by
  unfold Mesh.gen_blank_texture
  rw [if_neg (not_not.mpr h)]
  simp [World.gen, World.call, genBlankCalls]

/-- One pass of the first loop at a type with textures. -/
theorem blankStep_some (shader_id : Nat) (w : World K) (m : Mesh K) (ttype : Nat)
    (h : (m.textures.getD ttype []).length ≠ 0) :
    blankStep shader_id (w, m) ttype = (w, m) := by
  unfold blankStep
  rw [if_neg h]

/-- One pass of the first loop at a type without textures, the fallback image made: -/
theorem blankStep_none_valid (shader_id : Nat) (w : World K) (m : Mesh K) (ttype : Nat)
    (h : (m.textures.getD ttype []).length = 0) (hb : m.blank_tex_id ≠ INVALID) :
    blankStep shader_id (w, m) ttype =
      ({ w with calls := w.calls ++
          fallbackCalls shader_id (type_to_name ttype) m.blank_tex_id }, m) := by
  unfold blankStep
  rw [if_pos h]
  simp only []
  rw [gen_blank_texture_valid w m hb]
  simp [World.call, fallbackCalls]

/-- One pass of the first loop at a type without textures, the fallback image not made: -/
theorem blankStep_none_invalid (shader_id : Nat) (w : World K) (m : Mesh K) (ttype : Nat)
    (h : (m.textures.getD ttype []).length = 0) (hb : m.blank_tex_id = INVALID) :
    blankStep shader_id (w, m) ttype =
      ({ w with used := w.used + 1, calls := w.calls ++ genBlankCalls (w.names w.used) ++
          fallbackCalls shader_id (type_to_name ttype) (w.names w.used) },
       { m with blank_tex_id := w.names w.used }) := by
  unfold blankStep
  rw [if_pos h]
  simp only []
  rw [gen_blank_texture_invalid w m hb]
  simp [World.call, fallbackCalls]

/-- One pass of the second loop while the counters stay below `2 ^ 31`. -/
theorem bindType_eq (shader_id : Nat) (textures : List (List (Texture K))) (w : World K)
    (unit ttype : Nat) (hu : 1 ≤ unit)
    (hb : unit + (textures.getD ttype []).length ≤ 2147483648) :
    bindType shader_id textures (w, unit) ttype =
      ({ w with calls := w.calls ++
          typeCalls shader_id (type_to_name ttype) (unit - 1) (textures.getD ttype []) },
        unit + (textures.getD ttype []).length) := by
  unfold bindType
  simp only []
  rw [foldl_bindStep shader_id (type_to_name ttype) _ w unit 0
    (by rw [List.length_reverse]; exact hb) (by rw [List.length_reverse]; omega)]
  have h1 : unit = 1 + (unit - 1) := by omega
  rw [List.length_reverse]
  nth_rewrite 1 [h1]
  rw [seqCalls_reverse]

/-- The first loop of `Mesh::draw` over the two texture types. -/
theorem blank_loop (shader_id : Nat) (w : World K) (m : Mesh K) (L0 L1 : List (Texture K))
    (htex : m.textures = [L0, L1]) (hname : w.names w.used ≠ INVALID) :
    ∃ wB mB, (List.range TYPE_COUNT).foldl (blankStep shader_id) (w, m) = (wB, mB) ∧
      mB.textures = m.textures ∧ mB.shininess = m.shininess ∧ mB.transform = m.transform ∧
      mB.VAO = m.VAO ∧ mB.faces = m.faces ∧
      wB.calls = w.calls ++
        (if (L0.length = 0 ∨ L1.length = 0) ∧ m.blank_tex_id = INVALID then
          genBlankCalls (w.names w.used) else []) ++
        (if L0.length = 0 then fallbackCalls shader_id "diffuse"
          (if m.blank_tex_id = INVALID then w.names w.used else m.blank_tex_id) else []) ++
        (if L1.length = 0 then fallbackCalls shader_id "specular"
          (if m.blank_tex_id = INVALID then w.names w.used else m.blank_tex_id) else []) := by
  have hrange : List.range TYPE_COUNT = [0, 1] := rfl
  have hn0 : type_to_name 0 = "diffuse" := rfl
  have hn1 : type_to_name 1 = "specular" := rfl
  have g0 : m.textures.getD 0 [] = L0 := by rw [htex]; rfl
  have g1 : m.textures.getD 1 [] = L1 := by rw [htex]; rfl
  rw [hrange, List.foldl_cons, List.foldl_cons, List.foldl_nil]
  by_cases h0 : L0.length = 0
  · by_cases hb : m.blank_tex_id = INVALID
    · rw [blankStep_none_invalid shader_id w m 0 (by rw [g0]; exact h0) hb]
      by_cases h1 : L1.length = 0
      · have e1 : (m.textures.getD 1 []).length = 0 := by rw [g1]; exact h1
        rw [blankStep_none_valid shader_id _ { m with blank_tex_id := w.names w.used } 1 e1 hname]
        refine ⟨_, _, rfl, rfl, rfl, rfl, rfl, rfl, ?_⟩
        simp [h0, h1, hb, hn0, hn1]
      · have e1 : (m.textures.getD 1 []).length ≠ 0 := by rw [g1]; exact h1
        rw [blankStep_some shader_id _ { m with blank_tex_id := w.names w.used } 1 e1]
        refine ⟨_, _, rfl, rfl, rfl, rfl, rfl, rfl, ?_⟩
        simp [h0, h1, hb, hn0]
    · rw [blankStep_none_valid shader_id w m 0 (by rw [g0]; exact h0) hb]
      by_cases h1 : L1.length = 0
      · rw [blankStep_none_valid shader_id _ m 1 (by rw [g1]; exact h1) hb]
        refine ⟨_, _, rfl, rfl, rfl, rfl, rfl, rfl, ?_⟩
        simp [h0, h1, hb, hn0, hn1]
      · rw [blankStep_some shader_id _ m 1 (by rw [g1]; exact h1)]
        refine ⟨_, _, rfl, rfl, rfl, rfl, rfl, rfl, ?_⟩
        simp [h0, h1, hb, hn0]
  · rw [blankStep_some shader_id w m 0 (by rw [g0]; exact h0)]
    by_cases h1 : L1.length = 0
    · by_cases hb : m.blank_tex_id = INVALID
      · rw [blankStep_none_invalid shader_id w m 1 (by rw [g1]; exact h1) hb]
        refine ⟨_, _, rfl, rfl, rfl, rfl, rfl, rfl, ?_⟩
        simp [h0, h1, hb, hn1]
      · rw [blankStep_none_valid shader_id w m 1 (by rw [g1]; exact h1) hb]
        refine ⟨_, _, rfl, rfl, rfl, rfl, rfl, rfl, ?_⟩
        simp [h0, h1, hb, hn1]
    · rw [blankStep_some shader_id w m 1 (by rw [g1]; exact h1)]
      refine ⟨_, _, rfl, rfl, rfl, rfl, rfl, rfl, ?_⟩
      simp [h0, h1]

/-- C22: `Mesh::draw` on an enabled textured mesh with buffers, with the texture lists
`L0` of type diffuse and `L1` of type specular holding fewer than `2 ^ 31 - 1` textures:
after the calls for the types without textures (the uniform `material.<typename>` set to
unit 0 and the grey fallback image, made if need be, bound there), for every type and every
`k` below the size of its list the texture `L[|L| - 1 - k]` is bound to the unit
`1 + (the sizes of the earlier lists) + k` under the uniform `material.<typename>` for
`k = 0` and `material.<typename>k` for `k ≥ 1`; these units differ from each other and
from 0. -/
theorem draw_binds_textures (inverse : Matrix (Fin 3) (Fin 3) K → Matrix (Fin 3) (Fin 3) K)
    (w : World K) (m : Mesh K) (shader_id : Nat) (camera : Camera K)
    (L0 L1 : List (Texture K))
    (hen : m.enabled = true) (hdata : m.data.length ≠ 0) (hvao : m.VAO ≠ INVALID)
    (hshade : m.shading_type = ShadingType.texture) (htex : m.textures = [L0, L1])
    (hname : w.names w.used ≠ INVALID) (hbound : L0.length + L1.length < 2147483647) :
    (Mesh.draw inverse w m shader_id camera).1.calls =
      w.calls ++
        (if (L0.length = 0 ∨ L1.length = 0) ∧ m.blank_tex_id = INVALID then
          genBlankCalls (w.names w.used) else []) ++
        (if L0.length = 0 then fallbackCalls shader_id "diffuse"
          (if m.blank_tex_id = INVALID then w.names w.used else m.blank_tex_id) else []) ++
        (if L1.length = 0 then fallbackCalls shader_id "specular"
          (if m.blank_tex_id = INVALID then w.names w.used else m.blank_tex_id) else []) ++
        typeCalls shader_id "diffuse" 0 L0 ++
        typeCalls shader_id "specular" L0.length L1 ++
        drawCalls inverse m shader_id camera ∧
    (∀ k j, k < L0.length → j < L1.length →
      1 + 0 + k ≠ 0 ∧ 1 + L0.length + j ≠ 0 ∧ 1 + 0 + k ≠ 1 + L0.length + j) ∧
    (∀ (offset k j : Nat), k ≠ j → 1 + offset + k ≠ 1 + offset + j) := by
  refine ⟨?_, fun k j hk hj => ⟨by omega, by omega, by omega⟩, fun offset k j h => by omega⟩
  obtain ⟨wB, mB, hB, hBtex, hBsh, hBtr, hBvao, hBf, hBcalls⟩ :=
    blank_loop shader_id w m L0 L1 htex hname
  have hrange : List.range TYPE_COUNT = [0, 1] := rfl
  have hn0 : type_to_name 0 = "diffuse" := rfl
  have hn1 : type_to_name 1 = "specular" := rfl
  have g0 : mB.textures.getD 0 [] = L0 := by rw [hBtex, htex]; rfl
  have g1 : mB.textures.getD 1 [] = L1 := by rw [hBtex, htex]; rfl
  have hbind : (List.range TYPE_COUNT).foldl (bindType shader_id mB.textures) (wB, 1) =
      ({ wB with calls := wB.calls ++ typeCalls shader_id "diffuse" 0 L0 ++
          typeCalls shader_id "specular" L0.length L1 }, 1 + L0.length + L1.length) := by
    rw [hrange, List.foldl_cons, List.foldl_cons, List.foldl_nil,
      bindType_eq shader_id mB.textures wB 1 0 (Nat.le_refl 1) (by rw [g0]; omega), g0,
      bindType_eq shader_id mB.textures _ (1 + L0.length) 1 (by omega) (by rw [g1]; omega),
      g1, hn0, hn1]
    have hoff : 1 + L0.length - 1 = L0.length := by omega
    rw [hoff]
  have hdc : drawCalls inverse mB shader_id camera = drawCalls inverse m shader_id camera := by
    unfold drawCalls
    rw [hBsh, hBtr, hBvao, hBf]
  unfold Mesh.draw
  rw [if_neg (by rintro (h | h)
                 · exact h hen
                 · exact hdata h), if_neg hvao, if_pos hshade]
  simp only []
  rw [hB]
  simp only []
  rw [hbind]
  simp only []
  rw [hdc, hBcalls]

theorem draw_binds_textures_witness :
    (Mesh.draw id liveWorld drawableTriangle 7 sampleCamera).1.calls =
      liveWorld.calls ++
        (if ([loadedTexture 4, loadedTexture 5].length = 0 ∨
              ([] : List (Texture ℚ)).length = 0) ∧ drawableTriangle.blank_tex_id = INVALID then
          genBlankCalls (liveWorld.names liveWorld.used) else []) ++
        (if [loadedTexture 4, loadedTexture 5].length = 0 then fallbackCalls 7 "diffuse"
          (if drawableTriangle.blank_tex_id = INVALID then liveWorld.names liveWorld.used
            else drawableTriangle.blank_tex_id) else []) ++
        (if ([] : List (Texture ℚ)).length = 0 then fallbackCalls 7 "specular"
          (if drawableTriangle.blank_tex_id = INVALID then liveWorld.names liveWorld.used
            else drawableTriangle.blank_tex_id) else []) ++
        typeCalls 7 "diffuse" 0 [loadedTexture 4, loadedTexture 5] ++
        typeCalls 7 "specular" [loadedTexture 4, loadedTexture 5].length [] ++
        drawCalls id drawableTriangle 7 sampleCamera ∧
    (∀ k j, k < [loadedTexture 4, loadedTexture 5].length →
      j < ([] : List (Texture ℚ)).length →
      1 + 0 + k ≠ 0 ∧ 1 + [loadedTexture 4, loadedTexture 5].length + j ≠ 0 ∧
        1 + 0 + k ≠ 1 + [loadedTexture 4, loadedTexture 5].length + j) ∧
    (∀ (offset k j : Nat), k ≠ j → 1 + offset + k ≠ 1 + offset + j) :=
  draw_binds_textures id liveWorld drawableTriangle 7 sampleCamera
    [loadedTexture 4, loadedTexture 5] [] rfl (by decide) (by decide) rfl rfl (by decide)
    (by simp)

/-- The calls that bind the two diffuse textures of `drawableTriangle`: the texture added
last goes to unit 1 under `material.diffuse`, the one before to unit 2 under
`material.diffuse1`. -/
theorem typeCalls_sample :
    typeCalls 7 "diffuse" 0 [loadedTexture 4, loadedTexture 5] =
      [GLCall.activeTexture 1, GLCall.setInt 7 "material.diffuse" 1, GLCall.bindTexture 5,
       GLCall.activeTexture 2, GLCall.setInt 7 "material.diffuse1" 2, GLCall.bindTexture 4] := by
  decide

/-- C6: after `set_tex_coords(uv, uv_faces)` succeeded on a mesh whose faces are in range,
`Mesh::update` in a context, once its normals and its handles are made, binds the vertex
array and the two buffers and hands to `glBufferData` a vertex table `vd` with `uv.rows()`
rows, whose row `i` has position and normal of vertex `map[i]` after the estimation of the
normals and row `i` of `uv` in columns 3 and 4, and the index table `uv_faces`. Of a mesh
with no texture coordinates it hands over `data` and `faces`. -/
theorem update_uploads_uv_table (normalized : Vec3 K → Vec3 K) (heap : Heap K)
    (w w1 : World K) (m m0 m1 m2 : Mesh K) (uv : List (Vec2 K)) (uv_faces : Triangles)
    (force_init : Bool)
    (hset : Mesh.set_tex_coords m uv uv_faces = Except.ok m0)
    (hin : InRange m.faces m.data.length) (hctx : w.context = true)
    (hn : Mesh.updateNormals normalized m0 = Except.ok m1)
    (hh : Mesh.updateHandles w m1 force_init = Except.ok (w1, m2)) :
    (∃ vd m3, Mesh.update normalized heap w m0 force_init =
        Except.ok ({ w1 with calls := (w1.calls ++
          [ GLCall.bindVertexArray m2.VAO,
            GLCall.bindBuffer BufferTarget.arrayBuffer m2.VBO,
            GLCall.bufferData BufferTarget.arrayBuffer (uv.length * 9 * 4)
              (BufferContent.verts vd),
            GLCall.bindBuffer BufferTarget.elementArrayBuffer m2.EBO,
            GLCall.bufferData BufferTarget.elementArrayBuffer (uv_faces.length * 3 * 4)
              (BufferContent.tris uv_faces),
            GLCall.enableVertexAttribArray 0, GLCall.vertexAttribPointer 0 3 36 0,
            GLCall.enableVertexAttribArray 1, GLCall.vertexAttribPointer 1 3 36 12,
            GLCall.enableVertexAttribArray 2, GLCall.vertexAttribPointer 2 3 36 24,
            GLCall.bindVertexArray 0 ]) }, m3) ∧
      vd.length = uv.length ∧ m1.data.map (fun v => v.pos) = m.data.map (fun v => v.pos) ∧
      ∀ i, i < uv.length → ∃ k src row t, m0._tex_to_vert[i]? = some k ∧
        m1.data[k]? = some src ∧ vd[i]? = some row ∧ uv[i]? = some t ∧
        row.pos = src.pos ∧ row.norm = src.norm ∧ row.rgb.x = t.x ∧ row.rgb.y = t.y) ∧
    (∀ (n n1 n2 : Mesh K) (w2 : World K), n._tex_coords = [] →
      Mesh.updateNormals normalized n = Except.ok n1 →
      Mesh.updateHandles w n1 force_init = Except.ok (w2, n2) →
      n2.data = n1.data ∧ n2.faces = n.faces ∧
      Mesh.update normalized heap w n force_init =
        Except.ok ({ w2 with calls := (w2.calls ++
          [ GLCall.bindVertexArray n2.VAO,
            GLCall.bindBuffer BufferTarget.arrayBuffer n2.VBO,
            GLCall.bufferData BufferTarget.arrayBuffer (n1.data.length * 9 * 4)
              (BufferContent.verts n1.data),
            GLCall.bindBuffer BufferTarget.elementArrayBuffer n2.EBO,
            GLCall.bufferData BufferTarget.elementArrayBuffer (n.faces.length * 3 * 4)
              (BufferContent.tris n.faces),
            GLCall.enableVertexAttribArray 0, GLCall.vertexAttribPointer 0 3 36 0,
            GLCall.enableVertexAttribArray 1, GLCall.vertexAttribPointer 1 3 36 12,
            GLCall.enableVertexAttribArray 2, GLCall.vertexAttribPointer 2 3 36 24,
            GLCall.bindVertexArray 0 ]) }, n2)) := by
  obtain ⟨⟨vd, m3, hup, hlen, hpos, hrows⟩, hplain⟩ :=
    update_uv_table_calls normalized heap w w1 m m0 m1 m2 uv uv_faces force_init hset hin hctx
      hn hh
  refine ⟨⟨vd, m3, ?_, hlen, hpos, hrows⟩, fun n n1 n2 w2 huv hn1 hh1 => ?_⟩
  · rw [hup, ← hlen]
    rfl
  · obtain ⟨h1, h2, h3⟩ := hplain n n1 n2 w2 huv hn1 hh1
    refine ⟨h1, h2, ?_⟩
    rw [h3]
    rfl

theorem update_uploads_uv_table_witness :
    ∃ w1 m2, Mesh.updateHandles liveWorld texturedTriangle true = Except.ok (w1, m2) ∧
    ((∃ vd m3, Mesh.update doubled zeroHeap liveWorld texturedTriangle true =
        Except.ok ({ w1 with calls := (w1.calls ++
          [ GLCall.bindVertexArray m2.VAO,
            GLCall.bindBuffer BufferTarget.arrayBuffer m2.VBO,
            GLCall.bufferData BufferTarget.arrayBuffer (threeCoords.length * 9 * 4)
              (BufferContent.verts vd),
            GLCall.bindBuffer BufferTarget.elementArrayBuffer m2.EBO,
            GLCall.bufferData BufferTarget.elementArrayBuffer
              (([⟨2, 0, 1⟩] : Triangles).length * 3 * 4) (BufferContent.tris [⟨2, 0, 1⟩]),
            GLCall.enableVertexAttribArray 0, GLCall.vertexAttribPointer 0 3 36 0,
            GLCall.enableVertexAttribArray 1, GLCall.vertexAttribPointer 1 3 36 12,
            GLCall.enableVertexAttribArray 2, GLCall.vertexAttribPointer 2 3 36 24,
            GLCall.bindVertexArray 0 ]) }, m3) ∧
      vd.length = threeCoords.length ∧
      texturedTriangle.data.map (fun v => v.pos) = triangleMesh.data.map (fun v => v.pos) ∧
      ∀ i, i < threeCoords.length → ∃ k src row t, texturedTriangle._tex_to_vert[i]? = some k ∧
        texturedTriangle.data[k]? = some src ∧ vd[i]? = some row ∧ threeCoords[i]? = some t ∧
        row.pos = src.pos ∧ row.norm = src.norm ∧ row.rgb.x = t.x ∧ row.rgb.y = t.y) ∧
    (∀ (n n1 n2 : Mesh ℚ) (w2 : World ℚ), n._tex_coords = [] →
      Mesh.updateNormals doubled n = Except.ok n1 →
      Mesh.updateHandles liveWorld n1 true = Except.ok (w2, n2) →
      n2.data = n1.data ∧ n2.faces = n.faces ∧
      Mesh.update doubled zeroHeap liveWorld n true =
        Except.ok ({ w2 with calls := (w2.calls ++
          [ GLCall.bindVertexArray n2.VAO,
            GLCall.bindBuffer BufferTarget.arrayBuffer n2.VBO,
            GLCall.bufferData BufferTarget.arrayBuffer (n1.data.length * 9 * 4)
              (BufferContent.verts n1.data),
            GLCall.bindBuffer BufferTarget.elementArrayBuffer n2.EBO,
            GLCall.bufferData BufferTarget.elementArrayBuffer (n.faces.length * 3 * 4)
              (BufferContent.tris n.faces),
            GLCall.enableVertexAttribArray 0, GLCall.vertexAttribPointer 0 3 36 0,
            GLCall.enableVertexAttribArray 1, GLCall.vertexAttribPointer 1 3 36 12,
            GLCall.enableVertexAttribArray 2, GLCall.vertexAttribPointer 2 3 36 24,
            GLCall.bindVertexArray 0 ]) }, n2))) :=
  ⟨_, _, rfl, update_uploads_uv_table doubled zeroHeap liveWorld _ triangleMesh
    texturedTriangle texturedTriangle _ threeCoords [⟨2, 0, 1⟩] true rfl
    (by unfold InRange; decide) rfl rfl rfl⟩

/-- The samples of the image `Texture::load` keeps of a decoded file. -/
theorem decodedImage_samples (d : Decoded) (r : Nat) (hr : r < d.height) :
    ∃ row, (decodedImage d : List (List K))[r]? = some row ∧
      row.length = d.width * d.chnls ∧
      ∀ c, c < d.width * d.chnls →
        row[c]? = some (((d.data.getD (r * (d.width * d.chnls) + c) 0 : Nat) : K) /
          ((255 : Nat) : K)) := by
  refine ⟨(List.range (d.width * d.chnls)).map fun c =>
      ((d.data.getD (r * (d.width * d.chnls) + c) 0 : Nat) : K) / ((255 : Nat) : K), ?_, ?_, ?_⟩
  · unfold decodedImage
    rw [List.getElem?_map, List.getElem?_range hr]
    rfl
  · rw [List.length_map, List.length_range]
  · intro c hc
    rw [List.getElem?_map, List.getElem?_range hc]
    rfl

/-- C25: a load that decodes its file into an image with at least one row keeps, as row
`r` and column `c` of its image, byte `r * (width * channels) + c` of the decoded data
divided by 255, and keeps the channel count; a later load of that texture, with any handle,
in any state of the driver and with any decoder, uploads the kept image and gives the same
result whatever the decoder would return. -/
theorem load_keeps_decoded_image (w : World K) (t : Texture K) (d : Decoded)
    (him : t.im_data.length = 0) (hp : t.path.length ≠ 0)
    (hd : w.decode t.path t.flip = some d)
    (hc : d.chnls = 1 ∨ d.chnls = 3 ∨ d.chnls = 4) (hrows : d.height ≠ 0) :
    ∃ w1 t1, Texture.load w t = Except.ok (w1, t1) ∧
      t1.im_data.length = d.height ∧
      (∀ r, r < d.height → ∃ row, t1.im_data[r]? = some row ∧
        row.length = d.width * d.chnls ∧
        ∀ c, c < d.width * d.chnls →
          row[c]? = some (((d.data.getD (r * (d.width * d.chnls) + c) 0 : Nat) : K) /
            ((255 : Nat) : K))) ∧
      t1.n_channels = d.chnls ∧
      ∀ (w2 : World K) (id2 : Nat) (dec : String → Bool → Option Decoded),
        Texture.load { w2 with decode := dec } { t1 with id := id2 } =
          Except.ok
            ({ w2 with
                decode := dec,
                used := if id2 = INVALID then w2.used + 1 else w2.used,
                calls := w2.calls ++ setupCalls w2 { t1 with id := id2 } ++
                  uploadImageCalls d.width d.height d.chnls (Pixels.floats t1.im_data) },
             { t1 with id := loadedId w2 { t1 with id := id2 } }) := by
  rw [Texture.load_eq, if_neg (not_not.mpr him), if_pos hp, hd]
  show ∃ w1 t1, (gl_load_mipmap _ d.width d.height d.chnls _ >>= _) = _ ∧ _
  rw [gl_load_mipmap_valid _ _ _ _ _ hc]
  refine ⟨_, _, rfl, length_decodedImage d, fun r hr => decodedImage_samples d r hr, rfl, ?_⟩
  intro w2 id2 dec
  have hlen : (decodedImage d : List (List K)).length ≠ 0 := by
    rw [length_decodedImage]
    exact hrows
  have hpos : 0 < d.chnls := by omega
  rw [Texture.load_eq]
  show (if (decodedImage d : List (List K)).length ≠ 0 then
      gl_load_mipmap _ (imageCols (decodedImage d : List (List K)) / d.chnls)
        (decodedImage d : List (List K)).length d.chnls _ >>= _ else _) = _
  rw [if_pos hlen, gl_load_mipmap_valid _ _ _ _ _ hc, imageCols_decodedImage d hrows,
    length_decodedImage, Nat.mul_div_cancel _ hpos]
  rfl

theorem load_keeps_decoded_image_witness :
    ∃ w1 t1, Texture.load rgbWorld fileTexture = Except.ok (w1, t1) ∧
      t1.im_data.length = rgbPixel.height ∧
      (∀ r, r < rgbPixel.height → ∃ row, t1.im_data[r]? = some row ∧
        row.length = rgbPixel.width * rgbPixel.chnls ∧
        ∀ c, c < rgbPixel.width * rgbPixel.chnls →
          row[c]? = some (((rgbPixel.data.getD (r * (rgbPixel.width * rgbPixel.chnls) + c) 0 :
            Nat) : ℚ) / ((255 : Nat) : ℚ))) ∧
      t1.n_channels = rgbPixel.chnls ∧
      ∀ (w2 : World ℚ) (id2 : Nat) (dec : String → Bool → Option Decoded),
        Texture.load { w2 with decode := dec } { t1 with id := id2 } =
          Except.ok
            ({ w2 with
                decode := dec,
                used := if id2 = INVALID then w2.used + 1 else w2.used,
                calls := w2.calls ++ setupCalls w2 { t1 with id := id2 } ++
                  uploadImageCalls rgbPixel.width rgbPixel.height rgbPixel.chnls
                    (Pixels.floats t1.im_data) },
             { t1 with id := loadedId w2 { t1 with id := id2 } }) :=
  load_keeps_decoded_image rgbWorld fileTexture rgbPixel (by decide) (by decide) rfl
    (by decide) (by decide)

/-- The image kept of the file of `rgbWorld`: the bytes 255, 0, 51 become 1, 0 and 1/5. -/
theorem decodedImage_sample :
    (decodedImage rgbPixel : List (List ℚ)) = [[1, 0, 1 / 5]] := by
  simp [decodedImage, rgbPixel, List.range_succ]
  norm_num

/-! ## The counter of `estimate_normals` in `float` arithmetic -/

theorem bitLength_zero (fuel : Nat) : bitLength fuel 0 = 0 := by
  cases fuel <;> simp [bitLength]

theorem bitLength_lower (fuel n : Nat) (hn : 0 < n) : 2 ^ (bitLength fuel n - 1) ≤ n := by
  induction fuel generalizing n with
  | zero => simpa [bitLength] using hn
  | succ fuel ih =>
    rw [bitLength, if_neg (Nat.pos_iff_ne_zero.mp hn), Nat.add_sub_cancel]
    rcases Nat.eq_zero_or_pos (n / 2) with h0 | hpos
    · rw [h0, bitLength_zero]
      simpa using hn
    · have h := ih (n / 2) hpos
      rcases Nat.eq_zero_or_pos (bitLength fuel (n / 2)) with hb | hb
      · rw [hb]
        simpa using hn
      · have e : bitLength fuel (n / 2) = (bitLength fuel (n / 2) - 1) + 1 := by omega
        rw [e, pow_succ]
        have := Nat.div_mul_le_self n 2
        omega

theorem bitLength_upper (fuel a n : Nat) (ha : a < fuel) (hn : 2 ^ a ≤ n) :
    a + 1 ≤ bitLength fuel n := by
  induction fuel generalizing a n with
  | zero => omega
  | succ fuel ih =>
    have hpos : 0 < n := lt_of_lt_of_le (pow_pos (by decide : 0 < 2) _) hn
    rw [bitLength, if_neg (Nat.pos_iff_ne_zero.mp hpos)]
    cases a with
    | zero => omega
    | succ a =>
      have h2 : 2 ^ a ≤ n / 2 := by
        rw [Nat.le_div_iff_mul_le (by decide)]
        rw [pow_succ] at hn
        exact hn
      have := ih a (n / 2) (by omega) h2
      omega

theorem normal_pos (q : Nat) (e : Int) (a : Nat) (hq : 0 < q) (ha : 2 ^ a ∣ q) (ha24 : a ≤ 24)
    (hea : 0 ≤ e + (a : Int)) :
    ∃ m e1, F32.normal false q e = F32.finite m e1 ∧ 0 < m ∧ 0 ≤ e1 := by
  have hg : 0 < Nat.gcd q 16777216 := Nat.gcd_pos_of_pos_left _ hq
  have hlow := bitLength_lower 32 (Nat.gcd q 16777216) hg
  have hdvd : 2 ^ a ∣ Nat.gcd q 16777216 :=
    Nat.dvd_gcd ha (by
      have : (16777216 : Nat) = 2 ^ 24 := by norm_num
      rw [this]
      exact pow_dvd_pow 2 ha24)
  have hle : 2 ^ a ≤ Nat.gcd q 16777216 := Nat.le_of_dvd hg hdvd
  have hup := bitLength_upper 32 a (Nat.gcd q 16777216) (by omega) hle
  have hq2 : 2 ^ (bitLength 32 (Nat.gcd q 16777216) - 1) ≤ q :=
    le_trans hlow (Nat.gcd_le_left _ hq)
  refine ⟨((q / 2 ^ (bitLength 32 (Nat.gcd q 16777216) - 1) : Nat) : Int),
    e + ((bitLength 32 (Nat.gcd q 16777216) - 1 : Nat) : Int), ?_, ?_, ?_⟩
  · unfold F32.normal
    rw [if_neg (Nat.pos_iff_ne_zero.mp hq)]
    rfl
  · have : 0 < q / 2 ^ (bitLength 32 (Nat.gcd q 16777216) - 1) :=
      Nat.div_pos hq2 (pow_pos (by decide : 0 < 2) _)
    exact_mod_cast this
  · have : a ≤ bitLength 32 (Nat.gcd q 16777216) - 1 := by omega
    have : (a : Int) ≤ ((bitLength 32 (Nat.gcd q 16777216) - 1 : Nat) : Int) := by
      exact_mod_cast this
    omega

theorem bitLength_one : bitLength 1024 1 = 1 := by
  rfl

theorem round_nat_pos (N : Nat) (hN : 0 < N) :
    F32.round false N 1 = F32.special ∨
      ∃ m e, F32.round false N 1 = F32.finite m e ∧ 0 < m ∧ 0 ≤ e := by
  have hb1 : 1 ≤ bitLength 1024 N := bitLength_upper 1024 0 N (by decide) (by simpa using hN)
  have hlow := bitLength_lower 1024 N hN
  obtain ⟨b, hb⟩ : ∃ b, bitLength 1024 N = b + 1 := ⟨bitLength 1024 N - 1, by omega⟩
  rw [hb, Nat.add_sub_cancel] at hlow
  have hk : ((b + 1 : Nat) : Int) - ((1 : Nat) : Int) = (b : Int) := by
    push_cast
    ring
  have hb0 : (0 : Int) ≤ (b : Int) := Int.ofNat_nonneg b
  have hge : decide (1 * 2 ^ (b : Int).toNat ≤ N) = true := by
    rw [Int.toNat_ofNat, one_mul]
    exact decide_eq_true hlow
  have hmax : max ((b : Int) - 23) (-149) = (b : Int) - 23 := by
    apply max_eq_left
    omega
  unfold F32.round
  rw [if_neg (Nat.pos_iff_ne_zero.mp hN), bitLength_one, hb]
  simp only [hk, if_pos hb0, hge, if_true, hmax]
  by_cases h23 : 23 ≤ b
  · have h0 : (0 : Int) ≤ (b : Int) - 23 := by omega
    have ht : ((b : Int) - 23).toNat = b - 23 := by omega
    simp only [if_pos h0, ht, one_mul]
    have hq : 0 < N / 2 ^ (b - 23) := by
      apply Nat.div_pos _ (pow_pos (by decide : 0 < 2) _)
      exact le_trans (Nat.pow_le_pow_right (by decide) (by omega)) hlow
    split_ifs
    · exact Or.inl rfl
    · exact Or.inr (normal_pos _ _ 0 (by omega) (by simp) (by decide) (by simpa using h0))
    · exact Or.inl rfl
    · exact Or.inr (normal_pos _ _ 0 hq (by simp) (by decide) (by simpa using h0))
  · have h0 : ¬ (0 : Int) ≤ (b : Int) - 23 := by omega
    have ht : (-((b : Int) - 23)).toNat = 23 - b := by omega
    simp only [if_neg h0, ht, Nat.div_one, Nat.mod_one]
    have hc : ¬ (1 < 2 * 0 ∨ 2 * 0 = 1 ∧ N * 2 ^ (23 - b) % 2 = 1) := by omega
    have hs : ¬ (104 < (b : Int) - 23 ∨ (b : Int) - 23 = 104 ∧
        16777216 ≤ N * 2 ^ (23 - b)) := by omega
    rw [if_neg hc, if_neg hs]
    refine Or.inr (normal_pos _ _ (23 - b) (Nat.mul_pos hN (pow_pos (by decide : 0 < 2) _))
      (Dvd.intro_left _ rfl) (by omega) (by omega))

theorem addOne_pos (c : F32)
    (h : c = F32.special ∨ ∃ m e, c = F32.finite m e ∧ 0 < m ∧ 0 ≤ e) :
    c + 1 = F32.special ∨ ∃ m e, c + 1 = F32.finite m e ∧ 0 < m ∧ 0 ≤ e := by
  rcases h with h | ⟨m, e, h, hm, he⟩
  · rw [h]
    exact Or.inl rfl
  · rw [h]
    have hmin : min e 0 = 0 := min_eq_right he
    have hsum : (F32.finite m e + 1 : F32) =
        F32.round false ((m * 2 ^ e.toNat + 1).natAbs) 1 := by
      show F32.add (F32.finite m e) (F32.finite 1 0) = _
      unfold F32.add F32.ofScaled
      simp only [hmin, sub_zero, le_refl, if_true, Int.toNat_zero, pow_zero, mul_one]
      have hpos : ¬ (m * 2 ^ e.toNat + 1 < 0) := by
        have : 0 < m * 2 ^ e.toNat + 1 := by positivity
        omega
      simp [hpos]
    rw [hsum]
    apply round_nat_pos
    have : 0 < m * 2 ^ e.toNat + 1 := by positivity
    omega

/-- A `float` counter that starts at 0 is not 0 after one or more statements `c += 1.f`. -/
theorem addOnes_float_ne_zero (n : Nat) (hn : 0 < n) : addOnes n (0 : F32) ≠ 0 := by
  have key : ∀ (k : Nat) (c : F32),
      (c = F32.special ∨ ∃ m e, c = F32.finite m e ∧ 0 < m ∧ 0 ≤ e) →
      (addOnes k c = F32.special ∨ ∃ m e, addOnes k c = F32.finite m e ∧ 0 < m ∧ 0 ≤ e) := by
    intro k
    induction k with
    | zero => exact fun c h => h
    | succ k ih => exact fun c h => ih (c + 1) (addOne_pos c h)
  obtain ⟨k, rfl⟩ : ∃ k, n = k + 1 := ⟨n - 1, by omega⟩
  have h1 := key k ((0 : F32) + 1) (Or.inr ⟨1, 0, by decide, by decide, le_refl 0⟩)
  show addOnes k ((0 : F32) + 1) ≠ F32.finite 0 0
  rcases h1 with h | ⟨m, e, h, hm, _⟩
  · rw [h]
    exact fun h2 => by cases h2
  · rw [h]
    intro h2
    cases h2
    exact absurd hm (by decide)

/-! ## C29: the divisor of `estimate_normals` -/

theorem foldl_addOnes (l : List (Vec3 K)) (c : K) :
    l.foldl (fun c _ => c + 1) c = addOnes l.length c := by
  induction l generalizing c with
  | nil => rfl
  | cons a rest ih =>
    rw [List.foldl_cons, ih, List.length_cons]
    rfl

/-- C29: for a non-empty face table with indices in range and an `out` with the rows of
`V`, `estimate_normals(V, F, out)` divides row `v` of the sums by the count of vertex `v`,
the counter `0 + 1 + ... + 1` with one `1` for each corner at `v`, and returns: no branch
guards the division. For a vertex in no face the sum is the zero row, the divisor is 0 and
the row returned is `0 / 0` in each column, whatever that is in the arithmetic (NaN for
`float`). Every divisor is non-zero exactly when every vertex is referenced, in an
arithmetic where adding ones to 0 does not give 0 again, as in `float`
(`addOnes_float_ne_zero`). -/
theorem estimate_normals_divisor (normalized : Vec3 K → Vec3 K)
    (verts : List (Vec3 K)) (faces : Triangles) (out : List (Vec3 K)) (hne : faces ≠ [])
    (hin : InRange faces verts.length) (hout : out.length = verts.length) :
    ∃ sums counts, accumulateFaces normalized verts faces out = Except.ok (sums, counts) ∧
      estimate_normals normalized verts faces out =
        Except.ok (List.zipWith (fun s c => (⟨s.x / c, s.y / c, s.z / c⟩ : Vec3 K))
          sums counts) ∧
      sums.length = verts.length ∧ counts.length = verts.length ∧
      (∀ v, v < verts.length → counts[v]? = some (addOnes (incidence faces v) 0)) ∧
      ((∀ v, v < verts.length → counts[v]? ≠ some 0) → AllReferenced faces verts.length) ∧
      ((∀ n, 0 < n → addOnes n (0 : K) ≠ 0) →
        ((∀ v, v < verts.length → counts[v]? ≠ some 0) ↔ AllReferenced faces verts.length)) ∧
      (∀ v, v < verts.length → (¬ ∃ f ∈ faces, ∃ j : Fin 3, f.col j = v) →
        sums[v]? = some ⟨0, 0, 0⟩ ∧ counts[v]? = some 0 ∧
        ∃ normals, estimate_normals normalized verts faces out = Except.ok normals ∧
          normals[v]? = some ⟨(0 : K) / 0, (0 : K) / 0, (0 : K) / 0⟩) := by
  obtain ⟨sums, counts, hacc, hres, h1, h2, hrows⟩ :=
    estimate_normals_rows normalized verts faces out hne hin hout
  have hcount : ∀ v, v < verts.length →
      counts[v]? = some (addOnes (incidence faces v) 0) := by
    intro v hv
    rw [(hrows v hv).2.1, foldl_addOnes, length_cornerNormals]
  have hzero : ∀ v, v < verts.length → (¬ ∃ f ∈ faces, ∃ j : Fin 3, f.col j = v) →
      incidence faces v = 0 := by
    intro v _ hno
    rcases Nat.eq_zero_or_pos (incidence faces v) with hz | hp
    · exact hz
    · exact absurd ((incidence_pos_iff faces v).mp hp) hno
  have hfwd : (∀ v, v < verts.length → counts[v]? ≠ some 0) →
      AllReferenced faces verts.length := by
    intro h v hv
    by_contra hno
    apply h v hv
    rw [hcount v hv, hzero v hv hno]
    rfl
  refine ⟨sums, counts, hacc, hres, h1, h2, hcount, hfwd, fun hpos => ⟨hfwd, ?_⟩, ?_⟩
  · intro href v hv
    rw [hcount v hv]
    have hp : 0 < incidence faces v := (incidence_pos_iff faces v).mpr (href v hv)
    intro h0
    exact hpos _ hp (Option.some.inj h0)
  · intro v hv hno
    have hnil : cornerNormals normalized verts faces v = [] := by
      apply List.eq_nil_of_length_eq_zero
      rw [length_cornerNormals, hzero v hv hno]
    obtain ⟨hs, hc, hd⟩ := hrows v hv
    rw [hnil] at hs hc hd
    exact ⟨hs, hc, _, hres, hd⟩

theorem estimate_normals_divisor_witness :
    ∃ sums counts, accumulateFaces id fourFloats [⟨0, 1, 2⟩] fourFloats =
        Except.ok (sums, counts) ∧
      estimate_normals id fourFloats [⟨0, 1, 2⟩] fourFloats =
        Except.ok (List.zipWith (fun s c => (⟨s.x / c, s.y / c, s.z / c⟩ : Vec3 F32))
          sums counts) ∧
      sums.length = fourFloats.length ∧ counts.length = fourFloats.length ∧
      (∀ v, v < fourFloats.length →
        counts[v]? = some (addOnes (incidence [⟨0, 1, 2⟩] v) 0)) ∧
      ((∀ v, v < fourFloats.length → counts[v]? ≠ some 0) ↔
        AllReferenced [⟨0, 1, 2⟩] fourFloats.length) ∧
      (∀ v, v < fourFloats.length → (¬ ∃ f ∈ [(⟨0, 1, 2⟩ : Tri)], ∃ j : Fin 3, f.col j = v) →
        sums[v]? = some ⟨0, 0, 0⟩ ∧ counts[v]? = some 0 ∧
        ∃ normals, estimate_normals id fourFloats [⟨0, 1, 2⟩] fourFloats =
            Except.ok normals ∧
          normals[v]? = some ⟨F32.special, F32.special, F32.special⟩) := by
  obtain ⟨sums, counts, h1, h2, h3, h4, h5, _, h7, h8⟩ :=
    estimate_normals_divisor id fourFloats [⟨0, 1, 2⟩] fourFloats (by simp)
      (by unfold InRange; decide) rfl
  exact ⟨sums, counts, h1, h2, h3, h4, h5, h7 addOnes_float_ne_zero, h8⟩

theorem flatMap_scanFaceLine (faceRefs : List (List (List Char × List Char)))
    (h : ∀ refs ∈ faceRefs, ∀ r ∈ refs, r.1 ≠ [] ∧ IsReference r.1 r.2) :
    (faceRefs.map faceLineOf).flatMap (scanFaceLine []) = firstIndices faceRefs.flatten := by
  induction faceRefs with
  | nil => rfl
  | cons refs rest ih =>
    rw [List.map_cons, List.flatMap_cons, List.flatten_cons,
      ih (fun refs' h' => h refs' (List.mem_cons_of_mem _ h'))]
    unfold faceLineOf firstIndices
    rw [scanFaceLine_references refs [] (h refs (List.mem_cons_self _ _)), List.nil_append,
      List.map_append]

/-- C30, counterexample: the line `f 1  2 3` holds three references, the second after two
spaces. The second space is read as the end of an empty number, which gives the index
`(Index) atoll("") - 1 = 4294967295`; four indices are read and the load ends fatally. The
line `f 1 2 3` loads. -/
theorem load_faces_double_space :
    scanFaceLine [] "f 1  2 3".toList = [0, 4294967295, 1, 2] ∧
    Mesh.load_basic_obj readDigitFields zeroHeap emptyMesh ["f 1  2 3".toList] =
      Except.error Failure.fatal ∧
    ∃ m', Mesh.load_basic_obj readDigitFields zeroHeap emptyMesh ["f 1 2 3".toList] =
      Except.ok m' ∧ m'.faces = [⟨0, 1, 2⟩] :=
  ⟨by decide, rfl, _, rfl, rfl⟩

/-- C30, as amended. `load_basic_obj` does not ask for three references on a face line.
Lines that are neither vertex lines nor face lines (second character not a space, or first
character neither `v` nor `f`) do not affect the result. When every face line is `f`
followed by its references with one space before each, and the vertex lines pass the
assertions on their field counts, the first indices of all references of all face lines, in
file order, form one sequence: the load ends fatally when the number of references is not
divisible by 3, and when it is divisible by 3 and not zero the load returns and face `k` is
made of the entries `3k`, `3k+1`, `3k+2` of the sequence, whatever lines they come from. The
lines `f 1 2` and `f 3 4 5 6` give the two faces `(0,1,2)` and `(3,4,5)`. -/
theorem load_faces_across_lines (rd : List Char → List K) (heap : Heap K) (m : Mesh K)
    (lines : List (List Char)) (faceRefs : List (List (List Char × List Char)))
    (hface : lines.filter isFaceLine = faceRefs.map faceLineOf)
    (hrefs : ∀ refs ∈ faceRefs, ∀ r ∈ refs, r.1 ≠ [] ∧ IsReference r.1 r.2)
    (hpass : countsPass 0
      ((lines.filter isVertexLine).map fun l => (rd (l.drop 2)).length) = true) :
    Mesh.load_basic_obj rd heap m lines =
      Mesh.load_basic_obj rd heap m (lines.filter fun l => isVertexLine l || isFaceLine l) ∧
    (firstIndices faceRefs.flatten).length = faceRefs.flatten.length ∧
    (faceRefs.flatten.length % 3 ≠ 0 →
      Mesh.load_basic_obj rd heap m lines = Except.error Failure.fatal) ∧
    (faceRefs.flatten.length % 3 = 0 → faceRefs.flatten.length ≠ 0 →
      ∃ m', Mesh.load_basic_obj rd heap m lines = Except.ok m' ∧
        m'.faces = triRows (firstIndices faceRefs.flatten) ∧
        ∀ k, 3 * k + 2 < faceRefs.flatten.length →
          ∃ t, m'.faces[k]? = some t ∧
            (firstIndices faceRefs.flatten)[3 * k]? = some t.v0 ∧
            (firstIndices faceRefs.flatten)[3 * k + 1]? = some t.v1 ∧
            (firstIndices faceRefs.flatten)[3 * k + 2]? = some t.v2) ∧
    (∃ m', Mesh.load_basic_obj rd heap m ["f 1 2".toList, "f 3 4 5 6".toList] = Except.ok m' ∧
      m'.faces = [⟨0, 1, 2⟩, ⟨3, 4, 5⟩]) := by
  obtain ⟨h1, h2, -, h4⟩ := load_faces_scanned rd heap m lines
  have hseq : (lines.filter isFaceLine).flatMap (scanFaceLine []) =
      firstIndices faceRefs.flatten := by
    rw [hface, flatMap_scanFaceLine faceRefs hrefs]
  have hlen : (firstIndices faceRefs.flatten).length = faceRefs.flatten.length := by
    unfold firstIndices
    rw [List.length_map]
  rw [hseq, hlen] at h2
  obtain ⟨hfatal, hok⟩ := h2 hpass
  refine ⟨h1, hlen, hfatal, fun h3 hne => ?_, h4⟩
  exact hok h3 (fun h0 => hne (by rw [← hlen, h0]; rfl))

theorem load_faces_across_lines_witness :
    Mesh.load_basic_obj readDigitFields zeroHeap emptyMesh
        ["v 0 0 0".toList, "# two faces".toList, "f 1 2".toList, "f 3 4 5 6".toList] =
      Mesh.load_basic_obj readDigitFields zeroHeap emptyMesh
        (["v 0 0 0".toList, "# two faces".toList, "f 1 2".toList, "f 3 4 5 6".toList].filter
          fun l => isVertexLine l || isFaceLine l) ∧
    (firstIndices [[("1".toList, []), ("2".toList, [])],
        [("3".toList, []), ("4".toList, []), ("5".toList, []), ("6".toList, [])]].flatten).length =
      [[("1".toList, ([] : List Char)), ("2".toList, [])],
        [("3".toList, []), ("4".toList, []), ("5".toList, []), ("6".toList, [])]].flatten.length ∧
    ([[("1".toList, ([] : List Char)), ("2".toList, [])],
        [("3".toList, []), ("4".toList, []), ("5".toList, []),
          ("6".toList, [])]].flatten.length % 3 ≠ 0 →
      Mesh.load_basic_obj readDigitFields zeroHeap emptyMesh
        ["v 0 0 0".toList, "# two faces".toList, "f 1 2".toList, "f 3 4 5 6".toList] =
        Except.error Failure.fatal) ∧
    ([[("1".toList, ([] : List Char)), ("2".toList, [])],
        [("3".toList, []), ("4".toList, []), ("5".toList, []),
          ("6".toList, [])]].flatten.length % 3 = 0 →
      [[("1".toList, ([] : List Char)), ("2".toList, [])],
        [("3".toList, []), ("4".toList, []), ("5".toList, []),
          ("6".toList, [])]].flatten.length ≠ 0 →
      ∃ m', Mesh.load_basic_obj readDigitFields zeroHeap emptyMesh
          ["v 0 0 0".toList, "# two faces".toList, "f 1 2".toList, "f 3 4 5 6".toList] =
          Except.ok m' ∧
        m'.faces = triRows (firstIndices [[("1".toList, []), ("2".toList, [])],
          [("3".toList, []), ("4".toList, []), ("5".toList, []), ("6".toList, [])]].flatten) ∧
        ∀ k, 3 * k + 2 < [[("1".toList, ([] : List Char)), ("2".toList, [])],
            [("3".toList, []), ("4".toList, []), ("5".toList, []),
              ("6".toList, [])]].flatten.length →
          ∃ t, m'.faces[k]? = some t ∧
            (firstIndices [[("1".toList, []), ("2".toList, [])],
              [("3".toList, []), ("4".toList, []), ("5".toList, []),
                ("6".toList, [])]].flatten)[3 * k]? = some t.v0 ∧
            (firstIndices [[("1".toList, []), ("2".toList, [])],
              [("3".toList, []), ("4".toList, []), ("5".toList, []),
                ("6".toList, [])]].flatten)[3 * k + 1]? = some t.v1 ∧
            (firstIndices [[("1".toList, []), ("2".toList, [])],
              [("3".toList, []), ("4".toList, []), ("5".toList, []),
                ("6".toList, [])]].flatten)[3 * k + 2]? = some t.v2) ∧
    (∃ m', Mesh.load_basic_obj readDigitFields zeroHeap emptyMesh
        ["f 1 2".toList, "f 3 4 5 6".toList] = Except.ok m' ∧
      m'.faces = [⟨0, 1, 2⟩, ⟨3, 4, 5⟩]) :=
  load_faces_across_lines readDigitFields zeroHeap emptyMesh
    ["v 0 0 0".toList, "# two faces".toList, "f 1 2".toList, "f 3 4 5 6".toList]
    [[("1".toList, []), ("2".toList, [])],
      [("3".toList, []), ("4".toList, []), ("5".toList, []), ("6".toList, [])]]
    (by decide) (by unfold IsReference; decide) (by decide)

/-! ## C17: creation and release of the buffers -/

theorem Extends.refl (w : World K) : Extends w w [] :=
  ⟨rfl, rfl, (List.append_nil _).symm⟩

theorem Extends.trans {w w1 w2 : World K} {a b : List (GLCall K)} (h1 : Extends w w1 a)
    (h2 : Extends w1 w2 b) : Extends w w2 (a ++ b) :=
  ⟨h2.1.trans h1.1, h2.2.1.trans h1.2.1, by rw [h2.2.2, h1.2.2, List.append_assoc]⟩

theorem NoBufferCall.append {a b : List (GLCall K)} (ha : NoBufferCall a)
    (hb : NoBufferCall b) : NoBufferCall (a ++ b) := by
  intro c hc
  rcases List.mem_append.mp hc with h | h
  · exact ha c h
  · exact hb c h

theorem NoBufferCall.filter_gen {a : List (GLCall K)} (ha : NoBufferCall a) :
    a.filter GLCall.isBufferGen = [] := by
  rw [List.filter_eq_nil_iff]
  intro c hc
  rw [(ha c hc).1]
  exact Bool.false_ne_true

theorem NoBufferCall.filter_delete {a : List (GLCall K)} (ha : NoBufferCall a) :
    a.filter GLCall.isBufferDelete = [] := by
  rw [List.filter_eq_nil_iff]
  intro c hc
  rw [(ha c hc).2]
  exact Bool.false_ne_true

theorem noBufferCall_texture (w : World K) (t : Texture K) (width height chnls : Nat)
    (pixels : Pixels K) :
    NoBufferCall (setupCalls w t ++ uploadImageCalls width height chnls pixels) := by
  intro c hc
  unfold setupCalls uploadImageCalls at hc
  by_cases hid : t.id = INVALID
  · simp only [hid, if_true, List.mem_append, List.mem_cons, List.mem_singleton,
      List.not_mem_nil, or_false] at hc
    rcases hc with (h | h | h | h | h | h) | h | h <;> rw [h] <;> exact ⟨rfl, rfl⟩
  · simp only [hid, if_false, List.nil_append, List.mem_append, List.mem_cons,
      List.mem_singleton, List.not_mem_nil, or_false] at hc
    rcases hc with (h | h | h | h | h) | h | h <;> rw [h] <;> exact ⟨rfl, rfl⟩

/-- A `Texture::load` that returns adds texture calls only. -/
theorem Texture.load_extends (w w1 : World K) (t t1 : Texture K)
    (h : Texture.load w t = Except.ok (w1, t1)) :
    ∃ extra, Extends w w1 extra ∧ NoBufferCall extra := by
  have key : ∀ (W : World K) (width height chnls : Nat) (pixels : Pixels K) (t2 : Texture K),
      (gl_load_mipmap W width height chnls pixels >>= fun w1 => Except.ok (w1, t2)) =
        Except.ok (w1, t1) →
      W.context = w.context → W.names = w.names → W.calls = w.calls ++ setupCalls w t →
      ∃ extra, Extends w w1 extra ∧ NoBufferCall extra := by
    intro W width height chnls pixels t2 hrun hc hn hcalls
    by_cases hv : chnls = 1 ∨ chnls = 3 ∨ chnls = 4
    · rw [gl_load_mipmap_valid W width height chnls pixels hv] at hrun
      have hw : w1 = { W with calls := W.calls ++ uploadImageCalls width height chnls pixels } :=
        (congrArg Prod.fst (Except.ok.inj hrun)).symm
      refine ⟨setupCalls w t ++ uploadImageCalls width height chnls pixels, ⟨?_, ?_, ?_⟩,
        noBufferCall_texture w t width height chnls pixels⟩
      · rw [hw]
        exact hc
      · rw [hw]
        exact hn
      · rw [hw]
        show W.calls ++ _ = _
        rw [hcalls, List.append_assoc]
    · rw [gl_load_mipmap_invalid W width height chnls pixels hv] at hrun
      cases hrun
  rw [Texture.load_eq] at h
  by_cases him : t.im_data.length ≠ 0
  · rw [if_pos him] at h
    exact key _ _ _ _ _ _ h rfl rfl rfl
  · rw [if_neg him] at h
    by_cases hp : t.path.length ≠ 0
    · rw [if_pos hp] at h
      cases hd : w.decode t.path t.flip with
      | none =>
        rw [hd] at h
        exact key _ _ _ _ _ _ h rfl rfl rfl
      | some d =>
        rw [hd] at h
        exact key _ _ _ _ _ _ h rfl rfl rfl
    · rw [if_neg hp] at h
      exact key _ _ _ _ _ _ h rfl rfl rfl

theorem loadTextures_extends (reset : Bool) (ts : List (Texture K)) :
    ∀ (w w1 : World K) (ts1 : List (Texture K)),
      loadTextures reset w ts = Except.ok (w1, ts1) →
      ∃ extra, Extends w w1 extra ∧ NoBufferCall extra := by
  induction ts with
  | nil =>
    intro w w1 ts1 h
    have hw : w = w1 := congrArg Prod.fst (Except.ok.inj h)
    rw [← hw]
    exact ⟨[], Extends.refl w, fun c hc => absurd hc (List.not_mem_nil c)⟩
  | cons t rest ih =>
    intro w w1 ts1 h
    unfold loadTextures at h
    have step : ∀ (r : Run (World K × Texture K)),
        (∀ w2 t2, r = Except.ok (w2, t2) → ∃ extra, Extends w w2 extra ∧ NoBufferCall extra) →
        (r >>= fun wt => loadTextures reset wt.1 rest >>= fun wr =>
          Except.ok (wr.1, wt.2 :: wr.2)) = Except.ok (w1, ts1) →
        ∃ extra, Extends w w1 extra ∧ NoBufferCall extra := by
      intro r hr hrun
      cases r with
      | error e => cases hrun
      | ok wt =>
        obtain ⟨a, ha, hna⟩ := hr wt.1 wt.2 rfl
        simp only [bind, Except.bind] at hrun
        cases hrest : loadTextures reset wt.1 rest with
        | error e =>
          rw [hrest] at hrun
          cases hrun
        | ok wr =>
          rw [hrest] at hrun
          obtain ⟨b, hb, hnb⟩ := ih wt.1 wr.1 wr.2 hrest
          have hw : wr.1 = w1 := congrArg Prod.fst (Except.ok.inj hrun)
          rw [← hw]
          exact ⟨a ++ b, ha.trans hb, hna.append hnb⟩
    by_cases hreset : reset = true
    · apply step (Texture.load w { t with id := INVALID })
      · intro w2 t2 h2
        exact Texture.load_extends w w2 _ t2 h2
      · simpa [hreset] using h
    · by_cases hid : t.id = INVALID
      · apply step (Texture.load w t)
        · intro w2 t2 h2
          exact Texture.load_extends w w2 _ t2 h2
        · simpa [hreset, hid] using h
      · apply step (Except.ok (w, t))
        · intro w2 t2 h2
          have hw : w = w2 := congrArg Prod.fst (Except.ok.inj h2)
          rw [← hw]
          exact ⟨[], Extends.refl w, fun c hc => absurd hc (List.not_mem_nil c)⟩
        · simpa [hreset, hid, pure, Except.pure] using h
theorem loadAllTextures_extends (reset : Bool) (tss : List (List (Texture K))) :
    ∀ (w w1 : World K) (tss1 : List (List (Texture K))),
      loadAllTextures reset w tss = Except.ok (w1, tss1) →
      ∃ extra, Extends w w1 extra ∧ NoBufferCall extra := by
  induction tss with
  | nil =>
    intro w w1 tss1 h
    have hw : w = w1 := congrArg Prod.fst (Except.ok.inj h)
    rw [← hw]
    exact ⟨[], Extends.refl w, fun c hc => absurd hc (List.not_mem_nil c)⟩
  | cons ts rest ih =>
    intro w w1 tss1 h
    unfold loadAllTextures at h
    cases hfirst : loadTextures reset w ts with
    | error e =>
      rw [hfirst] at h
      cases h
    | ok wt =>
      rw [hfirst] at h
      simp only [bind, Except.bind] at h
      obtain ⟨a, ha, hna⟩ := loadTextures_extends reset ts w wt.1 wt.2 hfirst
      cases hrest : loadAllTextures reset wt.1 rest with
      | error e =>
        rw [hrest] at h
        cases h
      | ok wr =>
        rw [hrest] at h
        obtain ⟨b, hb, hnb⟩ := ih wt.1 wr.1 wr.2 hrest
        have hw : wr.1 = w1 := congrArg Prod.fst (Except.ok.inj h)
        rw [← hw]
        exact ⟨a ++ b, ha.trans hb, hna.append hnb⟩

/-- The step of `Mesh::update` that makes the handles, when it keeps them: -/
theorem updateHandles_keep (w w1 : World K) (m m2 : Mesh K)
    (hv : m.VAO ≠ INVALID)
    (h : Mesh.updateHandles w m false = Except.ok (w1, m2)) :
    m2.VAO = m.VAO ∧ m2.VBO = m.VBO ∧ m2.EBO = m.EBO ∧
      ∃ extra, Extends w w1 extra ∧ NoBufferCall extra := by
  unfold Mesh.updateHandles at h
  rw [if_pos ⟨by simp, hv⟩] at h
  cases hl : loadAllTextures false w m.textures with
  | error e =>
    rw [hl] at h
    cases h
  | ok r =>
    rw [hl] at h
    simp only [bind, Except.bind, pure, Except.pure, Except.ok.injEq, Prod.mk.injEq] at h
    obtain ⟨a, ha, hna⟩ := loadAllTextures_extends false m.textures w r.1 r.2 hl
    rw [← h.1, ← h.2]
    exact ⟨rfl, rfl, rfl, a, ha, hna⟩

/-- The step of `Mesh::update` that makes the handles, when it creates them: -/
theorem updateHandles_create (w w1 : World K) (m m2 : Mesh K) (force_init : Bool)
    (hv : force_init = true ∨ m.VAO = INVALID)
    (h : Mesh.updateHandles w m force_init = Except.ok (w1, m2)) :
    (∃ k, m2.VAO = w.names k) ∧ (∃ k, m2.VBO = w.names k) ∧ (∃ k, m2.EBO = w.names k) ∧
      ∃ extra, Extends w w1 (extra ++ [GLCall.genVertexArrays m2.VAO, GLCall.genBuffers m2.VBO,
        GLCall.genBuffers m2.EBO]) ∧ NoBufferCall extra := by
  unfold Mesh.updateHandles at h
  have hc : ¬ (¬ force_init = true ∧ m.VAO ≠ INVALID) := by
    rintro ⟨h1, h2⟩
    rcases hv with hv | hv
    · exact h1 hv
    · exact h2 hv
  rw [if_neg hc] at h
  cases hl : loadAllTextures true w m.textures with
  | error e =>
    rw [hl] at h
    cases h
  | ok r =>
    rw [hl] at h
    simp only [bind, Except.bind, pure, Except.pure, World.gen, World.call, Except.ok.injEq,
      Prod.mk.injEq] at h
    obtain ⟨a, ha, hna⟩ := loadAllTextures_extends true m.textures w r.1 r.2 hl
    rw [← h.1, ← h.2]
    refine ⟨⟨r.1.used, ?_⟩, ⟨r.1.used + 1, ?_⟩, ⟨r.1.used + 1 + 1, ?_⟩, a, ⟨ha.1, ha.2.1, ?_⟩,
      hna⟩
    · show r.1.names r.1.used = _
      rw [ha.2.1]
    · show r.1.names (r.1.used + 1) = _
      rw [ha.2.1]
    · show r.1.names (r.1.used + 1 + 1) = _
      rw [ha.2.1]
    · show r.1.calls ++ _ ++ _ ++ _ = _
      rw [ha.2.2]
      simp only [List.append_assoc, List.singleton_append, List.cons_append, List.nil_append]

theorem noBufferCall_upload (VAO VBO EBO : Nat) (vd : List (Vertex K)) (fd : Triangles) :
    NoBufferCall (uploadCalls VAO VBO EBO vd fd : List (GLCall K)) := by
  intro c hc
  unfold uploadCalls at hc
  simp only [List.mem_cons, List.mem_singleton, List.not_mem_nil, or_false] at hc
  rcases hc with h | h | h | h | h | h | h | h | h | h | h | h <;> rw [h] <;> exact ⟨rfl, rfl⟩

theorem updateNormals_handles (normalized : Vec3 K → Vec3 K) (m m1 : Mesh K)
    (hn : Mesh.updateNormals normalized m = Except.ok m1) :
    m1.VAO = m.VAO ∧ m1.VBO = m.VBO ∧ m1.EBO = m.EBO ∧ m1.textures = m.textures ∧
      m1.blank_tex_id = m.blank_tex_id := by
  unfold Mesh.updateNormals at hn
  by_cases ha : m._auto_normals = true
  · rw [if_pos ha] at hn
    cases he : estimate_normals normalized (m.data.map fun v => v.pos) m.faces
        (m.data.map fun v => v.norm) with
    | error e =>
      rw [he] at hn
      cases hn
    | ok ns =>
      rw [he] at hn
      simp only [bind, Except.bind, pure, Except.pure, Except.ok.injEq] at hn
      rw [← hn]
      exact ⟨rfl, rfl, rfl, rfl, rfl⟩
  · rw [if_neg ha] at hn
    simp only [pure, Except.pure, Except.ok.injEq] at hn
    rw [← hn]
    exact ⟨rfl, rfl, rfl, rfl, rfl⟩

theorem selectBuffers_handles (heap : Heap K) (m m3 : Mesh K) (vd : List (Vertex K))
    (fd : Triangles) (h : Mesh.selectBuffers heap m = Except.ok (m3, vd, fd)) :
    m3.VAO = m.VAO ∧ m3.VBO = m.VBO ∧ m3.EBO = m.EBO ∧ m3.textures = m.textures ∧
      m3.blank_tex_id = m.blank_tex_id := by
  unfold Mesh.selectBuffers at h
  by_cases huv : m._tex_coords.length ≠ 0
  · rw [if_pos huv] at h
    simp only [] at h
    cases hl : forUpTo m._tex_coords.length (dataTexStep m.data m._tex_to_vert)
        (resizeRows heap.verts m._data_tex m._tex_coords.length) with
    | error e =>
      rw [hl] at h
      cases h
    | ok r =>
      rw [hl] at h
      simp only [bind, Except.bind, pure, Except.pure, Except.ok.injEq, Prod.mk.injEq] at h
      rw [← h.1]
      exact ⟨rfl, rfl, rfl, rfl, rfl⟩
  · rw [if_neg huv] at h
    simp only [pure, Except.pure, Except.ok.injEq, Prod.mk.injEq] at h
    rw [← h.1]
    exact ⟨rfl, rfl, rfl, rfl, rfl⟩

/-- The steps of an update that returns. -/
theorem update_steps (normalized : Vec3 K → Vec3 K) (heap : Heap K) (w w3 : World K)
    (m m3 : Mesh K) (force_init : Bool) (hctx : w.context = true)
    (h : Mesh.update normalized heap w m force_init = Except.ok (w3, m3)) :
    ∃ m1 w1 m2 vd fd, Mesh.updateNormals normalized m = Except.ok m1 ∧
      Mesh.updateHandles w m1 force_init = Except.ok (w1, m2) ∧
      Mesh.selectBuffers heap m2 = Except.ok (m3, vd, fd) ∧
      w3 = { w1 with calls := w1.calls ++ uploadCalls m3.VAO m3.VBO m3.EBO vd fd } := by
  rw [Mesh.update_eq normalized heap w m force_init hctx] at h
  cases hn : Mesh.updateNormals normalized m with
  | error e =>
    rw [hn] at h
    cases h
  | ok m1 =>
    rw [hn] at h
    simp only [bind, Except.bind] at h
    cases hh : Mesh.updateHandles w m1 force_init with
    | error e =>
      rw [hh] at h
      cases h
    | ok wm =>
      rw [hh] at h
      simp only [] at h
      cases hs : Mesh.selectBuffers heap wm.2 with
      | error e =>
        rw [hs] at h
        cases h
      | ok sel =>
        rw [hs] at h
        simp only [Except.ok.injEq, Prod.mk.injEq] at h
        refine ⟨m1, wm.1, wm.2, sel.2.1, sel.2.2, rfl, hh, ?_, ?_⟩
        · rw [hs, ← h.2]
        · rw [← h.1, ← h.2]
theorem filter_append_noBuffer (p : GLCall K → Bool) (a b : List (GLCall K))
    (ha : a.filter p = []) : (a ++ b).filter p = b.filter p := by
  rw [List.filter_append, ha, List.nil_append]

/-- An update that creates the handles: the calls it adds create the vertex array and the two
buffers the mesh then holds, and release nothing. -/
theorem update_create (normalized : Vec3 K → Vec3 K) (heap : Heap K) (w w3 : World K)
    (m m3 : Mesh K) (force_init : Bool) (hctx : w.context = true)
    (hv : force_init = true ∨ m.VAO = INVALID)
    (h : Mesh.update normalized heap w m force_init = Except.ok (w3, m3)) :
    (∃ k, m3.VAO = w.names k) ∧ (∃ k, m3.VBO = w.names k) ∧ (∃ k, m3.EBO = w.names k) ∧
      ∃ extra, Extends w w3 extra ∧
        extra.filter GLCall.isBufferGen =
          [GLCall.genVertexArrays m3.VAO, GLCall.genBuffers m3.VBO, GLCall.genBuffers m3.EBO] ∧
        extra.filter GLCall.isBufferDelete = [] := by
  obtain ⟨m1, w1, m2, vd, fd, hn, hh, hs, hw3⟩ :=
    update_steps normalized heap w w3 m m3 force_init hctx h
  obtain ⟨n1, -, -, -, -⟩ := updateNormals_handles normalized m m1 hn
  obtain ⟨s1, s2, s3, -, -⟩ := selectBuffers_handles heap m2 m3 vd fd hs
  obtain ⟨k1, k2, k3, a, ha, hna⟩ := updateHandles_create w w1 m1 m2 force_init
    (by rcases hv with hv | hv
        · exact Or.inl hv
        · exact Or.inr (by rw [n1]; exact hv)) hh
  have hup : NoBufferCall (uploadCalls m3.VAO m3.VBO m3.EBO vd fd : List (GLCall K)) :=
    noBufferCall_upload _ _ _ _ _
  refine ⟨by rw [s1]; exact k1, by rw [s2]; exact k2, by rw [s3]; exact k3,
    (a ++ [GLCall.genVertexArrays m2.VAO, GLCall.genBuffers m2.VBO, GLCall.genBuffers m2.EBO]) ++
      uploadCalls m3.VAO m3.VBO m3.EBO vd fd, ⟨?_, ?_, ?_⟩, ?_, ?_⟩
  · rw [hw3]
    exact ha.1
  · rw [hw3]
    exact ha.2.1
  · rw [hw3]
    show w1.calls ++ _ = _
    rw [ha.2.2, List.append_assoc]
  · rw [List.filter_append, hup.filter_gen, List.append_nil,
      filter_append_noBuffer _ _ _ hna.filter_gen, s1, s2, s3]
    rfl
  · rw [List.filter_append, hup.filter_delete, List.append_nil,
      filter_append_noBuffer _ _ _ hna.filter_delete]
    rfl

/-- An update that keeps the handles: the calls it adds create and release nothing. -/
theorem update_keep (normalized : Vec3 K → Vec3 K) (heap : Heap K) (w w3 : World K)
    (m m3 : Mesh K) (hctx : w.context = true) (hv : m.VAO ≠ INVALID)
    (h : Mesh.update normalized heap w m false = Except.ok (w3, m3)) :
    m3.VAO = m.VAO ∧ m3.VBO = m.VBO ∧ m3.EBO = m.EBO ∧
      ∃ extra, Extends w w3 extra ∧ NoBufferCall extra := by
  obtain ⟨m1, w1, m2, vd, fd, hn, hh, hs, hw3⟩ :=
    update_steps normalized heap w w3 m m3 false hctx h
  obtain ⟨n1, n2, n3, -, -⟩ := updateNormals_handles normalized m m1 hn
  obtain ⟨s1, s2, s3, -, -⟩ := selectBuffers_handles heap m2 m3 vd fd hs
  obtain ⟨k1, k2, k3, a, ha, hna⟩ := updateHandles_keep w w1 m1 m2 (by rw [n1]; exact hv) hh
  refine ⟨by rw [s1, k1, n1], by rw [s2, k2, n2], by rw [s3, k3, n3],
    a ++ uploadCalls m3.VAO m3.VBO m3.EBO vd fd, ⟨?_, ?_, ?_⟩,
    hna.append (noBufferCall_upload m3.VAO m3.VBO m3.EBO vd fd)⟩
  · rw [hw3]
    exact ha.1
  · rw [hw3]
    exact ha.2.1
  · rw [hw3]
    show w1.calls ++ _ = _
    rw [ha.2.2, List.append_assoc]

/-- Updates without `force_init` of a mesh with buffers keep the handles and add calls that
create and release nothing. -/
theorem runUpdates_keep (normalized : Vec3 K → Vec3 K) (heap : Heap K) (n : Nat) :
    ∀ (w w1 : World K) (m m1 : Mesh K), w.context = true → m.VAO ≠ INVALID →
      runUpdates normalized heap w m (List.replicate n false) = Except.ok (w1, m1) →
      m1.VAO = m.VAO ∧ m1.VBO = m.VBO ∧ m1.EBO = m.EBO ∧
        ∃ extra, Extends w w1 extra ∧ NoBufferCall extra := by
  induction n with
  | zero =>
    intro w w1 m m1 _ _ h
    have hw : (w, m) = (w1, m1) := Except.ok.inj h
    have h1 : w = w1 := congrArg Prod.fst hw
    have h2 : m = m1 := congrArg Prod.snd hw
    rw [← h1, ← h2]
    exact ⟨rfl, rfl, rfl, [], Extends.refl w, fun c hc => absurd hc (List.not_mem_nil c)⟩
  | succ n ih =>
    intro w w1 m m1 hctx hv h
    unfold runUpdates at h
    rw [List.replicate_succ, List.foldlM_cons] at h
    cases hfirst : Mesh.update normalized heap w m false with
    | error e =>
      rw [hfirst] at h
      cases h
    | ok wm =>
      rw [hfirst] at h
      obtain ⟨e1, e2, e3, a, ha, hna⟩ :=
        update_keep normalized heap w wm.1 m wm.2 hctx hv hfirst
      obtain ⟨f1, f2, f3, b, hb, hnb⟩ := ih wm.1 w1 wm.2 m1 (by rw [ha.1]; exact hctx)
        (by rw [e1]; exact hv) h
      exact ⟨by rw [f1, e1], by rw [f2, e2], by rw [f3, e3], a ++ b, ha.trans hb,
        hna.append hnb⟩

theorem foldl_texture_destroy (ts : List (Texture K)) :
    ∀ w : World K, ∃ extra, (ts.foldl Texture.destroy w).calls = w.calls ++ extra ∧
      NoBufferCall extra := by
  induction ts with
  | nil =>
    intro w
    exact ⟨[], (List.append_nil _).symm, fun c hc => absurd hc (List.not_mem_nil c)⟩
  | cons t rest ih =>
    intro w
    obtain ⟨b, hb, hnb⟩ := ih (Texture.destroy w t)
    rw [List.foldl_cons, hb]
    by_cases hid : t.id = INVALID
    · refine ⟨b, ?_, hnb⟩
      simp [Texture.destroy, Texture.free_bufs, hid]
    · refine ⟨[GLCall.deleteTextures t.id] ++ b, ?_, NoBufferCall.append ?_ hnb⟩
      · simp [Texture.destroy, Texture.free_bufs, hid, World.call]
      · intro c hc
        rw [List.mem_singleton] at hc
        rw [hc]
        exact ⟨rfl, rfl⟩

/-- The destructor of a mesh with valid handles releases the vertex array and the two
buffers, each once. -/
theorem destroy_releases (w : World K) (m : Mesh K) (h1 : m.VAO ≠ INVALID)
    (h2 : m.VBO ≠ INVALID) (h3 : m.EBO ≠ INVALID) :
    ∃ released, (Mesh.destroy w m).calls = w.calls ++ released ∧
      released.filter GLCall.isBufferDelete =
        [GLCall.deleteVertexArrays m.VAO, GLCall.deleteBuffers m.VBO,
          GLCall.deleteBuffers m.EBO] ∧
      released.filter GLCall.isBufferGen = [] := by
  unfold Mesh.destroy
  obtain ⟨b, hb, hnb⟩ := foldl_texture_destroy m.textures.reverse.flatten (Mesh.free_bufs w m).1
  rw [hb, Mesh.free_bufs_calls, if_pos h1, if_pos h2, if_pos h3, List.append_assoc]
  refine ⟨_, rfl, ?_, ?_⟩
  · rw [List.filter_append, hnb.filter_delete, List.append_nil]
    by_cases h4 : m.blank_tex_id = INVALID
    · simp [h4, GLCall.isBufferDelete]
    · simp [h4, GLCall.isBufferDelete]
  · rw [List.filter_append, hnb.filter_gen, List.append_nil]
    by_cases h4 : m.blank_tex_id = INVALID
    · simp [h4, GLCall.isBufferGen]
    · simp [h4, GLCall.isBufferGen]

/-- C17, as amended. A mesh without buffers is updated in a context by a first call
`update(force_init)`, with either value of `force_init`, and then by any number of calls
`update(false)`, and is then destroyed; the driver never hands out the name `2 ^ 32 - 1`.
Then the calls of the updates create one vertex array and two buffers, the ones the mesh
holds at the end, and release nothing, and the destructor releases the vertex array and the
two buffers, each once, and creates nothing. -/
theorem buffers_released_once (normalized : Vec3 K → Vec3 K) (heap : Heap K) (w w1 : World K)
    (m m1 : Mesh K) (force_init : Bool) (n : Nat)
    (hctx : w.context = true) (hfresh : m.VAO = INVALID)
    (hnames : ∀ k, w.names k ≠ INVALID)
    (hrun : runUpdates normalized heap w m (force_init :: List.replicate n false) =
      Except.ok (w1, m1)) :
    ∃ created released, w1.calls = w.calls ++ created ∧
      (Mesh.destroy w1 m1).calls = w.calls ++ created ++ released ∧
      (created ++ released).filter GLCall.isBufferGen =
        [GLCall.genVertexArrays m1.VAO, GLCall.genBuffers m1.VBO, GLCall.genBuffers m1.EBO] ∧
      (created ++ released).filter GLCall.isBufferDelete =
        [GLCall.deleteVertexArrays m1.VAO, GLCall.deleteBuffers m1.VBO,
          GLCall.deleteBuffers m1.EBO] ∧
      created.filter GLCall.isBufferDelete = [] := by
  unfold runUpdates at hrun
  rw [List.foldlM_cons] at hrun
  cases hfirst : Mesh.update normalized heap w m force_init with
  | error e =>
    rw [hfirst] at hrun
    cases hrun
  | ok wm =>
    rw [hfirst] at hrun
    obtain ⟨⟨k1, e1⟩, ⟨k2, e2⟩, ⟨k3, e3⟩, a, ha, hgen, hdel⟩ :=
      update_create normalized heap w wm.1 m wm.2 force_init hctx (Or.inr hfresh) hfirst
    have v1 : wm.2.VAO ≠ INVALID := by rw [e1]; exact hnames k1
    have v2 : wm.2.VBO ≠ INVALID := by rw [e2]; exact hnames k2
    have v3 : wm.2.EBO ≠ INVALID := by rw [e3]; exact hnames k3
    obtain ⟨f1, f2, f3, b, hb, hnb⟩ := runUpdates_keep normalized heap n wm.1 w1 wm.2 m1
      (by rw [ha.1]; exact hctx) v1 hrun
    obtain ⟨released, hrel, hreldel, hrelgen⟩ := destroy_releases w1 m1
      (by rw [f1]; exact v1) (by rw [f2]; exact v2) (by rw [f3]; exact v3)
    have hcalls : w1.calls = w.calls ++ (a ++ b) := (ha.trans hb).2.2
    refine ⟨a ++ b, released, hcalls, by rw [hrel, hcalls], ?_, ?_, ?_⟩
    · rw [List.filter_append, hrelgen, List.append_nil, List.filter_append, hnb.filter_gen,
        List.append_nil, hgen, f1, f2, f3]
    · rw [List.filter_append, hreldel, List.filter_append, hnb.filter_delete, hdel]
      rfl
    · rw [List.filter_append, hnb.filter_delete, hdel]
      rfl

theorem buffers_released_once_witness :
    ∃ w1 m1, runUpdates id zeroHeap steadyWorld emptyMesh (true :: List.replicate 2 false) =
        Except.ok (w1, m1) ∧
      ∃ created released, w1.calls = steadyWorld.calls ++ created ∧
        (Mesh.destroy w1 m1).calls = steadyWorld.calls ++ created ++ released ∧
        (created ++ released).filter GLCall.isBufferGen =
          [GLCall.genVertexArrays m1.VAO, GLCall.genBuffers m1.VBO, GLCall.genBuffers m1.EBO] ∧
        (created ++ released).filter GLCall.isBufferDelete =
          [GLCall.deleteVertexArrays m1.VAO, GLCall.deleteBuffers m1.VBO,
            GLCall.deleteBuffers m1.EBO] ∧
        created.filter GLCall.isBufferDelete = [] :=
  ⟨_, _, rfl, buffers_released_once id zeroHeap steadyWorld _ emptyMesh _ true 2 rfl rfl
    (fun k => by
      show k % 4294967294 + 1 ≠ 4294967295
      omega) rfl⟩

/-! ## Arithmetic of `float` at sample values -/

/-- The literals `0.1f`, `0.2f`, `0.7f`; sums and products that are not associative. -/
theorem float_samples :
    F32.ofFraction 1 10 = F32.finite 13421773 (-27) ∧
    F32.ofFraction 2 10 = F32.finite 13421773 (-26) ∧
    F32.ofFraction 7 10 = F32.finite 11744051 (-24) ∧
    ((1 : F32) + F32.ofFraction 1 10) + F32.ofFraction 2 10 = F32.finite 10905191 (-23) ∧
    (1 : F32) + (F32.ofFraction 1 10 + F32.ofFraction 2 10) = F32.finite 5452595 (-22) ∧
    (F32.ofFraction 1 10 * F32.ofFraction 7 10) * ((3 : Nat) : F32) =
      F32.finite 7046431 (-25) ∧
    F32.ofFraction 1 10 * (F32.ofFraction 7 10 * ((3 : Nat) : F32)) =
      F32.finite 14092861 (-26) ∧
    (0 : F32) / 0 = F32.special := by
  decide

/-! ## C18, C19, C27, C28: the local transform in the arithmetic of the code

The statements below hold for every scalar type `K` with its operations, so for `float`:
each entry is the expression the code computes, with its order of operations. -/

theorem translate_entry (T : Matrix (Fin 4) (Fin 4) K) (v : Vec3 K) (i j : Fin 4) :
    translateTransform T v i j =
      if h : i.val < 3 ∧ j = 3 then T i j + v.get ⟨i.val, h.1⟩ else T i j := rfl

theorem rotate_entry (T : Matrix (Fin 4) (Fin 4) K) (R : Matrix (Fin 3) (Fin 3) K)
    (i j : Fin 4) :
    rotateTransform T R i j =
      if h : i.val < 3 ∧ j.val < 3 then
        R ⟨i.val, h.1⟩ 0 * T 0 j + R ⟨i.val, h.1⟩ 1 * T 1 j + R ⟨i.val, h.1⟩ 2 * T 2 j
      else T i j := rfl

theorem scale_entry (T : Matrix (Fin 4) (Fin 4) K) (s : Vec3 K) (i j : Fin 4) :
    scaleTransform T s i j =
      if h : i.val < 3 ∧ j.val < 3 then T i j * s.get ⟨i.val, h.1⟩ else T i j := rfl

theorem scaleVal_entry (T : Matrix (Fin 4) (Fin 4) K) (k : K) (i j : Fin 4) :
    scaleValTransform T k i j = if i.val < 3 ∧ j.val < 3 then T i j * k else T i j := rfl

theorem rotate_block (T : Matrix (Fin 4) (Fin 4) K) (R : Matrix (Fin 3) (Fin 3) K)
    (i j : Fin 3) :
    rotateTransform T R i.castSucc j.castSucc =
      R i 0 * T 0 j.castSucc + R i 1 * T 1 j.castSucc + R i 2 * T 2 j.castSucc := by
  have h : (i.castSucc : Fin 4).val < 3 ∧ (j.castSucc : Fin 4).val < 3 := ⟨i.isLt, j.isLt⟩
  rw [rotate_entry, dif_pos h]
  rfl

theorem rotate_col (T : Matrix (Fin 4) (Fin 4) K) (R : Matrix (Fin 3) (Fin 3) K) (i : Fin 4) :
    rotateTransform T R i 3 = T i 3 := by
  rw [rotate_entry, dif_neg (fun h => absurd h.2 (by decide))]

theorem rotate_row (T : Matrix (Fin 4) (Fin 4) K) (R : Matrix (Fin 3) (Fin 3) K) (j : Fin 4) :
    rotateTransform T R 3 j = T 3 j := by
  rw [rotate_entry, dif_neg (fun h => absurd h.1 (by decide))]

theorem scale_block (T : Matrix (Fin 4) (Fin 4) K) (s : Vec3 K) (i j : Fin 3) :
    scaleTransform T s i.castSucc j.castSucc = T i.castSucc j.castSucc * s.get i := by
  have h : (i.castSucc : Fin 4).val < 3 ∧ (j.castSucc : Fin 4).val < 3 := ⟨i.isLt, j.isLt⟩
  rw [scale_entry, dif_pos h]
  rfl

theorem scale_col (T : Matrix (Fin 4) (Fin 4) K) (s : Vec3 K) (i : Fin 4) :
    scaleTransform T s i 3 = T i 3 := by
  rw [scale_entry, dif_neg (fun h => absurd h.2 (by decide))]

theorem scale_row (T : Matrix (Fin 4) (Fin 4) K) (s : Vec3 K) (j : Fin 4) :
    scaleTransform T s 3 j = T 3 j := by
  rw [scale_entry, dif_neg (fun h => absurd h.1 (by decide))]

theorem scaleVal_block (T : Matrix (Fin 4) (Fin 4) K) (k : K) (i j : Fin 3) :
    scaleValTransform T k i.castSucc j.castSucc = T i.castSucc j.castSucc * k := by
  have h : (i.castSucc : Fin 4).val < 3 ∧ (j.castSucc : Fin 4).val < 3 := ⟨i.isLt, j.isLt⟩
  rw [scaleVal_entry, if_pos h]

theorem scaleVal_col (T : Matrix (Fin 4) (Fin 4) K) (k : K) (i : Fin 4) :
    scaleValTransform T k i 3 = T i 3 := by
  rw [scaleVal_entry, if_neg (fun h => absurd h.2 (by decide))]

theorem scaleVal_row (T : Matrix (Fin 4) (Fin 4) K) (k : K) (j : Fin 4) :
    scaleValTransform T k 3 j = T 3 j := by
  rw [scaleVal_entry, if_neg (fun h => absurd h.1 (by decide))]

/-- Two 4x4 matrices are equal when their 3x3 blocks, their last columns and their bottom
rows are. -/
theorem ext_block_col_row (A B : Matrix (Fin 4) (Fin 4) K)
    (hb : ∀ i j : Fin 3, A i.castSucc j.castSucc = B i.castSucc j.castSucc)
    (hc : ∀ i : Fin 4, A i 3 = B i 3) (hr : ∀ j : Fin 4, A 3 j = B 3 j) : A = B := by
  ext i j
  by_cases hi : i.val < 3
  · by_cases hj : j.val < 3
    · exact hb ⟨i.val, hi⟩ ⟨j.val, hj⟩
    · have : j = 3 := Fin.ext (by have := j.isLt; show j.val = 3; omega)
      rw [this]
      exact hc i
  · have : i = 3 := Fin.ext (by have := i.isLt; show i.val = 3; omega)
    rw [this]
    exact hr j

theorem one_block (i j : Fin 3) :
    (1 : Matrix (Fin 4) (Fin 4) K) i.castSucc j.castSucc = if i = j then 1 else 0 := by
  rw [Matrix.one_apply]
  by_cases h : i = j
  · rw [if_pos h, if_pos (by rw [h])]
  · rw [if_neg h, if_neg (fun e => h (Fin.castSucc_injective 3 e))]

/-- From the identity `rotate(R)` gives the block `R`, for finite entries. -/
theorem rotate_one_block (R : Matrix (Fin 3) (Fin 3) K) (h0 : Plain (0 : K))
    (hR : ∀ i j, Plain (R i j)) (i j : Fin 3) :
    rotateTransform 1 R i.castSucc j.castSucc = R i j := by
  have e0 : (0 : Fin 4) = (0 : Fin 3).castSucc := rfl
  have e1 : (1 : Fin 4) = (1 : Fin 3).castSucc := rfl
  have e2 : (2 : Fin 4) = (2 : Fin 3).castSucc := rfl
  have m1 : ∀ i j, R i j * 1 = R i j := fun i j => (hR i j).2.2.1
  have m0 : ∀ i j, R i j * 0 = 0 := fun i j => (hR i j).2.2.2.2.1
  have a0 : ∀ i j, R i j + 0 = R i j := fun i j => (hR i j).1
  have z0 : ∀ i j, 0 + R i j = R i j := fun i j => (hR i j).2.1
  have zz : (0 : K) + 0 = 0 := h0.1
  rw [rotate_block, e0, e1, e2, one_block, one_block, one_block]
  fin_cases j
  · show R i 0 * 1 + R i 1 * 0 + R i 2 * 0 = R i 0
    rw [m1, m0, m0, a0, a0]
  · show R i 0 * 0 + R i 1 * 1 + R i 2 * 0 = R i 1
    rw [m1, m0, m0, z0, a0]
  · show R i 0 * 0 + R i 1 * 0 + R i 2 * 1 = R i 2
    rw [m1, m0, m0, zz, z0]
/-- From the identity a scale by a number and a rotation commute, for finite values. -/
theorem scaleVal_rotate_one (k : K) (R : Matrix (Fin 3) (Fin 3) K) (h0 : Plain (0 : K))
    (hk : Plain k) (hR : ∀ i j, Plain (R i j)) (hRk : ∀ i j, Plain (R i j * k)) :
    rotateTransform (scaleValTransform 1 k) R = scaleValTransform (rotateTransform 1 R) k := by
  have e0 : (0 : Fin 4) = (0 : Fin 3).castSucc := rfl
  have e1 : (1 : Fin 4) = (1 : Fin 3).castSucc := rfl
  have e2 : (2 : Fin 4) = (2 : Fin 3).castSucc := rfl
  have k1 : (1 : K) * k = k := hk.2.2.2.1
  have k0 : (0 : K) * k = 0 := hk.2.2.2.2.2
  have m0 : ∀ i j, R i j * 0 = 0 := fun i j => (hR i j).2.2.2.2.1
  have a0 : ∀ i j, R i j * k + 0 = R i j * k := fun i j => (hRk i j).1
  have z0 : ∀ i j, 0 + R i j * k = R i j * k := fun i j => (hRk i j).2.1
  have zz : (0 : K) + 0 = 0 := h0.1
  apply ext_block_col_row
  · intro i j
    rw [scaleVal_block, rotate_one_block R h0 hR, rotate_block, e0, e1, e2, scaleVal_block,
      scaleVal_block, scaleVal_block, one_block, one_block, one_block]
    fin_cases j
    · show R i 0 * (1 * k) + R i 1 * (0 * k) + R i 2 * (0 * k) = R i 0 * k
      rw [k1, k0, m0, m0, a0, a0]
    · show R i 0 * (0 * k) + R i 1 * (1 * k) + R i 2 * (0 * k) = R i 1 * k
      rw [k1, k0, m0, m0, z0, a0]
    · show R i 0 * (0 * k) + R i 1 * (0 * k) + R i 2 * (1 * k) = R i 2 * k
      rw [k1, k0, m0, m0, zz, z0]
  · intro i
    rw [rotate_col, scaleVal_col, scaleVal_col, rotate_col]
  · intro j
    rw [rotate_row, scaleVal_row, scaleVal_row, rotate_row]

/-- From the identity a scale by the vector `(0, 1, 1)` and the exchange of the first two
axes do not commute. -/
theorem scale_rotate_differ (h0 : Plain (0 : K)) (h1 : Plain (1 : K)) (hne : (0 : K) ≠ 1) :
    ∃ (s : Vec3 K) (R : Matrix (Fin 3) (Fin 3) K),
      topLeftCorner (rotateTransform (scaleTransform 1 s) R) ≠
        topLeftCorner (scaleTransform (rotateTransform 1 R) s) := by
  refine ⟨⟨0, 1, 1⟩, !![0, 1, 0; 1, 0, 0; 0, 0, 1], ?_⟩
  intro h
  have h01 := congrFun (congrFun h 0) 1
  have hR : ∀ i j, Plain ((!![0, 1, 0; 1, 0, 0; 0, 0, 1] : Matrix (Fin 3) (Fin 3) K) i j) := by
    intro i j
    fin_cases i <;> fin_cases j <;> first | exact h0 | exact h1
  have l : topLeftCorner (rotateTransform (scaleTransform 1 (⟨0, 1, 1⟩ : Vec3 K))
      (!![0, 1, 0; 1, 0, 0; 0, 0, 1] : Matrix (Fin 3) (Fin 3) K)) 0 1 = 1 := by
    show rotateTransform (scaleTransform 1 (⟨0, 1, 1⟩ : Vec3 K)) _ (0 : Fin 3).castSucc
      (1 : Fin 3).castSucc = 1
    rw [rotate_block]
    show (0 : K) * scaleTransform 1 (⟨0, 1, 1⟩ : Vec3 K) (0 : Fin 3).castSucc (1 : Fin 3).castSucc +
      1 * scaleTransform 1 (⟨0, 1, 1⟩ : Vec3 K) (1 : Fin 3).castSucc (1 : Fin 3).castSucc +
      0 * scaleTransform 1 (⟨0, 1, 1⟩ : Vec3 K) (2 : Fin 3).castSucc (1 : Fin 3).castSucc = 1
    rw [scale_block, scale_block, scale_block, one_block, one_block, one_block]
    show (0 : K) * (0 * 0) + 1 * (1 * 1) + 0 * (0 * 1) = 1
    rw [h0.2.2.2.2.1, h1.2.2.1, h1.2.2.2.2.2, h0.2.2.2.2.1, h1.2.2.1, h1.2.1, h1.1]
  have r : topLeftCorner (scaleTransform (rotateTransform 1
      (!![0, 1, 0; 1, 0, 0; 0, 0, 1] : Matrix (Fin 3) (Fin 3) K)) (⟨0, 1, 1⟩ : Vec3 K)) 0 1 = 0 := by
    show scaleTransform (rotateTransform 1 _) (⟨0, 1, 1⟩ : Vec3 K) (0 : Fin 3).castSucc
      (1 : Fin 3).castSucc = 0
    rw [scale_block, rotate_one_block _ h0 hR]
    show (1 : K) * 0 = 0
    exact h0.2.2.2.1
  rw [l, r] at h01
  exact hne h01.symm

/-- C18, counterexample: in `float` arithmetic, on the transform with the translation
`(1, 0, 0)`, `translate((0.1f, 0, 0))` followed by `translate((0.2f, 0, 0))` leaves
`(1 + 0.1f) + 0.2f = 1.3000001` in the translation column and `translate` of the sum leaves
`1 + (0.1f + 0.2f) = 1.2999999`. -/
theorem translate_not_additive :
    ((((floatMesh 1).set_translation ⟨1, 0, 0⟩).translate ⟨F32.ofFraction 1 10, 0, 0⟩).translate
      ⟨F32.ofFraction 2 10, 0, 0⟩).transform 0 3 = F32.finite 10905191 (-23) ∧
    (((floatMesh 1).set_translation ⟨1, 0, 0⟩).translate
      ((⟨F32.ofFraction 1 10, 0, 0⟩ : Vec3 F32).add ⟨F32.ofFraction 2 10, 0, 0⟩)).transform 0 3 =
      F32.finite 5452595 (-22) ∧
    (((floatMesh 1).set_translation ⟨1, 0, 0⟩).translate ⟨F32.ofFraction 1 10, 0, 0⟩).translate
        ⟨F32.ofFraction 2 10, 0, 0⟩ ≠
      ((floatMesh 1).set_translation ⟨1, 0, 0⟩).translate
        ((⟨F32.ofFraction 1 10, 0, 0⟩ : Vec3 F32).add ⟨F32.ofFraction 2 10, 0, 0⟩) := by
  have h1 : ((((floatMesh 1).set_translation ⟨1, 0, 0⟩).translate
      ⟨F32.ofFraction 1 10, 0, 0⟩).translate ⟨F32.ofFraction 2 10, 0, 0⟩).transform 0 3 =
      F32.finite 10905191 (-23) := by decide
  have h2 : (((floatMesh 1).set_translation ⟨1, 0, 0⟩).translate
      ((⟨F32.ofFraction 1 10, 0, 0⟩ : Vec3 F32).add ⟨F32.ofFraction 2 10, 0, 0⟩)).transform 0 3 =
      F32.finite 5452595 (-22) := by decide
  refine ⟨h1, h2, fun h => ?_⟩
  have h3 := congrArg (fun m => m.transform 0 3) h
  simp only [] at h3
  rw [h1, h2] at h3
  exact absurd h3 (by decide)

/-- C18, as amended. For every transform and all vectors `v`, `w`, `translate(v)` followed
by `translate(w)` adds `v` and then `w` to the first three entries of the last column, entry
`t` becoming `(t + v) + w`, and leaves every other entry as it is, for a mesh and for a
point cloud; `translate(v + w)` makes the entry `t + (v + w)`. The two results are the same
where the two sums are, as in exact arithmetic; and starting from the identity transform,
for finite values, the translation column is `v + w` either way. -/
theorem translate_translate (m : Mesh K) (p : PointCloud K) (v w : Vec3 K) :
    (∀ i j : Fin 4, ((m.translate v).translate w).transform i j =
      if h : i.val < 3 ∧ j = 3 then
        (m.transform i j + v.get ⟨i.val, h.1⟩) + w.get ⟨i.val, h.1⟩
      else m.transform i j) ∧
    (∀ i j : Fin 4, ((p.translate v).translate w).transform i j =
      if h : i.val < 3 ∧ j = 3 then
        (p.transform i j + v.get ⟨i.val, h.1⟩) + w.get ⟨i.val, h.1⟩
      else p.transform i j) ∧
    (∀ i j : Fin 4, (m.translate (v.add w)).transform i j =
      if h : i.val < 3 ∧ j = 3 then
        m.transform i j + (v.get ⟨i.val, h.1⟩ + w.get ⟨i.val, h.1⟩)
      else m.transform i j) ∧
    ((∀ i : Fin 3, (m.transform i.castSucc 3 + v.get i) + w.get i =
        m.transform i.castSucc 3 + (v.get i + w.get i)) →
      (m.translate v).translate w = m.translate (v.add w)) ∧
    (m.transform = 1 → (∀ i : Fin 3, (0 : K) + v.get i = v.get i) →
      (∀ i : Fin 3, (0 : K) + (v.get i + w.get i) = v.get i + w.get i) →
      (∀ i : Fin 3, ((m.translate v).translate w).transform i.castSucc 3 = v.get i + w.get i) ∧
      (m.translate v).translate w = m.translate (v.add w)) := by
  have hget : ∀ i : Fin 3, (v.add w).get i = v.get i + w.get i := by
    intro i
    fin_cases i <;> rfl
  have htwice : ∀ (T : Matrix (Fin 4) (Fin 4) K) (i j : Fin 4),
      translateTransform (translateTransform T v) w i j =
        if h : i.val < 3 ∧ j = 3 then (T i j + v.get ⟨i.val, h.1⟩) + w.get ⟨i.val, h.1⟩
        else T i j := by
    intro T i j
    rw [translate_entry, translate_entry]
    by_cases h : i.val < 3 ∧ j = 3
    · simp only [dif_pos h]
    · simp only [dif_neg h]
  have hsum : ∀ (T : Matrix (Fin 4) (Fin 4) K) (i j : Fin 4),
      translateTransform T (v.add w) i j =
        if h : i.val < 3 ∧ j = 3 then T i j + (v.get ⟨i.val, h.1⟩ + w.get ⟨i.val, h.1⟩)
        else T i j := by
    intro T i j
    rw [translate_entry]
    by_cases h : i.val < 3 ∧ j = 3
    · rw [dif_pos h, dif_pos h, hget]
    · rw [dif_neg h, dif_neg h]
  have heq : (∀ i : Fin 3, (m.transform i.castSucc 3 + v.get i) + w.get i =
      m.transform i.castSucc 3 + (v.get i + w.get i)) →
      (m.translate v).translate w = m.translate (v.add w) := by
    intro hassoc
    have hT : translateTransform (translateTransform m.transform v) w =
        translateTransform m.transform (v.add w) := by
      ext i j
      rw [htwice, hsum]
      by_cases h : i.val < 3 ∧ j = 3
      · rw [dif_pos h, dif_pos h]
        obtain ⟨hi, hj⟩ := h
        subst hj
        exact hassoc ⟨i.val, hi⟩
      · rw [dif_neg h, dif_neg h]
    show ({ ({ m with transform := translateTransform m.transform v } : Mesh K) with
      transform := translateTransform (translateTransform m.transform v) w } : Mesh K) =
      { m with transform := translateTransform m.transform (v.add w) }
    rw [hT]
  refine ⟨fun i j => htwice m.transform i j, fun i j => htwice p.transform i j,
    fun i j => hsum m.transform i j, heq, ?_⟩
  intro hone hv hvw
  have hcol : ∀ i : Fin 3, (1 : Matrix (Fin 4) (Fin 4) K) i.castSucc 3 = 0 := by
    intro i
    have hne : (i.castSucc : Fin 4) ≠ 3 := by
      intro h
      have := congrArg Fin.val h
      simp at this
      omega
    exact Matrix.one_apply_ne hne
  constructor
  · intro i
    have hi : (i.castSucc : Fin 4).val < 3 ∧ (3 : Fin 4) = 3 := ⟨i.isLt, rfl⟩
    show translateTransform (translateTransform m.transform v) w i.castSucc 3 = _
    rw [htwice, dif_pos hi, hone, hcol]
    show (0 + v.get i) + w.get i = _
    rw [hv]
  · apply heq
    intro i
    rw [hone, hcol, hv, hvw]

/-- C19, as amended. Starting from the identity transform, for every number `k` and every
3x3 matrix `R` with finite entries, `scale(k)` followed by `rotate(R)` leaves the mesh that
`rotate(R)` followed by `scale(k)` leaves. The order matters for the scale by a vector:
starting from the identity transform there are a vector `s` and a matrix `R` for which
`scale(s)` followed by `rotate(R)` gives another transform than `rotate(R)` followed by
`scale(s)`. -/
theorem scale_rotate_order (m : Mesh K) (k : K) (R : Matrix (Fin 3) (Fin 3) K)
    (h0 : Plain (0 : K)) (h1 : Plain (1 : K)) (hne : (0 : K) ≠ 1) (hk : Plain k)
    (hR : ∀ i j, Plain (R i j)) (hRk : ∀ i j, Plain (R i j * k)) :
    ((m.set_transform 1).scaleVal k).rotate R = ((m.set_transform 1).rotate R).scaleVal k ∧
    ∃ (s : Vec3 K) (R' : Matrix (Fin 3) (Fin 3) K),
      (((m.set_transform 1).scale s).rotate R').transform ≠
        (((m.set_transform 1).rotate R').scale s).transform := by
  constructor
  · show ({ ({ ({ m with transform := 1 } : Mesh K) with
        transform := scaleValTransform 1 k } : Mesh K) with
        transform := rotateTransform (scaleValTransform 1 k) R } : Mesh K) =
      { ({ ({ m with transform := 1 } : Mesh K) with
        transform := rotateTransform 1 R } : Mesh K) with
        transform := scaleValTransform (rotateTransform 1 R) k }
    rw [scaleVal_rotate_one k R h0 hk hR hRk]
  · obtain ⟨s, R', hdiff⟩ := scale_rotate_differ h0 h1 hne
    refine ⟨s, R', fun h => hdiff ?_⟩
    have h' : rotateTransform (scaleTransform 1 s) R' = scaleTransform (rotateTransform 1 R') s := h
    rw [h']

theorem plain_float_samples :
    Plain (0 : F32) ∧ Plain (1 : F32) ∧ Plain ((3 : Nat) : F32) ∧
    (∀ i j, Plain (stretch (F32.ofFraction 1 10) i j)) ∧
    (∀ i j, Plain (stretch (F32.ofFraction 1 10) i j * ((3 : Nat) : F32))) := by
  unfold Plain
  decide

theorem scale_rotate_order_witness :
    (((floatMesh 1).set_transform 1).scaleVal ((3 : Nat) : F32)).rotate
        (stretch (F32.ofFraction 1 10)) =
      (((floatMesh 1).set_transform 1).rotate (stretch (F32.ofFraction 1 10))).scaleVal
        ((3 : Nat) : F32) ∧
    ∃ (s : Vec3 F32) (R' : Matrix (Fin 3) (Fin 3) F32),
      ((((floatMesh 1).set_transform 1).scale s).rotate R').transform ≠
        ((((floatMesh 1).set_transform 1).rotate R').scale s).transform :=
  scale_rotate_order (floatMesh 1) ((3 : Nat) : F32) (stretch (F32.ofFraction 1 10))
    plain_float_samples.1 plain_float_samples.2.1 (by decide) plain_float_samples.2.2.1
    plain_float_samples.2.2.2.1 plain_float_samples.2.2.2.2

theorem applyTransform_entry (T E : Matrix (Fin 4) (Fin 4) K) (i j : Fin 4) :
    applyTransform T E i j =
      E i 0 * T 0 j + E i 1 * T 1 j + E i 2 * T 2 j + E i 3 * T 3 j := rfl

theorem embedRotation_entry (R : Matrix (Fin 3) (Fin 3) K) (i j : Fin 4) :
    embedRotation R i j =
      if h : i.val < 3 ∧ j.val < 3 then R ⟨i.val, h.1⟩ ⟨j.val, h.2⟩
      else if i = j then 1 else 0 := rfl

/-- The first three rows of the last column after `apply_transform` of the embedding of
`R`. -/
theorem apply_embed_col (T : Matrix (Fin 4) (Fin 4) K) (R : Matrix (Fin 3) (Fin 3) K)
    (i : Fin 3) :
    applyTransform T (embedRotation R) i.castSucc 3 =
      R i 0 * T 0 3 + R i 1 * T 1 3 + R i 2 * T 2 3 + 0 * T 3 3 := by
  have h0 : (i.castSucc : Fin 4).val < 3 ∧ (0 : Fin 4).val < 3 := ⟨i.isLt, by decide⟩
  have h1 : (i.castSucc : Fin 4).val < 3 ∧ (1 : Fin 4).val < 3 := ⟨i.isLt, by decide⟩
  have h2 : (i.castSucc : Fin 4).val < 3 ∧ (2 : Fin 4).val < 3 := ⟨i.isLt, by decide⟩
  have h3 : ¬ ((i.castSucc : Fin 4).val < 3 ∧ (3 : Fin 4).val < 3) :=
    fun h => absurd h.2 (by decide)
  have hne : (i.castSucc : Fin 4) ≠ 3 := by
    intro e
    have := congrArg Fin.val e
    simp at this
    omega
  rw [applyTransform_entry, embedRotation_entry, embedRotation_entry, embedRotation_entry,
    embedRotation_entry, dif_pos h0, dif_pos h1, dif_pos h2, dif_neg h3, if_neg hne]
  rfl

/-- The 3x3 block after two rotations. -/
theorem rotate_rotate_block (T : Matrix (Fin 4) (Fin 4) K) (R S : Matrix (Fin 3) (Fin 3) K) :
    topLeftCorner (rotateTransform (rotateTransform T R) S) =
      mul3 S (mul3 R (topLeftCorner T)) := by
  have e0 : (0 : Fin 4) = (0 : Fin 3).castSucc := rfl
  have e1 : (1 : Fin 4) = (1 : Fin 3).castSucc := rfl
  have e2 : (2 : Fin 4) = (2 : Fin 3).castSucc := rfl
  ext i j
  show rotateTransform (rotateTransform T R) S i.castSucc j.castSucc = _
  rw [rotate_block, e0, e1, e2, rotate_block, rotate_block, rotate_block]
  rfl

theorem rotate_top_block (T : Matrix (Fin 4) (Fin 4) K) (R : Matrix (Fin 3) (Fin 3) K) :
    topLeftCorner (rotateTransform T R) = mul3 R (topLeftCorner T) := by
  ext i j
  show rotateTransform T R i.castSucc j.castSucc = _
  rw [rotate_block]
  rfl

/-- Two rotations leave what the rotation by the product leaves, where the two products of
three matrices agree. -/
theorem rotate_rotate_of_assoc (T : Matrix (Fin 4) (Fin 4) K) (R S : Matrix (Fin 3) (Fin 3) K)
    (h : mul3 S (mul3 R (topLeftCorner T)) = mul3 (mul3 S R) (topLeftCorner T)) :
    rotateTransform (rotateTransform T R) S = rotateTransform T (mul3 S R) := by
  apply ext_block_col_row
  · intro i j
    have h1 := congrFun (congrFun (rotate_rotate_block T R S) i) j
    have h2 := congrFun (congrFun (rotate_top_block T (mul3 S R)) i) j
    have h3 := congrFun (congrFun h i) j
    exact h1.trans (h3.trans h2.symm)
  · intro i
    rw [rotate_col, rotate_col, rotate_col]
  · intro j
    rw [rotate_row, rotate_row, rotate_row]

/-- The product of a matrix of finite entries with the block of the identity. -/
theorem mul3_one_block (A : Matrix (Fin 3) (Fin 3) K) (h0 : Plain (0 : K))
    (hA : ∀ i j, Plain (A i j)) :
    mul3 A (topLeftCorner (1 : Matrix (Fin 4) (Fin 4) K)) = A := by
  ext i j
  have h := rotate_one_block A h0 hA i j
  rw [rotate_block] at h
  exact h

/-- C27, counterexample: in `float` arithmetic, on the transform with the block
`diag(3, 1, 1)`, `rotate(diag(0.7f, 1, 1))` followed by `rotate(diag(0.1f, 1, 1))` leaves
`0.1f * (0.7f * 3) = 0.21000001` at row 0, column 0, and `rotate` of the product of the two
matrices leaves `(0.1f * 0.7f) * 3 = 0.21`. -/
theorem rotate_twice_not_product :
    (((floatMesh (stretchTransform ((3 : Nat) : F32))).rotate
      (stretch (F32.ofFraction 7 10))).rotate (stretch (F32.ofFraction 1 10))).transform 0 0 =
      F32.finite 14092861 (-26) ∧
    ((floatMesh (stretchTransform ((3 : Nat) : F32))).rotate
      (mul3 (stretch (F32.ofFraction 1 10)) (stretch (F32.ofFraction 7 10)))).transform 0 0 =
      F32.finite 7046431 (-25) ∧
    ((floatMesh (stretchTransform ((3 : Nat) : F32))).rotate
        (stretch (F32.ofFraction 7 10))).rotate (stretch (F32.ofFraction 1 10)) ≠
      (floatMesh (stretchTransform ((3 : Nat) : F32))).rotate
        (mul3 (stretch (F32.ofFraction 1 10)) (stretch (F32.ofFraction 7 10))) := by
  have h1 : (((floatMesh (stretchTransform ((3 : Nat) : F32))).rotate
      (stretch (F32.ofFraction 7 10))).rotate (stretch (F32.ofFraction 1 10))).transform 0 0 =
      F32.finite 14092861 (-26) := by decide
  have h2 : ((floatMesh (stretchTransform ((3 : Nat) : F32))).rotate
      (mul3 (stretch (F32.ofFraction 1 10)) (stretch (F32.ofFraction 7 10)))).transform 0 0 =
      F32.finite 7046431 (-25) := by decide
  refine ⟨h1, h2, fun h => ?_⟩
  have h3 := congrArg (fun m => m.transform 0 0) h
  simp only [] at h3
  rw [h1, h2] at h3
  exact absurd h3 (by decide)

/-- C27, as amended. `rotate(R)` replaces the 3x3 block `B` of the local transform by the
product `R * B`, entry `(i, j)` being `R i 0 * B 0 j + R i 1 * B 1 j + R i 2 * B 2 j`, and
leaves the last column and the bottom row as they are. `rotate(R)` followed by `rotate(S)`
leaves the block `S * (R * B)` and `rotate(S * R)` leaves `(S * R) * B`: the two meshes are
the same where these two products are, as in exact arithmetic, and, for finite values, when
the transform was the identity. `apply_transform` of the 4x4 embedding of `R` puts
`R i 0 * t 0 + R i 1 * t 1 + R i 2 * t 2 + 0 * T 3 3` in row `i` of the last column, `t`
being the translation vector, so for finite values `rotate(R)` differs from it whenever `R`
does not fix `t`. -/
theorem rotate_left_multiplies (m : Mesh K) (R S : Matrix (Fin 3) (Fin 3) K) :
    topLeftCorner (m.rotate R).transform = mul3 R (topLeftCorner m.transform) ∧
    (∀ i j : Fin 3, (m.rotate R).transform i.castSucc j.castSucc =
      R i 0 * m.transform 0 j.castSucc + R i 1 * m.transform 1 j.castSucc +
        R i 2 * m.transform 2 j.castSucc) ∧
    (∀ i : Fin 4, (m.rotate R).transform i 3 = m.transform i 3) ∧
    (∀ j : Fin 4, (m.rotate R).transform 3 j = m.transform 3 j) ∧
    topLeftCorner ((m.rotate R).rotate S).transform =
      mul3 S (mul3 R (topLeftCorner m.transform)) ∧
    topLeftCorner (m.rotate (mul3 S R)).transform =
      mul3 (mul3 S R) (topLeftCorner m.transform) ∧
    (mul3 S (mul3 R (topLeftCorner m.transform)) = mul3 (mul3 S R) (topLeftCorner m.transform) →
      (m.rotate R).rotate S = m.rotate (mul3 S R)) ∧
    (m.transform = 1 → Plain (0 : K) → (∀ i j, Plain (R i j)) →
      (∀ i j, Plain (mul3 S R i j)) →
      (m.rotate R).rotate S = m.rotate (mul3 S R)) ∧
    (∀ i : Fin 3, (m.apply_transform (embedRotation R)).transform i.castSucc 3 =
      R i 0 * m.transform 0 3 + R i 1 * m.transform 1 3 + R i 2 * m.transform 2 3 +
        0 * m.transform 3 3) ∧
    (Plain (m.transform 3 3) →
      (∀ i : Fin 3, Plain (R i 0 * m.transform 0 3 + R i 1 * m.transform 1 3 +
        R i 2 * m.transform 2 3)) →
      (∃ i : Fin 3, R i 0 * m.transform 0 3 + R i 1 * m.transform 1 3 +
        R i 2 * m.transform 2 3 ≠ m.transform i.castSucc 3) →
      m.rotate R ≠ m.apply_transform (embedRotation R)) := by
  have hassoc : mul3 S (mul3 R (topLeftCorner m.transform)) =
      mul3 (mul3 S R) (topLeftCorner m.transform) →
      (m.rotate R).rotate S = m.rotate (mul3 S R) := by
    intro h
    show ({ ({ m with transform := rotateTransform m.transform R } : Mesh K) with
      transform := rotateTransform (rotateTransform m.transform R) S } : Mesh K) =
      { m with transform := rotateTransform m.transform (mul3 S R) }
    rw [rotate_rotate_of_assoc m.transform R S h]
  refine ⟨rotate_top_block _ R, fun i j => rotate_block _ R i j, fun i => rotate_col _ R i,
    fun j => rotate_row _ R j, rotate_rotate_block _ R S, rotate_top_block _ (mul3 S R),
    hassoc, ?_, fun i => apply_embed_col _ R i, ?_⟩
  · intro hone h0 hR hSR
    apply hassoc
    rw [hone, mul3_one_block R h0 hR, mul3_one_block (mul3 S R) h0 hSR]
  · intro hT hsum ⟨i, hi⟩ heq
    apply hi
    have h := congrArg (fun m => m.transform i.castSucc 3) heq
    simp only [] at h
    have hl : (m.rotate R).transform i.castSucc 3 = m.transform i.castSucc 3 :=
      rotate_col _ R _
    have hr : (m.apply_transform (embedRotation R)).transform i.castSucc 3 =
        R i 0 * m.transform 0 3 + R i 1 * m.transform 1 3 + R i 2 * m.transform 2 3 +
          0 * m.transform 3 3 := apply_embed_col _ R i
    rw [hl, hr, hT.2.2.2.2.2, (hsum i).1] at h
    exact h.symm

/-- The 3x3 block after a scale by a number and a rotation, and after the two in the other
order. -/
theorem scaleVal_rotate_block (T : Matrix (Fin 4) (Fin 4) K) (k : K)
    (R : Matrix (Fin 3) (Fin 3) K) (i j : Fin 3) :
    rotateTransform (scaleValTransform T k) R i.castSucc j.castSucc =
      R i 0 * (T 0 j.castSucc * k) + R i 1 * (T 1 j.castSucc * k) +
        R i 2 * (T 2 j.castSucc * k) ∧
    scaleValTransform (rotateTransform T R) k i.castSucc j.castSucc =
      (R i 0 * T 0 j.castSucc + R i 1 * T 1 j.castSucc + R i 2 * T 2 j.castSucc) * k := by
  have e0 : (0 : Fin 4) = (0 : Fin 3).castSucc := rfl
  have e1 : (1 : Fin 4) = (1 : Fin 3).castSucc := rfl
  have e2 : (2 : Fin 4) = (2 : Fin 3).castSucc := rfl
  constructor
  · rw [rotate_block, e0, e1, e2, scaleVal_block, scaleVal_block, scaleVal_block]
  · rw [scaleVal_block, rotate_block]

/-- The 3x3 block after a scale by a vector and a rotation, and after the two in the other
order. -/
theorem scale_rotate_block (T : Matrix (Fin 4) (Fin 4) K) (s : Vec3 K)
    (R : Matrix (Fin 3) (Fin 3) K) (i j : Fin 3) :
    rotateTransform (scaleTransform T s) R i.castSucc j.castSucc =
      R i 0 * (T 0 j.castSucc * s.x) + R i 1 * (T 1 j.castSucc * s.y) +
        R i 2 * (T 2 j.castSucc * s.z) ∧
    scaleTransform (rotateTransform T R) s i.castSucc j.castSucc =
      (R i 0 * T 0 j.castSucc + R i 1 * T 1 j.castSucc + R i 2 * T 2 j.castSucc) * s.get i := by
  have e0 : (0 : Fin 4) = (0 : Fin 3).castSucc := rfl
  have e1 : (1 : Fin 4) = (1 : Fin 3).castSucc := rfl
  have e2 : (2 : Fin 4) = (2 : Fin 3).castSucc := rfl
  constructor
  · rw [rotate_block, e0, e1, e2, scale_block, scale_block, scale_block]
    rfl
  · rw [scale_block, rotate_block]

/-- A scale by a number and a rotation commute where the entries of the two blocks agree. -/
theorem scaleVal_rotate_of_entries (T : Matrix (Fin 4) (Fin 4) K) (k : K)
    (R : Matrix (Fin 3) (Fin 3) K)
    (h : ∀ i j : Fin 3,
      R i 0 * (T 0 j.castSucc * k) + R i 1 * (T 1 j.castSucc * k) +
        R i 2 * (T 2 j.castSucc * k) =
      (R i 0 * T 0 j.castSucc + R i 1 * T 1 j.castSucc + R i 2 * T 2 j.castSucc) * k) :
    rotateTransform (scaleValTransform T k) R = scaleValTransform (rotateTransform T R) k := by
  apply ext_block_col_row
  · intro i j
    rw [(scaleVal_rotate_block T k R i j).1, (scaleVal_rotate_block T k R i j).2]
    exact h i j
  · intro i
    rw [rotate_col, scaleVal_col, scaleVal_col, rotate_col]
  · intro j
    rw [rotate_row, scaleVal_row, scaleVal_row, rotate_row]

/-- C28, counterexample: in `float` arithmetic, on the transform with the block
`diag(0.7f, 1, 1)`, `scale(3)` followed by `rotate(diag(0.1f, 1, 1))` leaves
`0.1f * (0.7f * 3) = 0.21000001` at row 0, column 0, and `rotate(diag(0.1f, 1, 1))` followed
by `scale(3)` leaves `(0.1f * 0.7f) * 3 = 0.21`: the scale by a number does not commute with
this rotate. -/
theorem uniform_scale_rotate_differ :
    (((floatMesh (stretchTransform (F32.ofFraction 7 10))).scaleVal ((3 : Nat) : F32)).rotate
      (stretch (F32.ofFraction 1 10))).transform 0 0 = F32.finite 14092861 (-26) ∧
    (((floatMesh (stretchTransform (F32.ofFraction 7 10))).rotate
      (stretch (F32.ofFraction 1 10))).scaleVal ((3 : Nat) : F32)).transform 0 0 =
      F32.finite 7046431 (-25) ∧
    ((floatMesh (stretchTransform (F32.ofFraction 7 10))).scaleVal ((3 : Nat) : F32)).rotate
        (stretch (F32.ofFraction 1 10)) ≠
      ((floatMesh (stretchTransform (F32.ofFraction 7 10))).rotate
        (stretch (F32.ofFraction 1 10))).scaleVal ((3 : Nat) : F32) := by
  have h1 : (((floatMesh (stretchTransform (F32.ofFraction 7 10))).scaleVal
      ((3 : Nat) : F32)).rotate (stretch (F32.ofFraction 1 10))).transform 0 0 =
      F32.finite 14092861 (-26) := by decide
  have h2 : (((floatMesh (stretchTransform (F32.ofFraction 7 10))).rotate
      (stretch (F32.ofFraction 1 10))).scaleVal ((3 : Nat) : F32)).transform 0 0 =
      F32.finite 7046431 (-25) := by decide
  refine ⟨h1, h2, fun h => ?_⟩
  have h3 := congrArg (fun m => m.transform 0 0) h
  simp only [] at h3
  rw [h1, h2] at h3
  exact absurd h3 (by decide)

/-- C28, as amended. The scale by a vector `s` multiplies entry `(i, j)` of the 3x3 block by
`s_i`, a scaling of the rows, and leaves the last column and the bottom row as they are.
From any transform with block `B`, `scale(s)` followed by `rotate(R)` gives at `(i, j)` the
entry `R i 0 * (B 0 j * s_0) + R i 1 * (B 1 j * s_1) + R i 2 * (B 2 j * s_2)` of
`R * (diag(s) * B)`, while `rotate(R)` followed by `scale(s)` gives
`(R i 0 * B 0 j + R i 1 * B 1 j + R i 2 * B 2 j) * s_i` of `diag(s) * (R * B)`; starting
from the identity transform the two differ for some `s` and `R`. The scale by a number `k`
followed by `rotate(R)` gives `R i 0 * (B 0 j * k) + R i 1 * (B 1 j * k) + R i 2 * (B 2 j * k)`
and `rotate(R)` followed by it gives `(R i 0 * B 0 j + R i 1 * B 1 j + R i 2 * B 2 j) * k`:
the two transforms are the same where these entries are, as in exact arithmetic, and, for
finite values, when the transform was the identity, for a mesh and for a point cloud. -/
theorem scale_rows_and_rotate (m : Mesh K) (p : PointCloud K) (s : Vec3 K)
    (R : Matrix (Fin 3) (Fin 3) K) (k : K) :
    (∀ i j : Fin 3, (m.scale s).transform i.castSucc j.castSucc =
      m.transform i.castSucc j.castSucc * s.get i) ∧
    (∀ i : Fin 4, (m.scale s).transform i 3 = m.transform i 3) ∧
    (∀ j : Fin 4, (m.scale s).transform 3 j = m.transform 3 j) ∧
    (∀ i j : Fin 3, ((m.scale s).rotate R).transform i.castSucc j.castSucc =
      R i 0 * (m.transform 0 j.castSucc * s.x) + R i 1 * (m.transform 1 j.castSucc * s.y) +
        R i 2 * (m.transform 2 j.castSucc * s.z)) ∧
    (∀ i j : Fin 3, ((m.rotate R).scale s).transform i.castSucc j.castSucc =
      (R i 0 * m.transform 0 j.castSucc + R i 1 * m.transform 1 j.castSucc +
        R i 2 * m.transform 2 j.castSucc) * s.get i) ∧
    (Plain (0 : K) → Plain (1 : K) → (0 : K) ≠ 1 →
      ∃ (s' : Vec3 K) (R' : Matrix (Fin 3) (Fin 3) K),
        topLeftCorner (((m.set_transform 1).scale s').rotate R').transform ≠
          topLeftCorner (((m.set_transform 1).rotate R').scale s').transform) ∧
    (∀ i j : Fin 3, ((m.scaleVal k).rotate R).transform i.castSucc j.castSucc =
      R i 0 * (m.transform 0 j.castSucc * k) + R i 1 * (m.transform 1 j.castSucc * k) +
        R i 2 * (m.transform 2 j.castSucc * k)) ∧
    (∀ i j : Fin 3, ((m.rotate R).scaleVal k).transform i.castSucc j.castSucc =
      (R i 0 * m.transform 0 j.castSucc + R i 1 * m.transform 1 j.castSucc +
        R i 2 * m.transform 2 j.castSucc) * k) ∧
    ((∀ i j : Fin 3,
        R i 0 * (m.transform 0 j.castSucc * k) + R i 1 * (m.transform 1 j.castSucc * k) +
          R i 2 * (m.transform 2 j.castSucc * k) =
        (R i 0 * m.transform 0 j.castSucc + R i 1 * m.transform 1 j.castSucc +
          R i 2 * m.transform 2 j.castSucc) * k) →
      (m.scaleVal k).rotate R = (m.rotate R).scaleVal k) ∧
    (Plain (0 : K) → Plain k → (∀ i j, Plain (R i j)) → (∀ i j, Plain (R i j * k)) →
      ((m.set_transform 1).scaleVal k).rotate R = ((m.set_transform 1).rotate R).scaleVal k ∧
      ((p.set_transform 1).scaleVal k).rotate R = ((p.set_transform 1).rotate R).scaleVal k) := by
  refine ⟨fun i j => scale_block _ s i j, fun i => scale_col _ s i, fun j => scale_row _ s j,
    fun i j => (scale_rotate_block _ s R i j).1, fun i j => (scale_rotate_block _ s R i j).2,
    fun h0 h1 hne => scale_rotate_differ h0 h1 hne,
    fun i j => (scaleVal_rotate_block _ k R i j).1,
    fun i j => (scaleVal_rotate_block _ k R i j).2, ?_, ?_⟩
  · intro h
    show ({ ({ m with transform := scaleValTransform m.transform k } : Mesh K) with
        transform := rotateTransform (scaleValTransform m.transform k) R } : Mesh K) =
      { ({ m with transform := rotateTransform m.transform R } : Mesh K) with
        transform := scaleValTransform (rotateTransform m.transform R) k }
    rw [scaleVal_rotate_of_entries m.transform k R h]
  · intro h0 hk hR hRk
    constructor
    · show ({ ({ ({ m with transform := 1 } : Mesh K) with
          transform := scaleValTransform 1 k } : Mesh K) with
          transform := rotateTransform (scaleValTransform 1 k) R } : Mesh K) =
        { ({ ({ m with transform := 1 } : Mesh K) with
          transform := rotateTransform 1 R } : Mesh K) with
          transform := scaleValTransform (rotateTransform 1 R) k }
      rw [scaleVal_rotate_one k R h0 hk hR hRk]
    · show ({ ({ ({ p with transform := 1 } : PointCloud K) with
          transform := scaleValTransform 1 k } : PointCloud K) with
          transform := rotateTransform (scaleValTransform 1 k) R } : PointCloud K) =
        { ({ ({ p with transform := 1 } : PointCloud K) with
          transform := rotateTransform 1 R } : PointCloud K) with
          transform := scaleValTransform (rotateTransform 1 R) k }
      rw [scaleVal_rotate_one k R h0 hk hR hRk]

/-- In `float` arithmetic the vertex that no face references gets the row `0 / 0`, three
times the value that is not a number; the three corners of the face get the face normal
`(0, 0, 1)` divided by the count 1. -/
theorem estimate_normals_float_sample :
    accumulateFaces id fourFloats [⟨0, 1, 2⟩] fourFloats =
      Except.ok ([⟨0, 0, 1⟩, ⟨0, 0, 1⟩, ⟨0, 0, 1⟩, ⟨0, 0, 0⟩], [1, 1, 1, 0]) ∧
    estimate_normals id fourFloats [⟨0, 1, 2⟩] fourFloats =
      Except.ok [⟨0, 0, 1⟩, ⟨0, 0, 1⟩, ⟨0, 0, 1⟩,
        ⟨F32.special, F32.special, F32.special⟩] := by
  constructor <;> rfl

/-- From the identity transform, in `float` arithmetic, `translate((0.1f, 0, 0))` followed
by `translate((0.2f, 0, 0))` and `translate` of the sum leave the same translation column,
and `rotate(diag(0.7f, 1, 1))` followed by `rotate(diag(0.1f, 1, 1))` leaves the transform
that `rotate` of the product of the two matrices leaves. -/
theorem transform_float_samples :
    (∀ i : Fin 4, (((floatMesh 1).translate ⟨F32.ofFraction 1 10, 0, 0⟩).translate
        ⟨F32.ofFraction 2 10, 0, 0⟩).transform i 3 =
      ((floatMesh 1).translate ((⟨F32.ofFraction 1 10, 0, 0⟩ : Vec3 F32).add
        ⟨F32.ofFraction 2 10, 0, 0⟩)).transform i 3) ∧
    rotateTransform (rotateTransform 1 (stretch (F32.ofFraction 7 10)))
        (stretch (F32.ofFraction 1 10)) =
      rotateTransform 1 (mul3 (stretch (F32.ofFraction 1 10)) (stretch (F32.ofFraction 7 10))) := by
  constructor
  · decide
  · have h0 : Plain (0 : F32) := by
      unfold Plain
      decide
    have hR : ∀ i j, Plain (stretch (F32.ofFraction 7 10) i j) := by
      unfold Plain
      decide
    have hSR : ∀ i j,
        Plain (mul3 (stretch (F32.ofFraction 1 10)) (stretch (F32.ofFraction 7 10)) i j) := by
      unfold Plain
      decide
    apply rotate_rotate_of_assoc
    rw [mul3_one_block _ h0 hR, mul3_one_block _ h0 hSR]

end meshview
